import Mathlib

/-!
# ncnn `BinaryOp` layer: shallow embedding and verified properties

The embedding follows `src/layer/binaryop.cpp`.  Integers of the source that
hold extents, ranks and loop counters are natural numbers (the source never
makes them negative) and their products are exact: tensor sizes are far below
the range of `int`.  The clamped indices of the outer-broadcast block, which
the source can make negative, `op_type` and the return codes are integers.  A
pointer is an offset into the flat storage of its tensor, every read and write
is bounds-checked and yields `none` on a miss, and the `omp parallel for` loops
run their iterations in index order.  Elements are of an arbitrary type `α`
carrying the arithmetic of `float`; `pow` is a parameter.
-/

namespace ncnn

/-! ## Tensor collaborator -/

/-- Modelled from the spec: the tensor type `Mat` (declared in `mat.h`, which is
not among the sources).  It has a rank `dims`, extents `w h d c`, a packing
factor `elempack`, and contiguous storage laid out channel-major, then
depth-major, then row-major.  -/
structure Mat (α : Type) where
  dims : Nat
  w : Nat
  h : Nat
  d : Nat
  c : Nat
  elempack : Nat
  data : List α
deriving DecidableEq

/-- Modelled from the spec: the default-constructed empty tensor `Mat()`. -/
def Mat.nil {α : Type} : Mat α :=
  { dims := 0, w := 0, h := 0, d := 0, c := 0, elempack := 0, data := [] }

/-- Storage of an output tensor.  A cell keeps every value stored into it, the
latest first: a freshly allocated cell is `[]`, a cell written once is `[v]`. -/
abbrev Buf (α : Type) := List (List α)

/-- An output tensor: a `Mat` whose storage is a `Buf`. -/
abbrev Top (α : Type) := Mat (List α)

/-- Modelled from the spec: `Mat::channel(q)`, the offset of the base of channel
`q` (the per-channel stride is `w * h * d` elements of `elempack` floats). -/
def Mat.channel {α : Type} (m : Mat α) (q : Nat) : Nat :=
  m.w * m.h * m.d * q * m.elempack

/-- Modelled from the spec: `Mat::row(y)`, the offset of the base of row `y`. -/
def Mat.row {α : Type} (m : Mat α) (y : Nat) : Nat :=
  m.w * y * m.elempack

/-- Modelled from the spec: `Mat::depth(z)`, the offset of the base of depth
slab `z`. -/
def Mat.depth {α : Type} (m : Mat α) (z : Nat) : Nat :=
  m.w * m.h * z * m.elempack

/-- Modelled from the spec: `Mat::empty()`, true when there is no storage or no
element. -/
def Mat.empty {α : Type} (m : Mat α) : Bool :=
  m.data.isEmpty || m.w * m.h * m.d * m.c == 0

/-- Modelled from the spec: the outcome of `Mat::create_like(m, allocator)`: an
output of the shape and elempack of `m` whose cells are all unwritten; when the
allocator fails the result has no storage.  -/
def Mat.create_like {α : Type} (m : Mat α) (allocator : Bool) : Top α :=
  { dims := m.dims, w := m.w, h := m.h, d := m.d, c := m.c, elempack := m.elempack,
    data := if allocator then List.replicate (m.w * m.h * m.d * m.c * m.elempack) [] else [] }

/-- Modelled from the spec: `Mat::reshape(w)`, a view of the same storage as a
1-D tensor; when the element count is not `w` there is no such view and the
result is the empty tensor. -/
def Mat.reshape1 {α : Type} (m : Mat α) (w : Nat) : Mat α :=
  if m.w * m.h * m.d * m.c ≠ w then Mat.nil
  else { m with dims := 1, w := w, h := 1, d := 1, c := 1 }

/-- Modelled from the spec: `Mat::reshape(w, h)`, a view of the same storage as
a 2-D tensor, empty when the element count is not `w * h`. -/
def Mat.reshape2 {α : Type} (m : Mat α) (w h : Nat) : Mat α :=
  if m.w * m.h * m.d * m.c ≠ w * h then Mat.nil
  else { m with dims := 2, w := w, h := h, d := 1, c := 1 }

/-- Modelled from the spec: `Mat::reshape(w, h, c)`, a view of the same storage
as a 3-D tensor, empty when the element count is not `w * h * c`. -/
def Mat.reshape3 {α : Type} (m : Mat α) (w h c : Nat) : Mat α :=
  if m.w * m.h * m.d * m.c ≠ w * h * c then Mat.nil
  else { m with dims := 3, w := w, h := h, d := 1, c := c }

/-- Modelled from the spec: the configuration bag `Option` (declared in
`option.h`, not among the sources).  The allocator is represented by whether it
serves the single allocation that `forward` makes. -/
structure NcnnOption where
  num_threads : Nat
  blob_allocator : Bool
deriving DecidableEq

/-- Modelled from the spec: the parameter dictionary `ParamDict` (declared in
`paramdict.h`, not among the sources): integer and float values by numeric key,
`get` returning the supplied default for a missing key. -/
structure ParamDict (α : Type) where
  ints : Nat → Option Int
  floats : Nat → Option α

/-- Modelled from the spec: `ParamDict::get(id, int def)`. -/
def ParamDict.get_int {α : Type} (pd : ParamDict α) (id : Nat) (dflt : Int) : Int :=
  (pd.ints id).getD dflt

/-- Modelled from the spec: `ParamDict::get(id, float def)`. -/
def ParamDict.get_float {α : Type} (pd : ParamDict α) (id : Nat) (dflt : α) : α :=
  (pd.floats id).getD dflt

/-! ## Memory accesses and loops -/

/-- A store `outptr[i] = v` into output storage; `none` when `i` is outside. -/
def store {α : Type} (buf : Buf α) (i : Nat) (v : α) : Option (Buf α) :=
  match buf[i]? with
  | none => none
  | some hist => some (buf.set i (v :: hist))

/-- A read `ptr[i]` at a signed offset `i` into the storage of a tensor; `none`
when `i` is negative or past the end. -/
def load {α : Type} (data : List α) (i : Int) : Option α :=
  if 0 ≤ i then data[i.toNat]? else none

/-- The loop `for (int i = 0; i < n; i++) body`, threading the state `s` and
stopping with `none` at the first failing access. -/
def forLoop {σ : Type} (n : Nat) (body : Nat → σ → Option σ) (s : σ) : Option σ :=
  match n with
  | 0 => some s
  | k + 1 => (forLoop k body s).bind (body k)

/-! ## Layer state (binaryop.h) -/

/-- Modelled from the spec: the operation tags of `BinaryOp::OperationType`
(declared in `binaryop.h`, not among the sources), numbered in table order. -/
def Operation_ADD : Int := 0
/-- Modelled from the spec: tag of SUB in `BinaryOp::OperationType`. -/
def Operation_SUB : Int := 1
/-- Modelled from the spec: tag of MUL in `BinaryOp::OperationType`. -/
def Operation_MUL : Int := 2
/-- Modelled from the spec: tag of DIV in `BinaryOp::OperationType`. -/
def Operation_DIV : Int := 3
/-- Modelled from the spec: tag of MAX in `BinaryOp::OperationType`. -/
def Operation_MAX : Int := 4
/-- Modelled from the spec: tag of MIN in `BinaryOp::OperationType`. -/
def Operation_MIN : Int := 5
/-- Modelled from the spec: tag of POW in `BinaryOp::OperationType`. -/
def Operation_POW : Int := 6
/-- Modelled from the spec: tag of RSUB in `BinaryOp::OperationType`. -/
def Operation_RSUB : Int := 7
/-- Modelled from the spec: tag of RDIV in `BinaryOp::OperationType`. -/
def Operation_RDIV : Int := 8
/-- Modelled from the spec: tag of RPOW in `BinaryOp::OperationType`. -/
def Operation_RPOW : Int := 9

/-- Modelled from the spec: the fields of the layer class `BinaryOp` (declared in
`binaryop.h` and `layer.h`, not among the sources). -/
structure BinaryOp (α : Type) where
  op_type : Int
  with_scalar : Int
  b : α
  one_blob_only : Bool
  support_inplace : Bool

/-- `BinaryOp::BinaryOp()` (binaryop.cpp:21-25); the parameter fields are not
initialised by the constructor and are taken as given. -/
def BinaryOp.ctor {α : Type} (op_type with_scalar : Int) (b : α) : BinaryOp α :=
  { op_type := op_type, with_scalar := with_scalar, b := b,
    one_blob_only := false, support_inplace := false }

/-- `BinaryOp::load_param` (binaryop.cpp:27-40), with the float zero `0.f`
passed as `zero`. -/
def BinaryOp.load_param {α : Type} (self : BinaryOp α) (zero : α) (pd : ParamDict α) :
    Int × BinaryOp α :=
  let self := { self with op_type := pd.get_int 0 0 }
  let self := { self with with_scalar := pd.get_int 1 0 }
  let self := { self with b := pd.get_float 2 zero }
  let self := if self.with_scalar ≠ 0 then
      { self with one_blob_only := true, support_inplace := true }
    else self
  (0, self)

/-! ## Operation table (binaryop.cpp:335-413) -/

section Kernels

variable {α : Type}

/-- `binary_op_add` (binaryop.cpp:335-341). -/
def binary_op_add [Add α] (x y : α) : α := x + y

/-- `binary_op_sub` (binaryop.cpp:343-349). -/
def binary_op_sub [Sub α] (x y : α) : α := x - y

/-- `binary_op_mul` (binaryop.cpp:351-357). -/
def binary_op_mul [Mul α] (x y : α) : α := x * y

/-- `binary_op_div` (binaryop.cpp:359-365). -/
def binary_op_div [Div α] (x y : α) : α := x / y

/-- `binary_op_max` (binaryop.cpp:367-373). -/
def binary_op_max [Max α] (x y : α) : α := max x y

/-- `binary_op_min` (binaryop.cpp:375-381). -/
def binary_op_min [Min α] (x y : α) : α := min x y

/-- `binary_op_pow` (binaryop.cpp:383-389); `powf x y` stands for the library
call `(float)pow(x, y)`. -/
def binary_op_pow (powf : α → α → α) (x y : α) : α := powf x y

/-- `binary_op_rsub` (binaryop.cpp:391-397). -/
def binary_op_rsub [Sub α] (x y : α) : α := y - x

/-- `binary_op_rdiv` (binaryop.cpp:399-405). -/
def binary_op_rdiv [Div α] (x y : α) : α := y / x

/-- `binary_op_rpow` (binaryop.cpp:407-413). -/
def binary_op_rpow (powf : α → α → α) (x y : α) : α := powf y x

/-! ## Iteration kernels (binaryop.cpp:45-333) -/

namespace tmpl

/-- `binary_op_scalar<Op>` (binaryop.cpp:45-69). -/
def binary_op_scalar (op : α → α → α) (a : Mat α) (b : α) (c : Top α) : Option (Int × Top α) :=
  let w := a.w
  let h := a.h
  let d := a.d
  let channels := a.c
  let size := w * h * d
  (forLoop channels (fun q buf =>
      let ptr := a.channel q
      let outptr := c.channel q
      forLoop size (fun i buf => do
        let v ← a.data[ptr + i]?
        store buf (outptr + i) (op v b)) buf) c.data).map
    fun buf => (0, { c with data := buf })

/-- `binary_op_no_broadcast<Op>` (binaryop.cpp:71-93). -/
def binary_op_no_broadcast (op : α → α → α) (a b : Mat α) (c : Top α) : Option (Int × Top α) :=
  let channels := a.c
  let size := a.w * a.h * a.d
  (forLoop channels (fun q buf =>
      let ptr := a.channel q
      let ptr1 := b.channel q
      let outptr := c.channel q
      forLoop size (fun i buf => do
        let v ← a.data[ptr + i]?
        let v1 ← b.data[ptr1 + i]?
        store buf (outptr + i) (op v v1)) buf) c.data).map
    fun buf => (0, { c with data := buf })

/-- The `a.dims == 2 && b.dims == 1` block of `binary_op_broadcast_inner<Op>`
(binaryop.cpp:108-120). -/
def inner_2_1 (op : α → α → α) (a b : Mat α) (c : Top α) (buf : Buf α) : Option (Buf α) :=
  let w := a.w
  let h := a.h
  forLoop h (fun y buf => do
    let ptr := a.row y
    let b0 ← b.data[y]?
    let outptr := c.row y
    forLoop w (fun x buf => do
      let v ← a.data[ptr + x]?
      store buf (outptr + x) (op v b0)) buf) buf

/-- The `(a.dims == 3 || a.dims == 4) && b.dims == 1` block of
`binary_op_broadcast_inner<Op>` (binaryop.cpp:125-137). -/
def inner_34_1 (op : α → α → α) (a b : Mat α) (c : Top α) (buf : Buf α) : Option (Buf α) :=
  let w := a.w
  let h := a.h
  let d := a.d
  let channels := a.c
  let size := w * h * d
  forLoop channels (fun q buf => do
    let ptr := a.channel q
    let b0 ← b.data[q]?
    let outptr := c.channel q
    forLoop size (fun i buf => do
      let v ← a.data[ptr + i]?
      store buf (outptr + i) (op v b0)) buf) buf

/-- The `a.dims == 3 && b.dims == 2` block of `binary_op_broadcast_inner<Op>`
(binaryop.cpp:142-161).  The inner state is `(ptr, outptr, buf)`. -/
def inner_3_2 (op : α → α → α) (a b : Mat α) (c : Top α) (buf : Buf α) : Option (Buf α) :=
  let w := a.w
  let h := a.h
  let channels := a.c
  forLoop channels (fun q buf =>
    let ptr := a.channel q
    let ptr1 := b.row q
    let outptr := c.channel q
    (forLoop h (fun y (st : Nat × Nat × Buf α) => do
      let b0 ← b.data[ptr1 + y]?
      let buf ← forLoop w (fun x buf => do
        let v ← a.data[st.1 + x]?
        store buf (st.2.1 + x) (op v b0)) st.2.2
      pure (st.1 + w, st.2.1 + w, buf)) (ptr, outptr, buf)).map fun st => st.2.2) buf

/-- The `a.dims == 4 && b.dims == 2` block of `binary_op_broadcast_inner<Op>`
(binaryop.cpp:166-188).  The inner state is `(ptr, outptr, buf)`. -/
def inner_4_2 (op : α → α → α) (a b : Mat α) (c : Top α) (buf : Buf α) : Option (Buf α) :=
  let w := a.w
  let h := a.h
  let d := a.d
  let channels := a.c
  forLoop channels (fun q buf =>
    let ptr := a.channel q
    let ptr1 := b.row q
    let outptr := c.channel q
    (forLoop d (fun z (st : Nat × Nat × Buf α) => do
      let b0 ← b.data[ptr1 + z]?
      forLoop h (fun _ (st : Nat × Nat × Buf α) => do
        let buf ← forLoop w (fun x buf => do
          let v ← a.data[st.1 + x]?
          store buf (st.2.1 + x) (op v b0)) st.2.2
        pure (st.1 + w, st.2.1 + w, buf)) st) (ptr, outptr, buf)).map fun st => st.2.2) buf

/-- The `a.dims == 4 && b.dims == 3` block of `binary_op_broadcast_inner<Op>`
(binaryop.cpp:193-217).  The inner state is `(ptr, ptr1, outptr, buf)`. -/
def inner_4_3 (op : α → α → α) (a b : Mat α) (c : Top α) (buf : Buf α) : Option (Buf α) :=
  let w := a.w
  let h := a.h
  let d := a.d
  let channels := a.c
  forLoop channels (fun q buf =>
    let ptr := a.channel q
    let ptr1 := b.channel q
    let outptr := c.channel q
    (forLoop d (fun _ (st : Nat × Nat × Nat × Buf α) => do
      let st2 ← forLoop h (fun y (s2 : Nat × Nat × Buf α) => do
        let b0 ← b.data[st.2.1 + y]?
        let buf ← forLoop w (fun x buf => do
          let v ← a.data[s2.1 + x]?
          store buf (s2.2.1 + x) (op v b0)) s2.2.2
        pure (s2.1 + w, s2.2.1 + w, buf)) (st.1, st.2.2.1, st.2.2.2)
      pure (st2.1, st.2.1 + h, st2.2.1, st2.2.2)) (ptr, ptr1, outptr, buf)).map
      fun st => st.2.2.2) buf

/-- `binary_op_broadcast_inner<Op>` (binaryop.cpp:95-221): the five blocks run
one after the other, each under its own `if` (a block that is skipped leaves the
storage as it is). -/
def binary_op_broadcast_inner (op : α → α → α) (a b : Mat α) (c : Top α) :
    Option (Int × Top α) :=
  (if a.dims = 2 ∧ b.dims = 1 then inner_2_1 op a b c c.data else some c.data).bind fun buf =>
  (if (a.dims = 3 ∨ a.dims = 4) ∧ b.dims = 1 then inner_34_1 op a b c buf else some buf).bind
    fun buf =>
  (if a.dims = 3 ∧ b.dims = 2 then inner_3_2 op a b c buf else some buf).bind fun buf =>
  (if a.dims = 4 ∧ b.dims = 2 then inner_4_2 op a b c buf else some buf).bind fun buf =>
  (if a.dims = 4 ∧ b.dims = 3 then inner_4_3 op a b c buf else some buf).bind fun buf =>
  some (0, { c with data := buf })

/-- The `a.dims == 2` block of `binary_op_broadcast_outer<Op>`
(binaryop.cpp:235-247); `ptr1 = b` is offset 0. -/
def outer_2 (op : α → α → α) (a b : Mat α) (c : Top α) (buf : Buf α) : Option (Buf α) :=
  let w := a.w
  let h := a.h
  forLoop h (fun y buf =>
    let ptr := a.row y
    let ptr1 := 0
    let outptr := c.row y
    forLoop w (fun x buf => do
      let v ← a.data[ptr + x]?
      let v1 ← b.data[ptr1 + x]?
      store buf (outptr + x) (op v v1)) buf) buf

/-- The `a.dims == 3 || a.dims == 4` block of `binary_op_broadcast_outer<Op>`
(binaryop.cpp:252-276).  The inner state is `(ptr, outptr, buf)`.  The clamped
indices `z1 = min(z, b.d - 1)` and `y1 = min(y, b.h - 1)` are signed, as in the
source, and `b.depth(z1).row(y1)` is the signed offset of row `y1` inside depth
slab `z1`. -/
def outer_34 (op : α → α → α) (a b : Mat α) (c : Top α) (buf : Buf α) : Option (Buf α) :=
  let w := a.w
  let h := a.h
  let d := a.d
  let channels := a.c
  forLoop channels (fun q buf =>
    let ptr := a.channel q
    let outptr := c.channel q
    (forLoop d (fun z (st : Nat × Nat × Buf α) =>
      let z1 : Int := min (z : Int) ((b.d : Int) - 1)
      forLoop h (fun y (st : Nat × Nat × Buf α) => do
        let y1 : Int := min (y : Int) ((b.h : Int) - 1)
        let ptr1 : Int := (b.w : Int) * b.h * z1 * b.elempack + (b.w : Int) * y1 * b.elempack
        let buf ← forLoop w (fun x buf => do
          let v ← a.data[st.1 + x]?
          let v1 ← load b.data (ptr1 + (x : Int))
          store buf (st.2.1 + x) (op v v1)) st.2.2
        pure (st.1 + w, st.2.1 + w, buf)) st) (ptr, outptr, buf)).map fun st => st.2.2) buf

/-- The same block with the clamped indices computed in the natural numbers;
it agrees with `outer_34` when `b.d` and `b.h` are at least 1. -/
def outer_34_nat (op : α → α → α) (a b : Mat α) (c : Top α) (buf : Buf α) : Option (Buf α) :=
  let w := a.w
  let h := a.h
  let d := a.d
  let channels := a.c
  forLoop channels (fun q buf =>
    let ptr := a.channel q
    let outptr := c.channel q
    (forLoop d (fun z (st : Nat × Nat × Buf α) =>
      let z1 := min z (b.d - 1)
      forLoop h (fun y (st : Nat × Nat × Buf α) => do
        let y1 := min y (b.h - 1)
        let ptr1 := b.depth z1 + b.row y1
        let buf ← forLoop w (fun x buf => do
          let v ← a.data[st.1 + x]?
          let v1 ← b.data[ptr1 + x]?
          store buf (st.2.1 + x) (op v v1)) st.2.2
        pure (st.1 + w, st.2.1 + w, buf)) st) (ptr, outptr, buf)).map fun st => st.2.2) buf

/-- `binary_op_broadcast_outer<Op>` (binaryop.cpp:223-280). -/
def binary_op_broadcast_outer (op : α → α → α) (a b : Mat α) (c : Top α) :
    Option (Int × Top α) :=
  (if a.dims = 2 then outer_2 op a b c c.data else some c.data).bind fun buf =>
  (if a.dims = 3 ∨ a.dims = 4 then outer_34 op a b c buf else some buf).bind fun buf =>
  some (0, { c with data := buf })

/-- `binary_op_broadcast_20<Op>` (binaryop.cpp:282-311).  The inner state is
`(ptr, outptr, buf)`. -/
def binary_op_broadcast_20 (op : α → α → α) (a b : Mat α) (c : Top α) :
    Option (Int × Top α) :=
  let w := a.w
  let h := a.h
  let channels := a.c
  (forLoop channels (fun q buf =>
    let ptr := a.channel q
    let ptr1 := b.channel q
    let outptr := c.channel q
    (forLoop h (fun _ (st : Nat × Nat × Buf α) => do
      let buf ← forLoop w (fun x buf => do
        let v ← a.data[st.1 + x]?
        let v1 ← b.data[ptr1 + x]?
        store buf (st.2.1 + x) (op v v1)) st.2.2
      pure (st.1 + w, st.2.1 + w, buf)) (ptr, outptr, buf)).map fun st => st.2.2) c.data).map
    fun buf => (0, { c with data := buf })

/-- `binary_op_scalar_inplace<Op>` (binaryop.cpp:313-333): the tensor is read
and overwritten in place. -/
def binary_op_scalar_inplace (op : α → α → α) (a : Mat α) (b : α) : Option (Int × Mat α) :=
  let channels := a.c
  let size := a.w * a.h * a.d
  (forLoop channels (fun q (data : List α) =>
      let ptr := a.channel q
      forLoop size (fun i (data : List α) => do
        let v ← data[ptr + i]?
        pure (data.set (ptr + i) (op v b))) data) a.data).map
    fun data => (0, { a with data := data })

end tmpl

end Kernels

/-! ## Dispatchers (binaryop.cpp:415-524) -/

section Dispatch

variable {α : Type} [Add α] [Sub α] [Mul α] [Div α] [Max α] [Min α]

/-- `binary_op_scalar` with `op_type` (binaryop.cpp:415-430). -/
def binary_op_scalar (powf : α → α → α) (a : Mat α) (b : α) (c : Top α) (op_type : Int) :
    Option (Int × Top α) :=
  if op_type = Operation_ADD then tmpl.binary_op_scalar binary_op_add a b c
  else if op_type = Operation_SUB then tmpl.binary_op_scalar binary_op_sub a b c
  else if op_type = Operation_MUL then tmpl.binary_op_scalar binary_op_mul a b c
  else if op_type = Operation_DIV then tmpl.binary_op_scalar binary_op_div a b c
  else if op_type = Operation_MAX then tmpl.binary_op_scalar binary_op_max a b c
  else if op_type = Operation_MIN then tmpl.binary_op_scalar binary_op_min a b c
  else if op_type = Operation_POW then tmpl.binary_op_scalar (binary_op_pow powf) a b c
  else if op_type = Operation_RSUB then tmpl.binary_op_scalar binary_op_rsub a b c
  else if op_type = Operation_RDIV then tmpl.binary_op_scalar binary_op_rdiv a b c
  else if op_type = Operation_RPOW then tmpl.binary_op_scalar (binary_op_rpow powf) a b c
  else some (0, c)

/-- `binary_op_no_broadcast` with `op_type` (binaryop.cpp:432-447). -/
def binary_op_no_broadcast (powf : α → α → α) (a b : Mat α) (c : Top α) (op_type : Int) :
    Option (Int × Top α) :=
  if op_type = Operation_ADD then tmpl.binary_op_no_broadcast binary_op_add a b c
  else if op_type = Operation_SUB then tmpl.binary_op_no_broadcast binary_op_sub a b c
  else if op_type = Operation_MUL then tmpl.binary_op_no_broadcast binary_op_mul a b c
  else if op_type = Operation_DIV then tmpl.binary_op_no_broadcast binary_op_div a b c
  else if op_type = Operation_MAX then tmpl.binary_op_no_broadcast binary_op_max a b c
  else if op_type = Operation_MIN then tmpl.binary_op_no_broadcast binary_op_min a b c
  else if op_type = Operation_POW then tmpl.binary_op_no_broadcast (binary_op_pow powf) a b c
  else if op_type = Operation_RSUB then tmpl.binary_op_no_broadcast binary_op_rsub a b c
  else if op_type = Operation_RDIV then tmpl.binary_op_no_broadcast binary_op_rdiv a b c
  else if op_type = Operation_RPOW then tmpl.binary_op_no_broadcast (binary_op_rpow powf) a b c
  else some (0, c)

/-- The "squeeze inner axes" step of `binary_op_broadcast_inner`
(binaryop.cpp:451-464). -/
def squeeze_inner_axes (b : Mat α) : Mat α :=
  if b.dims = 2 ∧ b.w = 1 then b.reshape1 b.h
  else if b.dims = 3 ∧ b.h = 1 then b.reshape1 b.c
  else if b.dims = 3 ∧ b.w = 1 then b.reshape2 b.h b.c
  else if b.dims = 4 ∧ b.d = 1 then b.reshape1 b.c
  else if b.dims = 4 ∧ b.h = 1 then b.reshape2 b.d b.c
  else if b.dims = 4 ∧ b.w = 1 then b.reshape3 b.h b.d b.c
  else b

/-- `binary_op_broadcast_inner` with `op_type` (binaryop.cpp:449-479). -/
def binary_op_broadcast_inner (powf : α → α → α) (a b : Mat α) (c : Top α) (op_type : Int) :
    Option (Int × Top α) :=
  let b2 := squeeze_inner_axes b
  if op_type = Operation_ADD then tmpl.binary_op_broadcast_inner binary_op_add a b2 c
  else if op_type = Operation_SUB then tmpl.binary_op_broadcast_inner binary_op_sub a b2 c
  else if op_type = Operation_MUL then tmpl.binary_op_broadcast_inner binary_op_mul a b2 c
  else if op_type = Operation_DIV then tmpl.binary_op_broadcast_inner binary_op_div a b2 c
  else if op_type = Operation_MAX then tmpl.binary_op_broadcast_inner binary_op_max a b2 c
  else if op_type = Operation_MIN then tmpl.binary_op_broadcast_inner binary_op_min a b2 c
  else if op_type = Operation_POW then tmpl.binary_op_broadcast_inner (binary_op_pow powf) a b2 c
  else if op_type = Operation_RSUB then tmpl.binary_op_broadcast_inner binary_op_rsub a b2 c
  else if op_type = Operation_RDIV then tmpl.binary_op_broadcast_inner binary_op_rdiv a b2 c
  else if op_type = Operation_RPOW then tmpl.binary_op_broadcast_inner (binary_op_rpow powf) a b2 c
  else some (0, c)

/-- `binary_op_broadcast_outer` with `op_type` (binaryop.cpp:481-496). -/
def binary_op_broadcast_outer (powf : α → α → α) (a b : Mat α) (c : Top α) (op_type : Int) :
    Option (Int × Top α) :=
  if op_type = Operation_ADD then tmpl.binary_op_broadcast_outer binary_op_add a b c
  else if op_type = Operation_SUB then tmpl.binary_op_broadcast_outer binary_op_sub a b c
  else if op_type = Operation_MUL then tmpl.binary_op_broadcast_outer binary_op_mul a b c
  else if op_type = Operation_DIV then tmpl.binary_op_broadcast_outer binary_op_div a b c
  else if op_type = Operation_MAX then tmpl.binary_op_broadcast_outer binary_op_max a b c
  else if op_type = Operation_MIN then tmpl.binary_op_broadcast_outer binary_op_min a b c
  else if op_type = Operation_POW then tmpl.binary_op_broadcast_outer (binary_op_pow powf) a b c
  else if op_type = Operation_RSUB then tmpl.binary_op_broadcast_outer binary_op_rsub a b c
  else if op_type = Operation_RDIV then tmpl.binary_op_broadcast_outer binary_op_rdiv a b c
  else if op_type = Operation_RPOW then tmpl.binary_op_broadcast_outer (binary_op_rpow powf) a b c
  else some (0, c)

/-- `binary_op_broadcast_20` with `op_type` (binaryop.cpp:498-513). -/
def binary_op_broadcast_20 (powf : α → α → α) (a b : Mat α) (c : Top α) (op_type : Int) :
    Option (Int × Top α) :=
  if op_type = Operation_ADD then tmpl.binary_op_broadcast_20 binary_op_add a b c
  else if op_type = Operation_SUB then tmpl.binary_op_broadcast_20 binary_op_sub a b c
  else if op_type = Operation_MUL then tmpl.binary_op_broadcast_20 binary_op_mul a b c
  else if op_type = Operation_DIV then tmpl.binary_op_broadcast_20 binary_op_div a b c
  else if op_type = Operation_MAX then tmpl.binary_op_broadcast_20 binary_op_max a b c
  else if op_type = Operation_MIN then tmpl.binary_op_broadcast_20 binary_op_min a b c
  else if op_type = Operation_POW then tmpl.binary_op_broadcast_20 (binary_op_pow powf) a b c
  else if op_type = Operation_RSUB then tmpl.binary_op_broadcast_20 binary_op_rsub a b c
  else if op_type = Operation_RDIV then tmpl.binary_op_broadcast_20 binary_op_rdiv a b c
  else if op_type = Operation_RPOW then tmpl.binary_op_broadcast_20 (binary_op_rpow powf) a b c
  else some (0, c)

/-- `get_reverse_op_type` (binaryop.cpp:515-524). -/
def get_reverse_op_type (op_type : Int) : Int :=
  if op_type = Operation_SUB then Operation_RSUB
  else if op_type = Operation_DIV then Operation_RDIV
  else if op_type = Operation_POW then Operation_RPOW
  else if op_type = Operation_RSUB then Operation_SUB
  else if op_type = Operation_RDIV then Operation_DIV
  else if op_type = Operation_RPOW then Operation_POW
  else op_type

/-! ## Forward entry (binaryop.cpp:526-600) -/

/-- `b_is_scalar` of `BinaryOp::forward` (binaryop.cpp:528). -/
def b_is_scalar (bottom1 : Mat α) : Bool :=
  bottom1.w * bottom1.h * bottom1.d * bottom1.c * bottom1.elempack == 1

/-- `a_rank_is_lower` of `BinaryOp::forward` (binaryop.cpp:529). -/
def a_rank_is_lower (bottom0 bottom1 : Mat α) : Bool :=
  decide (bottom0.dims < bottom1.dims) && !b_is_scalar bottom1

/-- `a_size_is_lower` of `BinaryOp::forward` (binaryop.cpp:530). -/
def a_size_is_lower (bottom0 bottom1 : Mat α) : Bool :=
  decide (bottom0.w * bottom0.h * bottom0.d * bottom0.c
    < bottom1.w * bottom1.h * bottom1.d * bottom1.c)

/-- `a_is_lower` of `BinaryOp::forward` (binaryop.cpp:531): the swap decision. -/
def a_is_lower (bottom0 bottom1 : Mat α) : Bool :=
  a_rank_is_lower bottom0 bottom1
    || (!a_rank_is_lower bottom0 bottom1 && a_size_is_lower bottom0 bottom1)

/-- The dominant operand `A` of `BinaryOp::forward` (binaryop.cpp:532). -/
def dominant (bottom0 bottom1 : Mat α) : Mat α :=
  if a_is_lower bottom0 bottom1 then bottom1 else bottom0

/-- The subordinate operand `B` of `BinaryOp::forward` (binaryop.cpp:533). -/
def subordinate (bottom0 bottom1 : Mat α) : Mat α :=
  if a_is_lower bottom0 bottom1 then bottom0 else bottom1

/-- The effective operation `op_type_r` of `BinaryOp::forward`
(binaryop.cpp:534). -/
def op_type_r (op_type : Int) (bottom0 bottom1 : Mat α) : Int :=
  if a_is_lower bottom0 bottom1 then get_reverse_op_type op_type else op_type

/-- The test "B is a scalar" of `BinaryOp::forward` (binaryop.cpp:542). -/
def is_scalar (B : Mat α) : Prop :=
  B.w * B.h * B.d * B.c = 1

/-- The test "no broadcast" of `BinaryOp::forward` (binaryop.cpp:548). -/
def is_no_broadcast (A B : Mat α) : Prop :=
  A.dims = B.dims ∧ A.w = B.w ∧ A.h = B.h ∧ A.d = B.d ∧ A.c = B.c

/-- The test "broadcast B for inner axis" of `BinaryOp::forward`
(binaryop.cpp:554-560). -/
def is_broadcast_inner (A B : Mat α) : Prop :=
  (B.dims < A.dims)
    ∨ (A.dims = 2 ∧ B.w = 1 ∧ B.h = A.h)
    ∨ (A.dims = 3 ∧ B.w = 1 ∧ B.h = 1 ∧ B.c = A.c)
    ∨ (A.dims = 3 ∧ B.w = 1 ∧ B.h = A.h ∧ B.c = A.c)
    ∨ (A.dims = 4 ∧ B.w = 1 ∧ B.h = 1 ∧ B.d = 1 ∧ B.c = A.c)
    ∨ (A.dims = 4 ∧ B.w = 1 ∧ B.h = 1 ∧ B.d = A.d ∧ B.c = A.c)
    ∨ (A.dims = 4 ∧ B.w = 1 ∧ B.h = A.h ∧ B.d = A.d ∧ B.c = A.c)

/-- The test "broadcast B for outer axis" of `BinaryOp::forward`
(binaryop.cpp:566-571). -/
def is_broadcast_outer (A B : Mat α) : Prop :=
  (A.dims = 2 ∧ B.w = A.w ∧ B.h = 1)
    ∨ (A.dims = 3 ∧ B.w = A.w ∧ B.h = 1 ∧ B.c = 1)
    ∨ (A.dims = 3 ∧ B.w = A.w ∧ B.h = A.h ∧ B.c = 1)
    ∨ (A.dims = 4 ∧ B.w = A.w ∧ B.h = 1 ∧ B.d = 1 ∧ B.c = 1)
    ∨ (A.dims = 4 ∧ B.w = A.w ∧ B.h = A.h ∧ B.d = 1 ∧ B.c = 1)
    ∨ (A.dims = 4 ∧ B.w = A.w ∧ B.h = A.h ∧ B.d = A.d ∧ B.c = 1)

/-- The test "some special broadcast rule" of `BinaryOp::forward`
(binaryop.cpp:577). -/
def is_broadcast_20 (A B : Mat α) : Prop :=
  A.dims = 3 ∧ B.dims = 3 ∧ A.w = B.w ∧ B.h = 1 ∧ A.c = B.c

instance (B : Mat α) : Decidable (is_scalar B) := by
  unfold is_scalar; infer_instance

instance (A B : Mat α) : Decidable (is_no_broadcast A B) := by
  unfold is_no_broadcast; infer_instance

instance (A B : Mat α) : Decidable (is_broadcast_inner A B) := by
  unfold is_broadcast_inner; infer_instance

instance (A B : Mat α) : Decidable (is_broadcast_outer A B) := by
  unfold is_broadcast_outer; infer_instance

instance (A B : Mat α) : Decidable (is_broadcast_20 A B) := by
  unfold is_broadcast_20; infer_instance

/-- `BinaryOp::forward` (binaryop.cpp:526-583) on `bottom_blobs = [bottom0,
bottom1]`; the result is the return code and `top_blobs[0]`. -/
def BinaryOp.forward (powf : α → α → α) (self : BinaryOp α) (bottom0 bottom1 : Mat α)
    (opt : NcnnOption) : Option (Int × Top α) :=
  let A := dominant bottom0 bottom1
  let B := subordinate bottom0 bottom1
  let op_type_r := op_type_r self.op_type bottom0 bottom1
  let top_blob : Top α := A.create_like opt.blob_allocator
  if top_blob.empty then some (-100, top_blob)
  else if is_scalar B then do
    let b0 ← B.data[0]?
    binary_op_scalar powf A b0 top_blob op_type_r
  else if is_no_broadcast A B then
    binary_op_no_broadcast powf A B top_blob op_type_r
  else if is_broadcast_inner A B then
    binary_op_broadcast_inner powf A B top_blob op_type_r
  else if is_broadcast_outer A B then
    binary_op_broadcast_outer powf A B top_blob op_type_r
  else if is_broadcast_20 A B then
    binary_op_broadcast_20 powf A B top_blob op_type_r
  else some (0, top_blob)

/-- `BinaryOp::forward_inplace` (binaryop.cpp:585-600) on `bottom_top_blob`; the
result is the return code and the tensor left in `bottom_top_blob`. -/
def BinaryOp.forward_inplace (powf : α → α → α) (self : BinaryOp α) (bottom_top_blob : Mat α) :
    Option (Int × Mat α) :=
  let op_type := self.op_type
  let b := self.b
  if op_type = Operation_ADD then tmpl.binary_op_scalar_inplace binary_op_add bottom_top_blob b
  else if op_type = Operation_SUB then tmpl.binary_op_scalar_inplace binary_op_sub bottom_top_blob b
  else if op_type = Operation_MUL then tmpl.binary_op_scalar_inplace binary_op_mul bottom_top_blob b
  else if op_type = Operation_DIV then tmpl.binary_op_scalar_inplace binary_op_div bottom_top_blob b
  else if op_type = Operation_MAX then tmpl.binary_op_scalar_inplace binary_op_max bottom_top_blob b
  else if op_type = Operation_MIN then tmpl.binary_op_scalar_inplace binary_op_min bottom_top_blob b
  else if op_type = Operation_POW then tmpl.binary_op_scalar_inplace (binary_op_pow powf) bottom_top_blob b
  else if op_type = Operation_RSUB then tmpl.binary_op_scalar_inplace binary_op_rsub bottom_top_blob b
  else if op_type = Operation_RDIV then tmpl.binary_op_scalar_inplace binary_op_rdiv bottom_top_blob b
  else if op_type = Operation_RPOW then tmpl.binary_op_scalar_inplace (binary_op_rpow powf) bottom_top_blob b
  else some (0, bottom_top_blob)

end Dispatch


/-! ## Specification vocabulary -/

section SpecDefs

variable {α : Type}

/-- The ten tags of the operation table. -/
def in_table (op_type : Int) : Prop :=
  0 ≤ op_type ∧ op_type ≤ 9

instance (op_type : Int) : Decidable (in_table op_type) := by
  unfold in_table; infer_instance

/-- The functor that the dispatchers instantiate a kernel with for `op_type`
(binaryop.cpp:417-426), `none` outside the table. -/
def functor_of [Add α] [Sub α] [Mul α] [Div α] [Max α] [Min α] (powf : α → α → α)
    (op_type : Int) : Option (α → α → α) :=
  if op_type = Operation_ADD then some binary_op_add
  else if op_type = Operation_SUB then some binary_op_sub
  else if op_type = Operation_MUL then some binary_op_mul
  else if op_type = Operation_DIV then some binary_op_div
  else if op_type = Operation_MAX then some binary_op_max
  else if op_type = Operation_MIN then some binary_op_min
  else if op_type = Operation_POW then some (binary_op_pow powf)
  else if op_type = Operation_RSUB then some binary_op_rsub
  else if op_type = Operation_RDIV then some binary_op_rdiv
  else if op_type = Operation_RPOW then some (binary_op_rpow powf)
  else none

/-- A well-formed unpacked tensor, as the layer receives it: `elempack` is 1,
the storage holds `w * h * d * c` elements, and the extents above the rank
are 1. -/
def Mat.wf (m : Mat α) : Prop :=
  m.elempack = 1 ∧ m.data.length = m.w * m.h * m.d * m.c ∧
    ((m.dims = 1 ∧ m.h = 1 ∧ m.d = 1 ∧ m.c = 1) ∨ (m.dims = 2 ∧ m.d = 1 ∧ m.c = 1)
      ∨ (m.dims = 3 ∧ m.d = 1) ∨ m.dims = 4)

instance (m : Mat α) : Decidable m.wf := by
  unfold Mat.wf; infer_instance

/-- Two tensors have the same rank, extents and elempack. -/
def SameShape {β γ : Type} (c : Mat β) (a : Mat γ) : Prop :=
  c.dims = a.dims ∧ c.w = a.w ∧ c.h = a.h ∧ c.d = a.d ∧ c.c = a.c ∧ c.elempack = a.elempack

instance {β γ : Type} (c : Mat β) (a : Mat γ) : Decidable (SameShape c a) := by
  unfold SameShape; infer_instance

/-- The logical element `m[q, z, y, x]` (channel, depth, row, column) of a
tensor in the layout channel-major, then depth-major, then row-major. -/
def Mat.at (m : Mat α) (q z y x : Nat) : Option α :=
  m.data[m.w * m.h * m.d * q + ((z * m.h + y) * m.w + x)]?

/-- Output storage of length `len` whose first `n` cells were each written
exactly once, cell `j` with the value `F j`, and whose other cells are
unwritten. -/
def Filled (F : Nat → Option α) (len n : Nat) (buf : Buf α) : Prop :=
  buf.length = len ∧
    ∀ j, j < len → (j < n → ∃ v, F j = some v ∧ buf[j]? = some [v]) ∧ (n ≤ j → buf[j]? = some [])

/-- The value a broadcasting kernel owes cell `j`: `op` of element `j` of `a`
and element `bidx j` of `b`. -/
def bcast (op : α → α → α) (a b : Mat α) (bidx : Nat → Nat) (j : Nat) : Option α :=
  (a.data[j]?).bind fun va => (b.data[bidx j]?).map fun vb => op va vb

/-- In-place storage of which the first `n` elements were replaced by `g` of
their old value and the others are unchanged. -/
def Updated (g : α → α) (old : List α) (n : Nat) (data : List α) : Prop :=
  data.length = old.length ∧
    ∀ j, j < old.length → data[j]? = if j < n then (old[j]?).map g else old[j]?

/-- Every value ever stored into the output storage satisfies `P`. -/
def Written (P : α → Prop) (buf : Buf α) : Prop :=
  ∀ cell, cell ∈ buf → ∀ v, v ∈ cell → P v

end SpecDefs

/-! ## Concrete tensors for the worked scenarios -/

/-- Integer power, standing for `pow` in the worked scenarios over `Int`. -/
def ipow (x y : Int) : Int := x ^ y.toNat

/-- Rational power with the exponent rounded down, standing for `pow` in the
worked scenarios over exact arithmetic. -/
def qpow (x y : ℚ) : ℚ := x ^ ⌊y⌋

/-- The layer as constructed and configured with `op_type`, no scalar operand. -/
def layer {α : Type} [OfNat α 0] (op_type : Int) : BinaryOp α := BinaryOp.ctor op_type 0 0

/-- Options with one thread and an allocator that serves the request. -/
def opt1 : NcnnOption := { num_threads := 1, blob_allocator := true }

/-- The 1-D tensor holding `xs`. -/
def vec {α : Type} (xs : List α) : Mat α :=
  { dims := 1, w := xs.length, h := 1, d := 1, c := 1, elempack := 1, data := xs }

/-- The 2-D tensor of `h` rows of width `w` holding `xs`. -/
def mat2 {α : Type} (w h : Nat) (xs : List α) : Mat α :=
  { dims := 2, w := w, h := h, d := 1, c := 1, elempack := 1, data := xs }

/-- The 3-D tensor of `c` channels of `h` rows of width `w` holding `xs`. -/
def mat3 {α : Type} (w h c : Nat) (xs : List α) : Mat α :=
  { dims := 3, w := w, h := h, d := 1, c := c, elempack := 1, data := xs }

/-- The 4-D tensor of `c` channels of `d` slabs of `h` rows of width `w` holding
`xs`. -/
def mat4 {α : Type} (w h d c : Nat) (xs : List α) : Mat α :=
  { dims := 4, w := w, h := h, d := d, c := c, elempack := 1, data := xs }

/-- Scenario tensor: shape (h=1, w=2). -/
def sA_1x2 : Mat Int := mat2 2 1 [1, 2]

/-- Scenario tensor: 1-D `[1,2,3,4]`. -/
def sV4 : Mat Int := vec [1, 2, 3, 4]

/-- Scenario tensor: shape (c=2, h=2, w=4) filled with 10. -/
def sT10 : Mat Int := mat3 4 2 2 (List.replicate 16 10)

/-- Scenario tensor: shape (h=2, w=3) holding 1..6. -/
def sM2x3 : Mat Int := mat2 3 2 [1, 2, 3, 4, 5, 6]

/-- Scenario tensor: shape (h=3, w=2) holding 1..6. -/
def sM3x2 : Mat Int := mat2 2 3 [1, 2, 3, 4, 5, 6]

/-- Scenario tensor over the rationals: shape (h=3, w=2) holding 1..6. -/
def sQ3x2 : Mat ℚ := mat2 2 3 [1, 2, 3, 4, 5, 6]

/-- Scenario tensor over the rationals: shape (h=3, w=2) holding 6..1. -/
def sQ3x2r : Mat ℚ := mat2 2 3 [6, 5, 4, 3, 2, 1]

/-- Scenario tensor: 1-D `[1,...,8]`. -/
def sV8 : Mat Int := vec [1, 2, 3, 4, 5, 6, 7, 8]

/-- Scenario tensor: shape (h=2, w=2) holding 10, 20, 30, 40. -/
def sM2x2 : Mat Int := mat2 2 2 [10, 20, 30, 40]

/-- Scenario tensor: 1-D `[1,...,5]`. -/
def sV5 : Mat Int := vec [1, 2, 3, 4, 5]

/-- Scenario tensor: shape (h=3, w=1) holding 10, 20, 30. -/
def sCol3 : Mat Int := mat2 1 3 [10, 20, 30]

/-- Scenario tensor: 1-D `[10,20,30]`. -/
def sV3 : Mat Int := vec [10, 20, 30]

/-- Scenario tensor: 1-D `[10]`. -/
def sV1 : Mat Int := vec [10]

/-- Scenario tensor: shape (h=2, w=2) holding 1..4. -/
def sA2x2 : Mat Int := mat2 2 2 [1, 2, 3, 4]

/-- Scenario tensor: shape (h=1, w=2) holding 10, 20. -/
def sRow2 : Mat Int := mat2 2 1 [10, 20]

/-- Scenario tensor: shape (c=2, h=2, w=2) filled with 8. -/
def sT8 : Mat Int := mat3 2 2 2 (List.replicate 8 8)

/-- Scenario tensor: 1-D `[2,4]`. -/
def sV24 : Mat Int := vec [2, 4]

/-- Scenario tensor: 4-D of shape (c=2, d=1, h=2, w=2) holding 1..8. -/
def sA4 : Mat Int := mat4 2 2 1 2 [1, 2, 3, 4, 5, 6, 7, 8]

/-- Scenario tensor: 4-D of shape (c=2, d=1, h=2, w=1) holding 10, 20, 30, 40. -/
def sB4 : Mat Int := mat4 1 2 1 2 [10, 20, 30, 40]

/-- Scenario tensor: shape (c=2, h=3, w=2) with `A[q,y,x] = q*10 + y + x`. -/
def sA20 : Mat Int := mat3 2 3 2 [0, 1, 1, 2, 2, 3, 10, 11, 11, 12, 12, 13]

/-- Scenario tensor: shape (c=2, h=1, w=2) with `B[q,0,x] = x`. -/
def sB20 : Mat Int := mat3 2 1 2 [0, 1, 0, 1]

/-- Scenario tensor: a packed tensor of shape (h=1, w=1) with `elempack = 4`,
holding the four lanes 10, 20, 30, 40. -/
def sPacked : Mat Int :=
  { dims := 2, w := 1, h := 1, d := 1, c := 1, elempack := 4, data := [10, 20, 30, 40] }

/-- The parameter dictionary that sets `op_type`, `with_scalar = 1` and `b`. -/
def pd_scalar (op_type : Int) (b : Int) : ParamDict Int :=
  { ints := fun k => if k = 0 then some op_type else if k = 1 then some 1 else none,
    floats := fun k => if k = 2 then some b else none }

/-- The layer as constructed and then configured by `load_param` with the
scalar operand `b`. -/
def layer_scalar (op_type : Int) (b : Int) : BinaryOp Int :=
  ((BinaryOp.ctor 0 0 0).load_param 0 (pd_scalar op_type b)).2

/-! ## Pattern selection (binaryop.cpp:541-583) -/

/-- The patterns that the if-chain of `BinaryOp::forward` selects among. -/
inductive Pattern where
  | Scalar
  | NoBroadcast
  | BroadcastInner
  | BroadcastOuter
  | BroadcastSpecial20
  | Unsupported
deriving DecidableEq

/-- The pattern that `BinaryOp::forward` selects for the dominant operand `A`
and the subordinate operand `B` (binaryop.cpp:541-583): the tests are tried in
the order of the source and the first that holds wins. -/
def pattern_of {α : Type} (A B : Mat α) : Pattern :=
  if is_scalar B then Pattern.Scalar
  else if is_no_broadcast A B then Pattern.NoBroadcast
  else if is_broadcast_inner A B then Pattern.BroadcastInner
  else if is_broadcast_outer A B then Pattern.BroadcastOuter
  else if is_broadcast_20 A B then Pattern.BroadcastSpecial20
  else Pattern.Unsupported

/-- Scenario tensor: shape (c=3, h=2, w=2) holding 1..12. -/
def sT12 : Mat Int := mat3 2 2 3 [1, 2, 3, 4, 5, 6, 7, 8, 9, 10, 11, 12]

/-- Scenario tensor: shape (c=1, d=2, h=2, w=2) holding 1..8. -/
def sA4d : Mat Int := mat4 2 2 2 1 [1, 2, 3, 4, 5, 6, 7, 8]

/-- Scenario tensor: shape (c=1, h=2, w=2) holding 10, 20, 30, 40. -/
def sB3d : Mat Int := mat3 2 2 1 [10, 20, 30, 40]

/-! ## The MIPS build without MSA (mips/binaryop_mips.cpp)

The file is embedded as compiled with `__mips_msa` undefined: every
`#if __mips_msa` block is absent and each loop `for (; i < size; i++)` starts at
`i = 0`.  The loops advance their pointers; the state of such a loop is the
tuple of its pointers and the output storage. -/

namespace mips

section Kernels

variable {α : Type}

namespace tmpl

/-- `binary_op_scalar<Op>` (binaryop_mips.cpp:33-69); the loop state is
`(ptr, outptr, buf)`. -/
def binary_op_scalar (op : α → α → α) (a : Mat α) (b : α) (c : Top α) : Option (Int × Top α) :=
  let channels := a.c
  let size := a.w * a.h * a.d * a.elempack
  (forLoop channels (fun q buf =>
      let ptr := a.channel q
      let outptr := c.channel q
      (forLoop size (fun _ (st : Nat × Nat × Buf α) => do
        let v ← a.data[st.1]?
        let buf ← store st.2.2 st.2.1 (op v b)
        pure (st.1 + 1, st.2.1 + 1, buf)) (ptr, outptr, buf)).map fun st => st.2.2) c.data).map
    fun buf => (0, { c with data := buf })

/-- `binary_op_no_broadcast<Op>` (binaryop_mips.cpp:71-111); the loop state is
`(ptr, ptr1, outptr, buf)`. -/
def binary_op_no_broadcast (op : α → α → α) (a b : Mat α) (c : Top α) : Option (Int × Top α) :=
  let channels := a.c
  let size := a.w * a.h * a.d * a.elempack
  (forLoop channels (fun q buf =>
      let ptr := a.channel q
      let ptr1 := b.channel q
      let outptr := c.channel q
      (forLoop size (fun _ (st : Nat × Nat × Nat × Buf α) => do
        let v ← a.data[st.1]?
        let v1 ← b.data[st.2.1]?
        let buf ← store st.2.2.2 st.2.2.1 (op v v1)
        pure (st.1 + 1, st.2.1 + 1, st.2.2.1 + 1, buf)) (ptr, ptr1, outptr, buf)).map
        fun st => st.2.2.2) c.data).map
    fun buf => (0, { c with data := buf })

/-- The `a.dims == 2 && b.dims == 1` block of `binary_op_broadcast_inner<Op>`
(binaryop_mips.cpp:124-158). -/
def inner_2_1 (op : α → α → α) (a b : Mat α) (c : Top α) (buf : Buf α) : Option (Buf α) :=
  let w := a.w
  let h := a.h
  let elempack := a.elempack
  forLoop h (fun y buf => do
    let ptr := a.row y
    let outptr := c.row y
    let _b ← b.data[y]?
    let size := w * elempack
    (forLoop size (fun _ (st : Nat × Nat × Buf α) => do
      let v ← a.data[st.1]?
      let buf ← store st.2.2 st.2.1 (op v _b)
      pure (st.1 + 1, st.2.1 + 1, buf)) (ptr, outptr, buf)).map fun st => st.2.2) buf

/-- The `(a.dims == 3 || a.dims == 4) && b.dims == 1` block of
`binary_op_broadcast_inner<Op>` (binaryop_mips.cpp:160-196). -/
def inner_34_1 (op : α → α → α) (a b : Mat α) (c : Top α) (buf : Buf α) : Option (Buf α) :=
  let w := a.w
  let h := a.h
  let d := a.d
  let channels := a.c
  let elempack := a.elempack
  forLoop channels (fun q buf => do
    let ptr := a.channel q
    let outptr := c.channel q
    let _b ← b.data[q]?
    let size := w * h * d * elempack
    (forLoop size (fun _ (st : Nat × Nat × Buf α) => do
      let v ← a.data[st.1]?
      let buf ← store st.2.2 st.2.1 (op v _b)
      pure (st.1 + 1, st.2.1 + 1, buf)) (ptr, outptr, buf)).map fun st => st.2.2) buf

/-- The `a.dims == 3 && b.dims == 2` block of `binary_op_broadcast_inner<Op>`
(binaryop_mips.cpp:198-237): `ptr` and `outptr` run on from row to row. -/
def inner_3_2 (op : α → α → α) (a b : Mat α) (c : Top α) (buf : Buf α) : Option (Buf α) :=
  let w := a.w
  let h := a.h
  let channels := a.c
  let elempack := a.elempack
  forLoop channels (fun q buf =>
    let ptr := a.channel q
    let ptr1 := b.row q
    let outptr := c.channel q
    let size := w * elempack
    (forLoop h (fun y (st : Nat × Nat × Buf α) => do
      let _b ← b.data[ptr1 + y]?
      forLoop size (fun _ (st : Nat × Nat × Buf α) => do
        let v ← a.data[st.1]?
        let buf ← store st.2.2 st.2.1 (op v _b)
        pure (st.1 + 1, st.2.1 + 1, buf)) st) (ptr, outptr, buf)).map fun st => st.2.2) buf

/-- The `a.dims == 4 && b.dims == 2` block of `binary_op_broadcast_inner<Op>`
(binaryop_mips.cpp:239-278): one run of `w * h * elempack` elements per depth
slab. -/
def inner_4_2 (op : α → α → α) (a b : Mat α) (c : Top α) (buf : Buf α) : Option (Buf α) :=
  let w := a.w
  let h := a.h
  let d := a.d
  let channels := a.c
  let elempack := a.elempack
  forLoop channels (fun q buf =>
    let ptr := a.channel q
    let ptr1 := b.row q
    let outptr := c.channel q
    let size := w * h * elempack
    (forLoop d (fun z (st : Nat × Nat × Buf α) => do
      let _b ← b.data[ptr1 + z]?
      forLoop size (fun _ (st : Nat × Nat × Buf α) => do
        let v ← a.data[st.1]?
        let buf ← store st.2.2 st.2.1 (op v _b)
        pure (st.1 + 1, st.2.1 + 1, buf)) st) (ptr, outptr, buf)).map fun st => st.2.2) buf

/-- The `a.dims == 4 && b.dims == 3` block of `binary_op_broadcast_inner<Op>`
(binaryop_mips.cpp:280-323): for each depth slab `z` the pointer into `b` is
`b.channel(q).row(z)`, row `z` of channel `q` of `b`. -/
def inner_4_3 (op : α → α → α) (a b : Mat α) (c : Top α) (buf : Buf α) : Option (Buf α) :=
  let w := a.w
  let h := a.h
  let d := a.d
  let channels := a.c
  let elempack := a.elempack
  forLoop channels (fun q buf =>
    let ptr := a.channel q
    let outptr := c.channel q
    let size := w * elempack
    (forLoop d (fun z (st : Nat × Nat × Buf α) =>
      let ptr1 := b.channel q + b.row z
      forLoop h (fun y (st : Nat × Nat × Buf α) => do
        let _b ← b.data[ptr1 + y]?
        forLoop size (fun _ (st : Nat × Nat × Buf α) => do
          let v ← a.data[st.1]?
          let buf ← store st.2.2 st.2.1 (op v _b)
          pure (st.1 + 1, st.2.1 + 1, buf)) st) st) (ptr, outptr, buf)).map
      fun st => st.2.2) buf

/-- `binary_op_broadcast_inner<Op>` (binaryop_mips.cpp:113-326): the five blocks
run one after the other, each under its own `if`. -/
def binary_op_broadcast_inner (op : α → α → α) (a b : Mat α) (c : Top α) :
    Option (Int × Top α) :=
  (if a.dims = 2 ∧ b.dims = 1 then inner_2_1 op a b c c.data else some c.data).bind fun buf =>
  (if (a.dims = 3 ∨ a.dims = 4) ∧ b.dims = 1 then inner_34_1 op a b c buf else some buf).bind
    fun buf =>
  (if a.dims = 3 ∧ b.dims = 2 then inner_3_2 op a b c buf else some buf).bind fun buf =>
  (if a.dims = 4 ∧ b.dims = 2 then inner_4_2 op a b c buf else some buf).bind fun buf =>
  (if a.dims = 4 ∧ b.dims = 3 then inner_4_3 op a b c buf else some buf).bind fun buf =>
  some (0, { c with data := buf })

/-- The `a.dims == 2` block of `binary_op_broadcast_outer<Op>`
(binaryop_mips.cpp:339-376); the row loop runs only under `elempack == 1` and
its state is `(ptr, ptr1, outptr, buf)`. -/
def outer_2 (op : α → α → α) (a b : Mat α) (c : Top α) (buf : Buf α) : Option (Buf α) :=
  let w := a.w
  let h := a.h
  let elempack := a.elempack
  forLoop h (fun y buf =>
    let ptr := a.row y
    let ptr1 := 0
    let outptr := c.row y
    if elempack = 1 then
      (forLoop w (fun _ (st : Nat × Nat × Nat × Buf α) => do
        let v ← a.data[st.1]?
        let v1 ← b.data[st.2.1]?
        let buf ← store st.2.2.2 st.2.2.1 (op v v1)
        pure (st.1 + 1, st.2.1 + 1, st.2.2.1 + 1, buf)) (ptr, ptr1, outptr, buf)).map
        fun st => st.2.2.2
    else some buf) buf

/-- The `a.dims == 3 || a.dims == 4` block of `binary_op_broadcast_outer<Op>`
(binaryop_mips.cpp:378-425).  The state across rows is `(ptr, outptr, buf)`; the
row loop, run only under `elempack == 1`, adds the signed pointer `ptr1` into
`b`, started at `b.depth(z1).row(y1)`. -/
def outer_34 (op : α → α → α) (a b : Mat α) (c : Top α) (buf : Buf α) : Option (Buf α) :=
  let w := a.w
  let h := a.h
  let d := a.d
  let channels := a.c
  let elempack := a.elempack
  forLoop channels (fun q buf =>
    let ptr := a.channel q
    let outptr := c.channel q
    (forLoop d (fun z (st : Nat × Nat × Buf α) =>
      let z1 : Int := min (z : Int) ((b.d : Int) - 1)
      forLoop h (fun y (st : Nat × Nat × Buf α) =>
        let y1 : Int := min (y : Int) ((b.h : Int) - 1)
        let ptr1 : Int := (b.w : Int) * b.h * z1 * b.elempack + (b.w : Int) * y1 * b.elempack
        if elempack = 1 then
          (forLoop w (fun _ (s : Nat × Int × Nat × Buf α) => do
            let v ← a.data[s.1]?
            let v1 ← load b.data s.2.1
            let buf ← store s.2.2.2 s.2.2.1 (op v v1)
            pure (s.1 + 1, s.2.1 + 1, s.2.2.1 + 1, buf)) (st.1, ptr1, st.2.1, st.2.2)).map
            fun s => (s.1, s.2.2.1, s.2.2.2)
        else some st) st) (ptr, outptr, buf)).map fun st => st.2.2) buf

/-- `binary_op_broadcast_outer<Op>` (binaryop_mips.cpp:328-428). -/
def binary_op_broadcast_outer (op : α → α → α) (a b : Mat α) (c : Top α) :
    Option (Int × Top α) :=
  (if a.dims = 2 then outer_2 op a b c c.data else some c.data).bind fun buf =>
  (if a.dims = 3 ∨ a.dims = 4 then outer_34 op a b c buf else some buf).bind fun buf =>
  some (0, { c with data := buf })

/-- `binary_op_broadcast_20<Op>` (binaryop_mips.cpp:430-478): `ptr1` is set to
`b.channel(q)` anew for every row; the state across rows is
`(ptr, outptr, buf)`. -/
def binary_op_broadcast_20 (op : α → α → α) (a b : Mat α) (c : Top α) :
    Option (Int × Top α) :=
  let w := a.w
  let h := a.h
  let channels := a.c
  let elempack := a.elempack
  (forLoop channels (fun q buf =>
    let ptr := a.channel q
    let outptr := c.channel q
    (forLoop h (fun _ (st : Nat × Nat × Buf α) =>
      let ptr1 := b.channel q
      let size := w * elempack
      (forLoop size (fun _ (s : Nat × Nat × Nat × Buf α) => do
        let v ← a.data[s.1]?
        let v1 ← b.data[s.2.1]?
        let buf ← store s.2.2.2 s.2.2.1 (op v v1)
        pure (s.1 + 1, s.2.1 + 1, s.2.2.1 + 1, buf)) (st.1, ptr1, st.2.1, st.2.2)).map
        fun s => (s.1, s.2.2.1, s.2.2.2)) (ptr, outptr, buf)).map fun st => st.2.2) c.data).map
    fun buf => (0, { c with data := buf })

end tmpl

end Kernels

/-! ### The scalar overloads of `BinaryOp_mips_functor` (binaryop_mips.cpp:515-558) -/

namespace BinaryOp_mips_functor

variable {α : Type}

/-- `binary_op_add`: `x + y`. -/
def binary_op_add [Add α] (x y : α) : α := x + y
/-- `binary_op_sub`: `x - y`. -/
def binary_op_sub [Sub α] (x y : α) : α := x - y
/-- `binary_op_mul`: `x * y`. -/
def binary_op_mul [Mul α] (x y : α) : α := x * y
/-- `binary_op_div`: `x / y`. -/
def binary_op_div [Div α] (x y : α) : α := x / y
/-- `binary_op_max`: `std::max(x, y)`. -/
def binary_op_max [Max α] (x y : α) : α := max x y
/-- `binary_op_min`: `std::min(x, y)`. -/
def binary_op_min [Min α] (x y : α) : α := min x y
/-- `binary_op_pow`: `(float)pow(x, y)`. -/
def binary_op_pow (powf : α → α → α) (x y : α) : α := powf x y
/-- `binary_op_rsub`: `y - x`. -/
def binary_op_rsub [Sub α] (x y : α) : α := y - x
/-- `binary_op_rdiv`: `y / x`. -/
def binary_op_rdiv [Div α] (x y : α) : α := y / x
/-- `binary_op_rpow`: `(float)pow(y, x)`. -/
def binary_op_rpow (powf : α → α → α) (x y : α) : α := powf y x

end BinaryOp_mips_functor

section Dispatch

variable {α : Type} [Add α] [Sub α] [Mul α] [Div α] [Max α] [Min α]

/-- `binary_op_scalar` with `op_type` (binaryop_mips.cpp:560-577). -/
def binary_op_scalar (powf : α → α → α) (a : Mat α) (b : α) (c : Top α) (op_type : Int) :
    Option (Int × Top α) :=
  if op_type = Operation_ADD then
    tmpl.binary_op_scalar BinaryOp_mips_functor.binary_op_add a b c
  else if op_type = Operation_SUB then
    tmpl.binary_op_scalar BinaryOp_mips_functor.binary_op_sub a b c
  else if op_type = Operation_MUL then
    tmpl.binary_op_scalar BinaryOp_mips_functor.binary_op_mul a b c
  else if op_type = Operation_DIV then
    tmpl.binary_op_scalar BinaryOp_mips_functor.binary_op_div a b c
  else if op_type = Operation_MAX then
    tmpl.binary_op_scalar BinaryOp_mips_functor.binary_op_max a b c
  else if op_type = Operation_MIN then
    tmpl.binary_op_scalar BinaryOp_mips_functor.binary_op_min a b c
  else if op_type = Operation_POW then
    tmpl.binary_op_scalar (BinaryOp_mips_functor.binary_op_pow powf) a b c
  else if op_type = Operation_RSUB then
    tmpl.binary_op_scalar BinaryOp_mips_functor.binary_op_rsub a b c
  else if op_type = Operation_RDIV then
    tmpl.binary_op_scalar BinaryOp_mips_functor.binary_op_rdiv a b c
  else if op_type = Operation_RPOW then
    tmpl.binary_op_scalar (BinaryOp_mips_functor.binary_op_rpow powf) a b c
  else some (0, c)

/-- `binary_op_no_broadcast` with `op_type` (binaryop_mips.cpp:579-596). -/
def binary_op_no_broadcast (powf : α → α → α) (a b : Mat α) (c : Top α) (op_type : Int) :
    Option (Int × Top α) :=
  if op_type = Operation_ADD then
    tmpl.binary_op_no_broadcast BinaryOp_mips_functor.binary_op_add a b c
  else if op_type = Operation_SUB then
    tmpl.binary_op_no_broadcast BinaryOp_mips_functor.binary_op_sub a b c
  else if op_type = Operation_MUL then
    tmpl.binary_op_no_broadcast BinaryOp_mips_functor.binary_op_mul a b c
  else if op_type = Operation_DIV then
    tmpl.binary_op_no_broadcast BinaryOp_mips_functor.binary_op_div a b c
  else if op_type = Operation_MAX then
    tmpl.binary_op_no_broadcast BinaryOp_mips_functor.binary_op_max a b c
  else if op_type = Operation_MIN then
    tmpl.binary_op_no_broadcast BinaryOp_mips_functor.binary_op_min a b c
  else if op_type = Operation_POW then
    tmpl.binary_op_no_broadcast (BinaryOp_mips_functor.binary_op_pow powf) a b c
  else if op_type = Operation_RSUB then
    tmpl.binary_op_no_broadcast BinaryOp_mips_functor.binary_op_rsub a b c
  else if op_type = Operation_RDIV then
    tmpl.binary_op_no_broadcast BinaryOp_mips_functor.binary_op_rdiv a b c
  else if op_type = Operation_RPOW then
    tmpl.binary_op_no_broadcast (BinaryOp_mips_functor.binary_op_rpow powf) a b c
  else some (0, c)

/-- `binary_op_broadcast_inner` with `op_type` (binaryop_mips.cpp:598-630); its
squeeze step (binaryop_mips.cpp:600-613) is the text of binaryop.cpp:451-464. -/
def binary_op_broadcast_inner (powf : α → α → α) (a b : Mat α) (c : Top α) (op_type : Int) :
    Option (Int × Top α) :=
  let b2 := squeeze_inner_axes b
  if op_type = Operation_ADD then
    tmpl.binary_op_broadcast_inner BinaryOp_mips_functor.binary_op_add a b2 c
  else if op_type = Operation_SUB then
    tmpl.binary_op_broadcast_inner BinaryOp_mips_functor.binary_op_sub a b2 c
  else if op_type = Operation_MUL then
    tmpl.binary_op_broadcast_inner BinaryOp_mips_functor.binary_op_mul a b2 c
  else if op_type = Operation_DIV then
    tmpl.binary_op_broadcast_inner BinaryOp_mips_functor.binary_op_div a b2 c
  else if op_type = Operation_MAX then
    tmpl.binary_op_broadcast_inner BinaryOp_mips_functor.binary_op_max a b2 c
  else if op_type = Operation_MIN then
    tmpl.binary_op_broadcast_inner BinaryOp_mips_functor.binary_op_min a b2 c
  else if op_type = Operation_POW then
    tmpl.binary_op_broadcast_inner (BinaryOp_mips_functor.binary_op_pow powf) a b2 c
  else if op_type = Operation_RSUB then
    tmpl.binary_op_broadcast_inner BinaryOp_mips_functor.binary_op_rsub a b2 c
  else if op_type = Operation_RDIV then
    tmpl.binary_op_broadcast_inner BinaryOp_mips_functor.binary_op_rdiv a b2 c
  else if op_type = Operation_RPOW then
    tmpl.binary_op_broadcast_inner (BinaryOp_mips_functor.binary_op_rpow powf) a b2 c
  else some (0, c)

/-- `binary_op_broadcast_outer` with `op_type` (binaryop_mips.cpp:632-649). -/
def binary_op_broadcast_outer (powf : α → α → α) (a b : Mat α) (c : Top α) (op_type : Int) :
    Option (Int × Top α) :=
  if op_type = Operation_ADD then
    tmpl.binary_op_broadcast_outer BinaryOp_mips_functor.binary_op_add a b c
  else if op_type = Operation_SUB then
    tmpl.binary_op_broadcast_outer BinaryOp_mips_functor.binary_op_sub a b c
  else if op_type = Operation_MUL then
    tmpl.binary_op_broadcast_outer BinaryOp_mips_functor.binary_op_mul a b c
  else if op_type = Operation_DIV then
    tmpl.binary_op_broadcast_outer BinaryOp_mips_functor.binary_op_div a b c
  else if op_type = Operation_MAX then
    tmpl.binary_op_broadcast_outer BinaryOp_mips_functor.binary_op_max a b c
  else if op_type = Operation_MIN then
    tmpl.binary_op_broadcast_outer BinaryOp_mips_functor.binary_op_min a b c
  else if op_type = Operation_POW then
    tmpl.binary_op_broadcast_outer (BinaryOp_mips_functor.binary_op_pow powf) a b c
  else if op_type = Operation_RSUB then
    tmpl.binary_op_broadcast_outer BinaryOp_mips_functor.binary_op_rsub a b c
  else if op_type = Operation_RDIV then
    tmpl.binary_op_broadcast_outer BinaryOp_mips_functor.binary_op_rdiv a b c
  else if op_type = Operation_RPOW then
    tmpl.binary_op_broadcast_outer (BinaryOp_mips_functor.binary_op_rpow powf) a b c
  else some (0, c)

/-- `binary_op_broadcast_20` with `op_type` (binaryop_mips.cpp:651-668). -/
def binary_op_broadcast_20 (powf : α → α → α) (a b : Mat α) (c : Top α) (op_type : Int) :
    Option (Int × Top α) :=
  if op_type = Operation_ADD then
    tmpl.binary_op_broadcast_20 BinaryOp_mips_functor.binary_op_add a b c
  else if op_type = Operation_SUB then
    tmpl.binary_op_broadcast_20 BinaryOp_mips_functor.binary_op_sub a b c
  else if op_type = Operation_MUL then
    tmpl.binary_op_broadcast_20 BinaryOp_mips_functor.binary_op_mul a b c
  else if op_type = Operation_DIV then
    tmpl.binary_op_broadcast_20 BinaryOp_mips_functor.binary_op_div a b c
  else if op_type = Operation_MAX then
    tmpl.binary_op_broadcast_20 BinaryOp_mips_functor.binary_op_max a b c
  else if op_type = Operation_MIN then
    tmpl.binary_op_broadcast_20 BinaryOp_mips_functor.binary_op_min a b c
  else if op_type = Operation_POW then
    tmpl.binary_op_broadcast_20 (BinaryOp_mips_functor.binary_op_pow powf) a b c
  else if op_type = Operation_RSUB then
    tmpl.binary_op_broadcast_20 BinaryOp_mips_functor.binary_op_rsub a b c
  else if op_type = Operation_RDIV then
    tmpl.binary_op_broadcast_20 BinaryOp_mips_functor.binary_op_rdiv a b c
  else if op_type = Operation_RPOW then
    tmpl.binary_op_broadcast_20 (BinaryOp_mips_functor.binary_op_rpow powf) a b c
  else some (0, c)

/-- `get_reverse_op_type` (binaryop_mips.cpp:670-679). -/
def get_reverse_op_type (op_type : Int) : Int :=
  if op_type = Operation_SUB then Operation_RSUB
  else if op_type = Operation_DIV then Operation_RDIV
  else if op_type = Operation_POW then Operation_RPOW
  else if op_type = Operation_RSUB then Operation_SUB
  else if op_type = Operation_RDIV then Operation_DIV
  else if op_type = Operation_RPOW then Operation_POW
  else op_type

/-- `b_is_scalar` of `BinaryOp_mips::forward` (binaryop_mips.cpp:683). -/
def b_is_scalar (bottom1 : Mat α) : Bool :=
  bottom1.w * bottom1.h * bottom1.d * bottom1.c * bottom1.elempack == 1

/-- `a_rank_is_lower` of `BinaryOp_mips::forward` (binaryop_mips.cpp:684). -/
def a_rank_is_lower (bottom0 bottom1 : Mat α) : Bool :=
  decide (bottom0.dims < bottom1.dims) && !b_is_scalar bottom1

/-- `a_size_is_lower` of `BinaryOp_mips::forward` (binaryop_mips.cpp:685): both
sizes include elempack. -/
def a_size_is_lower (bottom0 bottom1 : Mat α) : Bool :=
  decide (bottom0.w * bottom0.h * bottom0.d * bottom0.c * bottom0.elempack
    < bottom1.w * bottom1.h * bottom1.d * bottom1.c * bottom1.elempack)

/-- `a_is_lower` of `BinaryOp_mips::forward` (binaryop_mips.cpp:686): the swap
decision. -/
def a_is_lower (bottom0 bottom1 : Mat α) : Bool :=
  a_rank_is_lower bottom0 bottom1
    || (!a_rank_is_lower bottom0 bottom1 && a_size_is_lower bottom0 bottom1)

/-- The dominant operand `A` of `BinaryOp_mips::forward` (binaryop_mips.cpp:687). -/
def dominant (bottom0 bottom1 : Mat α) : Mat α :=
  if a_is_lower bottom0 bottom1 then bottom1 else bottom0

/-- The subordinate operand `B` of `BinaryOp_mips::forward`
(binaryop_mips.cpp:688). -/
def subordinate (bottom0 bottom1 : Mat α) : Mat α :=
  if a_is_lower bottom0 bottom1 then bottom0 else bottom1

/-- The effective operation `op_type_r` of `BinaryOp_mips::forward`
(binaryop_mips.cpp:689). -/
def op_type_r (op_type : Int) (bottom0 bottom1 : Mat α) : Int :=
  if a_is_lower bottom0 bottom1 then get_reverse_op_type op_type else op_type

/-- The test "B is a scalar" of `BinaryOp_mips::forward` (binaryop_mips.cpp:697),
with elempack. -/
def is_scalar (B : Mat α) : Prop :=
  B.w * B.h * B.d * B.c * B.elempack = 1

/-- The test "no broadcast" of `BinaryOp_mips::forward` (binaryop_mips.cpp:703),
with the elempacks compared. -/
def is_no_broadcast (A B : Mat α) : Prop :=
  A.dims = B.dims ∧ A.w = B.w ∧ A.h = B.h ∧ A.d = B.d ∧ A.c = B.c ∧ A.elempack = B.elempack

/-- The test "broadcast B for outer axis" of `BinaryOp_mips::forward`
(binaryop_mips.cpp:721), which asks for `B.elempack == 1` first. -/
def is_broadcast_outer (A B : Mat α) : Prop :=
  B.elempack = 1 ∧
    ((A.dims = 2 ∧ B.w = A.w ∧ B.h = 1)
      ∨ (A.dims = 3 ∧ B.w = A.w ∧ B.h = 1 ∧ B.c = 1)
      ∨ (A.dims = 3 ∧ B.w = A.w ∧ B.h = A.h ∧ B.c = 1)
      ∨ (A.dims = 4 ∧ B.w = A.w ∧ B.h = 1 ∧ B.d = 1 ∧ B.c = 1)
      ∨ (A.dims = 4 ∧ B.w = A.w ∧ B.h = A.h ∧ B.d = 1 ∧ B.c = 1)
      ∨ (A.dims = 4 ∧ B.w = A.w ∧ B.h = A.h ∧ B.d = A.d ∧ B.c = 1))

instance (B : Mat α) : Decidable (is_scalar B) := by
  unfold is_scalar; infer_instance

instance (A B : Mat α) : Decidable (is_no_broadcast A B) := by
  unfold is_no_broadcast; infer_instance

instance (A B : Mat α) : Decidable (is_broadcast_outer A B) := by
  unfold is_broadcast_outer; infer_instance

/-- The pattern that `BinaryOp_mips::forward` selects for the dominant operand
`A` and the subordinate operand `B` (binaryop_mips.cpp:696-732); the tests for
the inner axis (binaryop_mips.cpp:709-715) and for the special rule
(binaryop_mips.cpp:727) are the text of binaryop.cpp:554-560 and 577. -/
def pattern_of (A B : Mat α) : Pattern :=
  if is_scalar B then Pattern.Scalar
  else if is_no_broadcast A B then Pattern.NoBroadcast
  else if is_broadcast_inner A B then Pattern.BroadcastInner
  else if is_broadcast_outer A B then Pattern.BroadcastOuter
  else if is_broadcast_20 A B then Pattern.BroadcastSpecial20
  else Pattern.Unsupported

end Dispatch

end mips

section MipsForward

variable {α : Type} [Add α] [Sub α] [Mul α] [Div α] [Max α] [Min α]

/-- `BinaryOp_mips::forward` (binaryop_mips.cpp:681-733) on
`bottom_blobs = [bottom0, bottom1]`, compiled without MSA. -/
def BinaryOp_mips.forward (powf : α → α → α) (self : BinaryOp α) (bottom0 bottom1 : Mat α)
    (opt : NcnnOption) : Option (Int × Top α) :=
  let A := mips.dominant bottom0 bottom1
  let B := mips.subordinate bottom0 bottom1
  let op_type_r := mips.op_type_r self.op_type bottom0 bottom1
  let top_blob : Top α := A.create_like opt.blob_allocator
  if top_blob.empty then some (-100, top_blob)
  else if mips.is_scalar B then do
    let b0 ← B.data[0]?
    mips.binary_op_scalar powf A b0 top_blob op_type_r
  else if mips.is_no_broadcast A B then
    mips.binary_op_no_broadcast powf A B top_blob op_type_r
  else if is_broadcast_inner A B then
    mips.binary_op_broadcast_inner powf A B top_blob op_type_r
  else if mips.is_broadcast_outer A B then
    mips.binary_op_broadcast_outer powf A B top_blob op_type_r
  else if is_broadcast_20 A B then
    mips.binary_op_broadcast_20 powf A B top_blob op_type_r
  else some (0, top_blob)

end MipsForward

/-- Scenario tensor: 4-D of shape (c=1, d=2, h=1, w=2) holding 1..4. -/
def sA4flat : Mat Int := mat4 2 1 2 1 [1, 2, 3, 4]

/-! ## The MIPS build with MSA: the 4-lane loops of the contiguous kernels
(mips/binaryop_mips.cpp:33-111 and 480-513)

With `__mips_msa` defined each run of `size` floats is processed by the loop
`for (; i + 3 < size; i += 4)` on `v4f32` registers and then by the scalar loop
`for (; i < size; i++)`, which goes on from the `i` the first loop stopped at.
The vector overload of the functor is the parameter `op4`. -/

/-- The four lanes of a `v4f32` register. -/
abbrev V4 (α : Type) := α × α × α × α

/-- Modelled from the spec: `__msa_fill_w_f32(b)`, the register whose four
lanes hold `b`. -/
def msa_fill_w {α : Type} (b : α) : V4 α := (b, b, b, b)

/-- Modelled from the spec: `__msa_ld_w(ptr, 0)`, the four consecutive floats at
offset `p`; `none` when one of them is outside the storage. -/
def msa_ld_w {α : Type} (data : List α) (p : Nat) : Option (V4 α) := do
  let x0 ← data[p]?
  let x1 ← data[p + 1]?
  let x2 ← data[p + 2]?
  let x3 ← data[p + 3]?
  pure (x0, x1, x2, x3)

/-- Modelled from the spec: `__msa_st_w(v, outptr, 0)`, the four lanes stored
into the four consecutive output cells at offset `o`. -/
def msa_st_w {α : Type} (buf : Buf α) (o : Nat) (v : V4 α) : Option (Buf α) := do
  let buf ← store buf o v.1
  let buf ← store buf (o + 1) v.2.1
  let buf ← store buf (o + 2) v.2.2.1
  store buf (o + 3) v.2.2.2

/-- Modelled from the spec: `__msa_st_w(v, ptr, 0)` into the tensor's own
storage, right after the load of the same four floats. -/
def msa_st_w_mem {α : Type} (data : List α) (p : Nat) (v : V4 α) : List α :=
  (((data.set p v.1).set (p + 1) v.2.1).set (p + 2) v.2.2.1).set (p + 3) v.2.2.2

/-- A loop `for (; cond; ) body` whose body makes progress: it is run for at
most `fuel` rounds and stops as soon as `cond` fails (or with `none` at the
first failing access). -/
def loopWhile {σ : Type} (fuel : Nat) (cond : σ → Bool) (body : σ → Option σ) (s : σ) :
    Option σ :=
  match fuel with
  | 0 => some s
  | k + 1 => if cond s then (body s).bind (loopWhile k cond body) else some s

namespace mips

section ScalarInplace

variable {α : Type}

/-- `binary_op_scalar_inplace<Op>` compiled without MSA (binaryop_mips.cpp:480-513);
the loop state is `(ptr, data)`. -/
def tmpl.binary_op_scalar_inplace (op : α → α → α) (a : Mat α) (b : α) : Option (Int × Mat α) :=
  let channels := a.c
  let size := a.w * a.h * a.d * a.elempack
  (forLoop channels (fun q (data : List α) =>
      let ptr := a.channel q
      (forLoop size (fun _ (st : Nat × List α) => do
        let v ← st.2[st.1]?
        pure (st.1 + 1, st.2.set st.1 (op v b))) (ptr, data)).map fun st => st.2) a.data).map
    fun data => (0, { a with data := data })

end ScalarInplace

namespace msa

section Lanes

variable {α : Type}

/-- The 4-lane loop of `binary_op_scalar<Op>` (binaryop_mips.cpp:48-57) on the
state `(i, ptr, outptr, buf)`. -/
def scalar_lanes (op4 : V4 α → V4 α → V4 α) (data : List α) (b : α) (size : Nat)
    (st : Nat × Nat × Nat × Buf α) : Option (Nat × Nat × Nat × Buf α) :=
  let _b := msa_fill_w b
  loopWhile size (fun st => decide (st.1 + 3 < size)) (fun st => do
    let _p ← msa_ld_w data st.2.1
    let _p := op4 _p _b
    let buf ← msa_st_w st.2.2.2 st.2.2.1 _p
    pure (st.1 + 4, st.2.1 + 4, st.2.2.1 + 4, buf)) st

/-- The scalar tail of `binary_op_scalar<Op>` (binaryop_mips.cpp:59-64) on the
state `(i, ptr, outptr, buf)`. -/
def scalar_tail (op : α → α → α) (data : List α) (b : α) (size : Nat)
    (st : Nat × Nat × Nat × Buf α) : Option (Nat × Nat × Nat × Buf α) :=
  loopWhile size (fun st => decide (st.1 < size)) (fun st => do
    let v ← data[st.2.1]?
    let buf ← store st.2.2.2 st.2.2.1 (op v b)
    pure (st.1 + 1, st.2.1 + 1, st.2.2.1 + 1, buf)) st

/-- The 4-lane loop of `binary_op_no_broadcast<Op>` (binaryop_mips.cpp:87-99) on
the state `(i, ptr, ptr1, outptr, buf)`. -/
def pair_lanes (op4 : V4 α → V4 α → V4 α) (data data1 : List α) (size : Nat)
    (st : Nat × Nat × Nat × Nat × Buf α) : Option (Nat × Nat × Nat × Nat × Buf α) :=
  loopWhile size (fun st => decide (st.1 + 3 < size)) (fun st => do
    let _p ← msa_ld_w data st.2.1
    let _p1 ← msa_ld_w data1 st.2.2.1
    let _outp := op4 _p _p1
    let buf ← msa_st_w st.2.2.2.2 st.2.2.2.1 _outp
    pure (st.1 + 4, st.2.1 + 4, st.2.2.1 + 4, st.2.2.2.1 + 4, buf)) st

/-- The scalar tail of `binary_op_no_broadcast<Op>` (binaryop_mips.cpp:101-107)
on the state `(i, ptr, ptr1, outptr, buf)`. -/
def pair_tail (op : α → α → α) (data data1 : List α) (size : Nat)
    (st : Nat × Nat × Nat × Nat × Buf α) : Option (Nat × Nat × Nat × Nat × Buf α) :=
  loopWhile size (fun st => decide (st.1 < size)) (fun st => do
    let v ← data[st.2.1]?
    let v1 ← data1[st.2.2.1]?
    let buf ← store st.2.2.2.2 st.2.2.2.1 (op v v1)
    pure (st.1 + 1, st.2.1 + 1, st.2.2.1 + 1, st.2.2.2.1 + 1, buf)) st

/-- The 4-lane loop of `binary_op_scalar_inplace<Op>`
(binaryop_mips.cpp:495-503) on the state `(i, ptr, data)`. -/
def inplace_lanes (op4 : V4 α → V4 α → V4 α) (b : α) (size : Nat)
    (st : Nat × Nat × List α) : Option (Nat × Nat × List α) :=
  let _b := msa_fill_w b
  loopWhile size (fun st => decide (st.1 + 3 < size)) (fun st => do
    let _p ← msa_ld_w st.2.2 st.2.1
    let _p := op4 _p _b
    pure (st.1 + 4, st.2.1 + 4, msa_st_w_mem st.2.2 st.2.1 _p)) st

/-- The scalar tail of `binary_op_scalar_inplace<Op>`
(binaryop_mips.cpp:505-509) on the state `(i, ptr, data)`. -/
def inplace_tail (op : α → α → α) (b : α) (size : Nat)
    (st : Nat × Nat × List α) : Option (Nat × Nat × List α) :=
  loopWhile size (fun st => decide (st.1 < size)) (fun st => do
    let v ← st.2.2[st.2.1]?
    pure (st.1 + 1, st.2.1 + 1, st.2.2.set st.2.1 (op v b))) st

namespace tmpl

/-- `binary_op_scalar<Op>` compiled with MSA (binaryop_mips.cpp:33-69). -/
def binary_op_scalar (op : α → α → α) (op4 : V4 α → V4 α → V4 α) (a : Mat α) (b : α)
    (c : Top α) : Option (Int × Top α) :=
  let channels := a.c
  let size := a.w * a.h * a.d * a.elempack
  (forLoop channels (fun q buf => do
      let ptr := a.channel q
      let outptr := c.channel q
      let i := 0
      let st ← scalar_lanes op4 a.data b size (i, ptr, outptr, buf)
      let st ← scalar_tail op a.data b size st
      pure st.2.2.2) c.data).map
    fun buf => (0, { c with data := buf })

/-- `binary_op_no_broadcast<Op>` compiled with MSA (binaryop_mips.cpp:71-111). -/
def binary_op_no_broadcast (op : α → α → α) (op4 : V4 α → V4 α → V4 α) (a b : Mat α)
    (c : Top α) : Option (Int × Top α) :=
  let channels := a.c
  let size := a.w * a.h * a.d * a.elempack
  (forLoop channels (fun q buf => do
      let ptr := a.channel q
      let ptr1 := b.channel q
      let outptr := c.channel q
      let i := 0
      let st ← pair_lanes op4 a.data b.data size (i, ptr, ptr1, outptr, buf)
      let st ← pair_tail op a.data b.data size st
      pure st.2.2.2.2) c.data).map
    fun buf => (0, { c with data := buf })

/-- `binary_op_scalar_inplace<Op>` compiled with MSA (binaryop_mips.cpp:480-513). -/
def binary_op_scalar_inplace (op : α → α → α) (op4 : V4 α → V4 α → V4 α) (a : Mat α) (b : α) :
    Option (Int × Mat α) :=
  let channels := a.c
  let size := a.w * a.h * a.d * a.elempack
  (forLoop channels (fun q (data : List α) => do
      let ptr := a.channel q
      let i := 0
      let st ← inplace_lanes op4 b size (i, ptr, data)
      let st ← inplace_tail op b size st
      pure st.2.2) a.data).map
    fun data => (0, { a with data := data })

end tmpl

end Lanes

end msa

end mips

/-! ### Plain loops over a run (specification vocabulary) -/

/-- The plain scalar loop over the `n` indices of a run that starts at offset
`p` of the input and at offset `o` of the output, second operand `b`. -/
def run_scalar {α : Type} (op : α → α → α) (data : List α) (b : α) (p o n : Nat) (buf : Buf α) :
    Option (Buf α) :=
  forLoop n (fun i buf => do
    let v ← data[p + i]?
    store buf (o + i) (op v b)) buf

/-- The plain scalar loop over the `n` indices of a run of two inputs, starting
at offsets `p` and `p1`, into the output at offset `o`. -/
def run_pair {α : Type} (op : α → α → α) (data data1 : List α) (p p1 o n : Nat) (buf : Buf α) :
    Option (Buf α) :=
  forLoop n (fun i buf => do
    let v ← data[p + i]?
    let v1 ← data1[p1 + i]?
    store buf (o + i) (op v v1)) buf

/-- The plain scalar loop that replaces in place the `n` elements of a run
starting at offset `p`, second operand `b`. -/
def run_inplace {α : Type} (op : α → α → α) (b : α) (p n : Nat) (data : List α) :
    Option (List α) :=
  forLoop n (fun i (data : List α) => do
    let v ← data[p + i]?
    pure (data.set (p + i) (op v b))) data

/-- The lane function `op4` applies the scalar function `op` to each lane. -/
def LaneWise {α : Type} (op : α → α → α) (op4 : V4 α → V4 α → V4 α) : Prop :=
  ∀ x y : V4 α, op4 x y = (op x.1 y.1, op x.2.1 y.2.1, op x.2.2.1 y.2.2.1, op x.2.2.2 y.2.2.2)

/-- The lane function that is `op` on each lane. -/
def lanes_of {α : Type} (op : α → α → α) (x y : V4 α) : V4 α :=
  (op x.1 y.1, op x.2.1 y.2.1, op x.2.2.1 y.2.2.1, op x.2.2.2 y.2.2.2)

/-- Scenario tensor: 1-D `[1,...,6]`. -/
def sV6 : Mat Int := vec [1, 2, 3, 4, 5, 6]

/-- Scenario tensor: 1-D `[10,...,60]`. -/
def sW6 : Mat Int := vec [10, 20, 30, 40, 50, 60]

/-- The `n` vector rounds of a run taken one after the other: round `j` loads
the four floats at input offsets `p + 4 * j .. p + 4 * j + 3` and stores the
four lanes of `op4` at output offsets `o + 4 * j .. o + 4 * j + 3`. -/
def run_scalar_lanes {α : Type} (op4 : V4 α → V4 α → V4 α) (data : List α) (b : α)
    (p o n : Nat) (buf : Buf α) : Option (Buf α) :=
  forLoop n (fun j buf => do
    let v ← msa_ld_w data (p + 4 * j)
    msa_st_w buf (o + 4 * j) (op4 v (msa_fill_w b))) buf

/-- The `n` vector rounds of a run of two inputs: round `j` works on the four
indices `4 * j .. 4 * j + 3` of the run. -/
def run_pair_lanes {α : Type} (op4 : V4 α → V4 α → V4 α) (data data1 : List α)
    (p p1 o n : Nat) (buf : Buf α) : Option (Buf α) :=
  forLoop n (fun j buf => do
    let v ← msa_ld_w data (p + 4 * j)
    let v1 ← msa_ld_w data1 (p1 + 4 * j)
    msa_st_w buf (o + 4 * j) (op4 v v1)) buf

/-- The `n` vector rounds of a run replaced in place: round `j` works on the
four elements at offsets `p + 4 * j .. p + 4 * j + 3`. -/
def run_inplace_lanes {α : Type} (op4 : V4 α → V4 α → V4 α) (b : α) (p n : Nat)
    (data : List α) : Option (List α) :=
  forLoop n (fun j (data : List α) => do
    let v ← msa_ld_w data (p + 4 * j)
    pure (msa_st_w_mem data (p + 4 * j) (op4 v (msa_fill_w b)))) data

/-- Between `buf` and `buf'` each output cell with index in `[o, o + n)` received
exactly one more stored value and every other cell is as it was. -/
def StoredOnce {α : Type} (o n : Nat) (buf buf' : Buf α) : Prop :=
  ∀ k, (buf'[k]?).map List.length
    = (buf[k]?).map fun hist => hist.length + (if o ≤ k ∧ k < o + n then 1 else 0)

theorem forLoop_inv {σ : Type} (P : Nat → σ → Prop) (body : Nat → σ → Option σ) (n : Nat) (s : σ)
    (h0 : P 0 s)
    (hstep : ∀ i t, i < n → P i t → ∃ t', body i t = some t' ∧ P (i + 1) t') :
    ∃ t, forLoop n body s = some t ∧ P n t := by
  induction n with
  | zero => exact ⟨s, rfl, h0⟩
  | succ k ih =>
    obtain ⟨t, ht, hP⟩ := ih (fun i t hi hp => hstep i t (Nat.lt_succ_of_lt hi) hp)
    obtain ⟨t', ht', hP'⟩ := hstep k t (Nat.lt_succ_self k) hP
    exact ⟨t', by simp [forLoop, ht, ht'], hP'⟩

theorem forLoop_preserve {σ : Type} (I : σ → Prop) (body : Nat → σ → Option σ)
    (hstep : ∀ i t t', I t → body i t = some t' → I t') :
    ∀ n s t, I s → forLoop n body s = some t → I t := by
  intro n
  induction n with
  | zero => intro s t hs h; simp [forLoop] at h; exact h ▸ hs
  | succ k ih =>
    intro s t hs h
    simp only [forLoop, Option.bind_eq_some] at h
    obtain ⟨u, hu, hb⟩ := h
    exact hstep k u t (ih s u hs hu) hb

theorem forLoop_congr {σ : Type} (f g : Nat → σ → Option σ) (n : Nat)
    (h : ∀ i t, i < n → f i t = g i t) (s : σ) : forLoop n f s = forLoop n g s := by
  induction n with
  | zero => rfl
  | succ k ih =>
    simp only [forLoop]
    rw [ih (fun i t hi => h i t (Nat.lt_succ_of_lt hi))]
    cases hk : forLoop k g s with
    | none => rfl
    | some u => simp [h k u (Nat.lt_succ_self k)]

theorem Filled_store {α : Type} (F : Nat → Option α) (len n : Nat) (buf : Buf α) (v : α)
    (hF : Filled F len n buf) (hn : n < len) (hv : F n = some v) :
    ∃ buf', store buf n v = some buf' ∧ Filled F len (n + 1) buf' := by
  obtain ⟨hlen, hcells⟩ := hF
  have hn0 : buf[n]? = some [] := (hcells n hn).2 (Nat.le_refl n)
  refine ⟨buf.set n [v], by simp [store, hn0], by simp [hlen], ?_⟩
  intro j hj
  by_cases hjn : j = n
  · subst hjn
    refine ⟨fun _ => ⟨v, hv, ?_⟩, fun h => absurd h (by omega)⟩
    simp [List.getElem?_set, hlen, hj]
  · have hne : n ≠ j := fun h => hjn h.symm
    refine ⟨fun h => ?_, fun h => ?_⟩
    · obtain ⟨u, hu, hb⟩ := (hcells j hj).1 (by omega)
      exact ⟨u, hu, by simp [List.getElem?_set, hne, hb]⟩
    · simp [List.getElem?_set, hne, (hcells j hj).2 (by omega)]

theorem forLoop_fill {α : Type} (F : Nat → Option α) (len o n : Nat)
    (body : Nat → Buf α → Option (Buf α)) (buf : Buf α)
    (hF : Filled F len o buf) (hle : o + n ≤ len)
    (hb : ∀ x, x < n → ∀ bf, ∃ v, F (o + x) = some v ∧ body x bf = store bf (o + x) v) :
    ∃ buf', forLoop n body buf = some buf' ∧ Filled F len (o + n) buf' := by
  apply forLoop_inv (fun i bf => Filled F len (o + i) bf) body n buf hF
  intro i t hi ht
  obtain ⟨v, hv, hbody⟩ := hb i hi t
  obtain ⟨t', ht', hF'⟩ := Filled_store F len (o + i) t v ht (by omega) hv
  exact ⟨t', by rw [hbody, ht'], hF'⟩

/-! ## Index arithmetic -/

theorem flat_lt (w h d q z y x c : Nat) (hx : x < w) (hy : y < h) (hz : z < d) (hq : q < c) :
    w * h * d * q + ((z * h + y) * w + x) < w * h * d * c := by
  have h1 : z * h + y + 1 ≤ d * h := by
    have : (z + 1) * h ≤ d * h := Nat.mul_le_mul_right h hz
    nlinarith
  have h2 : (z * h + y) * w + x < d * h * w := by
    have : (z * h + y + 1) * w ≤ d * h * w := Nat.mul_le_mul_right w h1
    nlinarith
  have h3 : w * h * d * (q + 1) ≤ w * h * d * c := Nat.mul_le_mul_left _ hq
  nlinarith

theorem dec_x (w h d q z y x : Nat) (hx : x < w) :
    (w * h * d * q + ((z * h + y) * w + x)) % w = x := by
  have : w * h * d * q + ((z * h + y) * w + x) = w * (h * d * q + z * h + y) + x := by ring
  rw [this, Nat.mul_add_mod, Nat.mod_eq_of_lt hx]

theorem dec_row (w h d q z y x : Nat) (hx : x < w) :
    (w * h * d * q + ((z * h + y) * w + x)) / w = h * (d * q + z) + y := by
  have : w * h * d * q + ((z * h + y) * w + x) = w * (h * (d * q + z) + y) + x := by ring
  rw [this, Nat.mul_add_div (by omega), Nat.div_eq_of_lt hx, Nat.add_zero]

theorem dec_y (w h d q z y x : Nat) (hx : x < w) (hy : y < h) :
    (w * h * d * q + ((z * h + y) * w + x)) / w % h = y := by
  rw [dec_row w h d q z y x hx, Nat.mul_add_mod, Nat.mod_eq_of_lt hy]

theorem dec_slab (w h d q z y x : Nat) (hx : x < w) (hy : y < h) :
    (w * h * d * q + ((z * h + y) * w + x)) / (w * h) = d * q + z := by
  rw [← Nat.div_div_eq_div_mul, dec_row w h d q z y x hx, Nat.mul_add_div (by omega),
    Nat.div_eq_of_lt hy, Nat.add_zero]

theorem dec_z (w h d q z y x : Nat) (hx : x < w) (hy : y < h) (hz : z < d) :
    (w * h * d * q + ((z * h + y) * w + x)) / (w * h) % d = z := by
  rw [dec_slab w h d q z y x hx hy, Nat.mul_add_mod, Nat.mod_eq_of_lt hz]

theorem dec_q (w h d q z y x : Nat) (hx : x < w) (hy : y < h) (hz : z < d) :
    (w * h * d * q + ((z * h + y) * w + x)) / (w * h * d) = q := by
  rw [← Nat.div_div_eq_div_mul, dec_slab w h d q z y x hx hy, Nat.mul_add_div (by omega),
    Nat.div_eq_of_lt hz, Nat.add_zero]

theorem dec_q_run (s q i : Nat) (hi : i < s) : (s * q + i) / s = q := by
  rw [Nat.mul_add_div (by omega), Nat.div_eq_of_lt hi, Nat.add_zero]

/-! ## Kernel characterisations -/

section KernelFacts
variable {α : Type}

/-- A row loop whose second argument is the fixed value `b0` fills `n` cells. -/
theorem row_const (op : α → α → α) (a b : Mat α) (bidx : Nat → Nat) (len p o n k : Nat)
    (b0 : α) (buf : Buf α) (hp : p = o)
    (hk : b.data[k]? = some b0) (hidx : ∀ x, x < n → bidx (o + x) = k)
    (ha : o + n ≤ a.data.length) (hle : o + n ≤ len)
    (hF : Filled (bcast op a b bidx) len o buf) :
    ∃ buf', forLoop n (fun x bf => do
        let v ← a.data[p + x]?
        store bf (o + x) (op v b0)) buf = some buf'
      ∧ Filled (bcast op a b bidx) len (o + n) buf' := by
  subst hp
  apply forLoop_fill _ len p n _ buf hF hle
  intro x hx bf
  have hx' : p + x < a.data.length := by omega
  refine ⟨op (a.data[p + x]) b0, ?_, ?_⟩
  · simp [bcast, hidx x hx, hk, List.getElem?_eq_getElem hx']
  · simp [List.getElem?_eq_getElem hx']

/-- A row loop reading both operands along the row fills `n` cells. -/
theorem row_pair (op : α → α → α) (a b : Mat α) (bidx : Nat → Nat) (len p p1 o n : Nat)
    (buf : Buf α) (hp : p = o)
    (hidx : ∀ x, x < n → bidx (o + x) = p1 + x)
    (ha : o + n ≤ a.data.length) (hb : p1 + n ≤ b.data.length) (hle : o + n ≤ len)
    (hF : Filled (bcast op a b bidx) len o buf) :
    ∃ buf', forLoop n (fun x bf => do
        let v ← a.data[p + x]?
        let v1 ← b.data[p1 + x]?
        store bf (o + x) (op v v1)) buf = some buf'
      ∧ Filled (bcast op a b bidx) len (o + n) buf' := by
  subst hp
  apply forLoop_fill _ len p n _ buf hF hle
  intro x hx bf
  have hx' : p + x < a.data.length := by omega
  have hx1 : p1 + x < b.data.length := by omega
  refine ⟨op (a.data[p + x]) (b.data[p1 + x]), ?_, ?_⟩
  · simp [bcast, hidx x hx, List.getElem?_eq_getElem hx', List.getElem?_eq_getElem hx1]
  · simp [List.getElem?_eq_getElem hx', List.getElem?_eq_getElem hx1]

theorem inner_34_1_fill (op : α → α → α) (a b : Mat α) (c : Top α) (buf : Buf α) (len : Nat)
    (hs : SameShape c a) (ha1 : a.elempack = 1)
    (halen : a.data.length = len) (hlen : len = a.w * a.h * a.d * a.c)
    (hb : a.c ≤ b.data.length)
    (hF : Filled (bcast op a b (fun j => j / (a.w * a.h * a.d))) len 0 buf) :
    ∃ buf', tmpl.inner_34_1 op a b c buf = some buf'
      ∧ Filled (bcast op a b (fun j => j / (a.w * a.h * a.d))) len len buf' := by
  obtain ⟨-, hcw, hch, hcd, -, hce⟩ := hs
  unfold tmpl.inner_34_1
  have key := forLoop_inv
    (fun q bf => Filled (bcast op a b (fun j => j / (a.w * a.h * a.d))) len (a.w * a.h * a.d * q) bf)
    (fun q buf => do
      let ptr := a.channel q
      let b0 ← b.data[q]?
      let outptr := c.channel q
      forLoop (a.w * a.h * a.d) (fun i buf => do
        let v ← a.data[ptr + i]?
        store buf (outptr + i) (op v b0)) buf) a.c buf (by simpa using hF) ?_
  · obtain ⟨t, ht, hP⟩ := key
    exact ⟨t, ht, by rw [← hlen] at hP; exact hP⟩
  · intro q t hq ht
    have hbq : q < b.data.length := by omega
    have hrun : a.w * a.h * a.d * q + a.w * a.h * a.d ≤ a.w * a.h * a.d * a.c := by
      have := Nat.mul_le_mul_left (a.w * a.h * a.d) (Nat.succ_le_of_lt hq)
      simpa [Nat.mul_succ] using this
    have hrow := row_const op a b (fun j => j / (a.w * a.h * a.d)) len (a.channel q)
      (a.w * a.h * a.d * q) (a.w * a.h * a.d) q (b.data[q]) t
      (by simp [Mat.channel, ha1]) (List.getElem?_eq_getElem hbq)
      (fun x hx => dec_q_run _ q x hx) (by omega) (by omega) ht
    obtain ⟨t', ht', hF'⟩ := hrow
    refine ⟨t', ?_, by simpa [Nat.mul_succ] using hF'⟩
    have hco : c.channel q = a.w * a.h * a.d * q := by simp [Mat.channel, hcw, hch, hcd, hce, ha1]
    simp only [List.getElem?_eq_getElem hbq, hco]
    exact ht'

end KernelFacts

section KernelFacts2
variable {α : Type}

/-- Goal-directed form of `forLoop_inv`: the invariant at exit gives `Q`. -/
theorem forLoop_inv_to {σ : Type} (P : Nat → σ → Prop) (Q : σ → Prop)
    (body : Nat → σ → Option σ) (n : Nat) (s : σ)
    (h0 : P 0 s)
    (hstep : ∀ i t, i < n → P i t → ∃ t', body i t = some t' ∧ P (i + 1) t')
    (hfin : ∀ t, P n t → Q t) :
    ∃ t, forLoop n body s = some t ∧ Q t := by
  obtain ⟨t, ht, hP⟩ := forLoop_inv P body n s h0 hstep
  exact ⟨t, ht, hfin t hP⟩

/-- A loop over rows whose state `(ptr, outptr, buf)` is bumped by `w` per row. -/
theorem bump_rows (F : Nat → Option α) (len w n cur fin : Nat)
    (body : Nat → Nat × Nat × Buf α → Option (Nat × Nat × Buf α)) (p o : Nat) (buf : Buf α)
    (hp : p = cur) (ho : o = cur) (hfin : fin = cur + n * w)
    (hF : Filled F len cur buf)
    (hstep : ∀ y bf, y < n → Filled F len (cur + y * w) bf →
      ∃ bf', body y (cur + y * w, cur + y * w, bf) = some (cur + (y + 1) * w, cur + (y + 1) * w, bf')
        ∧ Filled F len (cur + (y + 1) * w) bf') :
    ∃ bf', forLoop n body (p, o, buf) = some (fin, fin, bf') ∧ Filled F len fin bf' := by
  rw [hp, ho, hfin]
  have key := forLoop_inv
    (fun y (st : Nat × Nat × Buf α) =>
      st.1 = cur + y * w ∧ st.2.1 = cur + y * w ∧ Filled F len (cur + y * w) st.2.2)
    body n (cur, cur, buf) (by simpa using hF) ?_
  · obtain ⟨⟨p', o', bf⟩, ht, hp, ho, hfill⟩ := key
    simp only at hp ho hfill
    subst hp ho
    exact ⟨bf, ht, hfill⟩
  · rintro y ⟨p', o', bf⟩ hy ⟨hp, ho, hfill⟩
    simp only at hp ho hfill
    subst hp ho
    obtain ⟨bf', hb, hf'⟩ := hstep y bf hy hfill
    exact ⟨_, hb, rfl, rfl, hf'⟩

/-- The same loop when only the storage is kept at exit. -/
theorem bump_rows_buf (F : Nat → Option α) (len w n cur fin : Nat)
    (body : Nat → Nat × Nat × Buf α → Option (Nat × Nat × Buf α)) (p o : Nat) (buf : Buf α)
    (hp : p = cur) (ho : o = cur) (hfin : fin = cur + n * w)
    (hF : Filled F len cur buf)
    (hstep : ∀ y bf, y < n → Filled F len (cur + y * w) bf →
      ∃ bf', body y (cur + y * w, cur + y * w, bf) = some (cur + (y + 1) * w, cur + (y + 1) * w, bf')
        ∧ Filled F len (cur + (y + 1) * w) bf') :
    ∃ bf', (forLoop n body (p, o, buf)).map (fun st => st.2.2) = some bf'
      ∧ Filled F len fin bf' := by
  obtain ⟨bf', hb, hf⟩ := bump_rows F len w n cur fin body p o buf hp ho hfin hF hstep
  exact ⟨bf', by simp [hb], hf⟩

theorem run_le (s q c : Nat) (hq : q < c) : s * q + s ≤ s * c := by
  have := Nat.mul_le_mul_left s (Nat.succ_le_of_lt hq)
  simpa [Nat.mul_succ] using this

theorem inner_3_2_fill (op : α → α → α) (a b : Mat α) (c : Top α) (buf : Buf α) (len : Nat)
    (hs : SameShape c a) (ha1 : a.elempack = 1) (hb1 : b.elempack = 1) (hd : a.d = 1)
    (halen : a.data.length = len) (hlen : len = a.w * a.h * a.d * a.c)
    (hb : b.w * a.c ≤ b.data.length) (hbw : a.h ≤ b.w)
    (hF : Filled (bcast op a b (fun j => b.w * (j / (a.w * a.h * a.d)) + j / a.w % a.h)) len 0 buf) :
    ∃ buf', tmpl.inner_3_2 op a b c buf = some buf'
      ∧ Filled (bcast op a b (fun j => b.w * (j / (a.w * a.h * a.d)) + j / a.w % a.h))
          len len buf' := by
  obtain ⟨-, hcw, hch, hcd, -, hce⟩ := hs
  unfold tmpl.inner_3_2
  dsimp only
  refine forLoop_inv_to
    (fun q bf => Filled (bcast op a b (fun j => b.w * (j / (a.w * a.h * a.d)) + j / a.w % a.h))
      len (a.w * a.h * a.d * q) bf) _ _ a.c buf (by simpa using hF) ?_
      (fun t hP => by dsimp only at hP; rw [← hlen] at hP; exact hP)
  intro q t hq ht
  have hrun := run_le (a.w * a.h * a.d) q a.c hq
  have hco : c.channel q = a.w * a.h * a.d * q := by simp [Mat.channel, hcw, hch, hcd, hce, ha1]
  have hao : a.channel q = a.w * a.h * a.d * q := by simp [Mat.channel, ha1]
  refine bump_rows_buf _ len a.w a.h (a.w * a.h * a.d * q) _ _ _ _ t hao hco
    (by rw [hd]; ring) ht ?_
  intro y bf hy hfill
  have hbq : b.row q + y < b.data.length := by
    have : b.w * q + b.w ≤ b.w * a.c := run_le b.w q a.c hq
    simp only [Mat.row, hb1]; omega
  have hrowle : a.w * a.h * a.d * q + y * a.w + a.w ≤ a.w * a.h * a.d * q + a.w * a.h * a.d := by
    have : (y + 1) * a.w ≤ a.h * a.w := Nat.mul_le_mul_right _ hy
    rw [hd]; nlinarith
  obtain ⟨bf', hb', hf'⟩ := row_const op a b
    (fun j => b.w * (j / (a.w * a.h * a.d)) + j / a.w % a.h) len
    (a.w * a.h * a.d * q + y * a.w) (a.w * a.h * a.d * q + y * a.w) a.w (b.row q + y)
    (b.data[b.row q + y]) bf rfl (List.getElem?_eq_getElem hbq)
    (fun x hx => by
      have e : a.w * a.h * a.d * q + y * a.w + x
          = a.w * a.h * a.d * q + ((0 * a.h + y) * a.w + x) := by ring
      simp only [e, dec_q _ _ _ _ _ _ _ hx hy (by omega : 0 < a.d), dec_y _ _ _ _ _ _ _ hx hy,
        Mat.row, hb1, Nat.mul_one])
    (by omega) (by omega) hfill
  have e : a.w * a.h * a.d * q + (y + 1) * a.w = a.w * a.h * a.d * q + y * a.w + a.w := by
    ring
  refine ⟨bf', ?_, by rw [e]; exact hf'⟩
  simp only [Option.bind_eq_bind] at hb'
  simp only [List.getElem?_eq_getElem hbq, Option.bind_eq_bind, Option.some_bind, hb',
    Option.pure_def, e]

end KernelFacts2

section KernelFacts3
variable {α : Type}

/-- A row loop with the fixed second argument `b0`, for any owed-value map that
agrees with it on the row. -/
theorem row_value (F : Nat → Option α) (op : α → α → α) (a : Mat α) (len p o n : Nat)
    (b0 : α) (buf : Buf α) (hp : p = o)
    (hFx : ∀ x, x < n → F (o + x) = (a.data[o + x]?).map fun v => op v b0)
    (ha : o + n ≤ a.data.length) (hle : o + n ≤ len)
    (hF : Filled F len o buf) :
    ∃ buf', forLoop n (fun x bf => do
        let v ← a.data[p + x]?
        store bf (o + x) (op v b0)) buf = some buf'
      ∧ Filled F len (o + n) buf' := by
  subst hp
  apply forLoop_fill _ len p n _ buf hF hle
  intro x hx bf
  have hx' : p + x < a.data.length := by omega
  refine ⟨op (a.data[p + x]) b0, ?_, ?_⟩
  · simp [hFx x hx, List.getElem?_eq_getElem hx']
  · simp [List.getElem?_eq_getElem hx']

theorem scalar_fill (op : α → α → α) (a : Mat α) (b0 : α) (c : Top α) (len : Nat)
    (hs : SameShape c a) (ha1 : a.elempack = 1)
    (halen : a.data.length = len) (hlen : len = a.w * a.h * a.d * a.c)
    (hF : Filled (fun j => (a.data[j]?).map fun v => op v b0) len 0 c.data) :
    ∃ buf', tmpl.binary_op_scalar op a b0 c = some (0, { c with data := buf' })
      ∧ Filled (fun j => (a.data[j]?).map fun v => op v b0) len len buf' := by
  obtain ⟨-, hcw, hch, hcd, -, hce⟩ := hs
  unfold tmpl.binary_op_scalar
  dsimp only
  have key : ∃ buf', forLoop a.c (fun q buf =>
      forLoop (a.w * a.h * a.d) (fun i buf => do
        let v ← a.data[a.channel q + i]?
        store buf (c.channel q + i) (op v b0)) buf) c.data = some buf'
      ∧ Filled (fun j => (a.data[j]?).map fun v => op v b0) len len buf' := by
    refine forLoop_inv_to
      (fun q bf => Filled (fun j => (a.data[j]?).map fun v => op v b0) len (a.w * a.h * a.d * q) bf)
      _ _ a.c c.data (by simpa using hF) ?_
      (fun t hP => by dsimp only at hP; rw [← hlen] at hP; exact hP)
    intro q t hq ht
    have hrun := run_le (a.w * a.h * a.d) q a.c hq
    have hco : c.channel q = a.w * a.h * a.d * q := by simp [Mat.channel, hcw, hch, hcd, hce, ha1]
    have hao : a.channel q = a.w * a.h * a.d * q := by simp [Mat.channel, ha1]
    dsimp only
    rw [hco, hao, Nat.mul_add_one]
    exact row_value _ op a len _ _ _ b0 t rfl (fun x _ => rfl) (by omega) (by omega) ht
  obtain ⟨buf', hb, hf⟩ := key
  exact ⟨buf', by rw [hb]; rfl, hf⟩

theorem inner_2_1_fill (op : α → α → α) (a b : Mat α) (c : Top α) (buf : Buf α) (len : Nat)
    (hs : SameShape c a) (ha1 : a.elempack = 1)
    (halen : a.data.length = len) (hlen : len = a.w * a.h)
    (hb : a.h ≤ b.data.length)
    (hF : Filled (bcast op a b (fun j => j / a.w)) len 0 buf) :
    ∃ buf', tmpl.inner_2_1 op a b c buf = some buf'
      ∧ Filled (bcast op a b (fun j => j / a.w)) len len buf' := by
  obtain ⟨-, hcw, hch, hcd, -, hce⟩ := hs
  unfold tmpl.inner_2_1
  dsimp only
  refine forLoop_inv_to
    (fun y bf => Filled (bcast op a b (fun j => j / a.w)) len (a.w * y) bf)
    _ _ a.h buf (by simpa using hF) ?_
    (fun t hP => by dsimp only at hP; rw [← hlen] at hP; exact hP)
  intro y t hy ht
  have hrun := run_le a.w y a.h hy
  have hby : y < b.data.length := by omega
  have hco : c.row y = a.w * y := by simp [Mat.row, hcw, hce, ha1]
  have hao : a.row y = a.w * y := by simp [Mat.row, ha1]
  obtain ⟨bf', hb', hf'⟩ := row_const op a b (fun j => j / a.w) len (a.w * y) (a.w * y) a.w y
    (b.data[y]) t rfl (List.getElem?_eq_getElem hby) (fun x hx => dec_q_run a.w y x hx)
    (by omega) (by omega) ht
  simp only [Option.bind_eq_bind] at hb'
  refine ⟨bf', ?_, by dsimp only; rw [Nat.mul_add_one]; exact hf'⟩
  simp only [List.getElem?_eq_getElem hby, Option.bind_eq_bind, Option.some_bind, hco, hao, hb']

theorem outer_2_fill (op : α → α → α) (a b : Mat α) (c : Top α) (buf : Buf α) (len : Nat)
    (hs : SameShape c a) (ha1 : a.elempack = 1)
    (halen : a.data.length = len) (hlen : len = a.w * a.h)
    (hb : a.w ≤ b.data.length)
    (hF : Filled (bcast op a b (fun j => j % a.w)) len 0 buf) :
    ∃ buf', tmpl.outer_2 op a b c buf = some buf'
      ∧ Filled (bcast op a b (fun j => j % a.w)) len len buf' := by
  obtain ⟨-, hcw, hch, hcd, -, hce⟩ := hs
  unfold tmpl.outer_2
  dsimp only
  refine forLoop_inv_to
    (fun y bf => Filled (bcast op a b (fun j => j % a.w)) len (a.w * y) bf)
    _ _ a.h buf (by simpa using hF) ?_
    (fun t hP => by dsimp only at hP; rw [← hlen] at hP; exact hP)
  intro y t hy ht
  have hrun := run_le a.w y a.h hy
  have hco : c.row y = a.w * y := by simp [Mat.row, hcw, hce, ha1]
  have hao : a.row y = a.w * y := by simp [Mat.row, ha1]
  dsimp only
  rw [hco, hao, Nat.mul_add_one]
  exact row_pair op a b (fun j => j % a.w) len _ 0 _ a.w t rfl
    (fun x hx => by simp [Nat.mul_add_mod, Nat.mod_eq_of_lt hx])
    (by omega) (by omega) (by omega) ht

end KernelFacts3

section KernelFacts4
variable {α : Type}

theorem slab_le (w h d z y : Nat) (hz : z < d) (hy : y < h) :
    z * (h * w) + y * w + w ≤ w * h * d := by
  have h1 : (z + 1) * h ≤ d * h := Nat.mul_le_mul_right h hz
  have h2 : (z * h + y + 1) * w ≤ d * h * w := Nat.mul_le_mul_right w (by nlinarith)
  nlinarith

theorem inner_4_2_fill (op : α → α → α) (a b : Mat α) (c : Top α) (buf : Buf α) (len : Nat)
    (hs : SameShape c a) (ha1 : a.elempack = 1) (hb1 : b.elempack = 1)
    (halen : a.data.length = len) (hlen : len = a.w * a.h * a.d * a.c)
    (hb : b.w * a.c ≤ b.data.length) (hbw : a.d ≤ b.w)
    (hF : Filled (bcast op a b
      (fun j => b.w * (j / (a.w * a.h * a.d)) + j / (a.w * a.h) % a.d)) len 0 buf) :
    ∃ buf', tmpl.inner_4_2 op a b c buf = some buf'
      ∧ Filled (bcast op a b
          (fun j => b.w * (j / (a.w * a.h * a.d)) + j / (a.w * a.h) % a.d)) len len buf' := by
  obtain ⟨-, hcw, hch, hcd, -, hce⟩ := hs
  unfold tmpl.inner_4_2
  dsimp only
  refine forLoop_inv_to
    (fun q bf => Filled (bcast op a b
      (fun j => b.w * (j / (a.w * a.h * a.d)) + j / (a.w * a.h) % a.d)) len (a.w * a.h * a.d * q) bf)
    _ _ a.c buf (by simpa using hF) ?_
    (fun t hP => by dsimp only at hP; rw [← hlen] at hP; exact hP)
  intro q t hq ht
  have hrun := run_le (a.w * a.h * a.d) q a.c hq
  have hco : c.channel q = a.w * a.h * a.d * q := by simp [Mat.channel, hcw, hch, hcd, hce, ha1]
  have hao : a.channel q = a.w * a.h * a.d * q := by simp [Mat.channel, ha1]
  dsimp only
  refine bump_rows_buf _ len (a.h * a.w) a.d (a.w * a.h * a.d * q) _ _ _ _ t hao hco
    (by ring) ht ?_
  intro z bf hz hfill
  have hbq : b.row q + z < b.data.length := by
    have : b.w * q + b.w ≤ b.w * a.c := run_le b.w q a.c hq
    simp only [Mat.row, hb1]; omega
  simp only [List.getElem?_eq_getElem hbq, Option.bind_eq_bind, Option.some_bind]
  refine bump_rows _ len a.w a.h (a.w * a.h * a.d * q + z * (a.h * a.w)) _ _ _ _ bf rfl rfl
    (by ring) hfill ?_
  intro y bf2 hy hfill2
  have hsl := slab_le a.w a.h a.d z y hz hy
  obtain ⟨bf', hb', hf'⟩ := row_const op a b
    (fun j => b.w * (j / (a.w * a.h * a.d)) + j / (a.w * a.h) % a.d) len
    (a.w * a.h * a.d * q + z * (a.h * a.w) + y * a.w)
    (a.w * a.h * a.d * q + z * (a.h * a.w) + y * a.w) a.w (b.row q + z)
    (b.data[b.row q + z]) bf2 rfl (List.getElem?_eq_getElem hbq)
    (fun x hx => by
      have e : a.w * a.h * a.d * q + z * (a.h * a.w) + y * a.w + x
          = a.w * a.h * a.d * q + ((z * a.h + y) * a.w + x) := by ring
      simp only [e, dec_q _ _ _ _ _ _ _ hx hy hz, dec_z _ _ _ _ _ _ _ hx hy hz,
        Mat.row, hb1, Nat.mul_one])
    (by omega) (by omega) hfill2
  have e : a.w * a.h * a.d * q + z * (a.h * a.w) + (y + 1) * a.w
      = a.w * a.h * a.d * q + z * (a.h * a.w) + y * a.w + a.w := by ring
  simp only [Option.bind_eq_bind] at hb'
  refine ⟨bf', ?_, by rw [e]; exact hf'⟩
  simp only [Option.bind_eq_bind, Option.some_bind, hb', Option.pure_def, e]

theorem outer_34_fill (op : α → α → α) (a b : Mat α) (c : Top α) (buf : Buf α) (len : Nat)
    (hs : SameShape c a) (ha1 : a.elempack = 1) (hb1 : b.elempack = 1)
    (halen : a.data.length = len) (hlen : len = a.w * a.h * a.d * a.c)
    (hb : ∀ z y, z < a.d → y < a.h →
      b.w * b.h * min z (b.d - 1) + b.w * min y (b.h - 1) + a.w ≤ b.data.length)
    (hF : Filled (bcast op a b (fun j => b.w * b.h * min (j / (a.w * a.h) % a.d) (b.d - 1)
      + b.w * min (j / a.w % a.h) (b.h - 1) + j % a.w)) len 0 buf) :
    ∃ buf', tmpl.outer_34_nat op a b c buf = some buf'
      ∧ Filled (bcast op a b (fun j => b.w * b.h * min (j / (a.w * a.h) % a.d) (b.d - 1)
          + b.w * min (j / a.w % a.h) (b.h - 1) + j % a.w)) len len buf' := by
  obtain ⟨-, hcw, hch, hcd, -, hce⟩ := hs
  unfold tmpl.outer_34_nat
  dsimp only
  refine forLoop_inv_to
    (fun q bf => Filled (bcast op a b (fun j => b.w * b.h * min (j / (a.w * a.h) % a.d) (b.d - 1)
      + b.w * min (j / a.w % a.h) (b.h - 1) + j % a.w)) len (a.w * a.h * a.d * q) bf)
    _ _ a.c buf (by simpa using hF) ?_
    (fun t hP => by dsimp only at hP; rw [← hlen] at hP; exact hP)
  intro q t hq ht
  have hrun := run_le (a.w * a.h * a.d) q a.c hq
  have hco : c.channel q = a.w * a.h * a.d * q := by simp [Mat.channel, hcw, hch, hcd, hce, ha1]
  have hao : a.channel q = a.w * a.h * a.d * q := by simp [Mat.channel, ha1]
  dsimp only
  refine bump_rows_buf _ len (a.h * a.w) a.d (a.w * a.h * a.d * q) _ _ _ _ t hao hco
    (by ring) ht ?_
  intro z bf hz hfill
  refine bump_rows _ len a.w a.h (a.w * a.h * a.d * q + z * (a.h * a.w)) _ _ _ _ bf rfl rfl
    (by ring) hfill ?_
  intro y bf2 hy hfill2
  have hsl := slab_le a.w a.h a.d z y hz hy
  obtain ⟨bf', hb', hf'⟩ := row_pair op a b
    (fun j => b.w * b.h * min (j / (a.w * a.h) % a.d) (b.d - 1)
      + b.w * min (j / a.w % a.h) (b.h - 1) + j % a.w) len
    (a.w * a.h * a.d * q + z * (a.h * a.w) + y * a.w)
    (b.depth (min z (b.d - 1)) + b.row (min y (b.h - 1)))
    (a.w * a.h * a.d * q + z * (a.h * a.w) + y * a.w) a.w bf2 rfl
    (fun x hx => by
      have e : a.w * a.h * a.d * q + z * (a.h * a.w) + y * a.w + x
          = a.w * a.h * a.d * q + ((z * a.h + y) * a.w + x) := by ring
      simp only [e, dec_x _ _ _ _ _ _ _ hx, dec_z _ _ _ _ _ _ _ hx hy hz,
        dec_y _ _ _ _ _ _ _ hx hy, Mat.row, Mat.depth, hb1, Nat.mul_one])
    (by omega) (by have := hb z y hz hy; simp only [Mat.row, Mat.depth, hb1, Nat.mul_one]; omega)
    (by omega) hfill2
  have e : a.w * a.h * a.d * q + z * (a.h * a.w) + (y + 1) * a.w
      = a.w * a.h * a.d * q + z * (a.h * a.w) + y * a.w + a.w := by ring
  simp only [Option.bind_eq_bind] at hb'
  refine ⟨bf', ?_, by rw [e]; exact hf'⟩
  simp only [Option.bind_eq_bind, Option.some_bind, hb', Option.pure_def, e]

end KernelFacts4

section FreshFacts
variable {α : Type}

theorem create_like_not_empty (A : Mat α) (h1 : A.elempack = 1)
    (hne : 0 < A.w * A.h * A.d * A.c) : (A.create_like true : Top α).empty = false := by
  have h : A.w * A.h * A.d * A.c ≠ 0 := by omega
  simp [Mat.empty, Mat.create_like, h1, h, List.isEmpty_iff]

theorem create_like_shape (A : Mat α) (al : Bool) : SameShape (A.create_like al : Top α) A :=
  ⟨rfl, rfl, rfl, rfl, rfl, rfl⟩

theorem Filled_fresh (F : Nat → Option α) (len : Nat) :
    Filled F len 0 (List.replicate len []) := by
  refine ⟨by simp, fun j hj => ⟨fun h => absurd h (by omega), fun _ => ?_⟩⟩
  simp [List.getElem?_replicate, hj]

theorem create_like_filled (F : Nat → Option α) (A : Mat α) (h1 : A.elempack = 1) :
    Filled F (A.w * A.h * A.d * A.c) 0 (A.create_like true : Top α).data := by
  simpa [Mat.create_like, h1] using Filled_fresh F (A.w * A.h * A.d * A.c)

end FreshFacts

section DispatchFacts
variable {α : Type} [Add α] [Sub α] [Mul α] [Div α] [Max α] [Min α]

theorem functor_of_in_table (powf : α → α → α) (t : Int) (ht : in_table t) :
    ∃ op, functor_of powf t = some op := by
  obtain ⟨h0, h9⟩ := ht
  interval_cases t <;> simp [functor_of, Operation_ADD, Operation_SUB, Operation_MUL, Operation_DIV,
    Operation_MAX, Operation_MIN, Operation_POW, Operation_RSUB, Operation_RDIV, Operation_RPOW]

theorem op_type_cases (t : Int) :
    t = Operation_ADD ∨ t = Operation_SUB ∨ t = Operation_MUL ∨ t = Operation_DIV
      ∨ t = Operation_MAX ∨ t = Operation_MIN ∨ t = Operation_POW ∨ t = Operation_RSUB
      ∨ t = Operation_RDIV ∨ t = Operation_RPOW
      ∨ (t ≠ Operation_ADD ∧ t ≠ Operation_SUB ∧ t ≠ Operation_MUL ∧ t ≠ Operation_DIV
        ∧ t ≠ Operation_MAX ∧ t ≠ Operation_MIN ∧ t ≠ Operation_POW ∧ t ≠ Operation_RSUB
        ∧ t ≠ Operation_RDIV ∧ t ≠ Operation_RPOW) := by
  simp only [Operation_ADD, Operation_SUB, Operation_MUL, Operation_DIV, Operation_MAX,
    Operation_MIN, Operation_POW, Operation_RSUB, Operation_RDIV, Operation_RPOW]
  omega

theorem binary_op_scalar_eq (powf : α → α → α) (a : Mat α) (b : α) (c : Top α) (t : Int) :
    binary_op_scalar powf a b c t = match functor_of powf t with
      | some op => tmpl.binary_op_scalar op a b c
      | none => some (0, c) := by
  rcases op_type_cases t with h | h | h | h | h | h | h | h | h | h | h
  iterate 10 (subst h; rfl)
  obtain ⟨h0, h1, h2, h3, h4, h5, h6, h7, h8, h9⟩ := h
  simp only [binary_op_scalar, functor_of, if_neg h0, if_neg h1, if_neg h2, if_neg h3, if_neg h4,
    if_neg h5, if_neg h6, if_neg h7, if_neg h8, if_neg h9]

theorem binary_op_no_broadcast_eq (powf : α → α → α) (a b : Mat α) (c : Top α) (t : Int) :
    binary_op_no_broadcast powf a b c t = match functor_of powf t with
      | some op => tmpl.binary_op_no_broadcast op a b c
      | none => some (0, c) := by
  rcases op_type_cases t with h | h | h | h | h | h | h | h | h | h | h
  iterate 10 (subst h; rfl)
  obtain ⟨h0, h1, h2, h3, h4, h5, h6, h7, h8, h9⟩ := h
  simp only [binary_op_no_broadcast, functor_of, if_neg h0, if_neg h1, if_neg h2, if_neg h3, if_neg h4,
    if_neg h5, if_neg h6, if_neg h7, if_neg h8, if_neg h9]

theorem binary_op_broadcast_inner_eq (powf : α → α → α) (a b : Mat α) (c : Top α) (t : Int) :
    binary_op_broadcast_inner powf a b c t = match functor_of powf t with
      | some op => tmpl.binary_op_broadcast_inner op a (squeeze_inner_axes b) c
      | none => some (0, c) := by
  rcases op_type_cases t with h | h | h | h | h | h | h | h | h | h | h
  iterate 10 (subst h; rfl)
  obtain ⟨h0, h1, h2, h3, h4, h5, h6, h7, h8, h9⟩ := h
  simp only [binary_op_broadcast_inner, functor_of, if_neg h0, if_neg h1, if_neg h2, if_neg h3, if_neg h4,
    if_neg h5, if_neg h6, if_neg h7, if_neg h8, if_neg h9]

theorem binary_op_broadcast_outer_eq (powf : α → α → α) (a b : Mat α) (c : Top α) (t : Int) :
    binary_op_broadcast_outer powf a b c t = match functor_of powf t with
      | some op => tmpl.binary_op_broadcast_outer op a b c
      | none => some (0, c) := by
  rcases op_type_cases t with h | h | h | h | h | h | h | h | h | h | h
  iterate 10 (subst h; rfl)
  obtain ⟨h0, h1, h2, h3, h4, h5, h6, h7, h8, h9⟩ := h
  simp only [binary_op_broadcast_outer, functor_of, if_neg h0, if_neg h1, if_neg h2, if_neg h3, if_neg h4,
    if_neg h5, if_neg h6, if_neg h7, if_neg h8, if_neg h9]

theorem binary_op_broadcast_20_eq (powf : α → α → α) (a b : Mat α) (c : Top α) (t : Int) :
    binary_op_broadcast_20 powf a b c t = match functor_of powf t with
      | some op => tmpl.binary_op_broadcast_20 op a b c
      | none => some (0, c) := by
  rcases op_type_cases t with h | h | h | h | h | h | h | h | h | h | h
  iterate 10 (subst h; rfl)
  obtain ⟨h0, h1, h2, h3, h4, h5, h6, h7, h8, h9⟩ := h
  simp only [binary_op_broadcast_20, functor_of, if_neg h0, if_neg h1, if_neg h2, if_neg h3, if_neg h4,
    if_neg h5, if_neg h6, if_neg h7, if_neg h8, if_neg h9]

theorem forward_inplace_eq (powf : α → α → α) (self : BinaryOp α) (m : Mat α) :
    self.forward_inplace powf m = match functor_of powf self.op_type with
      | some op => tmpl.binary_op_scalar_inplace op m self.b
      | none => some (0, m) := by
  obtain ⟨t, ws, b, ob, si⟩ := self
  rcases op_type_cases t with h | h | h | h | h | h | h | h | h | h | h
  iterate 10 (subst h; rfl)
  obtain ⟨h0, h1, h2, h3, h4, h5, h6, h7, h8, h9⟩ := h
  simp only [BinaryOp.forward_inplace, functor_of, if_neg h0, if_neg h1, if_neg h2, if_neg h3,
    if_neg h4, if_neg h5, if_neg h6, if_neg h7, if_neg h8, if_neg h9]

theorem forward_scalar_eq (powf : α → α → α) (self : BinaryOp α) (X Y : Mat α) (opt : NcnnOption)
    (op : α → α → α) (b0 : α)
    (hal : opt.blob_allocator = true) (h1 : (dominant X Y).elempack = 1)
    (hne : 0 < (dominant X Y).w * (dominant X Y).h * (dominant X Y).d * (dominant X Y).c)
    (hop : functor_of powf (op_type_r self.op_type X Y) = some op)
    (hs : is_scalar (subordinate X Y)) (hb0 : (subordinate X Y).data[0]? = some b0) :
    self.forward powf X Y opt
      = tmpl.binary_op_scalar op (dominant X Y) b0 ((dominant X Y).create_like true) := by
  unfold BinaryOp.forward
  simp only [hal, create_like_not_empty _ h1 hne, hs, hb0, binary_op_scalar_eq, hop]
  simp

theorem forward_inner_eq (powf : α → α → α) (self : BinaryOp α) (X Y : Mat α) (opt : NcnnOption)
    (op : α → α → α)
    (hal : opt.blob_allocator = true) (h1 : (dominant X Y).elempack = 1)
    (hne : 0 < (dominant X Y).w * (dominant X Y).h * (dominant X Y).d * (dominant X Y).c)
    (hop : functor_of powf (op_type_r self.op_type X Y) = some op)
    (hs : ¬ is_scalar (subordinate X Y))
    (hnb : ¬ is_no_broadcast (dominant X Y) (subordinate X Y))
    (hin : is_broadcast_inner (dominant X Y) (subordinate X Y)) :
    self.forward powf X Y opt
      = tmpl.binary_op_broadcast_inner op (dominant X Y)
          (squeeze_inner_axes (subordinate X Y)) ((dominant X Y).create_like true) := by
  unfold BinaryOp.forward
  simp only [hal, create_like_not_empty _ h1 hne, hs, hnb, hin, binary_op_broadcast_inner_eq, hop]
  simp

theorem forward_outer_eq (powf : α → α → α) (self : BinaryOp α) (X Y : Mat α) (opt : NcnnOption)
    (op : α → α → α)
    (hal : opt.blob_allocator = true) (h1 : (dominant X Y).elempack = 1)
    (hne : 0 < (dominant X Y).w * (dominant X Y).h * (dominant X Y).d * (dominant X Y).c)
    (hop : functor_of powf (op_type_r self.op_type X Y) = some op)
    (hs : ¬ is_scalar (subordinate X Y))
    (hnb : ¬ is_no_broadcast (dominant X Y) (subordinate X Y))
    (hin : ¬ is_broadcast_inner (dominant X Y) (subordinate X Y))
    (hout : is_broadcast_outer (dominant X Y) (subordinate X Y)) :
    self.forward powf X Y opt
      = tmpl.binary_op_broadcast_outer op (dominant X Y) (subordinate X Y)
          ((dominant X Y).create_like true) := by
  unfold BinaryOp.forward
  simp only [hal, create_like_not_empty _ h1 hne, hs, hnb, hin, hout,
    binary_op_broadcast_outer_eq, hop]
  simp

end DispatchFacts

/-! ## Operand choice (C1) -/

/-- C1 (as amended): `BinaryOp::forward` swaps its operands exactly when
`bottom_blobs[0]` has fewer dims than `bottom_blobs[1]` and the latter is not
a scalar (`w*h*d*c*elempack ≠ 1`), or `bottom_blobs[0]` has strictly fewer
elements than `bottom_blobs[1]`, whatever the two ranks are. -/
theorem a_is_lower_iff {α : Type} (bottom0 bottom1 : Mat α) :
    a_is_lower bottom0 bottom1 = true ↔
      (bottom0.dims < bottom1.dims
          ∧ bottom1.w * bottom1.h * bottom1.d * bottom1.c * bottom1.elempack ≠ 1)
        ∨ bottom0.w * bottom0.h * bottom0.d * bottom0.c
            < bottom1.w * bottom1.h * bottom1.d * bottom1.c := by
  simp only [a_is_lower, a_rank_is_lower, a_size_is_lower, b_is_scalar]
  by_cases h1 : bottom0.dims < bottom1.dims <;>
  by_cases h2 : bottom1.w * bottom1.h * bottom1.d * bottom1.c * bottom1.elempack = 1 <;>
  by_cases h3 : bottom0.w * bottom0.h * bottom0.d * bottom0.c
            < bottom1.w * bottom1.h * bottom1.d * bottom1.c <;>
  simp [h1, h2, h3]

/-- C1 (as stated) fails: with `bottom_blobs[0]` of shape (h=1, w=2) and
`bottom_blobs[1]` 1-D of length 4 the code swaps, although the second operand
has the lower rank and the ranks differ. -/
theorem a_is_lower_rank_equal_refuted :
    ¬ (a_is_lower sA_1x2 sV4 = true ↔
        (sV4.dims > sA_1x2.dims ∧ sV4.w * sV4.h * sV4.d * sV4.c * sV4.elempack ≠ 1)
          ∨ (sA_1x2.dims = sV4.dims
            ∧ sA_1x2.w * sA_1x2.h * sA_1x2.d * sA_1x2.c < sV4.w * sV4.h * sV4.d * sV4.c)) := by
  decide

/-! ## The swap-induced RSUB scenario (C3) -/

/-- C3 (as stated) fails: with SUB, `bottom_blobs[0] = [1,2,3,4]` and
`bottom_blobs[1]` of shape (c=2, h=2, w=4) filled with 10, the rows of the
output are not `[9,8,7,6]`. -/
theorem swap_rsub_scenario_refuted :
    ((layer Operation_SUB).forward ipow sV4 sT10 opt1).map (fun r => r.2.data)
      ≠ some [[9], [8], [7], [6], [9], [8], [7], [6], [9], [8], [7], [6], [9], [8], [7], [6]] := by
  decide

/-- C3 (as amended): on that input `forward` swaps the operands, uses RSUB as
the effective op, returns 0, and writes every cell once: channel `q` of the
output is filled with `bottom_blobs[0][q] - 10`, that is channel 0 with -9 and
channel 1 with -8. -/
theorem swap_rsub_scenario :
    a_is_lower sV4 sT10 = true
      ∧ op_type_r Operation_SUB sV4 sT10 = Operation_RSUB
      ∧ (layer Operation_SUB).forward ipow sV4 sT10 opt1
        = some (0, ⟨3, 4, 2, 1, 2, 1, List.replicate 8 [-9] ++ List.replicate 8 [-8]⟩) := by
  decide

section
variable {α : Type}

/-- The squeeze step leaves `b`, or yields the empty tensor, or yields a view of
lower rank with the same element count, elempack and storage that the squeeze
step leaves alone. -/
theorem squeeze_cases (b : Mat α) :
    squeeze_inner_axes b = b ∨ squeeze_inner_axes b = Mat.nil
      ∨ ((squeeze_inner_axes b).dims < b.dims
        ∧ (squeeze_inner_axes b).w * (squeeze_inner_axes b).h * (squeeze_inner_axes b).d
            * (squeeze_inner_axes b).c = b.w * b.h * b.d * b.c
        ∧ (squeeze_inner_axes b).elempack = b.elempack
        ∧ (squeeze_inner_axes b).data = b.data
        ∧ squeeze_inner_axes (squeeze_inner_axes b) = squeeze_inner_axes b) := by
  by_cases h1 : b.dims = 2 ∧ b.w = 1
  · have e : squeeze_inner_axes b = b.reshape1 b.h := by
      simp only [squeeze_inner_axes, if_pos h1]
    rw [e]
    by_cases hv : b.w * b.h * b.d * b.c = b.h
    · right; right
      simp [Mat.reshape1, hv, h1.1, squeeze_inner_axes]
    · right; left; simp [Mat.reshape1, hv]
  by_cases h2 : b.dims = 3 ∧ b.h = 1
  · have e : squeeze_inner_axes b = b.reshape1 b.c := by
      simp only [squeeze_inner_axes, if_neg h1, if_pos h2]
    rw [e]
    by_cases hv : b.w * b.h * b.d * b.c = b.c
    · right; right
      simp [Mat.reshape1, hv, h2.1, squeeze_inner_axes]
    · right; left; simp [Mat.reshape1, hv]
  by_cases h3 : b.dims = 3 ∧ b.w = 1
  · have e : squeeze_inner_axes b = b.reshape2 b.h b.c := by
      simp only [squeeze_inner_axes, if_neg h1, if_neg h2, if_pos h3]
    rw [e]
    by_cases hv : b.w * b.h * b.d * b.c = b.h * b.c
    · right; right
      have hh : ¬ b.h = 1 := fun h => h2 ⟨h3.1, h⟩
      simp [Mat.reshape2, hv, h3.1, squeeze_inner_axes, hh]
    · right; left; simp [Mat.reshape2, hv]
  by_cases h4 : b.dims = 4 ∧ b.d = 1
  · have e : squeeze_inner_axes b = b.reshape1 b.c := by
      simp only [squeeze_inner_axes, if_neg h1, if_neg h2, if_neg h3, if_pos h4]
    rw [e]
    by_cases hv : b.w * b.h * b.d * b.c = b.c
    · right; right
      simp [Mat.reshape1, hv, h4.1, squeeze_inner_axes]
    · right; left; simp [Mat.reshape1, hv]
  by_cases h5 : b.dims = 4 ∧ b.h = 1
  · have e : squeeze_inner_axes b = b.reshape2 b.d b.c := by
      simp only [squeeze_inner_axes, if_neg h1, if_neg h2, if_neg h3, if_neg h4, if_pos h5]
    rw [e]
    by_cases hv : b.w * b.h * b.d * b.c = b.d * b.c
    · right; right
      have hd : ¬ b.d = 1 := fun h => h4 ⟨h5.1, h⟩
      simp [Mat.reshape2, hv, h5.1, squeeze_inner_axes, hd]
    · right; left; simp [Mat.reshape2, hv]
  by_cases h6 : b.dims = 4 ∧ b.w = 1
  · have e : squeeze_inner_axes b = b.reshape3 b.h b.d b.c := by
      simp only [squeeze_inner_axes, if_neg h1, if_neg h2, if_neg h3, if_neg h4, if_neg h5,
        if_pos h6]
    rw [e]
    by_cases hv : b.w * b.h * b.d * b.c = b.h * b.d * b.c
    · right; right
      have hd : ¬ b.d = 1 := fun h => h4 ⟨h6.1, h⟩
      have hh : ¬ b.h = 1 := fun h => h5 ⟨h6.1, h⟩
      simp [Mat.reshape3, hv, h6.1, squeeze_inner_axes, hd, hh]
    · right; left; simp [Mat.reshape3, hv]
  left
  simp only [squeeze_inner_axes, if_neg h1, if_neg h2, if_neg h3, if_neg h4, if_neg h5, if_neg h6]


theorem squeeze_nil : squeeze_inner_axes (Mat.nil : Mat α) = Mat.nil := by
  simp [squeeze_inner_axes, Mat.nil]

end

section
variable {α : Type} [Add α] [Sub α] [Mul α] [Div α] [Max α] [Min α]

/-- C6 (as amended): for every op_type, whenever `forward` on `[A, B]` keeps `A`
as the dominant operand (no swap) and selects the BroadcastInner pattern, it
gives the same result as `forward` on `[A, B2]`, where `B2` is what the squeeze
step makes of `B`. -/
theorem forward_squeeze (powf : α → α → α) (self : BinaryOp α) (A B : Mat α) (opt : NcnnOption)
    (hno : a_is_lower A B = false) (hs : ¬ is_scalar B) (hnb : ¬ is_no_broadcast A B)
    (hin : is_broadcast_inner A B) :
    self.forward powf A B opt = self.forward powf A (squeeze_inner_axes B) opt := by
  have hdims : 1 ≤ A.dims := by
    rcases hin with h | h | h | h | h | h | h <;> omega
  have hbs : b_is_scalar B = false := by
    simp only [is_scalar] at hs
    simp only [b_is_scalar, beq_eq_false_iff_ne, ne_eq]
    intro h
    exact hs (Nat.eq_one_of_mul_eq_one_right h)
  have hlow := hno
  simp only [a_is_lower, a_rank_is_lower, a_size_is_lower, hbs, Bool.not_false, Bool.and_true,
    Bool.or_eq_false_iff, decide_eq_false_iff_not, Bool.and_eq_false_imp, Bool.not_eq_true',
    decide_eq_false_iff_not] at hlow
  obtain ⟨hrank, hsize⟩ := hlow
  have hsize := hsize hrank
  rcases squeeze_cases B with h | h | ⟨hd, hsz, hep, hdata, hidem⟩
  · rw [h]
  · rw [h]
    have hno2 : a_is_lower A (Mat.nil : Mat α) = false := by
      simp [a_is_lower, a_rank_is_lower, a_size_is_lower, b_is_scalar, Mat.nil]
    simp only [BinaryOp.forward, dominant, subordinate, op_type_r, hno, hno2, Bool.false_eq_true,
      if_false, hs, hnb, hin, binary_op_broadcast_inner_eq, h, squeeze_nil]
    by_cases he : (A.create_like opt.blob_allocator : Top α).empty = true
    · simp [he]
    · have hw : A.w * A.h * A.d * A.c ≠ 0 := by
        intro h0
        apply he
        simp [Mat.empty, Mat.create_like, h0]
      have hs2 : ¬ is_scalar (Mat.nil : Mat α) := by simp [is_scalar, Mat.nil]
      have hnb2 : ¬ is_no_broadcast A (Mat.nil : Mat α) := by
        simp only [is_no_broadcast, Mat.nil]
        rintro ⟨-, hw0, -⟩
        exact hw (by simp [hw0])
      have hin2 : is_broadcast_inner A (Mat.nil : Mat α) := by
        left; simp only [Mat.nil]; omega
      simp only [he, hs2, hnb2, hin2, binary_op_broadcast_inner_eq, squeeze_nil, if_false, if_true]
  · have hbs2 : b_is_scalar (squeeze_inner_axes B) = false := by
      simp only [b_is_scalar, hsz, hep] at hbs ⊢
      exact hbs
    have hno2 : a_is_lower A (squeeze_inner_axes B) = false := by
      simp only [a_is_lower, a_rank_is_lower, a_size_is_lower, hbs2, hsz]
      simp
      constructor
      · omega
      · intro _; omega
    have hs2 : ¬ is_scalar (squeeze_inner_axes B) := by
      simp only [is_scalar, hsz]; exact hs
    have hnb2 : ¬ is_no_broadcast A (squeeze_inner_axes B) := by
      simp only [is_no_broadcast]
      rintro ⟨h1, -⟩
      omega
    have hin2 : is_broadcast_inner A (squeeze_inner_axes B) := by
      left; omega
    simp only [BinaryOp.forward, dominant, subordinate, op_type_r, hno, hno2, Bool.false_eq_true,
      if_false, hs, hnb, hin, hs2, hnb2, hin2, binary_op_broadcast_inner_eq, hidem, if_true]

end

section
variable {α : Type}

theorem scalar_symm (f : α → α → α) (hf : ∀ x y, f x y = f y x) (X Y : Mat α)
    (al : Bool) (hs : SameShape X Y) (h1 : is_scalar Y) :
    ((Y.data[0]?).bind fun b0 => tmpl.binary_op_scalar f X b0 (X.create_like al))
      = ((X.data[0]?).bind fun b0 => tmpl.binary_op_scalar f Y b0 (Y.create_like al)) := by
  obtain ⟨xd, xw, xh, xdd, xc, xe, xdata⟩ := X
  obtain ⟨yd, yw, yh, ydd, yc, ye, ydata⟩ := Y
  obtain ⟨e1, e2, e3, e4, e5, e6⟩ := hs
  simp only at e1 e2 e3 e4 e5 e6
  subst e1 e2 e3 e4 e5 e6
  simp only [is_scalar] at h1
  have hc : xc = 1 := Nat.eq_one_of_mul_eq_one_left h1
  have h2 : xw * xh * xdd = 1 := Nat.eq_one_of_mul_eq_one_right h1
  simp only [tmpl.binary_op_scalar, hc, h2, forLoop, Mat.channel, Mat.create_like,
    Nat.mul_zero, Nat.zero_mul, Nat.add_zero, Option.some_bind, Option.bind_eq_bind]
  cases hx : xdata[0]? <;> cases hy : ydata[0]? <;> simp [hf]

theorem no_broadcast_symm (f : α → α → α) (hf : ∀ x y, f x y = f y x) (X Y : Mat α)
    (al : Bool) (hs : SameShape X Y) :
    tmpl.binary_op_no_broadcast f X Y (X.create_like al)
      = tmpl.binary_op_no_broadcast f Y X (Y.create_like al) := by
  obtain ⟨xd, xw, xh, xdd, xc, xe, xdata⟩ := X
  obtain ⟨yd, yw, yh, ydd, yc, ye, ydata⟩ := Y
  obtain ⟨e1, e2, e3, e4, e5, e6⟩ := hs
  simp only at e1 e2 e3 e4 e5 e6
  subst e1 e2 e3 e4 e5 e6
  simp only [tmpl.binary_op_no_broadcast, Mat.create_like, Mat.channel]
  congr 1
  apply forLoop_congr
  intro q t _
  apply forLoop_congr
  intro i u _
  simp only [Option.bind_eq_bind]
  cases hx1 : xdata[xw * xh * xdd * q * xe + i]? <;>
  cases hy1 : ydata[xw * xh * xdd * q * xe + i]? <;> simp [hf]

end

section
variable {α : Type} [LinearOrderedField α]

/-- C4 (as amended): for a commutative op (ADD, MUL, MAX, MIN) over exact
arithmetic, `forward` on `[X, Y]` and `forward` on `[Y, X]` give the same result
(return code, shape, written cells, values) whenever exactly one of the two
orders swaps its operands, or `X` and `Y` have the same rank, extents and
elempack. -/
theorem forward_commutative (powf : α → α → α) (self : BinaryOp α) (X Y : Mat α)
    (opt : NcnnOption)
    (hop : self.op_type = Operation_ADD ∨ self.op_type = Operation_MUL
      ∨ self.op_type = Operation_MAX ∨ self.op_type = Operation_MIN)
    (h : a_is_lower X Y ≠ a_is_lower Y X ∨ SameShape X Y) :
    self.forward powf X Y opt = self.forward powf Y X opt := by
  have hrev : get_reverse_op_type self.op_type = self.op_type := by
    rcases hop with h | h | h | h <;> rw [h] <;> decide
  have hfun : ∃ f, functor_of powf self.op_type = some f ∧ ∀ x y : α, f x y = f y x := by
    rcases hop with h | h | h | h <;> rw [h]
    · exact ⟨binary_op_add, rfl, fun x y => add_comm x y⟩
    · exact ⟨binary_op_mul, rfl, fun x y => mul_comm x y⟩
    · exact ⟨binary_op_max, rfl, fun x y => max_comm x y⟩
    · exact ⟨binary_op_min, rfl, fun x y => min_comm x y⟩
  obtain ⟨f, hf, hcomm⟩ := hfun
  by_cases hxy : a_is_lower X Y = true
  · by_cases hyx : a_is_lower Y X = true
    · rcases h with h | h
      · exact absurd (hxy.trans hyx.symm) h
      · obtain ⟨-, e2, e3, e4, e5, -⟩ := h
        simp [a_is_lower, a_rank_is_lower, a_size_is_lower, e2, e3, e4, e5] at hxy hyx
        omega
    · simp only [BinaryOp.forward, dominant, subordinate, op_type_r, hxy, hyx, hrev, if_true]
      simp
  · by_cases hyx : a_is_lower Y X = true
    · simp only [BinaryOp.forward, dominant, subordinate, op_type_r, hxy, hyx, hrev, if_true]
      simp
    · rcases h with h | h
      · exact absurd ((Bool.eq_false_iff.mpr hxy).trans (Bool.eq_false_iff.mpr hyx).symm) h
      · have hnbxy : is_no_broadcast X Y := ⟨h.1, h.2.1, h.2.2.1, h.2.2.2.1, h.2.2.2.2.1⟩
        have hnbyx : is_no_broadcast Y X :=
          ⟨h.1.symm, h.2.1.symm, h.2.2.1.symm, h.2.2.2.1.symm, h.2.2.2.2.1.symm⟩
        have htop : (X.create_like opt.blob_allocator : Top α)
            = Y.create_like opt.blob_allocator := by
          obtain ⟨e1, e2, e3, e4, e5, e6⟩ := h
          simp [Mat.create_like, e1, e2, e3, e4, e5, e6]
        have hsc : is_scalar X ↔ is_scalar Y := by
          obtain ⟨e1, e2, e3, e4, e5, e6⟩ := h
          simp [is_scalar, e2, e3, e4, e5]
        have hxy' : a_is_lower X Y = false := Bool.eq_false_iff.mpr hxy
        have hyx' : a_is_lower Y X = false := Bool.eq_false_iff.mpr hyx
        simp only [BinaryOp.forward, dominant, subordinate, op_type_r, hxy', hyx',
          Bool.false_eq_true, if_false,
          hnbxy, hnbyx, if_true, binary_op_scalar_eq, binary_op_no_broadcast_eq, hf]
        rw [← htop]
        by_cases he : (X.create_like opt.blob_allocator : Top α).empty = true
        · simp [he]
        · simp only [he, if_false]
          by_cases hs : is_scalar Y
          · have hsx := hsc.mpr hs
            simp only [hs, hsx, if_true]
            rw [htop]
            conv_lhs => rw [← htop]
            exact scalar_symm f hcomm X Y _ h hs
          · have hsx : ¬ is_scalar X := fun hx => hs (hsc.mp hx)
            simp only [hs, hsx, if_false]
            rw [htop]
            conv_lhs => rw [← htop]
            exact no_broadcast_symm f hcomm X Y _ h

end

section
variable {α : Type}

theorem Updated_step (g : α → α) (old : List α) (n : Nat) (data : List α)
    (hU : Updated g old n data) (hn : n < old.length) :
    ∃ data', (do let v ← data[n]?; pure (data.set n (g v))) = some data'
      ∧ Updated g old (n + 1) data' := by
  obtain ⟨hlen, hcells⟩ := hU
  have hn' : n < data.length := by omega
  have hdn : data[n]? = old[n]? := by simpa using hcells n hn
  refine ⟨data.set n (g data[n]), by simp [List.getElem?_eq_getElem hn'], by simp [hlen], ?_⟩
  intro j hj
  by_cases hjn : j = n
  · subst hjn
    have : data[j] = old[j] := by
      have := hdn
      rw [List.getElem?_eq_getElem hn', List.getElem?_eq_getElem hn] at this
      exact Option.some.inj this
    simp [List.getElem?_set, hn', List.getElem?_eq_getElem hn, this]
  · have hne : n ≠ j := fun h => hjn h.symm
    have := hcells j hj
    by_cases hlt : j < n
    · simp [List.getElem?_set, hne, this, hlt, show j < n + 1 by omega]
    · simp [List.getElem?_set, hne, this, hlt, show ¬ j < n + 1 by omega]

theorem Updated_full (g : α → α) (old data : List α) (hU : Updated g old old.length data) :
    data = old.map g := by
  obtain ⟨hlen, hcells⟩ := hU
  apply List.ext_getElem?
  intro j
  by_cases hj : j < old.length
  · simp [hcells j hj, hj]
  · have h1 : data[j]? = none := List.getElem?_eq_none (by omega)
    have h2 : (old.map g)[j]? = none := List.getElem?_eq_none (by simp; omega)
    rw [h1, h2]

theorem scalar_inplace_spec (op : α → α → α) (a : Mat α) (b0 : α) (ha1 : a.elempack = 1)
    (halen : a.data.length = a.w * a.h * a.d * a.c) :
    tmpl.binary_op_scalar_inplace op a b0
      = some (0, { a with data := a.data.map fun v => op v b0 }) := by
  unfold tmpl.binary_op_scalar_inplace
  dsimp only
  have key : ∃ data', forLoop a.c (fun q (data : List α) =>
      forLoop (a.w * a.h * a.d) (fun i (data : List α) => do
        let v ← data[a.channel q + i]?
        pure (data.set (a.channel q + i) (op v b0))) data) a.data = some data'
      ∧ Updated (fun v => op v b0) a.data a.data.length data' := by
    refine forLoop_inv_to
      (fun q data => Updated (fun v => op v b0) a.data (a.w * a.h * a.d * q) data)
      _ _ a.c a.data ⟨rfl, fun j hj => by simp⟩ ?_
      (fun t hP => by dsimp only at hP; rw [← halen] at hP; exact hP)
    intro q t hq ht
    have hrun := run_le (a.w * a.h * a.d) q a.c hq
    have hao : a.channel q = a.w * a.h * a.d * q := by simp [Mat.channel, ha1]
    dsimp only
    rw [hao, Nat.mul_add_one]
    refine forLoop_inv_to
      (fun i data => Updated (fun v => op v b0) a.data (a.w * a.h * a.d * q + i) data)
      _ _ _ t (by simpa using ht) ?_ (fun u hP => hP)
    intro i u hi hu
    exact Updated_step _ a.data _ u hu (by omega)
  obtain ⟨data', hd, hU⟩ := key
  rw [hd, Updated_full _ _ _ hU]
  rfl

theorem Filled_full_map (g : α → α) (l : List α) (buf : Buf α)
    (hF : Filled (fun j => (l[j]?).map g) l.length l.length buf) :
    buf = l.map fun v => [g v] := by
  obtain ⟨hlen, hcells⟩ := hF
  apply List.ext_getElem?
  intro j
  by_cases hj : j < l.length
  · obtain ⟨v, hv, hb⟩ := (hcells j hj).1 hj
    rw [hb]
    simp only [List.getElem?_eq_getElem hj, Option.map_some', Option.some.injEq] at hv
    simp [List.getElem?_eq_getElem hj, hv]
  · have h1 : buf[j]? = none := List.getElem?_eq_none (by omega)
    have h2 : (l.map fun v => [g v])[j]? = none := List.getElem?_eq_none (by simp; omega)
    rw [h1, h2]

end

section
variable {α : Type}

theorem dominant_of_not_lower (X Y : Mat α) (h : a_is_lower X Y = false) :
    dominant X Y = X ∧ subordinate X Y = Y ∧ ∀ t, op_type_r t X Y = t := by
  simp [dominant, subordinate, op_type_r, h]

theorem dominant_of_lower (X Y : Mat α) (h : a_is_lower X Y = true) :
    dominant X Y = Y ∧ subordinate X Y = X ∧ ∀ t, op_type_r t X Y = get_reverse_op_type t := by
  simp [dominant, subordinate, op_type_r, h]

end

section
variable {α : Type} [Add α] [Sub α] [Mul α] [Div α] [Max α] [Min α]

/-- C7 (as amended): for every op_type of the table, every non-empty `A` of
elempack 1 whose storage holds its `w*h*d*c` elements and every `B` that holds
exactly one float (`w*h*d*c*elempack = 1`, whatever its dims), `forward` on
`[A, B]` returns 0 and its output equals, cell for cell (each written once), the
tensor that `forward_inplace` leaves in a copy of `A` when the layer has the
same op_type and `b = B[0]`. -/
theorem forward_scalar_matches_inplace (powf : α → α → α) (self : BinaryOp α) (A B : Mat α)
    (opt : NcnnOption) (hop : in_table self.op_type) (hal : opt.blob_allocator = true)
    (hae : A.elempack = 1) (halen : A.data.length = A.w * A.h * A.d * A.c)
    (hne : 0 < A.w * A.h * A.d * A.c)
    (hB1 : B.w * B.h * B.d * B.c * B.elempack = 1) (hb0 : 0 < B.data.length) :
    ∃ b0 top T, B.data[0]? = some b0
      ∧ self.forward powf A B opt = some (0, top)
      ∧ ({ self with b := b0 } : BinaryOp α).forward_inplace powf A = some (0, T)
      ∧ SameShape top T
      ∧ top.data = T.data.map fun v => [v] := by
  have hBs : B.w * B.h * B.d * B.c = 1 := Nat.eq_one_of_mul_eq_one_right hB1
  obtain ⟨op, hf⟩ := functor_of_in_table powf self.op_type hop
  have hlow : a_is_lower A B = false := by
    have h1 : ¬ (A.w * A.h * A.d * A.c < B.w * B.h * B.d * B.c) := by omega
    have h2 : (B.w * B.h * B.d * B.c * B.elempack == 1) = true := by simp [hB1]
    simp only [a_is_lower, a_rank_is_lower, a_size_is_lower, b_is_scalar, h1, h2]
    simp
  obtain ⟨hd, hs, ht⟩ := dominant_of_not_lower A B hlow
  have hfw := forward_scalar_eq powf self A B opt op (B.data[0]) hal (by rw [hd]; exact hae)
    (by rw [hd]; exact hne) (by rw [ht]; exact hf) (by rw [hs]; exact hBs)
    (by rw [hs]; exact List.getElem?_eq_getElem hb0)
  rw [hd] at hfw
  obtain ⟨buf', hk, hfill⟩ := scalar_fill op A (B.data[0]) (A.create_like true)
    (A.w * A.h * A.d * A.c) (create_like_shape A true) hae halen rfl
    (create_like_filled _ A hae)
  rw [← halen] at hfill
  have hbuf := Filled_full_map (fun v => op v (B.data[0])) A.data buf' hfill
  refine ⟨B.data[0], { (A.create_like true : Top α) with data := buf' },
    { A with data := A.data.map fun v => op v (B.data[0]) },
    List.getElem?_eq_getElem hb0, by rw [hfw, hk], ?_, ⟨rfl, rfl, rfl, rfl, rfl, rfl⟩, ?_⟩
  · rw [forward_inplace_eq]
    simp only [hf]
    exact scalar_inplace_spec op A _ hae halen
  · simp [hbuf]

end

section
variable {α : Type}

theorem bcast_some (op : α → α → α) (a b : Mat α) (bidx : Nat → Nat) (j : Nat) (v : α)
    (h : bcast op a b bidx j = some v) :
    ∃ x y, a.data[j]? = some x ∧ b.data[bidx j]? = some y ∧ v = op x y := by
  simp only [bcast, Option.bind_eq_some, Option.map_eq_some'] at h
  obtain ⟨x, hx, y, hy, hv⟩ := h
  exact ⟨x, y, hx, hy, hv.symm⟩

theorem pos_of_size_pos (w h d c : Nat) (hne : 0 < w * h * d * c) :
    0 < w ∧ 0 < h ∧ 0 < d ∧ 0 < c := by
  refine ⟨?_, ?_, ?_, ?_⟩ <;> (apply Nat.pos_of_ne_zero; rintro rfl; simp at hne)

/-- Reading a kernel result cell by cell at the logical index. -/
theorem Filled_at (op : α → α → α) (A B2 : Mat α) (bidx : Nat → Nat) (top : Top α)
    (hs : SameShape top A)
    (hF : Filled (bcast op A B2 bidx) (A.w * A.h * A.d * A.c) (A.w * A.h * A.d * A.c) top.data)
    (q z y x : Nat) (hq : q < A.c) (hz : z < A.d) (hy : y < A.h) (hx : x < A.w) :
    ∃ a b, A.at q z y x = some a
      ∧ B2.data[bidx (A.w * A.h * A.d * q + ((z * A.h + y) * A.w + x))]? = some b
      ∧ top.at q z y x = some [op a b] := by
  obtain ⟨-, hw, hh, hd, -, -⟩ := hs
  have hj := flat_lt A.w A.h A.d q z y x A.c hx hy hz hq
  obtain ⟨v, hv, hb⟩ := (hF.2 _ hj).1 hj
  obtain ⟨a, b, ha, hb', rfl⟩ := bcast_some op A B2 bidx _ v hv
  exact ⟨a, b, ha, hb', by simpa [Mat.at, hw, hh, hd] using hb⟩

theorem tmpl_inner_2_1 (op : α → α → α) (a b : Mat α) (ha : a.wf) (hda : a.dims = 2)
    (hdb : b.dims = 1) (hbl : a.h ≤ b.data.length) :
    ∃ buf', tmpl.binary_op_broadcast_inner op a b (a.create_like true)
        = some (0, { (a.create_like true : Top α) with data := buf' })
      ∧ Filled (bcast op a b (fun j => j / a.w)) (a.w * a.h * a.d * a.c)
          (a.w * a.h * a.d * a.c) buf' := by
  obtain ⟨hae, halen, hext⟩ := ha
  have hdc : a.d = 1 ∧ a.c = 1 := by rcases hext with h | h | h | h <;> omega
  have hlen : a.w * a.h * a.d * a.c = a.w * a.h := by simp [hdc.1, hdc.2]
  obtain ⟨buf', hk, hfill⟩ := inner_2_1_fill op a b (a.create_like true)
    (a.create_like true : Top α).data (a.w * a.h * a.d * a.c) (create_like_shape a true) hae
    halen hlen hbl (create_like_filled _ a hae)
  refine ⟨buf', ?_, hfill⟩
  simp [tmpl.binary_op_broadcast_inner, hda, hdb, hk]

theorem tmpl_inner_34_1 (op : α → α → α) (a b : Mat α) (ha : a.wf)
    (hda : a.dims = 3 ∨ a.dims = 4) (hdb : b.dims = 1) (hbl : a.c ≤ b.data.length) :
    ∃ buf', tmpl.binary_op_broadcast_inner op a b (a.create_like true)
        = some (0, { (a.create_like true : Top α) with data := buf' })
      ∧ Filled (bcast op a b (fun j => j / (a.w * a.h * a.d))) (a.w * a.h * a.d * a.c)
          (a.w * a.h * a.d * a.c) buf' := by
  obtain ⟨hae, halen, hext⟩ := ha
  obtain ⟨buf', hk, hfill⟩ := inner_34_1_fill op a b (a.create_like true)
    (a.create_like true : Top α).data (a.w * a.h * a.d * a.c) (create_like_shape a true) hae
    halen rfl hbl (create_like_filled _ a hae)
  refine ⟨buf', ?_, hfill⟩
  rcases hda with hda | hda <;> simp [tmpl.binary_op_broadcast_inner, hda, hdb, hk]

theorem tmpl_inner_3_2 (op : α → α → α) (a b : Mat α) (ha : a.wf) (hbe : b.elempack = 1)
    (hda : a.dims = 3) (hdb : b.dims = 2) (hbl : b.w * a.c ≤ b.data.length) (hbw : a.h ≤ b.w) :
    ∃ buf', tmpl.binary_op_broadcast_inner op a b (a.create_like true)
        = some (0, { (a.create_like true : Top α) with data := buf' })
      ∧ Filled (bcast op a b (fun j => b.w * (j / (a.w * a.h * a.d)) + j / a.w % a.h))
          (a.w * a.h * a.d * a.c) (a.w * a.h * a.d * a.c) buf' := by
  obtain ⟨hae, halen, hext⟩ := ha
  have hd : a.d = 1 := by rcases hext with h | h | h | h <;> omega
  obtain ⟨buf', hk, hfill⟩ := inner_3_2_fill op a b (a.create_like true)
    (a.create_like true : Top α).data (a.w * a.h * a.d * a.c) (create_like_shape a true) hae hbe
    hd halen rfl hbl hbw (create_like_filled _ a hae)
  refine ⟨buf', ?_, hfill⟩
  simp [tmpl.binary_op_broadcast_inner, hda, hdb, hk]

theorem tmpl_inner_4_2 (op : α → α → α) (a b : Mat α) (ha : a.wf) (hbe : b.elempack = 1)
    (hda : a.dims = 4) (hdb : b.dims = 2) (hbl : b.w * a.c ≤ b.data.length) (hbw : a.d ≤ b.w) :
    ∃ buf', tmpl.binary_op_broadcast_inner op a b (a.create_like true)
        = some (0, { (a.create_like true : Top α) with data := buf' })
      ∧ Filled (bcast op a b
          (fun j => b.w * (j / (a.w * a.h * a.d)) + j / (a.w * a.h) % a.d))
          (a.w * a.h * a.d * a.c) (a.w * a.h * a.d * a.c) buf' := by
  obtain ⟨hae, halen, hext⟩ := ha
  obtain ⟨buf', hk, hfill⟩ := inner_4_2_fill op a b (a.create_like true)
    (a.create_like true : Top α).data (a.w * a.h * a.d * a.c) (create_like_shape a true) hae hbe
    halen rfl hbl hbw (create_like_filled _ a hae)
  refine ⟨buf', ?_, hfill⟩
  simp [tmpl.binary_op_broadcast_inner, hda, hdb, hk]

end

section
variable {α : Type} [Add α] [Sub α] [Mul α] [Div α] [Max α] [Min α]

/-- C10: for every op_type of the table with functor `op`, every non-empty
well-formed `A` and every non-scalar well-formed `B` of lower rank whose
extents match the sub-kernel, `forward` on `[A, B]` returns 0 with an output of
the shape of `A` in which every cell `[q,z,y,x]` was written once with
`op(A[q,z,y,x], b)`, where `b` is `B[y]` for (A 2-D, B 1-D of length `A.h`),
`B[q]` for (A 3-D or 4-D, B 1-D of length `A.c`), `B[q,y]` for (A 3-D, B 2-D
with `w = A.h`, `h = A.c`) and `B[q,z]` for (A 4-D, B 2-D with `w = A.d`,
`h = A.c`). -/
theorem forward_inner_lower_rank (powf : α → α → α) (self : BinaryOp α) (A B : Mat α)
    (opt : NcnnOption) (op : α → α → α)
    (hop : functor_of powf self.op_type = some op) (hal : opt.blob_allocator = true)
    (hA : A.wf) (hB : B.wf) (hne : 0 < A.w * A.h * A.d * A.c) (hns : ¬ is_scalar B)
    (hm : (A.dims = 2 ∧ B.dims = 1 ∧ B.w = A.h)
      ∨ ((A.dims = 3 ∨ A.dims = 4) ∧ B.dims = 1 ∧ B.w = A.c)
      ∨ (A.dims = 3 ∧ B.dims = 2 ∧ B.w = A.h ∧ B.h = A.c)
      ∨ (A.dims = 4 ∧ B.dims = 2 ∧ B.w = A.d ∧ B.h = A.c)) :
    ∃ top, self.forward powf A B opt = some (0, top) ∧ SameShape top A
      ∧ ∀ q z y x, q < A.c → z < A.d → y < A.h → x < A.w →
        ∃ a b, A.at q z y x = some a ∧ top.at q z y x = some [op a b]
          ∧ (A.dims = 2 → B.data[y]? = some b)
          ∧ (A.dims ≠ 2 → B.dims = 1 → B.data[q]? = some b)
          ∧ (A.dims = 3 → B.dims = 2 → B.at 0 0 q y = some b)
          ∧ (A.dims = 4 → B.dims = 2 → B.at 0 0 q z = some b) := by
  obtain ⟨hw, hh, hd, hc⟩ := pos_of_size_pos _ _ _ _ hne
  have hA' := hA
  obtain ⟨hae, halen, haext⟩ := hA'
  obtain ⟨hbe, hblen, hbext⟩ := hB
  have hrank : B.dims < A.dims := by
    rcases hm with h | h | h | h <;> omega
  -- the element count of B does not exceed that of A
  have hsize : ¬ (A.w * A.h * A.d * A.c < B.w * B.h * B.d * B.c) := by
    have hwh : A.h ≤ A.w * A.h := Nat.le_mul_of_pos_left _ hw
    have hwhd : A.w * A.h ≤ A.w * A.h * A.d := Nat.le_mul_of_pos_right _ hd
    rcases hm with ⟨h1, h2, h3⟩ | ⟨h1, h2, h3⟩ | ⟨h1, h2, h3, h4⟩ | ⟨h1, h2, h3, h4⟩
    · have hb1 : B.h = 1 ∧ B.d = 1 ∧ B.c = 1 := by rcases hbext with h | h | h | h <;> omega
      have ha1 : A.d = 1 ∧ A.c = 1 := by rcases haext with h | h | h | h <;> omega
      simp only [hb1.1, hb1.2.1, hb1.2.2, ha1.1, ha1.2, h3, Nat.mul_one]
      omega
    · have hb1 : B.h = 1 ∧ B.d = 1 ∧ B.c = 1 := by rcases hbext with h | h | h | h <;> omega
      simp only [hb1.1, hb1.2.1, hb1.2.2, h3, Nat.mul_one]
      have : A.c ≤ A.w * A.h * A.d * A.c :=
        Nat.le_mul_of_pos_left _ (by positivity)
      omega
    · have hb1 : B.d = 1 ∧ B.c = 1 := by rcases hbext with h | h | h | h <;> omega
      have ha1 : A.d = 1 := by rcases haext with h | h | h | h <;> omega
      simp only [hb1.1, hb1.2, ha1, h3, h4, Nat.mul_one]
      have : A.h * A.c ≤ A.w * A.h * A.c := by
        rw [Nat.mul_assoc]; exact Nat.le_mul_of_pos_left _ hw
      omega
    · have hb1 : B.d = 1 ∧ B.c = 1 := by rcases hbext with h | h | h | h <;> omega
      simp only [hb1.1, hb1.2, h3, h4, Nat.mul_one]
      have : A.d * A.c ≤ A.w * A.h * A.d * A.c := by
        have : A.d * A.c ≤ (A.w * A.h) * (A.d * A.c) :=
          Nat.le_mul_of_pos_left _ (by positivity)
        calc A.d * A.c ≤ (A.w * A.h) * (A.d * A.c) := this
          _ = A.w * A.h * A.d * A.c := by ring
      omega
  have hlow : a_is_lower A B = false := by
    have h1 : ¬ (A.dims < B.dims) := by omega
    simp only [a_is_lower, a_rank_is_lower, a_size_is_lower, h1, hsize]
    simp
  obtain ⟨hdom, hsub, hopr⟩ := dominant_of_not_lower A B hlow
  have hnb : ¬ is_no_broadcast A B := by
    rintro ⟨h1, -⟩; omega
  have hfw := forward_inner_eq powf self A B opt op hal (by rw [hdom]; exact hae)
    (by rw [hdom]; exact hne) (by rw [hopr]; exact hop) (by rw [hsub]; exact hns)
    (by rw [hdom, hsub]; exact hnb) (by rw [hdom, hsub]; exact Or.inl hrank)
  rw [hdom, hsub] at hfw
  rcases hm with ⟨h1, h2, h3⟩ | ⟨h1, h2, h3⟩ | ⟨h1, h2, h3, h4⟩ | ⟨h1, h2, h3, h4⟩
  · -- (2, 1)
    have hb1 : B.h = 1 ∧ B.d = 1 ∧ B.c = 1 := by rcases hbext with h | h | h | h <;> omega
    have ha1 : A.d = 1 ∧ A.c = 1 := by rcases haext with h | h | h | h <;> omega
    have hsq : squeeze_inner_axes B = B := by simp [squeeze_inner_axes, h2]
    rw [hsq] at hfw
    obtain ⟨buf', hk, hfill⟩ := tmpl_inner_2_1 op A B hA h1 h2
      (by rw [hblen]; simp [hb1.1, hb1.2.1, hb1.2.2, h3])
    refine ⟨_, hfw.trans hk, create_like_shape A true, ?_⟩
    intro q z y x hq hz hy hx
    obtain ⟨a, b, ha, hb, ht⟩ := Filled_at op A B (fun j => j / A.w)
      { (A.create_like true : Top α) with data := buf' } (create_like_shape A true) hfill
      q z y x hq hz hy hx
    have hq0 : q = 0 := by omega
    have hz0 : z = 0 := by omega
    subst hq0 hz0
    have e : (A.w * A.h * A.d * 0 + ((0 * A.h + y) * A.w + x)) / A.w = y := by
      rw [dec_row _ _ _ _ _ _ _ hx]; simp
    rw [e] at hb
    exact ⟨a, b, ha, ht, fun _ => hb, fun h => absurd h1 h, fun h => by omega, fun h => by omega⟩
  · -- (3, 1) and (4, 1)
    have hb1 : B.h = 1 ∧ B.d = 1 ∧ B.c = 1 := by rcases hbext with h | h | h | h <;> omega
    have hsq : squeeze_inner_axes B = B := by simp [squeeze_inner_axes, h2]
    rw [hsq] at hfw
    obtain ⟨buf', hk, hfill⟩ := tmpl_inner_34_1 op A B hA h1 h2
      (by rw [hblen]; simp [hb1.1, hb1.2.1, hb1.2.2, h3])
    refine ⟨_, hfw.trans hk, create_like_shape A true, ?_⟩
    intro q z y x hq hz hy hx
    obtain ⟨a, b, ha, hb, ht⟩ := Filled_at op A B (fun j => j / (A.w * A.h * A.d))
      { (A.create_like true : Top α) with data := buf' } (create_like_shape A true) hfill
      q z y x hq hz hy hx
    rw [dec_q _ _ _ _ _ _ _ hx hy hz] at hb
    exact ⟨a, b, ha, ht, fun h => by omega, fun _ _ => hb, fun _ h => by omega,
      fun _ h => by omega⟩
  · -- (3, 2)
    have hb1 : B.d = 1 ∧ B.c = 1 := by rcases hbext with h | h | h | h <;> omega
    have ha1 : A.d = 1 := by rcases haext with h | h | h | h <;> omega
    by_cases hbw : B.w = 1
    · -- the squeeze turns B into a 1-D tensor of length A.c
      have hsq : squeeze_inner_axes B = { B with dims := 1, w := B.h, h := 1, d := 1, c := 1 } := by
        simp [squeeze_inner_axes, h2, hbw, Mat.reshape1, hb1.1, hb1.2]
      rw [hsq] at hfw
      obtain ⟨buf', hk, hfill⟩ := tmpl_inner_34_1 op A
        { B with dims := 1, w := B.h, h := 1, d := 1, c := 1 } hA (Or.inl h1) rfl
        (by simp only [hblen]; simp [hbw, hb1.1, hb1.2, h4])
      refine ⟨_, hfw.trans hk, create_like_shape A true, ?_⟩
      intro q z y x hq hz hy hx
      obtain ⟨a, b, ha, hb, ht⟩ := Filled_at op A
        { B with dims := 1, w := B.h, h := 1, d := 1, c := 1 } (fun j => j / (A.w * A.h * A.d))
        { (A.create_like true : Top α) with data := buf' } (create_like_shape A true) hfill
        q z y x hq hz hy hx
      rw [dec_q _ _ _ _ _ _ _ hx hy hz] at hb
      have hy0 : y = 0 := by omega
      refine ⟨a, b, ha, ht, fun h => by omega, fun _ h => by omega, fun _ _ => ?_,
        fun h => by omega⟩
      simpa [Mat.at, hbw, hy0] using hb
    · have hsq : squeeze_inner_axes B = B := by simp [squeeze_inner_axes, h2, hbw]
      rw [hsq] at hfw
      obtain ⟨buf', hk, hfill⟩ := tmpl_inner_3_2 op A B hA hbe h1 h2
        (by rw [hblen]; simp [hb1.1, hb1.2, h4]) (by omega)
      refine ⟨_, hfw.trans hk, create_like_shape A true, ?_⟩
      intro q z y x hq hz hy hx
      obtain ⟨a, b, ha, hb, ht⟩ := Filled_at op A B
        (fun j => B.w * (j / (A.w * A.h * A.d)) + j / A.w % A.h)
        { (A.create_like true : Top α) with data := buf' } (create_like_shape A true) hfill
        q z y x hq hz hy hx
      simp only [dec_q _ _ _ _ _ _ _ hx hy hz, dec_y _ _ _ _ _ _ _ hx hy] at hb
      refine ⟨a, b, ha, ht, fun h => by omega, fun _ h => by omega, fun _ _ => ?_,
        fun h => by omega⟩
      simpa [Mat.at, Nat.mul_comm] using hb
  · -- (4, 2)
    have hb1 : B.d = 1 ∧ B.c = 1 := by rcases hbext with h | h | h | h <;> omega
    by_cases hbw : B.w = 1
    · have hsq : squeeze_inner_axes B = { B with dims := 1, w := B.h, h := 1, d := 1, c := 1 } := by
        simp [squeeze_inner_axes, h2, hbw, Mat.reshape1, hb1.1, hb1.2]
      rw [hsq] at hfw
      obtain ⟨buf', hk, hfill⟩ := tmpl_inner_34_1 op A
        { B with dims := 1, w := B.h, h := 1, d := 1, c := 1 } hA (Or.inr h1) rfl
        (by simp only [hblen]; simp [hbw, hb1.1, hb1.2, h4])
      refine ⟨_, hfw.trans hk, create_like_shape A true, ?_⟩
      intro q z y x hq hz hy hx
      obtain ⟨a, b, ha, hb, ht⟩ := Filled_at op A
        { B with dims := 1, w := B.h, h := 1, d := 1, c := 1 } (fun j => j / (A.w * A.h * A.d))
        { (A.create_like true : Top α) with data := buf' } (create_like_shape A true) hfill
        q z y x hq hz hy hx
      rw [dec_q _ _ _ _ _ _ _ hx hy hz] at hb
      have hz0 : z = 0 := by omega
      refine ⟨a, b, ha, ht, fun h => by omega, fun _ h => by omega, fun h => by omega,
        fun _ _ => ?_⟩
      simpa [Mat.at, hbw, hz0] using hb
    · have hsq : squeeze_inner_axes B = B := by simp [squeeze_inner_axes, h2, hbw]
      rw [hsq] at hfw
      obtain ⟨buf', hk, hfill⟩ := tmpl_inner_4_2 op A B hA hbe h1 h2
        (by rw [hblen]; simp [hb1.1, hb1.2, h4]) (by omega)
      refine ⟨_, hfw.trans hk, create_like_shape A true, ?_⟩
      intro q z y x hq hz hy hx
      obtain ⟨a, b, ha, hb, ht⟩ := Filled_at op A B
        (fun j => B.w * (j / (A.w * A.h * A.d)) + j / (A.w * A.h) % A.d)
        { (A.create_like true : Top α) with data := buf' } (create_like_shape A true) hfill
        q z y x hq hz hy hx
      simp only [dec_q _ _ _ _ _ _ _ hx hy hz, dec_z _ _ _ _ _ _ _ hx hy hz] at hb
      refine ⟨a, b, ha, ht, fun h => by omega, fun _ h => by omega, fun h => by omega,
        fun _ _ => ?_⟩
      simpa [Mat.at, Nat.mul_comm] using hb

end

section
variable {α : Type}

theorem load_natCast (data : List α) (n : Nat) : load data (n : Int) = data[n]? := by
  simp [load]

theorem load_mem (data : List α) (i : Int) (v : α) (h : load data i = some v) : v ∈ data := by
  unfold load at h
  split_ifs at h
  exact List.getElem?_mem h

/-- With `b.d` and `b.h` at least 1 the signed clamps of the outer block are
the natural-number ones. -/
theorem outer_34_eq (op : α → α → α) (a b : Mat α) (c : Top α) (buf : Buf α)
    (hd : 0 < b.d) (hh : 0 < b.h) :
    tmpl.outer_34 op a b c buf = tmpl.outer_34_nat op a b c buf := by
  unfold tmpl.outer_34 tmpl.outer_34_nat
  dsimp only
  apply forLoop_congr
  intro q t _
  congr 1
  apply forLoop_congr
  intro z st _
  apply forLoop_congr
  intro y st2 _
  have hz : min (z : Int) ((b.d : Int) - 1) = ((min z (b.d - 1) : Nat) : Int) := by
    rcases Nat.le_total z (b.d - 1) with h | h
    · rw [Nat.min_eq_left h, min_eq_left (by omega)]
    · rw [Nat.min_eq_right h, min_eq_right (by omega)]; omega
  have hy : min (y : Int) ((b.h : Int) - 1) = ((min y (b.h - 1) : Nat) : Int) := by
    rcases Nat.le_total y (b.h - 1) with h | h
    · rw [Nat.min_eq_left h, min_eq_left (by omega)]
    · rw [Nat.min_eq_right h, min_eq_right (by omega)]; omega
  have hrow := forLoop_congr
    (fun x (bf : Buf α) => do
      let v ← a.data[st2.1 + x]?
      let v1 ← load b.data ((b.w : Int) * b.h * min (z : Int) ((b.d : Int) - 1) * b.elempack
        + (b.w : Int) * min (y : Int) ((b.h : Int) - 1) * b.elempack + (x : Int))
      store bf (st2.2.1 + x) (op v v1))
    (fun x (bf : Buf α) => do
      let v ← a.data[st2.1 + x]?
      let v1 ← b.data[b.depth (min z (b.d - 1)) + b.row (min y (b.h - 1)) + x]?
      store bf (st2.2.1 + x) (op v v1))
    a.w (fun x u _ => by
      have e : (b.w : Int) * b.h * min (z : Int) ((b.d : Int) - 1) * b.elempack
          + (b.w : Int) * min (y : Int) ((b.h : Int) - 1) * b.elempack + (x : Int)
          = ((b.depth (min z (b.d - 1)) + b.row (min y (b.h - 1)) + x : Nat) : Int) := by
        rw [hz, hy]; simp only [Mat.depth, Mat.row]; push_cast; ring
      dsimp only
      rw [e, load_natCast]) st2.2.2
  rw [hrow]

theorem tmpl_outer_2 (op : α → α → α) (a b : Mat α) (ha : a.wf) (hda : a.dims = 2)
    (hbl : a.w ≤ b.data.length) :
    ∃ buf', tmpl.binary_op_broadcast_outer op a b (a.create_like true)
        = some (0, { (a.create_like true : Top α) with data := buf' })
      ∧ Filled (bcast op a b (fun j => j % a.w)) (a.w * a.h * a.d * a.c)
          (a.w * a.h * a.d * a.c) buf' := by
  obtain ⟨hae, halen, hext⟩ := ha
  have hdc : a.d = 1 ∧ a.c = 1 := by rcases hext with h | h | h | h <;> omega
  have hlen : a.w * a.h * a.d * a.c = a.w * a.h := by simp [hdc.1, hdc.2]
  obtain ⟨buf', hk, hfill⟩ := outer_2_fill op a b (a.create_like true)
    (a.create_like true : Top α).data (a.w * a.h * a.d * a.c) (create_like_shape a true) hae
    halen hlen hbl (create_like_filled _ a hae)
  refine ⟨buf', ?_, hfill⟩
  simp [tmpl.binary_op_broadcast_outer, hda, hk]

theorem tmpl_outer_34 (op : α → α → α) (a b : Mat α) (ha : a.wf) (hbe : b.elempack = 1)
    (hda : a.dims = 3 ∨ a.dims = 4) (hbd : 0 < b.d) (hbh : 0 < b.h)
    (hb : ∀ z y, z < a.d → y < a.h →
      b.w * b.h * min z (b.d - 1) + b.w * min y (b.h - 1) + a.w ≤ b.data.length) :
    ∃ buf', tmpl.binary_op_broadcast_outer op a b (a.create_like true)
        = some (0, { (a.create_like true : Top α) with data := buf' })
      ∧ Filled (bcast op a b (fun j => b.w * b.h * min (j / (a.w * a.h) % a.d) (b.d - 1)
          + b.w * min (j / a.w % a.h) (b.h - 1) + j % a.w))
          (a.w * a.h * a.d * a.c) (a.w * a.h * a.d * a.c) buf' := by
  obtain ⟨hae, halen, hext⟩ := ha
  obtain ⟨buf', hk, hfill⟩ := outer_34_fill op a b (a.create_like true)
    (a.create_like true : Top α).data (a.w * a.h * a.d * a.c) (create_like_shape a true) hae hbe
    halen rfl hb (create_like_filled _ a hae)
  refine ⟨buf', ?_, hfill⟩
  rcases hda with hda | hda <;>
    simp [tmpl.binary_op_broadcast_outer, hda, outer_34_eq op a b _ _ hbd hbh, hk]

end

section
variable {α : Type}

/-- What `binary_op_broadcast_outer<Op>` computes on an outer template. -/
theorem outer_kernel_spec (op : α → α → α) (A B : Mat α)
    (hA : A.wf) (hB : B.wf) (hne : 0 < A.w * A.h * A.d * A.c) (hdims : A.dims = B.dims)
    (hout : is_broadcast_outer A B) :
    ∃ top, tmpl.binary_op_broadcast_outer op A B (A.create_like true) = some (0, top)
      ∧ SameShape top A
      ∧ ∀ q z y x, q < A.c → z < A.d → y < A.h → x < A.w →
        ∃ a b, A.at q z y x = some a
          ∧ B.at 0 (min z (B.d - 1)) (min y (B.h - 1)) x = some b
          ∧ top.at q z y x = some [op a b] := by
  obtain ⟨hw, hh, hd, hc⟩ := pos_of_size_pos _ _ _ _ hne
  have hA' := hA
  obtain ⟨hae, halen, haext⟩ := hA'
  obtain ⟨hbe, hblen, hbext⟩ := hB
  -- what the six templates share
  have hBw : B.w = A.w := by
    rcases hout with h | h | h | h | h | h <;> exact h.2.1
  have hBc : B.c = 1 := by
    rcases hout with h | h | h | h | h | h <;> rcases hbext with g | g | g | g <;> omega
  have hBh : B.h = 1 ∨ B.h = A.h := by
    rcases hout with h | h | h | h | h | h <;> omega
  have hBd : B.d = 1 ∨ B.d = A.d := by
    rcases hout with h | h | h | h | h | h <;> rcases hbext with g | g | g | g <;> omega
  have hBh' : 0 < B.h ∧ B.h ≤ A.h := by omega
  have hBd' : 0 < B.d ∧ B.d ≤ A.d := by omega
  have hAd : A.dims = 2 ∨ A.dims = 3 ∨ A.dims = 4 := by
    rcases hout with h | h | h | h | h | h <;> omega
  rcases hAd with h2 | h34
  · have ha1 : A.d = 1 ∧ A.c = 1 := by rcases haext with h | h | h | h <;> omega
    have hb1 : B.h = 1 ∧ B.d = 1 := by
      rcases hout with h | h | h | h | h | h <;> rcases hbext with g | g | g | g <;> omega
    obtain ⟨buf', hk, hfill⟩ := tmpl_outer_2 op A B hA h2
      (by rw [hblen]; simp [hBw, hb1.1, hb1.2, hBc])
    refine ⟨_, hk, create_like_shape A true, ?_⟩
    intro q z y x hq hz hy hx
    obtain ⟨a, b, ha, hb, ht⟩ := Filled_at op A B (fun j => j % A.w)
      { (A.create_like true : Top α) with data := buf' } (create_like_shape A true) hfill
      q z y x hq hz hy hx
    simp only [dec_x _ _ _ _ _ _ _ hx] at hb
    refine ⟨a, b, ha, ?_, ht⟩
    simpa [Mat.at, hb1.1, hb1.2] using hb
  · have hbound : ∀ z y, z < A.d → y < A.h →
        B.w * B.h * min z (B.d - 1) + B.w * min y (B.h - 1) + A.w ≤ B.data.length := by
      intro z y _ _
      have hz1 : min z (B.d - 1) < B.d := by omega
      have hy1 : min y (B.h - 1) < B.h := by omega
      have := slab_le B.w B.h B.d (min z (B.d - 1)) (min y (B.h - 1)) hz1 hy1
      rw [hblen, hBc, Nat.mul_one, ← hBw]
      calc B.w * B.h * min z (B.d - 1) + B.w * min y (B.h - 1) + B.w
          = min z (B.d - 1) * (B.h * B.w) + min y (B.h - 1) * B.w + B.w := by ring
        _ ≤ B.w * B.h * B.d := this
    obtain ⟨buf', hk, hfill⟩ := tmpl_outer_34 op A B hA hbe h34 hBd'.1 hBh'.1 hbound
    refine ⟨_, hk, create_like_shape A true, ?_⟩
    intro q z y x hq hz hy hx
    obtain ⟨a, b, ha, hb, ht⟩ := Filled_at op A B
      (fun j => B.w * B.h * min (j / (A.w * A.h) % A.d) (B.d - 1)
        + B.w * min (j / A.w % A.h) (B.h - 1) + j % A.w)
      { (A.create_like true : Top α) with data := buf' } (create_like_shape A true) hfill
      q z y x hq hz hy hx
    simp only [dec_x _ _ _ _ _ _ _ hx, dec_y _ _ _ _ _ _ _ hx hy,
      dec_z _ _ _ _ _ _ _ hx hy hz] at hb
    refine ⟨a, b, ha, ?_, ht⟩
    have e : B.w * B.h * B.d * 0 + ((min z (B.d - 1) * B.h + min y (B.h - 1)) * B.w + x)
        = B.w * B.h * min z (B.d - 1) + B.w * min y (B.h - 1) + x := by ring
    simp only [Mat.at, e]
    exact hb

end

section
variable {α : Type} [Add α] [Sub α] [Mul α] [Div α] [Max α] [Min α]

/-- C9: for every op_type of the table, every input pair whose dominant operand
`A` (non-empty, well-formed, dims 2, 3 or 4) and subordinate operand `B`
(well-formed, of the same dims) `forward` dispatches to
`binary_op_broadcast_outer` (not Scalar, not NoBroadcast, not BroadcastInner,
one of the six outer templates), `forward` returns 0 with an output of the
shape of `A` in which every cell `[q,z,y,x]` was written once with
`op(A[q,z,y,x], B[min(z, B.d-1), min(y, B.h-1), x])`, `op` being the functor of
the effective op; for `A.dims = 2` this is row `y` of `A` combined pointwise
with the single row of `B`. -/
theorem forward_broadcast_outer_spec (powf : α → α → α) (self : BinaryOp α) (X Y : Mat α)
    (opt : NcnnOption) (op : α → α → α)
    (hop : functor_of powf (op_type_r self.op_type X Y) = some op)
    (hal : opt.blob_allocator = true)
    (hA : (dominant X Y).wf) (hB : (subordinate X Y).wf)
    (hne : 0 < (dominant X Y).w * (dominant X Y).h * (dominant X Y).d * (dominant X Y).c)
    (hdims : (dominant X Y).dims = (subordinate X Y).dims)
    (hns : ¬ is_scalar (subordinate X Y))
    (hnb : ¬ is_no_broadcast (dominant X Y) (subordinate X Y))
    (hni : ¬ is_broadcast_inner (dominant X Y) (subordinate X Y))
    (hout : is_broadcast_outer (dominant X Y) (subordinate X Y)) :
    ∃ top, self.forward powf X Y opt = some (0, top) ∧ SameShape top (dominant X Y)
      ∧ ∀ q z y x, q < (dominant X Y).c → z < (dominant X Y).d → y < (dominant X Y).h →
          x < (dominant X Y).w →
        ∃ a b, (dominant X Y).at q z y x = some a
          ∧ (subordinate X Y).at 0 (min z ((subordinate X Y).d - 1))
              (min y ((subordinate X Y).h - 1)) x = some b
          ∧ top.at q z y x = some [op a b] := by
  rw [forward_outer_eq powf self X Y opt op hal hA.1 hne hop hns hnb hni hout]
  exact outer_kernel_spec op _ _ hA hB hne hdims hout

end

section
variable {α : Type}

theorem store_written (P : α → Prop) (buf buf' : Buf α) (i : Nat) (v : α)
    (hW : Written P buf) (hv : P v) (h : store buf i v = some buf') : Written P buf' := by
  unfold store at h
  cases hi : buf[i]? with
  | none => simp [hi] at h
  | some hist =>
    simp only [hi, Option.some.injEq] at h
    subst h
    intro cell hc u hu
    rcases List.mem_or_eq_of_mem_set hc with hc | hc
    · exact hW cell hc u hu
    · subst hc
      rcases List.mem_cons.mp hu with hu | hu
      · exact hu ▸ hv
      · exact hW hist (List.getElem?_mem hi) u hu

theorem row_written_const (P : α → Prop) (g : α → α → α) (a : Mat α) (b0 : α)
    (hP : ∀ v, v ∈ a.data → P (g v b0)) (p o n : Nat) (buf buf' : Buf α)
    (hW : Written P buf)
    (h : forLoop n (fun x bf => do
        let v ← a.data[p + x]?
        store bf (o + x) (g v b0)) buf = some buf') : Written P buf' := by
  refine forLoop_preserve (Written P) _ ?_ n buf buf' hW h
  intro x t t' ht hb
  simp only [Option.bind_eq_bind, Option.bind_eq_some] at hb
  obtain ⟨v, hv, hs⟩ := hb
  exact store_written P t t' _ _ ht (hP v (List.getElem?_mem hv)) hs

theorem row_written_pair (P : α → Prop) (g : α → α → α) (a b : Mat α)
    (hP : ∀ v, v ∈ a.data → ∀ v1, v1 ∈ b.data → P (g v v1)) (p p1 o n : Nat)
    (buf buf' : Buf α) (hW : Written P buf)
    (h : forLoop n (fun x bf => do
        let v ← a.data[p + x]?
        let v1 ← b.data[p1 + x]?
        store bf (o + x) (g v v1)) buf = some buf') : Written P buf' := by
  refine forLoop_preserve (Written P) _ ?_ n buf buf' hW h
  intro x t t' ht hb
  simp only [Option.bind_eq_bind, Option.bind_eq_some] at hb
  obtain ⟨v, hv, v1, hv1, hs⟩ := hb
  exact store_written P t t' _ _ ht
    (hP v (List.getElem?_mem hv) v1 (List.getElem?_mem hv1)) hs

/-- A bumped row loop over the state `(ptr, outptr, buf)` keeps `Written`. -/
theorem bump_written (P : α → Prop) (n : Nat)
    (body : Nat → Nat × Nat × Buf α → Option (Nat × Nat × Buf α))
    (hbody : ∀ y st st', Written P st.2.2 → body y st = some st' → Written P st'.2.2)
    (st st' : Nat × Nat × Buf α) (hW : Written P st.2.2) (h : forLoop n body st = some st') :
    Written P st'.2.2 :=
  forLoop_preserve (fun s => Written P s.2.2) body hbody n st st' hW h

theorem scalar_written (P : α → Prop) (g : α → α → α) (a : Mat α) (b0 : α) (c : Top α)
    (hP : ∀ v, v ∈ a.data → P (g v b0)) (r : Int) (c' : Top α)
    (hW : Written P c.data) (h : tmpl.binary_op_scalar g a b0 c = some (r, c')) :
    Written P c'.data := by
  simp only [tmpl.binary_op_scalar, Option.map_eq_some', Prod.mk.injEq] at h
  obtain ⟨buf, hl, -, rfl⟩ := h
  refine forLoop_preserve (Written P) _ ?_ _ _ _ hW hl
  intro q t t' ht hb
  exact row_written_const P g a b0 hP _ _ _ t t' ht hb

theorem no_broadcast_written (P : α → Prop) (g : α → α → α) (a b : Mat α) (c : Top α)
    (hP : ∀ v, v ∈ a.data → ∀ v1, v1 ∈ b.data → P (g v v1)) (r : Int) (c' : Top α)
    (hW : Written P c.data) (h : tmpl.binary_op_no_broadcast g a b c = some (r, c')) :
    Written P c'.data := by
  simp only [tmpl.binary_op_no_broadcast, Option.map_eq_some', Prod.mk.injEq] at h
  obtain ⟨buf, hl, -, rfl⟩ := h
  refine forLoop_preserve (Written P) _ ?_ _ _ _ hW hl
  intro q t t' ht hb
  exact row_written_pair P g a b hP _ _ _ _ t t' ht hb

theorem inner_2_1_written (P : α → Prop) (g : α → α → α) (a b : Mat α) (c : Top α)
    (hP : ∀ v, v ∈ a.data → ∀ v1, v1 ∈ b.data → P (g v v1)) (buf buf' : Buf α)
    (hW : Written P buf) (h : tmpl.inner_2_1 g a b c buf = some buf') : Written P buf' := by
  refine forLoop_preserve (Written P) _ ?_ _ _ _ hW h
  intro y t t' ht hb
  simp only [Option.bind_eq_bind, Option.bind_eq_some] at hb
  obtain ⟨b0, hb0, hl⟩ := hb
  exact row_written_const P g a b0 (fun v hv => hP v hv b0 (List.getElem?_mem hb0))
    _ _ _ t t' ht hl

theorem inner_34_1_written (P : α → Prop) (g : α → α → α) (a b : Mat α) (c : Top α)
    (hP : ∀ v, v ∈ a.data → ∀ v1, v1 ∈ b.data → P (g v v1)) (buf buf' : Buf α)
    (hW : Written P buf) (h : tmpl.inner_34_1 g a b c buf = some buf') : Written P buf' := by
  refine forLoop_preserve (Written P) _ ?_ _ _ _ hW h
  intro q t t' ht hb
  simp only [Option.bind_eq_bind, Option.bind_eq_some] at hb
  obtain ⟨b0, hb0, hl⟩ := hb
  exact row_written_const P g a b0 (fun v hv => hP v hv b0 (List.getElem?_mem hb0))
    _ _ _ t t' ht hl

theorem inner_3_2_written (P : α → Prop) (g : α → α → α) (a b : Mat α) (c : Top α)
    (hP : ∀ v, v ∈ a.data → ∀ v1, v1 ∈ b.data → P (g v v1)) (buf buf' : Buf α)
    (hW : Written P buf) (h : tmpl.inner_3_2 g a b c buf = some buf') : Written P buf' := by
  refine forLoop_preserve (Written P) _ ?_ _ _ _ hW h
  intro q t t' ht hb
  simp only [Option.map_eq_some'] at hb
  obtain ⟨st, hl, rfl⟩ := hb
  refine bump_written P _ _ ?_ _ st ht hl
  intro y s s' hs hb
  simp only [Option.bind_eq_bind, Option.bind_eq_some, Option.pure_def, Option.some.injEq] at hb
  obtain ⟨b0, hb0, bf, hl, rfl⟩ := hb
  exact row_written_const P g a b0 (fun v hv => hP v hv b0 (List.getElem?_mem hb0))
    _ _ _ _ bf hs hl

theorem inner_4_2_written (P : α → Prop) (g : α → α → α) (a b : Mat α) (c : Top α)
    (hP : ∀ v, v ∈ a.data → ∀ v1, v1 ∈ b.data → P (g v v1)) (buf buf' : Buf α)
    (hW : Written P buf) (h : tmpl.inner_4_2 g a b c buf = some buf') : Written P buf' := by
  refine forLoop_preserve (Written P) _ ?_ _ _ _ hW h
  intro q t t' ht hb
  simp only [Option.map_eq_some'] at hb
  obtain ⟨st, hl, rfl⟩ := hb
  refine bump_written P _ _ ?_ _ st ht hl
  intro z s s' hs hb
  simp only [Option.bind_eq_bind, Option.bind_eq_some] at hb
  obtain ⟨b0, hb0, hl⟩ := hb
  refine bump_written P _ _ ?_ s s' hs hl
  intro y u u' hu hb
  simp only [Option.bind_eq_bind, Option.bind_eq_some, Option.pure_def, Option.some.injEq] at hb
  obtain ⟨bf, hl, rfl⟩ := hb
  exact row_written_const P g a b0 (fun v hv => hP v hv b0 (List.getElem?_mem hb0))
    _ _ _ _ bf hu hl

theorem inner_4_3_written (P : α → Prop) (g : α → α → α) (a b : Mat α) (c : Top α)
    (hP : ∀ v, v ∈ a.data → ∀ v1, v1 ∈ b.data → P (g v v1)) (buf buf' : Buf α)
    (hW : Written P buf) (h : tmpl.inner_4_3 g a b c buf = some buf') : Written P buf' := by
  refine forLoop_preserve (Written P) _ ?_ _ _ _ hW h
  intro q t t' ht hb
  simp only [Option.map_eq_some'] at hb
  obtain ⟨st, hl, rfl⟩ := hb
  refine forLoop_preserve (fun (s : Nat × Nat × Nat × Buf α) => Written P s.2.2.2) _ ?_ _ _ st
    ht hl
  intro z s s' hs hb
  simp only [Option.bind_eq_bind, Option.bind_eq_some, Option.pure_def, Option.some.injEq] at hb
  obtain ⟨s2, hl, rfl⟩ := hb
  refine bump_written P _ _ ?_ (s.1, s.2.2.1, s.2.2.2) s2 hs hl
  intro y u u' hu hb
  simp only [Option.bind_eq_bind, Option.bind_eq_some, Option.pure_def, Option.some.injEq] at hb
  obtain ⟨b0, hb0, bf, hl, rfl⟩ := hb
  exact row_written_const P g a b0 (fun v hv => hP v hv b0 (List.getElem?_mem hb0))
    _ _ _ _ bf hu hl

theorem outer_2_written (P : α → Prop) (g : α → α → α) (a b : Mat α) (c : Top α)
    (hP : ∀ v, v ∈ a.data → ∀ v1, v1 ∈ b.data → P (g v v1)) (buf buf' : Buf α)
    (hW : Written P buf) (h : tmpl.outer_2 g a b c buf = some buf') : Written P buf' := by
  refine forLoop_preserve (Written P) _ ?_ _ _ _ hW h
  intro y t t' ht hb
  exact row_written_pair P g a b hP _ _ _ _ t t' ht hb

theorem outer_34_written (P : α → Prop) (g : α → α → α) (a b : Mat α) (c : Top α)
    (hP : ∀ v, v ∈ a.data → ∀ v1, v1 ∈ b.data → P (g v v1)) (buf buf' : Buf α)
    (hW : Written P buf) (h : tmpl.outer_34 g a b c buf = some buf') : Written P buf' := by
  refine forLoop_preserve (Written P) _ ?_ _ _ _ hW h
  intro q t t' ht hb
  simp only [Option.map_eq_some'] at hb
  obtain ⟨st, hl, rfl⟩ := hb
  refine bump_written P _ _ ?_ _ st ht hl
  intro z s s' hs hl
  refine bump_written P _ _ ?_ s s' hs hl
  intro y u u' hu hb
  simp only [Option.bind_eq_bind, Option.bind_eq_some, Option.pure_def, Option.some.injEq] at hb
  obtain ⟨bf, hl, rfl⟩ := hb
  refine forLoop_preserve (Written P) _ ?_ _ _ bf hu hl
  intro x w w' hw hb
  simp only [Option.bind_eq_some] at hb
  obtain ⟨v, hv, v1, hv1, hs⟩ := hb
  exact store_written P w w' _ _ hw
    (hP v (List.getElem?_mem hv) v1 (load_mem _ _ _ hv1)) hs

theorem broadcast_20_written (P : α → Prop) (g : α → α → α) (a b : Mat α) (c : Top α)
    (hP : ∀ v, v ∈ a.data → ∀ v1, v1 ∈ b.data → P (g v v1)) (r : Int) (c' : Top α)
    (hW : Written P c.data) (h : tmpl.binary_op_broadcast_20 g a b c = some (r, c')) :
    Written P c'.data := by
  simp only [tmpl.binary_op_broadcast_20, Option.map_eq_some', Prod.mk.injEq] at h
  obtain ⟨buf, hl, -, rfl⟩ := h
  refine forLoop_preserve (Written P) _ ?_ _ _ _ hW hl
  intro q t t' ht hb
  simp only [Option.map_eq_some'] at hb
  obtain ⟨st, hl, rfl⟩ := hb
  refine bump_written P _ _ ?_ _ st ht hl
  intro y u u' hu hb
  simp only [Option.bind_eq_bind, Option.bind_eq_some, Option.pure_def, Option.some.injEq] at hb
  obtain ⟨bf, hl, rfl⟩ := hb
  exact row_written_pair P g a b hP _ _ _ _ _ bf hu hl

end

section
variable {α : Type}

theorem ite_written (P : α → Prop) (cond : Prop) [Decidable cond]
    (k : Buf α → Option (Buf α))
    (hk : ∀ buf buf', Written P buf → k buf = some buf' → Written P buf')
    (buf buf' : Buf α) (hW : Written P buf)
    (h : (if cond then k buf else some buf) = some buf') : Written P buf' := by
  by_cases hc : cond
  · rw [if_pos hc] at h; exact hk buf buf' hW h
  · rw [if_neg hc] at h
    simp only [Option.some.injEq] at h
    exact h ▸ hW

theorem tmpl_inner_written (P : α → Prop) (g : α → α → α) (a b : Mat α) (c : Top α)
    (hP : ∀ v, v ∈ a.data → ∀ v1, v1 ∈ b.data → P (g v v1)) (r : Int) (c' : Top α)
    (hW : Written P c.data) (h : tmpl.binary_op_broadcast_inner g a b c = some (r, c')) :
    Written P c'.data := by
  unfold tmpl.binary_op_broadcast_inner at h
  obtain ⟨b1, h1, h⟩ := Option.bind_eq_some.mp h
  obtain ⟨b2, h2, h⟩ := Option.bind_eq_some.mp h
  obtain ⟨b3, h3, h⟩ := Option.bind_eq_some.mp h
  obtain ⟨b4, h4, h⟩ := Option.bind_eq_some.mp h
  obtain ⟨b5, h5, h⟩ := Option.bind_eq_some.mp h
  simp only [Option.some.injEq, Prod.mk.injEq] at h
  obtain ⟨-, rfl⟩ := h
  have w1 := ite_written P _ _ (inner_2_1_written P g a b c hP) _ _ hW h1
  have w2 := ite_written P _ _ (inner_34_1_written P g a b c hP) _ _ w1 h2
  have w3 := ite_written P _ _ (inner_3_2_written P g a b c hP) _ _ w2 h3
  have w4 := ite_written P _ _ (inner_4_2_written P g a b c hP) _ _ w3 h4
  exact ite_written P _ _ (inner_4_3_written P g a b c hP) _ _ w4 h5

theorem tmpl_outer_written (P : α → Prop) (g : α → α → α) (a b : Mat α) (c : Top α)
    (hP : ∀ v, v ∈ a.data → ∀ v1, v1 ∈ b.data → P (g v v1)) (r : Int) (c' : Top α)
    (hW : Written P c.data) (h : tmpl.binary_op_broadcast_outer g a b c = some (r, c')) :
    Written P c'.data := by
  unfold tmpl.binary_op_broadcast_outer at h
  obtain ⟨b1, h1, h⟩ := Option.bind_eq_some.mp h
  obtain ⟨b2, h2, h⟩ := Option.bind_eq_some.mp h
  simp only [Option.some.injEq, Prod.mk.injEq] at h
  obtain ⟨-, rfl⟩ := h
  have w1 := ite_written P _ _ (outer_2_written P g a b c hP) _ _ hW h1
  exact ite_written P _ _ (outer_34_written P g a b c hP) _ _ w1 h2

theorem create_like_written (P : α → Prop) (A : Mat α) (al : Bool) :
    Written P (A.create_like al : Top α).data := by
  intro cell hc v hv
  cases al
  · simp [Mat.create_like] at hc
  · simp only [Mat.create_like, if_true] at hc
    rw [List.eq_of_mem_replicate hc] at hv
    simp at hv

theorem squeeze_data_subset (b : Mat α) (v : α) (hv : v ∈ (squeeze_inner_axes b).data) :
    v ∈ b.data := by
  rcases squeeze_cases b with h | h | ⟨-, -, -, h, -⟩
  · rwa [h] at hv
  · rw [h] at hv; simp [Mat.nil] at hv
  · rwa [h] at hv

end

section
variable {α : Type} [Add α] [Sub α] [Mul α] [Div α] [Max α] [Min α]

/-- Whatever `forward` returns, every value stored into its output is the
effective functor applied to an element of the dominant operand and an element
of the subordinate operand. -/
theorem forward_written (powf : α → α → α) (self : BinaryOp α) (X Y : Mat α) (opt : NcnnOption)
    (g : α → α → α) (hg : functor_of powf (op_type_r self.op_type X Y) = some g)
    (r : Int) (top : Top α) (h : self.forward powf X Y opt = some (r, top)) :
    Written (fun v => ∃ a, a ∈ (dominant X Y).data ∧ ∃ b, b ∈ (subordinate X Y).data ∧ v = g a b)
      top.data := by
  have hP : ∀ v, v ∈ (dominant X Y).data → ∀ v1, v1 ∈ (subordinate X Y).data →
      (fun v => ∃ a, a ∈ (dominant X Y).data ∧ ∃ b, b ∈ (subordinate X Y).data ∧ v = g a b)
        (g v v1) := fun v hv v1 hv1 => ⟨v, hv, v1, hv1, rfl⟩
  have hfresh := create_like_written
    (fun v => ∃ a, a ∈ (dominant X Y).data ∧ ∃ b, b ∈ (subordinate X Y).data ∧ v = g a b)
    (dominant X Y) opt.blob_allocator
  unfold BinaryOp.forward at h
  dsimp only at h
  by_cases he : ((dominant X Y).create_like opt.blob_allocator : Top α).empty = true
  · rw [if_pos he] at h
    simp only [Option.some.injEq, Prod.mk.injEq] at h
    exact h.2 ▸ hfresh
  rw [if_neg he] at h
  by_cases hs : is_scalar (subordinate X Y)
  · rw [if_pos hs] at h
    simp only [Option.bind_eq_bind, Option.bind_eq_some, binary_op_scalar_eq, hg] at h
    obtain ⟨b0, hb0, hk⟩ := h
    exact scalar_written _ g _ b0 _ (fun v hv => hP v hv b0 (List.getElem?_mem hb0)) r top
      hfresh hk
  rw [if_neg hs] at h
  by_cases hnb : is_no_broadcast (dominant X Y) (subordinate X Y)
  · rw [if_pos hnb] at h
    simp only [binary_op_no_broadcast_eq, hg] at h
    exact no_broadcast_written _ g _ _ _ hP r top hfresh h
  rw [if_neg hnb] at h
  by_cases hin : is_broadcast_inner (dominant X Y) (subordinate X Y)
  · rw [if_pos hin] at h
    simp only [binary_op_broadcast_inner_eq, hg] at h
    exact tmpl_inner_written _ g _ _ _
      (fun v hv v1 hv1 => hP v hv v1 (squeeze_data_subset _ v1 hv1)) r top hfresh h
  rw [if_neg hin] at h
  by_cases hout : is_broadcast_outer (dominant X Y) (subordinate X Y)
  · rw [if_pos hout] at h
    simp only [binary_op_broadcast_outer_eq, hg] at h
    exact tmpl_outer_written _ g _ _ _ hP r top hfresh h
  rw [if_neg hout] at h
  by_cases h20 : is_broadcast_20 (dominant X Y) (subordinate X Y)
  · rw [if_pos h20] at h
    simp only [binary_op_broadcast_20_eq, hg] at h
    exact broadcast_20_written _ g _ _ _ hP r top hfresh h
  rw [if_neg h20] at h
  simp only [Option.some.injEq, Prod.mk.injEq] at h
  exact h.2 ▸ hfresh

/-- The functor of the reverse tag is the functor of the tag with its arguments
exchanged. -/
theorem functor_of_reverse (powf : α → α → α) (t : Int) (f : α → α → α)
    (ht : t = Operation_SUB ∨ t = Operation_DIV ∨ t = Operation_POW ∨ t = Operation_RSUB
      ∨ t = Operation_RDIV ∨ t = Operation_RPOW)
    (hf : functor_of powf t = some f) :
    get_reverse_op_type t ≠ t
      ∧ ∃ g, functor_of powf (get_reverse_op_type t) = some g ∧ ∀ x y, g x y = f y x := by
  rcases ht with h | h | h | h | h | h <;> subst h
  · exact ⟨by decide, binary_op_rsub, rfl, fun x y => by
      have : f = binary_op_sub := (Option.some.inj hf).symm
      rw [this]; rfl⟩
  · exact ⟨by decide, binary_op_rdiv, rfl, fun x y => by
      have : f = binary_op_div := (Option.some.inj hf).symm
      rw [this]; rfl⟩
  · exact ⟨by decide, binary_op_rpow powf, rfl, fun x y => by
      have : f = binary_op_pow powf := (Option.some.inj hf).symm
      rw [this]; rfl⟩
  · exact ⟨by decide, binary_op_sub, rfl, fun x y => by
      have : f = binary_op_rsub := (Option.some.inj hf).symm
      rw [this]; rfl⟩
  · exact ⟨by decide, binary_op_div, rfl, fun x y => by
      have : f = binary_op_rdiv := (Option.some.inj hf).symm
      rw [this]; rfl⟩
  · exact ⟨by decide, binary_op_pow powf, rfl, fun x y => by
      have : f = binary_op_rpow powf := (Option.some.inj hf).symm
      rw [this]; rfl⟩

/-- C8: for every op_type in {SUB, DIV, POW, RSUB, RDIV, RPOW} with functor `f`
and every input pair on which `forward` returns, the effective op is the
reverse-map image of op_type exactly when the operands were swapped, and every
value stored into the output is `f x0 x1` for an element `x0` of
`bottom_blobs[0]` and an element `x1` of `bottom_blobs[1]`: the swap never
exchanges the arguments of the configured operation. -/
theorem forward_argument_order (powf : α → α → α) (self : BinaryOp α) (X Y : Mat α)
    (opt : NcnnOption) (f : α → α → α)
    (hop : self.op_type = Operation_SUB ∨ self.op_type = Operation_DIV
      ∨ self.op_type = Operation_POW ∨ self.op_type = Operation_RSUB
      ∨ self.op_type = Operation_RDIV ∨ self.op_type = Operation_RPOW)
    (hf : functor_of powf self.op_type = some f)
    (r : Int) (top : Top α) (h : self.forward powf X Y opt = some (r, top)) :
    (op_type_r self.op_type X Y = get_reverse_op_type self.op_type ↔ a_is_lower X Y = true)
      ∧ ∀ cell, cell ∈ top.data → ∀ v, v ∈ cell →
        ∃ x0, x0 ∈ X.data ∧ ∃ x1, x1 ∈ Y.data ∧ v = f x0 x1 := by
  obtain ⟨hne, g, hg, hgf⟩ := functor_of_reverse powf self.op_type f hop hf
  cases hl : a_is_lower X Y with
  | false =>
    obtain ⟨hd, hs, ht⟩ := dominant_of_not_lower X Y hl
    refine ⟨by rw [ht]; simp; exact fun e => hne e.symm, ?_⟩
    have hw := forward_written powf self X Y opt f (by rw [ht]; exact hf) r top h
    rw [hd, hs] at hw
    exact hw
  | true =>
    obtain ⟨hd, hs, ht⟩ := dominant_of_lower X Y hl
    refine ⟨by rw [ht]; simp, ?_⟩
    have hw := forward_written powf self X Y opt g (by rw [ht]; exact hg) r top h
    rw [hd, hs] at hw
    intro cell hc v hv
    obtain ⟨a, ha, b, hb, rfl⟩ := hw cell hc v hv
    exact ⟨b, hb, a, ha, hgf a b⟩

end

/-! ## Worked inputs: witnesses and refutations -/

/-- C2 (the code at the failing input): for `A` of shape (c=2, d=1, h=2, w=2)
and `B` of shape (c=2, d=1, h=2, w=1), a BroadcastInner template of `A`, the
squeeze step takes its `d == 1` branch, no kernel block runs, and `forward`
returns 0 with no cell of the output written, where the claim requires
`A[q,0,y,x] + B[q,0,y,0]` under ADD. -/
theorem broadcast_inner_depth_one_unwritten :
    is_broadcast_inner sA4 sB4 ∧ squeeze_inner_axes sB4 = Mat.nil
      ∧ (layer Operation_ADD).forward ipow sA4 sB4 opt1
        = some (0, ⟨4, 2, 2, 1, 2, 1, List.replicate 8 []⟩) := by
  decide

/-- C4 (as stated) fails: under ADD, the operands of shapes (h=2, w=3) and
(h=3, w=2) give outputs of different shapes in the two orders. -/
theorem forward_commutative_refuted :
    (layer Operation_ADD).forward ipow sM2x3 sM3x2 opt1
      ≠ (layer Operation_ADD).forward ipow sM3x2 sM2x3 opt1 := by
  decide

/-- Witness of C4 (as amended): two tensors of shape (h=3, w=2) under ADD. -/
theorem forward_commutative_witness :
    (((layer Operation_ADD : BinaryOp ℚ).op_type = Operation_ADD
        ∨ (layer Operation_ADD : BinaryOp ℚ).op_type = Operation_MUL
        ∨ (layer Operation_ADD : BinaryOp ℚ).op_type = Operation_MAX
        ∨ (layer Operation_ADD : BinaryOp ℚ).op_type = Operation_MIN)
      ∧ (a_is_lower sQ3x2 sQ3x2r ≠ a_is_lower sQ3x2r sQ3x2 ∨ SameShape sQ3x2 sQ3x2r))
      ∧ (layer Operation_ADD).forward qpow sQ3x2 sQ3x2r opt1
        = (layer Operation_ADD).forward qpow sQ3x2r sQ3x2 opt1 :=
  ⟨⟨by decide, by decide⟩,
    forward_commutative qpow (layer Operation_ADD) sQ3x2 sQ3x2r opt1 (by decide) (by decide)⟩

section
variable {α : Type} [Add α] [Sub α] [Mul α] [Div α] [Max α] [Min α]

/-- C5 (as amended): for every op_type (in particular SUB, DIV and POW) and
every pair `X`, `Y` for which `forward` on `[X, Y]` swaps its operands and
`forward` on `[Y, X]` does not, `forward` on `[X, Y]` with op_type and `forward`
on `[Y, X]` with the reverse of op_type give the same result (return code,
shape, written cells, values). -/
theorem forward_reverse_swap (powf : α → α → α) (self : BinaryOp α) (X Y : Mat α)
    (opt : NcnnOption)
    (hswap : a_is_lower X Y = true) (hno : a_is_lower Y X = false) :
    self.forward powf X Y opt
      = ({ self with op_type := get_reverse_op_type self.op_type } : BinaryOp α).forward
          powf Y X opt := by
  simp only [BinaryOp.forward, dominant, subordinate, op_type_r, hswap, hno, if_true]
  simp

end

/-- Witness of C5 (as amended): SUB on `[1,2,3,4]` and the (c=2, h=2, w=4)
tensor of tens. -/
theorem forward_reverse_swap_witness :
    (a_is_lower sV4 sT10 = true ∧ a_is_lower sT10 sV4 = false)
      ∧ (layer Operation_SUB).forward ipow sV4 sT10 opt1
        = ({ (layer Operation_SUB : BinaryOp Int) with
              op_type := get_reverse_op_type (layer Operation_SUB : BinaryOp Int).op_type }
            : BinaryOp Int).forward ipow sT10 sV4 opt1 :=
  ⟨⟨by decide, by decide⟩,
    forward_reverse_swap ipow (layer Operation_SUB) sV4 sT10 opt1 (by decide) (by decide)⟩

/-- C5 (as stated) fails: `forward` on `[X, Y]` with `X = [1,...,8]` and `Y` of
shape (h=2, w=2) swaps by rank, `forward` on `[Y, X]` swaps by size, and SUB on
`[X, Y]` differs from RSUB on `[Y, X]`. -/
theorem forward_reverse_swap_refuted :
    a_is_lower sV8 sM2x2 = true
      ∧ (layer Operation_SUB).forward ipow sV8 sM2x2 opt1
        ≠ (layer (get_reverse_op_type Operation_SUB)).forward ipow sM2x2 sV8 opt1 := by
  decide

/-- C6 (as stated) fails: `B` of shape (h=3, w=1) is rewritten by the squeeze
step to the 1-D `[10,20,30]`, and with the 1-D `A = [1,...,5]` the two calls
differ (the first swaps its operands, the second does not). -/
theorem forward_squeeze_refuted :
    squeeze_inner_axes sCol3 = sV3
      ∧ (layer Operation_ADD).forward ipow sV5 sCol3 opt1
        ≠ (layer Operation_ADD).forward ipow sV5 sV3 opt1 := by
  decide

/-- Witness of C6 (as amended): `A` of shape (h=3, w=2) and `B` of shape
(h=3, w=1). -/
theorem forward_squeeze_witness :
    (a_is_lower sM3x2 sCol3 = false ∧ ¬ is_scalar sCol3 ∧ ¬ is_no_broadcast sM3x2 sCol3
        ∧ is_broadcast_inner sM3x2 sCol3)
      ∧ (layer Operation_ADD).forward ipow sM3x2 sCol3 opt1
        = (layer Operation_ADD).forward ipow sM3x2 (squeeze_inner_axes sCol3) opt1 :=
  ⟨⟨by decide, by decide, by decide, by decide⟩,
    forward_squeeze ipow (layer Operation_ADD) sM3x2 sCol3 opt1 (by decide) (by decide)
      (by decide) (by decide)⟩

/-- Witness of C7: `A = [[1,2],[3,4]]`, `B = [10]`, ADD. -/
theorem forward_scalar_matches_inplace_witness :
    (in_table (layer Operation_ADD : BinaryOp Int).op_type ∧ opt1.blob_allocator = true
        ∧ sA2x2.elempack = 1 ∧ sA2x2.data.length = sA2x2.w * sA2x2.h * sA2x2.d * sA2x2.c
        ∧ 0 < sA2x2.w * sA2x2.h * sA2x2.d * sA2x2.c
        ∧ sV1.w * sV1.h * sV1.d * sV1.c * sV1.elempack = 1 ∧ 0 < sV1.data.length)
      ∧ ∃ b0 top T, sV1.data[0]? = some b0
        ∧ (layer Operation_ADD).forward ipow sA2x2 sV1 opt1 = some (0, top)
        ∧ ({ (layer Operation_ADD : BinaryOp Int) with b := b0 } : BinaryOp Int).forward_inplace
            ipow sA2x2 = some (0, T)
        ∧ SameShape top T
        ∧ top.data = T.data.map fun v => [v] :=
  ⟨⟨by decide, by decide, by decide, by decide, by decide, by decide, by decide⟩,
    forward_scalar_matches_inplace ipow (layer Operation_ADD) sA2x2 sV1 opt1 (by decide)
      (by decide) (by decide) (by decide) (by decide) (by decide) (by decide)⟩

/-- C7 (as stated) fails: the packed `B` of shape (h=1, w=1) with `elempack = 4`
has exactly one element (`w*h*d*c = 1`) and `B[0] = 10`, yet with the non-empty
1-D `A = [1,2,3,4]` and ADD `forward` on `[A, B]` swaps the operands and returns
an output of the shape of `B` with one written cell, while `forward_inplace`
with `b = 10` leaves `[11,12,13,14]` in a copy of `A`. -/
theorem forward_scalar_matches_inplace_refuted :
    in_table (layer Operation_ADD : BinaryOp Int).op_type
      ∧ 0 < sV4.w * sV4.h * sV4.d * sV4.c
      ∧ sPacked.w * sPacked.h * sPacked.d * sPacked.c = 1
      ∧ sPacked.data[0]? = some 10
      ∧ a_is_lower sV4 sPacked = true
      ∧ (layer Operation_ADD).forward ipow sV4 sPacked opt1
          = some (0, ⟨2, 1, 1, 1, 1, 4, [[11], [], [], []]⟩)
      ∧ ({ (layer Operation_ADD : BinaryOp Int) with b := 10 } : BinaryOp Int).forward_inplace
          ipow sV4 = some (0, vec [11, 12, 13, 14]) := by
  decide

/-- Witness of C8: SUB on `[1,2,3,4]` and the (c=2, h=2, w=4) tensor of tens,
where the operands are swapped. -/
theorem forward_argument_order_witness :
    (((layer Operation_SUB : BinaryOp Int).op_type = Operation_SUB
        ∨ (layer Operation_SUB : BinaryOp Int).op_type = Operation_DIV
        ∨ (layer Operation_SUB : BinaryOp Int).op_type = Operation_POW
        ∨ (layer Operation_SUB : BinaryOp Int).op_type = Operation_RSUB
        ∨ (layer Operation_SUB : BinaryOp Int).op_type = Operation_RDIV
        ∨ (layer Operation_SUB : BinaryOp Int).op_type = Operation_RPOW)
      ∧ functor_of ipow (layer Operation_SUB : BinaryOp Int).op_type = some binary_op_sub
      ∧ (layer Operation_SUB).forward ipow sV4 sT10 opt1
        = some (0, ⟨3, 4, 2, 1, 2, 1, List.replicate 8 [-9] ++ List.replicate 8 [-8]⟩))
      ∧ (op_type_r (layer Operation_SUB : BinaryOp Int).op_type sV4 sT10
            = get_reverse_op_type (layer Operation_SUB : BinaryOp Int).op_type
          ↔ a_is_lower sV4 sT10 = true)
      ∧ ∀ cell, cell ∈ List.replicate 8 [(-9 : Int)] ++ List.replicate 8 [-8] → ∀ v, v ∈ cell →
        ∃ x0, x0 ∈ sV4.data ∧ ∃ x1, x1 ∈ sT10.data ∧ v = binary_op_sub x0 x1 :=
  ⟨⟨by decide, rfl, by decide⟩,
    forward_argument_order ipow (layer Operation_SUB) sV4 sT10 opt1 binary_op_sub (by decide)
      rfl 0 ⟨3, 4, 2, 1, 2, 1, List.replicate 8 [-9] ++ List.replicate 8 [-8]⟩ (by decide)⟩

/-- Witness of C9: `A = [[1,2],[3,4],[5,6]]`, `B = [10,20]` of shape (h=1, w=2),
ADD; the output is `[[11,22],[13,24],[15,26]]`. -/
theorem forward_broadcast_outer_witness :
    (functor_of ipow (op_type_r (layer Operation_ADD : BinaryOp Int).op_type sM3x2 sRow2)
          = some binary_op_add
        ∧ opt1.blob_allocator = true ∧ (dominant sM3x2 sRow2).wf ∧ (subordinate sM3x2 sRow2).wf
        ∧ 0 < (dominant sM3x2 sRow2).w * (dominant sM3x2 sRow2).h * (dominant sM3x2 sRow2).d
            * (dominant sM3x2 sRow2).c
        ∧ (dominant sM3x2 sRow2).dims = (subordinate sM3x2 sRow2).dims
        ∧ ¬ is_scalar (subordinate sM3x2 sRow2)
        ∧ ¬ is_no_broadcast (dominant sM3x2 sRow2) (subordinate sM3x2 sRow2)
        ∧ ¬ is_broadcast_inner (dominant sM3x2 sRow2) (subordinate sM3x2 sRow2)
        ∧ is_broadcast_outer (dominant sM3x2 sRow2) (subordinate sM3x2 sRow2))
      ∧ (∃ top, (layer Operation_ADD).forward ipow sM3x2 sRow2 opt1 = some (0, top)
        ∧ SameShape top (dominant sM3x2 sRow2)
        ∧ ∀ q z y x, q < (dominant sM3x2 sRow2).c → z < (dominant sM3x2 sRow2).d →
            y < (dominant sM3x2 sRow2).h → x < (dominant sM3x2 sRow2).w →
          ∃ a b, (dominant sM3x2 sRow2).at q z y x = some a
            ∧ (subordinate sM3x2 sRow2).at 0 (min z ((subordinate sM3x2 sRow2).d - 1))
                (min y ((subordinate sM3x2 sRow2).h - 1)) x = some b
            ∧ top.at q z y x = some [binary_op_add a b])
      ∧ (layer Operation_ADD).forward ipow sM3x2 sRow2 opt1
        = some (0, ⟨2, 2, 3, 1, 1, 1, [[11], [22], [13], [24], [15], [26]]⟩) :=
  ⟨⟨rfl, by decide, by decide, by decide, by decide, by decide, by decide, by decide,
      by decide, by decide⟩,
    forward_broadcast_outer_spec ipow (layer Operation_ADD) sM3x2 sRow2 opt1 binary_op_add rfl
      (by decide) (by decide) (by decide) (by decide) (by decide) (by decide) (by decide)
      (by decide) (by decide),
    by decide⟩

/-- Witness of C10: `A` of shape (c=2, h=2, w=2) filled with 8, `B = [2,4]`,
DIV; channel 0 of the output is all 4 and channel 1 all 2. -/
theorem forward_inner_lower_rank_witness :
    (functor_of ipow (layer Operation_DIV : BinaryOp Int).op_type = some binary_op_div
        ∧ opt1.blob_allocator = true ∧ sT8.wf ∧ sV24.wf
        ∧ 0 < sT8.w * sT8.h * sT8.d * sT8.c ∧ ¬ is_scalar sV24
        ∧ ((sT8.dims = 2 ∧ sV24.dims = 1 ∧ sV24.w = sT8.h)
          ∨ ((sT8.dims = 3 ∨ sT8.dims = 4) ∧ sV24.dims = 1 ∧ sV24.w = sT8.c)
          ∨ (sT8.dims = 3 ∧ sV24.dims = 2 ∧ sV24.w = sT8.h ∧ sV24.h = sT8.c)
          ∨ (sT8.dims = 4 ∧ sV24.dims = 2 ∧ sV24.w = sT8.d ∧ sV24.h = sT8.c)))
      ∧ (∃ top, (layer Operation_DIV).forward ipow sT8 sV24 opt1 = some (0, top)
        ∧ SameShape top sT8
        ∧ ∀ q z y x, q < sT8.c → z < sT8.d → y < sT8.h → x < sT8.w →
          ∃ a b, sT8.at q z y x = some a ∧ top.at q z y x = some [binary_op_div a b]
            ∧ (sT8.dims = 2 → sV24.data[y]? = some b)
            ∧ (sT8.dims ≠ 2 → sV24.dims = 1 → sV24.data[q]? = some b)
            ∧ (sT8.dims = 3 → sV24.dims = 2 → sV24.at 0 0 q y = some b)
            ∧ (sT8.dims = 4 → sV24.dims = 2 → sV24.at 0 0 q z = some b))
      ∧ (layer Operation_DIV).forward ipow sT8 sV24 opt1
        = some (0, ⟨3, 2, 2, 1, 2, 1, [[4], [4], [4], [4], [2], [2], [2], [2]]⟩) :=
  ⟨⟨rfl, by decide, by decide, by decide, by decide, by decide, by decide⟩,
    forward_inner_lower_rank ipow (layer Operation_DIV) sT8 sV24 opt1 binary_op_div rfl
      (by decide) (by decide) (by decide) (by decide) (by decide) (by decide),
    by decide⟩

section
variable {α : Type}

theorem no_broadcast_fill (op : α → α → α) (a b : Mat α) (c : Top α) (len : Nat)
    (hs : SameShape c a) (ha1 : a.elempack = 1) (hb1 : b.elempack = 1)
    (hbs : b.w * b.h * b.d = a.w * a.h * a.d)
    (halen : a.data.length = len) (hblen : len ≤ b.data.length)
    (hlen : len = a.w * a.h * a.d * a.c)
    (hF : Filled (bcast op a b (fun j => j)) len 0 c.data) :
    ∃ buf', tmpl.binary_op_no_broadcast op a b c = some (0, { c with data := buf' })
      ∧ Filled (bcast op a b (fun j => j)) len len buf' := by
  obtain ⟨-, hcw, hch, hcd, -, hce⟩ := hs
  unfold tmpl.binary_op_no_broadcast
  dsimp only
  have key : ∃ buf', forLoop a.c (fun q buf =>
      forLoop (a.w * a.h * a.d) (fun i buf => do
        let v ← a.data[a.channel q + i]?
        let v1 ← b.data[b.channel q + i]?
        store buf (c.channel q + i) (op v v1)) buf) c.data = some buf'
      ∧ Filled (bcast op a b (fun j => j)) len len buf' := by
    refine forLoop_inv_to
      (fun q bf => Filled (bcast op a b (fun j => j)) len (a.w * a.h * a.d * q) bf)
      _ _ a.c c.data (by simpa using hF) ?_
      (fun t hP => by dsimp only at hP; rw [← hlen] at hP; exact hP)
    intro q t hq ht
    have hrun := run_le (a.w * a.h * a.d) q a.c hq
    have hco : c.channel q = a.w * a.h * a.d * q := by simp [Mat.channel, hcw, hch, hcd, hce, ha1]
    have hao : a.channel q = a.w * a.h * a.d * q := by simp [Mat.channel, ha1]
    have hbo : b.channel q = a.w * a.h * a.d * q := by simp [Mat.channel, hb1, hbs]
    dsimp only
    rw [hco, hao, hbo, Nat.mul_add_one]
    exact row_pair op a b (fun j => j) len _ _ _ _ t rfl (fun x _ => rfl)
      (by omega) (by omega) (by omega) ht
  obtain ⟨buf', hb, hf⟩ := key
  exact ⟨buf', by rw [hb]; rfl, hf⟩

theorem broadcast_20_fill (op : α → α → α) (a b : Mat α) (c : Top α) (len : Nat)
    (hs : SameShape c a) (ha1 : a.elempack = 1) (hb1 : b.elempack = 1) (hd : a.d = 1)
    (halen : a.data.length = len) (hlen : len = a.w * a.h * a.d * a.c)
    (hb : ∀ q, q < a.c → b.w * b.h * b.d * q + a.w ≤ b.data.length)
    (hF : Filled (bcast op a b
      (fun j => b.w * b.h * b.d * (j / (a.w * a.h * a.d)) + j % a.w)) len 0 c.data) :
    ∃ buf', tmpl.binary_op_broadcast_20 op a b c = some (0, { c with data := buf' })
      ∧ Filled (bcast op a b
          (fun j => b.w * b.h * b.d * (j / (a.w * a.h * a.d)) + j % a.w)) len len buf' := by
  obtain ⟨-, hcw, hch, hcd, -, hce⟩ := hs
  unfold tmpl.binary_op_broadcast_20
  dsimp only
  have key : ∃ buf', forLoop a.c (fun q buf =>
      (forLoop a.h (fun _ (st : Nat × Nat × Buf α) => do
        let buf ← forLoop a.w (fun x buf => do
          let v ← a.data[st.1 + x]?
          let v1 ← b.data[b.channel q + x]?
          store buf (st.2.1 + x) (op v v1)) st.2.2
        pure (st.1 + a.w, st.2.1 + a.w, buf)) (a.channel q, c.channel q, buf)).map
          fun st => st.2.2) c.data = some buf'
      ∧ Filled (bcast op a b
          (fun j => b.w * b.h * b.d * (j / (a.w * a.h * a.d)) + j % a.w)) len len buf' := by
    refine forLoop_inv_to
      (fun q bf => Filled (bcast op a b
        (fun j => b.w * b.h * b.d * (j / (a.w * a.h * a.d)) + j % a.w)) len
        (a.w * a.h * a.d * q) bf)
      _ _ a.c c.data (by simpa using hF) ?_
      (fun t hP => by dsimp only at hP; rw [← hlen] at hP; exact hP)
    intro q t hq ht
    have hrun := run_le (a.w * a.h * a.d) q a.c hq
    have hco : c.channel q = a.w * a.h * a.d * q := by simp [Mat.channel, hcw, hch, hcd, hce, ha1]
    have hao : a.channel q = a.w * a.h * a.d * q := by simp [Mat.channel, ha1]
    have hbo : b.channel q = b.w * b.h * b.d * q := by simp [Mat.channel, hb1]
    dsimp only
    refine bump_rows_buf _ len a.w a.h (a.w * a.h * a.d * q) _ _ _ _ t hao hco
      (by rw [hd]; ring) ht ?_
    intro y bf hy hfill
    have hrowle : a.w * a.h * a.d * q + y * a.w + a.w ≤ a.w * a.h * a.d * q + a.w * a.h * a.d := by
      have : (y + 1) * a.w ≤ a.h * a.w := Nat.mul_le_mul_right _ hy
      rw [hd]; nlinarith
    obtain ⟨bf', hb', hf'⟩ := row_pair op a b
      (fun j => b.w * b.h * b.d * (j / (a.w * a.h * a.d)) + j % a.w) len
      (a.w * a.h * a.d * q + y * a.w) (b.channel q) (a.w * a.h * a.d * q + y * a.w) a.w bf rfl
      (fun x hx => by
        have e : a.w * a.h * a.d * q + y * a.w + x
            = a.w * a.h * a.d * q + ((0 * a.h + y) * a.w + x) := by ring
        simp only [e, dec_q _ _ _ _ _ _ _ hx hy (by omega : 0 < a.d), dec_x _ _ _ _ _ _ _ hx,
          hbo])
      (by omega) (by rw [hbo]; exact hb q hq) (by omega) hfill
    have e : a.w * a.h * a.d * q + (y + 1) * a.w = a.w * a.h * a.d * q + y * a.w + a.w := by
      ring
    simp only [Option.bind_eq_bind] at hb'
    refine ⟨bf', ?_, by rw [e]; exact hf'⟩
    simp only [Option.bind_eq_bind, Option.some_bind, hb', Option.pure_def, e]
  obtain ⟨buf', hb, hf⟩ := key
  exact ⟨buf', by rw [hb]; rfl, hf⟩

end

section
variable {α : Type} [Add α] [Sub α] [Mul α] [Div α] [Max α] [Min α]

theorem forward_no_broadcast_eq (powf : α → α → α) (self : BinaryOp α) (X Y : Mat α)
    (opt : NcnnOption) (op : α → α → α)
    (hal : opt.blob_allocator = true) (h1 : (dominant X Y).elempack = 1)
    (hne : 0 < (dominant X Y).w * (dominant X Y).h * (dominant X Y).d * (dominant X Y).c)
    (hop : functor_of powf (op_type_r self.op_type X Y) = some op)
    (hs : ¬ is_scalar (subordinate X Y))
    (hnb : is_no_broadcast (dominant X Y) (subordinate X Y)) :
    self.forward powf X Y opt
      = tmpl.binary_op_no_broadcast op (dominant X Y) (subordinate X Y)
          ((dominant X Y).create_like true) := by
  unfold BinaryOp.forward
  simp only [hal, create_like_not_empty _ h1 hne, hs, hnb, binary_op_no_broadcast_eq, hop]
  simp

theorem forward_20_eq (powf : α → α → α) (self : BinaryOp α) (X Y : Mat α) (opt : NcnnOption)
    (op : α → α → α)
    (hal : opt.blob_allocator = true) (h1 : (dominant X Y).elempack = 1)
    (hne : 0 < (dominant X Y).w * (dominant X Y).h * (dominant X Y).d * (dominant X Y).c)
    (hop : functor_of powf (op_type_r self.op_type X Y) = some op)
    (hs : ¬ is_scalar (subordinate X Y))
    (hnb : ¬ is_no_broadcast (dominant X Y) (subordinate X Y))
    (hin : ¬ is_broadcast_inner (dominant X Y) (subordinate X Y))
    (hout : ¬ is_broadcast_outer (dominant X Y) (subordinate X Y))
    (h20 : is_broadcast_20 (dominant X Y) (subordinate X Y)) :
    self.forward powf X Y opt
      = tmpl.binary_op_broadcast_20 op (dominant X Y) (subordinate X Y)
          ((dominant X Y).create_like true) := by
  unfold BinaryOp.forward
  simp only [hal, create_like_not_empty _ h1 hne, hs, hnb, hin, hout, h20,
    binary_op_broadcast_20_eq, hop]
  simp

end

section
variable {α : Type}

/-- What `binary_op_broadcast_20<Op>` computes on the special pattern. -/
theorem broadcast_20_kernel_spec (op : α → α → α) (A B : Mat α)
    (hA : A.wf) (hB : B.wf) (h20 : is_broadcast_20 A B) :
    ∃ top, tmpl.binary_op_broadcast_20 op A B (A.create_like true) = some (0, top)
      ∧ SameShape top A
      ∧ ∀ q y x, q < A.c → y < A.h → x < A.w →
        ∃ a b, A.at q 0 y x = some a ∧ B.at q 0 0 x = some b
          ∧ top.at q 0 y x = some [op a b] := by
  obtain ⟨hda, hdb, hw, hbh, hc⟩ := h20
  have hA' := hA
  obtain ⟨hae, halen, haext⟩ := hA'
  obtain ⟨hbe, hblen, hbext⟩ := hB
  have had : A.d = 1 := by rcases haext with h | h | h | h <;> omega
  have hbd : B.d = 1 := by rcases hbext with h | h | h | h <;> omega
  have hbound : ∀ q, q < A.c → B.w * B.h * B.d * q + A.w ≤ B.data.length := by
    intro q hq
    have := run_le B.w q B.c (by omega)
    rw [hblen, hbh, hbd, hw]
    simp only [Nat.mul_one]
    exact this
  obtain ⟨buf', hk, hfill⟩ := broadcast_20_fill op A B (A.create_like true)
    (A.w * A.h * A.d * A.c) (create_like_shape A true) hae hbe had halen rfl hbound
    (create_like_filled _ A hae)
  refine ⟨_, hk, create_like_shape A true, ?_⟩
  intro q y x hq hy hx
  obtain ⟨a, b, ha, hb, ht⟩ := Filled_at op A B
    (fun j => B.w * B.h * B.d * (j / (A.w * A.h * A.d)) + j % A.w)
    { (A.create_like true : Top α) with data := buf' } (create_like_shape A true) hfill
    q 0 y x hq (by omega) hy hx
  simp only [dec_q _ _ _ _ _ _ _ hx hy (by omega : 0 < A.d), dec_x _ _ _ _ _ _ _ hx] at hb
  refine ⟨a, b, ha, ?_, ht⟩
  simpa [Mat.at] using hb

/-- What `binary_op_no_broadcast<Op>` computes on two tensors of one shape. -/
theorem no_broadcast_kernel_spec (op : α → α → α) (A B : Mat α)
    (hA : A.wf) (hB : B.wf) (hnb : is_no_broadcast A B) :
    ∃ top, tmpl.binary_op_no_broadcast op A B (A.create_like true) = some (0, top)
      ∧ SameShape top A
      ∧ ∀ q i, q < A.c → i < A.w * A.h * A.d →
        ∃ a b, A.data[A.w * A.h * A.d * q + i]? = some a
          ∧ B.data[A.w * A.h * A.d * q + i]? = some b
          ∧ top.data[A.w * A.h * A.d * q + i]? = some [op a b] := by
  obtain ⟨-, hw, hh, hd, hc⟩ := hnb
  obtain ⟨hae, halen, -⟩ := hA
  obtain ⟨hbe, hblen, -⟩ := hB
  obtain ⟨buf', hk, hfill⟩ := no_broadcast_fill op A B (A.create_like true)
    (A.w * A.h * A.d * A.c) (create_like_shape A true) hae hbe (by rw [hw, hh, hd]) halen
    (by rw [hblen, hw, hh, hd, hc]) rfl (create_like_filled _ A hae)
  refine ⟨_, hk, create_like_shape A true, ?_⟩
  intro q i hq hi
  have hj : A.w * A.h * A.d * q + i < A.w * A.h * A.d * A.c := by
    have := run_le (A.w * A.h * A.d) q A.c hq
    omega
  obtain ⟨v, hv, hb⟩ := (hfill.2 _ hj).1 hj
  obtain ⟨a, b, ha, hb', rfl⟩ := bcast_some op A B _ _ v hv
  exact ⟨a, b, ha, hb', hb⟩

end

section
variable {α : Type} [Add α] [Sub α] [Mul α] [Div α] [Max α] [Min α]

/-- C11: for every op_type of the table, every input pair whose dominant operand
`A` (non-empty, well-formed) and subordinate operand `B` (well-formed) have
`A.dims = B.dims = 3`, `A.w = B.w`, `B.h = 1`, `A.c = B.c` and which `forward`
dispatches to `binary_op_broadcast_20` (not Scalar, NoBroadcast,
BroadcastInner or BroadcastOuter), `forward` returns 0 with an output of the
shape of `A` in which every cell `[q,y,x]` was written once with
`op(A[q,y,x], B[q,0,x])`, `op` being the functor of the effective op. -/
theorem forward_broadcast_20_spec (powf : α → α → α) (self : BinaryOp α) (X Y : Mat α)
    (opt : NcnnOption) (op : α → α → α)
    (hop : functor_of powf (op_type_r self.op_type X Y) = some op)
    (hal : opt.blob_allocator = true)
    (hA : (dominant X Y).wf) (hB : (subordinate X Y).wf)
    (hne : 0 < (dominant X Y).w * (dominant X Y).h * (dominant X Y).d * (dominant X Y).c)
    (hns : ¬ is_scalar (subordinate X Y))
    (hnb : ¬ is_no_broadcast (dominant X Y) (subordinate X Y))
    (hni : ¬ is_broadcast_inner (dominant X Y) (subordinate X Y))
    (hno : ¬ is_broadcast_outer (dominant X Y) (subordinate X Y))
    (h20 : is_broadcast_20 (dominant X Y) (subordinate X Y)) :
    ∃ top, self.forward powf X Y opt = some (0, top) ∧ SameShape top (dominant X Y)
      ∧ ∀ q y x, q < (dominant X Y).c → y < (dominant X Y).h → x < (dominant X Y).w →
        ∃ a b, (dominant X Y).at q 0 y x = some a ∧ (subordinate X Y).at q 0 0 x = some b
          ∧ top.at q 0 y x = some [op a b] := by
  rw [forward_20_eq powf self X Y opt op hal hA.1 hne hop hns hnb hni hno h20]
  exact broadcast_20_kernel_spec op _ _ hA hB h20

/-- C12: for every op_type of the table with functor `op` and every pair of
well-formed non-empty inputs with identical dims, w, h, d and c, `forward`
performs no swap, returns 0, and every cell `[q,i]` (channel `q`, `i < w*h*d`)
of the output was written once with `op(bottom_blobs[0][q,i],
bottom_blobs[1][q,i])`, the configured op, not its reverse. -/
theorem forward_no_broadcast_spec (powf : α → α → α) (self : BinaryOp α) (A B : Mat α)
    (opt : NcnnOption) (op : α → α → α)
    (hop : functor_of powf self.op_type = some op) (hal : opt.blob_allocator = true)
    (hA : A.wf) (hB : B.wf) (hne : 0 < A.w * A.h * A.d * A.c)
    (hsame : is_no_broadcast A B) :
    a_is_lower A B = false
      ∧ ∃ top, self.forward powf A B opt = some (0, top) ∧ SameShape top A
        ∧ ∀ q i, q < A.c → i < A.w * A.h * A.d →
          ∃ a b, A.data[A.w * A.h * A.d * q + i]? = some a
            ∧ B.data[A.w * A.h * A.d * q + i]? = some b
            ∧ top.data[A.w * A.h * A.d * q + i]? = some [op a b] := by
  have hlow : a_is_lower A B = false := by
    obtain ⟨h1, h2, h3, h4, h5⟩ := hsame
    simp [a_is_lower, a_rank_is_lower, a_size_is_lower, h1, h2, h3, h4, h5]
  refine ⟨hlow, ?_⟩
  obtain ⟨hdom, hsub, hopr⟩ := dominant_of_not_lower A B hlow
  by_cases hs : is_scalar B
  · -- one element each: the Scalar pattern is taken, with the same result
    obtain ⟨-, hw, hh, hd, hc⟩ := hsame
    have hA1 : A.w * A.h * A.d * A.c = 1 := by rw [hw, hh, hd, hc]; exact hs
    have hb0 : 0 < B.data.length := by rw [hB.2.1]; unfold is_scalar at hs; omega
    have hfw := forward_scalar_eq powf self A B opt op (B.data[0]) hal (by rw [hdom]; exact hA.1)
      (by rw [hdom]; exact hne) (by rw [hopr]; exact hop) (by rw [hsub]; exact hs)
      (by rw [hsub]; exact List.getElem?_eq_getElem hb0)
    rw [hdom] at hfw
    obtain ⟨buf', hk, hfill⟩ := scalar_fill op A (B.data[0]) (A.create_like true)
      (A.w * A.h * A.d * A.c) (create_like_shape A true) hA.1 hA.2.1 rfl
      (create_like_filled _ A hA.1)
    refine ⟨_, hfw.trans hk, create_like_shape A true, ?_⟩
    intro q i hq hi
    have hc1 : A.c = 1 := Nat.eq_one_of_mul_eq_one_left hA1
    have hs1 : A.w * A.h * A.d = 1 := Nat.eq_one_of_mul_eq_one_right hA1
    have hq0 : q = 0 := by omega
    have hi0 : i = 0 := by omega
    subst hq0 hi0
    obtain ⟨v, hv, hb⟩ := (hfill.2 0 (by omega)).1 (by omega)
    have ha0 : 0 < A.data.length := by rw [hA.2.1]; omega
    simp only [List.getElem?_eq_getElem ha0, Option.map_some', Option.some.injEq] at hv
    subst hv
    refine ⟨A.data[0], B.data[0], ?_, ?_, ?_⟩
    · simp [List.getElem?_eq_getElem ha0]
    · simp [List.getElem?_eq_getElem hb0]
    · simpa using hb
  · rw [forward_no_broadcast_eq powf self A B opt op hal (by rw [hdom]; exact hA.1)
      (by rw [hdom]; exact hne) (by rw [hopr]; exact hop) (by rw [hsub]; exact hs)
      (by rw [hdom, hsub]; exact hsame), hdom, hsub]
    exact no_broadcast_kernel_spec op A B hA hB hsame

/-- C13 (as amended): for every op_type of the table with functor `op`, every
non-empty well-formed `A` (elempack 1) and every `B` with
`w*h*d*c*elempack = 1`, whatever its dims, `forward` on `[A, B]` does not swap,
runs the Scalar kernel whatever the later pattern tests would say, returns 0,
and every cell `i` of the output was written once with `op(A[i], B[0])`. -/
theorem forward_scalar_spec (powf : α → α → α) (self : BinaryOp α) (A B : Mat α)
    (opt : NcnnOption) (op : α → α → α)
    (hop : functor_of powf self.op_type = some op) (hal : opt.blob_allocator = true)
    (hA : A.wf) (hne : 0 < A.w * A.h * A.d * A.c)
    (hB1 : B.w * B.h * B.d * B.c * B.elempack = 1)
    (hB : B.data.length = B.w * B.h * B.d * B.c * B.elempack) :
    a_is_lower A B = false
      ∧ ∃ b0 top, B.data[0]? = some b0
        ∧ self.forward powf A B opt = tmpl.binary_op_scalar op A b0 (A.create_like true)
        ∧ self.forward powf A B opt = some (0, top) ∧ SameShape top A
        ∧ ∀ i, i < A.w * A.h * A.d * A.c →
          ∃ a, A.data[i]? = some a ∧ top.data[i]? = some [op a b0] := by
  have hsz : B.w * B.h * B.d * B.c = 1 := Nat.eq_one_of_mul_eq_one_right hB1
  have hlow : a_is_lower A B = false := by
    have h1 : ¬ (A.w * A.h * A.d * A.c < B.w * B.h * B.d * B.c) := by omega
    have h2 : (B.w * B.h * B.d * B.c * B.elempack == 1) = true := by simp [hB1]
    simp only [a_is_lower, a_rank_is_lower, a_size_is_lower, b_is_scalar, h1, h2]
    simp
  refine ⟨hlow, ?_⟩
  obtain ⟨hdom, hsub, hopr⟩ := dominant_of_not_lower A B hlow
  have hb0 : 0 < B.data.length := by omega
  have hfw := forward_scalar_eq powf self A B opt op (B.data[0]) hal (by rw [hdom]; exact hA.1)
    (by rw [hdom]; exact hne) (by rw [hopr]; exact hop) (by rw [hsub]; exact hsz)
    (by rw [hsub]; exact List.getElem?_eq_getElem hb0)
  rw [hdom] at hfw
  obtain ⟨buf', hk, hfill⟩ := scalar_fill op A (B.data[0]) (A.create_like true)
    (A.w * A.h * A.d * A.c) (create_like_shape A true) hA.1 hA.2.1 rfl
    (create_like_filled _ A hA.1)
  refine ⟨B.data[0], _, List.getElem?_eq_getElem hb0, hfw, hfw.trans hk,
    create_like_shape A true, ?_⟩
  intro i hi
  obtain ⟨v, hv, hb⟩ := (hfill.2 i hi).1 hi
  have hai : i < A.data.length := by rw [hA.2.1]; exact hi
  simp only [List.getElem?_eq_getElem hai, Option.map_some', Option.some.injEq] at hv
  subst hv
  exact ⟨A.data[i], List.getElem?_eq_getElem hai, hb⟩

end

/-- Witness of C11: `A[q,y,x] = q*10 + y + x` of shape (c=2, h=3, w=2),
`B[q,0,x] = x` of shape (c=2, h=1, w=2), ADD; the output is `A[q,y,x] + x`. -/
theorem forward_broadcast_20_witness :
    (functor_of ipow (op_type_r (layer Operation_ADD : BinaryOp Int).op_type sA20 sB20)
          = some binary_op_add
        ∧ opt1.blob_allocator = true ∧ (dominant sA20 sB20).wf ∧ (subordinate sA20 sB20).wf
        ∧ 0 < (dominant sA20 sB20).w * (dominant sA20 sB20).h * (dominant sA20 sB20).d
            * (dominant sA20 sB20).c
        ∧ ¬ is_scalar (subordinate sA20 sB20)
        ∧ ¬ is_no_broadcast (dominant sA20 sB20) (subordinate sA20 sB20)
        ∧ ¬ is_broadcast_inner (dominant sA20 sB20) (subordinate sA20 sB20)
        ∧ ¬ is_broadcast_outer (dominant sA20 sB20) (subordinate sA20 sB20)
        ∧ is_broadcast_20 (dominant sA20 sB20) (subordinate sA20 sB20))
      ∧ (∃ top, (layer Operation_ADD).forward ipow sA20 sB20 opt1 = some (0, top)
        ∧ SameShape top (dominant sA20 sB20)
        ∧ ∀ q y x, q < (dominant sA20 sB20).c → y < (dominant sA20 sB20).h →
            x < (dominant sA20 sB20).w →
          ∃ a b, (dominant sA20 sB20).at q 0 y x = some a
            ∧ (subordinate sA20 sB20).at q 0 0 x = some b
            ∧ top.at q 0 y x = some [binary_op_add a b])
      ∧ (layer Operation_ADD).forward ipow sA20 sB20 opt1
        = some (0, ⟨3, 2, 3, 1, 2, 1,
            [[0], [2], [1], [3], [2], [4], [10], [12], [11], [13], [12], [14]]⟩) :=
  ⟨⟨rfl, by decide, by decide, by decide, by decide, by decide, by decide, by decide,
      by decide, by decide⟩,
    forward_broadcast_20_spec ipow (layer Operation_ADD) sA20 sB20 opt1 binary_op_add rfl
      (by decide) (by decide) (by decide) (by decide) (by decide) (by decide) (by decide)
      (by decide) (by decide),
    by decide⟩

/-- Witness of C12: `A = B = [[1,2,3],[4,5,6]]`, MUL; the output is
`[[1,4,9],[16,25,36]]`. -/
theorem forward_no_broadcast_witness :
    (functor_of ipow (layer Operation_MUL : BinaryOp Int).op_type = some binary_op_mul
        ∧ opt1.blob_allocator = true ∧ sM2x3.wf ∧ sM2x3.wf
        ∧ 0 < sM2x3.w * sM2x3.h * sM2x3.d * sM2x3.c ∧ is_no_broadcast sM2x3 sM2x3)
      ∧ (a_is_lower sM2x3 sM2x3 = false
        ∧ ∃ top, (layer Operation_MUL).forward ipow sM2x3 sM2x3 opt1 = some (0, top)
          ∧ SameShape top sM2x3
          ∧ ∀ q i, q < sM2x3.c → i < sM2x3.w * sM2x3.h * sM2x3.d →
            ∃ a b, sM2x3.data[sM2x3.w * sM2x3.h * sM2x3.d * q + i]? = some a
              ∧ sM2x3.data[sM2x3.w * sM2x3.h * sM2x3.d * q + i]? = some b
              ∧ top.data[sM2x3.w * sM2x3.h * sM2x3.d * q + i]? = some [binary_op_mul a b])
      ∧ (layer Operation_MUL).forward ipow sM2x3 sM2x3 opt1
        = some (0, ⟨2, 3, 2, 1, 1, 1, [[1], [4], [9], [16], [25], [36]]⟩) :=
  ⟨⟨rfl, by decide, by decide, by decide, by decide, by decide⟩,
    forward_no_broadcast_spec ipow (layer Operation_MUL) sM2x3 sM2x3 opt1 binary_op_mul rfl
      (by decide) (by decide) (by decide) (by decide) (by decide),
    by decide⟩

/-- Witness of C13 (as amended): `A = [[1,2],[3,4]]`, `B = [10]`, ADD; the
output is `[[11,12],[13,14]]`. -/
theorem forward_scalar_witness :
    (functor_of ipow (layer Operation_ADD : BinaryOp Int).op_type = some binary_op_add
        ∧ opt1.blob_allocator = true ∧ sA2x2.wf ∧ 0 < sA2x2.w * sA2x2.h * sA2x2.d * sA2x2.c
        ∧ sV1.w * sV1.h * sV1.d * sV1.c * sV1.elempack = 1
        ∧ sV1.data.length = sV1.w * sV1.h * sV1.d * sV1.c * sV1.elempack)
      ∧ (a_is_lower sA2x2 sV1 = false
        ∧ ∃ b0 top, sV1.data[0]? = some b0
          ∧ (layer Operation_ADD).forward ipow sA2x2 sV1 opt1
              = tmpl.binary_op_scalar binary_op_add sA2x2 b0 (sA2x2.create_like true)
          ∧ (layer Operation_ADD).forward ipow sA2x2 sV1 opt1 = some (0, top)
          ∧ SameShape top sA2x2
          ∧ ∀ i, i < sA2x2.w * sA2x2.h * sA2x2.d * sA2x2.c →
            ∃ a, sA2x2.data[i]? = some a ∧ top.data[i]? = some [binary_op_add a b0])
      ∧ (layer Operation_ADD).forward ipow sA2x2 sV1 opt1
        = some (0, ⟨2, 2, 2, 1, 1, 1, [[11], [12], [13], [14]]⟩) :=
  ⟨⟨rfl, by decide, by decide, by decide, by decide, by decide⟩,
    forward_scalar_spec ipow (layer Operation_ADD) sA2x2 sV1 opt1 binary_op_add rfl
      (by decide) (by decide) (by decide) (by decide) (by decide),
    by decide⟩

/-- C13 (as stated) fails: the packed `B` of shape (h=1, w=1) with
`elempack = 4` has `w*h*d*c = 1`, yet `forward` on `[A, B]` with the 1-D
`A = [1,2,3,4]` swaps the operands, and the output has the shape of `B` with a
single written cell instead of `A[i] + B[0]` at every `i`. -/
theorem forward_scalar_packed_refuted :
    sPacked.w * sPacked.h * sPacked.d * sPacked.c = 1 ∧ sV4.elempack = 1
      ∧ 0 < sV4.w * sV4.h * sV4.d * sV4.c
      ∧ a_is_lower sV4 sPacked = true
      ∧ (layer Operation_ADD).forward ipow sV4 sPacked opt1
        = some (0, ⟨2, 1, 1, 1, 1, 4, [[11], [], [], []]⟩) := by
  decide

section
variable {α : Type}

theorem scalar_ret (op : α → α → α) (a : Mat α) (b0 : α) (c : Top α) (r : Int) (c' : Top α)
    (h : tmpl.binary_op_scalar op a b0 c = some (r, c')) : r = 0 ∧ SameShape c' c := by
  simp only [tmpl.binary_op_scalar, Option.map_eq_some', Prod.mk.injEq] at h
  obtain ⟨buf, -, rfl, rfl⟩ := h
  exact ⟨rfl, rfl, rfl, rfl, rfl, rfl, rfl⟩

theorem no_broadcast_ret (op : α → α → α) (a b : Mat α) (c : Top α) (r : Int) (c' : Top α)
    (h : tmpl.binary_op_no_broadcast op a b c = some (r, c')) : r = 0 ∧ SameShape c' c := by
  simp only [tmpl.binary_op_no_broadcast, Option.map_eq_some', Prod.mk.injEq] at h
  obtain ⟨buf, -, rfl, rfl⟩ := h
  exact ⟨rfl, rfl, rfl, rfl, rfl, rfl, rfl⟩

theorem broadcast_inner_ret (op : α → α → α) (a b : Mat α) (c : Top α) (r : Int) (c' : Top α)
    (h : tmpl.binary_op_broadcast_inner op a b c = some (r, c')) : r = 0 ∧ SameShape c' c := by
  unfold tmpl.binary_op_broadcast_inner at h
  obtain ⟨b1, -, h⟩ := Option.bind_eq_some.mp h
  obtain ⟨b2, -, h⟩ := Option.bind_eq_some.mp h
  obtain ⟨b3, -, h⟩ := Option.bind_eq_some.mp h
  obtain ⟨b4, -, h⟩ := Option.bind_eq_some.mp h
  obtain ⟨b5, -, h⟩ := Option.bind_eq_some.mp h
  simp only [Option.some.injEq, Prod.mk.injEq] at h
  obtain ⟨rfl, rfl⟩ := h
  exact ⟨rfl, rfl, rfl, rfl, rfl, rfl, rfl⟩

theorem broadcast_outer_ret (op : α → α → α) (a b : Mat α) (c : Top α) (r : Int) (c' : Top α)
    (h : tmpl.binary_op_broadcast_outer op a b c = some (r, c')) : r = 0 ∧ SameShape c' c := by
  unfold tmpl.binary_op_broadcast_outer at h
  obtain ⟨b1, -, h⟩ := Option.bind_eq_some.mp h
  obtain ⟨b2, -, h⟩ := Option.bind_eq_some.mp h
  simp only [Option.some.injEq, Prod.mk.injEq] at h
  obtain ⟨rfl, rfl⟩ := h
  exact ⟨rfl, rfl, rfl, rfl, rfl, rfl, rfl⟩

theorem broadcast_20_ret (op : α → α → α) (a b : Mat α) (c : Top α) (r : Int) (c' : Top α)
    (h : tmpl.binary_op_broadcast_20 op a b c = some (r, c')) : r = 0 ∧ SameShape c' c := by
  simp only [tmpl.binary_op_broadcast_20, Option.map_eq_some', Prod.mk.injEq] at h
  obtain ⟨buf, -, rfl, rfl⟩ := h
  exact ⟨rfl, rfl, rfl, rfl, rfl, rfl, rfl⟩

theorem sameShape_refl {β : Type} (c : Mat β) : SameShape c c :=
  ⟨rfl, rfl, rfl, rfl, rfl, rfl⟩

end

section
variable {α : Type} [Add α] [Sub α] [Mul α] [Div α] [Max α] [Min α]

/-- Whatever `forward` returns, its code is -100 when the output is empty after
`create_like` and 0 otherwise, and the output has the shape of the dominant
operand. -/
theorem forward_ret (powf : α → α → α) (self : BinaryOp α) (X Y : Mat α) (opt : NcnnOption)
    (r : Int) (top : Top α) (h : self.forward powf X Y opt = some (r, top)) :
    r = (if ((dominant X Y).create_like opt.blob_allocator : Top α).empty then -100 else 0)
      ∧ SameShape top ((dominant X Y).create_like opt.blob_allocator : Top α) := by
  unfold BinaryOp.forward at h
  dsimp only at h
  by_cases he : ((dominant X Y).create_like opt.blob_allocator : Top α).empty = true
  · rw [if_pos he] at h
    simp only [Option.some.injEq, Prod.mk.injEq] at h
    obtain ⟨rfl, rfl⟩ := h
    exact ⟨by rw [if_pos he], sameShape_refl _⟩
  rw [if_neg he] at h ⊢
  by_cases hs : is_scalar (subordinate X Y)
  · rw [if_pos hs] at h
    simp only [Option.bind_eq_bind, Option.bind_eq_some, binary_op_scalar_eq] at h
    obtain ⟨b0, -, hk⟩ := h
    cases hf : functor_of powf (op_type_r self.op_type X Y) with
    | none =>
      simp only [hf, Option.some.injEq, Prod.mk.injEq] at hk
      obtain ⟨rfl, rfl⟩ := hk
      exact ⟨rfl, sameShape_refl _⟩
    | some g => simp only [hf] at hk; exact scalar_ret g _ b0 _ r top hk
  rw [if_neg hs] at h
  by_cases hnb : is_no_broadcast (dominant X Y) (subordinate X Y)
  · rw [if_pos hnb] at h
    simp only [binary_op_no_broadcast_eq] at h
    cases hf : functor_of powf (op_type_r self.op_type X Y) with
    | none =>
      simp only [hf, Option.some.injEq, Prod.mk.injEq] at h
      obtain ⟨rfl, rfl⟩ := h
      exact ⟨rfl, sameShape_refl _⟩
    | some g => simp only [hf] at h; exact no_broadcast_ret g _ _ _ r top h
  rw [if_neg hnb] at h
  by_cases hin : is_broadcast_inner (dominant X Y) (subordinate X Y)
  · rw [if_pos hin] at h
    simp only [binary_op_broadcast_inner_eq] at h
    cases hf : functor_of powf (op_type_r self.op_type X Y) with
    | none =>
      simp only [hf, Option.some.injEq, Prod.mk.injEq] at h
      obtain ⟨rfl, rfl⟩ := h
      exact ⟨rfl, sameShape_refl _⟩
    | some g => simp only [hf] at h; exact broadcast_inner_ret g _ _ _ r top h
  rw [if_neg hin] at h
  by_cases hout : is_broadcast_outer (dominant X Y) (subordinate X Y)
  · rw [if_pos hout] at h
    simp only [binary_op_broadcast_outer_eq] at h
    cases hf : functor_of powf (op_type_r self.op_type X Y) with
    | none =>
      simp only [hf, Option.some.injEq, Prod.mk.injEq] at h
      obtain ⟨rfl, rfl⟩ := h
      exact ⟨rfl, sameShape_refl _⟩
    | some g => simp only [hf] at h; exact broadcast_outer_ret g _ _ _ r top h
  rw [if_neg hout] at h
  by_cases h20 : is_broadcast_20 (dominant X Y) (subordinate X Y)
  · rw [if_pos h20] at h
    simp only [binary_op_broadcast_20_eq] at h
    cases hf : functor_of powf (op_type_r self.op_type X Y) with
    | none =>
      simp only [hf, Option.some.injEq, Prod.mk.injEq] at h
      obtain ⟨rfl, rfl⟩ := h
      exact ⟨rfl, sameShape_refl _⟩
    | some g => simp only [hf] at h; exact broadcast_20_ret g _ _ _ r top h
  rw [if_neg h20] at h
  simp only [Option.some.injEq, Prod.mk.injEq] at h
  obtain ⟨rfl, rfl⟩ := h
  exact ⟨rfl, sameShape_refl _⟩

end

section
variable {α : Type} [Add α] [Sub α] [Mul α] [Div α] [Max α] [Min α]

/-- C14: when the output is not empty after `create_like` and the (dominant,
subordinate) pair passes none of the five pattern tests of `BinaryOp::forward`
(Scalar, NoBroadcast, BroadcastInner, BroadcastOuter, BroadcastSpecial20), the
call returns 0 and the output is the freshly allocated tensor: it has as many
cells as the dominant operand has elements and every cell is unwritten. -/
theorem forward_unsupported_untouched (powf : α → α → α) (self : BinaryOp α) (X Y : Mat α)
    (opt : NcnnOption)
    (hne : ((dominant X Y).create_like opt.blob_allocator : Top α).empty = false)
    (hs : ¬ is_scalar (subordinate X Y))
    (hnb : ¬ is_no_broadcast (dominant X Y) (subordinate X Y))
    (hin : ¬ is_broadcast_inner (dominant X Y) (subordinate X Y))
    (hout : ¬ is_broadcast_outer (dominant X Y) (subordinate X Y))
    (h20 : ¬ is_broadcast_20 (dominant X Y) (subordinate X Y)) :
    self.forward powf X Y opt = some (0, (dominant X Y).create_like opt.blob_allocator)
      ∧ ((dominant X Y).create_like opt.blob_allocator : Top α).data.length
          = (dominant X Y).w * (dominant X Y).h * (dominant X Y).d * (dominant X Y).c
              * (dominant X Y).elempack
      ∧ ∀ cell ∈ ((dominant X Y).create_like opt.blob_allocator : Top α).data, cell = [] := by
  refine ⟨?_, ?_, ?_⟩
  · unfold BinaryOp.forward
    dsimp only
    rw [if_neg (by simp [hne]), if_neg hs, if_neg hnb, if_neg hin, if_neg hout, if_neg h20]
  · cases hal : opt.blob_allocator with
    | true => simp [Mat.create_like]
    | false => simp [Mat.create_like, Mat.empty, hal] at hne
  · intro cell hc
    unfold Mat.create_like at hc
    dsimp only at hc
    split at hc
    · exact List.eq_of_mem_replicate hc
    · simp at hc

/-- C16: whenever `BinaryOp::forward` returns 0, the output has the dims, w, h,
d, c and elempack of the dominant operand, which is `bottom_blobs[1]` when the
operands are swapped and `bottom_blobs[0]` otherwise, whichever pattern (or
none) was dispatched. -/
theorem forward_output_shape (powf : α → α → α) (self : BinaryOp α) (X Y : Mat α)
    (opt : NcnnOption) (top : Top α) (h : self.forward powf X Y opt = some (0, top)) :
    SameShape top (dominant X Y)
      ∧ dominant X Y = (if a_is_lower X Y = true then Y else X) := by
  obtain ⟨-, hd, hw, hh, hdd, hc, he⟩ := forward_ret powf self X Y opt 0 top h
  exact ⟨⟨hd, hw, hh, hdd, hc, he⟩, rfl⟩

end

/-- C17: `get_reverse_op_type` is an involution on every integer; it exchanges
SUB with RSUB, DIV with RDIV and POW with RPOW; its fixed points are exactly
the integers that are none of these six tags, among them ADD, MUL, MAX, MIN. -/
theorem get_reverse_op_type_involution (t : Int) :
    get_reverse_op_type (get_reverse_op_type t) = t
      ∧ get_reverse_op_type Operation_SUB = Operation_RSUB
      ∧ get_reverse_op_type Operation_RSUB = Operation_SUB
      ∧ get_reverse_op_type Operation_DIV = Operation_RDIV
      ∧ get_reverse_op_type Operation_RDIV = Operation_DIV
      ∧ get_reverse_op_type Operation_POW = Operation_RPOW
      ∧ get_reverse_op_type Operation_RPOW = Operation_POW
      ∧ (get_reverse_op_type t = t ↔
          ¬ (t = Operation_SUB ∨ t = Operation_DIV ∨ t = Operation_POW
              ∨ t = Operation_RSUB ∨ t = Operation_RDIV ∨ t = Operation_RPOW))
      ∧ get_reverse_op_type Operation_ADD = Operation_ADD
      ∧ get_reverse_op_type Operation_MUL = Operation_MUL
      ∧ get_reverse_op_type Operation_MAX = Operation_MAX
      ∧ get_reverse_op_type Operation_MIN = Operation_MIN := by
  have hcases : t = Operation_SUB ∨ t = Operation_DIV ∨ t = Operation_POW
      ∨ t = Operation_RSUB ∨ t = Operation_RDIV ∨ t = Operation_RPOW
      ∨ (t ≠ Operation_SUB ∧ t ≠ Operation_DIV ∧ t ≠ Operation_POW
          ∧ t ≠ Operation_RSUB ∧ t ≠ Operation_RDIV ∧ t ≠ Operation_RPOW) := by
    simp only [Operation_SUB, Operation_DIV, Operation_POW, Operation_RSUB, Operation_RDIV,
      Operation_RPOW]
    omega
  refine ⟨?_, by decide, by decide, by decide, by decide, by decide, by decide, ?_,
    by decide, by decide, by decide, by decide⟩
  · rcases hcases with h | h | h | h | h | h | h
    iterate 6 (subst h; decide)
    obtain ⟨h1, h2, h3, h4, h5, h6⟩ := h
    have e : get_reverse_op_type t = t := by
      simp only [get_reverse_op_type, if_neg h1, if_neg h2, if_neg h3, if_neg h4, if_neg h5,
        if_neg h6]
    rw [e, e]
  · rcases hcases with h | h | h | h | h | h | h
    iterate 6 (subst h; decide)
    obtain ⟨h1, h2, h3, h4, h5, h6⟩ := h
    have e : get_reverse_op_type t = t := by
      simp only [get_reverse_op_type, if_neg h1, if_neg h2, if_neg h3, if_neg h4, if_neg h5,
        if_neg h6]
    refine ⟨fun _ => ?_, fun _ => e⟩
    rintro (h | h | h | h | h | h) <;> contradiction

theorem forward_unsupported_untouched_witness :
    (layer Operation_ADD).forward ipow sM2x3 sM2x2 opt1
        = some (0, (dominant sM2x3 sM2x2).create_like opt1.blob_allocator)
      ∧ ((dominant sM2x3 sM2x2).create_like opt1.blob_allocator : Top Int).data.length
          = (dominant sM2x3 sM2x2).w * (dominant sM2x3 sM2x2).h * (dominant sM2x3 sM2x2).d
              * (dominant sM2x3 sM2x2).c * (dominant sM2x3 sM2x2).elempack
      ∧ ∀ cell ∈ ((dominant sM2x3 sM2x2).create_like opt1.blob_allocator : Top Int).data,
          cell = [] :=
  forward_unsupported_untouched ipow (layer Operation_ADD) sM2x3 sM2x2 opt1
    (by decide) (by decide) (by decide) (by decide) (by decide) (by decide)

theorem forward_output_shape_witness :
    (layer Operation_SUB).forward ipow sV3 sM3x2 opt1
        = some (0, ⟨2, 2, 3, 1, 1, 1, [[9], [8], [17], [16], [25], [24]]⟩)
      ∧ SameShape (⟨2, 2, 3, 1, 1, 1, [[9], [8], [17], [16], [25], [24]]⟩ : Top Int)
          (dominant sV3 sM3x2)
      ∧ dominant sV3 sM3x2 = (if a_is_lower sV3 sM3x2 = true then sM3x2 else sV3) :=
  ⟨by decide, forward_output_shape ipow (layer Operation_SUB) sV3 sM3x2 opt1 _ (by decide)⟩

section
variable {α : Type} [Add α] [Sub α] [Mul α] [Div α] [Max α] [Min α]

/-- C18: for every tag `t` among SUB, DIV, POW, RSUB, RDIV, RPOW the dispatcher
instantiates the kernel for `get_reverse_op_type t` with a functor `g` and the
kernel for `t` with a functor `f` such that `g x y = f y x` for all `x`, `y`;
and the reversed functors are `RSUB(x,y) = y - x`, `RDIV(x,y) = y / x`,
`RPOW(x,y) = pow(y, x)`. -/
theorem reverse_functor_swaps (powf : α → α → α) (t : Int)
    (ht : t = Operation_SUB ∨ t = Operation_DIV ∨ t = Operation_POW ∨ t = Operation_RSUB
      ∨ t = Operation_RDIV ∨ t = Operation_RPOW) :
    (∃ f g : α → α → α,
        functor_of powf t = some f ∧ functor_of powf (get_reverse_op_type t) = some g
          ∧ (∀ a b c, binary_op_scalar powf a b c t = tmpl.binary_op_scalar f a b c)
          ∧ (∀ a b c, binary_op_scalar powf a b c (get_reverse_op_type t)
              = tmpl.binary_op_scalar g a b c)
          ∧ ∀ x y, g x y = f y x)
      ∧ functor_of powf Operation_RSUB = some binary_op_rsub
      ∧ functor_of powf Operation_RDIV = some binary_op_rdiv
      ∧ functor_of powf Operation_RPOW = some (binary_op_rpow powf)
      ∧ ∀ x y : α, binary_op_rsub x y = y - x ∧ binary_op_rdiv x y = y / x
          ∧ binary_op_rpow powf x y = powf y x := by
  refine ⟨?_, rfl, rfl, rfl, fun x y => ⟨rfl, rfl, rfl⟩⟩
  rcases ht with h | h | h | h | h | h <;> subst h
  · exact ⟨binary_op_sub, binary_op_rsub, rfl, rfl, fun _ _ _ => rfl, fun _ _ _ => rfl,
      fun _ _ => rfl⟩
  · exact ⟨binary_op_div, binary_op_rdiv, rfl, rfl, fun _ _ _ => rfl, fun _ _ _ => rfl,
      fun _ _ => rfl⟩
  · exact ⟨binary_op_pow powf, binary_op_rpow powf, rfl, rfl, fun _ _ _ => rfl,
      fun _ _ _ => rfl, fun _ _ => rfl⟩
  · exact ⟨binary_op_rsub, binary_op_sub, rfl, rfl, fun _ _ _ => rfl, fun _ _ _ => rfl,
      fun _ _ => rfl⟩
  · exact ⟨binary_op_rdiv, binary_op_div, rfl, rfl, fun _ _ _ => rfl, fun _ _ _ => rfl,
      fun _ _ => rfl⟩
  · exact ⟨binary_op_rpow powf, binary_op_pow powf, rfl, rfl, fun _ _ _ => rfl,
      fun _ _ _ => rfl, fun _ _ => rfl⟩

/-- C19: for every `op_type` of the table (functor `op`), every stored scalar
`b` and every tensor `T` of elempack 1 holding its `w*h*d*c` elements,
`BinaryOp::forward_inplace` returns 0 and leaves a tensor with the dims, extents
and elempack of `T` in which every element `(q, i)`, `q < c`, `i < w*h*d`, is
`op (T_old[q,i], b)`. -/
theorem forward_inplace_spec (powf : α → α → α) (self : BinaryOp α) (T : Mat α)
    (op : α → α → α) (hop : functor_of powf self.op_type = some op)
    (h1 : T.elempack = 1) (hlen : T.data.length = T.w * T.h * T.d * T.c) :
    ∃ T', self.forward_inplace powf T = some (0, T') ∧ SameShape T' T
      ∧ T'.data.length = T.data.length
      ∧ ∀ q i, q < T.c → i < T.w * T.h * T.d →
          ∃ v, T.data[T.w * T.h * T.d * q + i]? = some v
            ∧ T'.data[T.w * T.h * T.d * q + i]? = some (op v self.b) := by
  refine ⟨{ T with data := T.data.map fun v => op v self.b }, ?_, sameShape_refl _, ?_, ?_⟩
  · rw [forward_inplace_eq, hop]
    exact scalar_inplace_spec op T self.b h1 hlen
  · simp
  · intro q i hq hi
    have hlt : T.w * T.h * T.d * q + i < T.data.length := by
      rw [hlen]
      calc T.w * T.h * T.d * q + i < T.w * T.h * T.d * q + T.w * T.h * T.d := by omega
        _ = T.w * T.h * T.d * (q + 1) := by rw [Nat.mul_add_one]
        _ ≤ T.w * T.h * T.d * T.c := Nat.mul_le_mul_left _ hq
    refine ⟨T.data[T.w * T.h * T.d * q + i], List.getElem?_eq_getElem hlt, ?_⟩
    simp [List.getElem?_eq_getElem hlt]

end

/-- C20: `BinaryOp::load_param` on the constructed layer returns 0 and leaves
`op_type`, `with_scalar`, `b` equal to the values of keys 0, 1, 2 of the
dictionary, or to 0, 0, 0.0 where the key is missing; `one_blob_only` and
`support_inplace` are both true when `with_scalar` is non-zero and both false
otherwise. -/
theorem load_param_spec {α : Type} (t0 w0 : Int) (b0 zero : α) (pd : ParamDict α) :
    ((BinaryOp.ctor t0 w0 b0).load_param zero pd).1 = 0
      ∧ ((BinaryOp.ctor t0 w0 b0).load_param zero pd).2.op_type = pd.get_int 0 0
      ∧ ((BinaryOp.ctor t0 w0 b0).load_param zero pd).2.with_scalar = pd.get_int 1 0
      ∧ ((BinaryOp.ctor t0 w0 b0).load_param zero pd).2.b = pd.get_float 2 zero
      ∧ (∀ v, pd.ints 0 = some v → pd.get_int 0 0 = v) ∧ (pd.ints 0 = none → pd.get_int 0 0 = 0)
      ∧ (∀ v, pd.ints 1 = some v → pd.get_int 1 0 = v) ∧ (pd.ints 1 = none → pd.get_int 1 0 = 0)
      ∧ (∀ v, pd.floats 2 = some v → pd.get_float 2 zero = v)
      ∧ (pd.floats 2 = none → pd.get_float 2 zero = zero)
      ∧ (((BinaryOp.ctor t0 w0 b0).load_param zero pd).2.with_scalar ≠ 0 →
          ((BinaryOp.ctor t0 w0 b0).load_param zero pd).2.one_blob_only = true
            ∧ ((BinaryOp.ctor t0 w0 b0).load_param zero pd).2.support_inplace = true)
      ∧ (((BinaryOp.ctor t0 w0 b0).load_param zero pd).2.with_scalar = 0 →
          ((BinaryOp.ctor t0 w0 b0).load_param zero pd).2.one_blob_only = false
            ∧ ((BinaryOp.ctor t0 w0 b0).load_param zero pd).2.support_inplace = false) := by
  have hw : ((BinaryOp.ctor t0 w0 b0).load_param zero pd).2.with_scalar = pd.get_int 1 0 := by
    unfold BinaryOp.load_param
    dsimp only
    split <;> rfl
  refine ⟨rfl, ?_, hw, ?_, ?_, ?_, ?_, ?_, ?_, ?_, ?_, ?_⟩
  · unfold BinaryOp.load_param
    dsimp only
    split <;> rfl
  · unfold BinaryOp.load_param
    dsimp only
    split <;> rfl
  · intro v h; simp [ParamDict.get_int, h]
  · intro h; simp [ParamDict.get_int, h]
  · intro v h; simp [ParamDict.get_int, h]
  · intro h; simp [ParamDict.get_int, h]
  · intro v h; simp [ParamDict.get_float, h]
  · intro h; simp [ParamDict.get_float, h]
  · intro h
    rw [hw] at h
    unfold BinaryOp.load_param
    dsimp only
    rw [if_pos h]
    exact ⟨rfl, rfl⟩
  · intro h
    rw [hw] at h
    unfold BinaryOp.load_param
    dsimp only
    rw [if_neg (by simp [h])]
    exact ⟨rfl, rfl⟩

theorem reverse_functor_swaps_witness :
    (∃ f g : Int → Int → Int,
        functor_of ipow Operation_SUB = some f
          ∧ functor_of ipow (get_reverse_op_type Operation_SUB) = some g
          ∧ (∀ a b c, binary_op_scalar ipow a b c Operation_SUB = tmpl.binary_op_scalar f a b c)
          ∧ (∀ a b c, binary_op_scalar ipow a b c (get_reverse_op_type Operation_SUB)
              = tmpl.binary_op_scalar g a b c)
          ∧ ∀ x y, g x y = f y x)
      ∧ functor_of ipow Operation_RSUB = some binary_op_rsub
      ∧ functor_of ipow Operation_RDIV = some binary_op_rdiv
      ∧ functor_of ipow Operation_RPOW = some (binary_op_rpow ipow)
      ∧ ∀ x y : Int, binary_op_rsub x y = y - x ∧ binary_op_rdiv x y = y / x
          ∧ binary_op_rpow ipow x y = ipow y x :=
  reverse_functor_swaps ipow Operation_SUB (Or.inl rfl)

theorem forward_inplace_spec_witness :
    functor_of ipow (layer_scalar Operation_RSUB 10).op_type = some binary_op_rsub
      ∧ (layer_scalar Operation_RSUB 10).forward_inplace ipow sA2x2
          = some (0, mat2 2 2 [9, 8, 7, 6])
      ∧ ∃ T', (layer_scalar Operation_RSUB 10).forward_inplace ipow sA2x2 = some (0, T')
        ∧ SameShape T' sA2x2 ∧ T'.data.length = sA2x2.data.length
        ∧ ∀ q i, q < sA2x2.c → i < sA2x2.w * sA2x2.h * sA2x2.d →
            ∃ v, sA2x2.data[sA2x2.w * sA2x2.h * sA2x2.d * q + i]? = some v
              ∧ T'.data[sA2x2.w * sA2x2.h * sA2x2.d * q + i]?
                  = some (binary_op_rsub v (layer_scalar Operation_RSUB 10).b) :=
  ⟨rfl, by decide, forward_inplace_spec ipow (layer_scalar Operation_RSUB 10) sA2x2 binary_op_rsub rfl
    (by decide) (by decide)⟩

section
variable {α : Type} [Add α] [Sub α] [Mul α] [Div α] [Max α] [Min α]

/-- `BinaryOp::forward` as the allocation check followed by the kernel of the
selected pattern. -/
theorem forward_dispatch (powf : α → α → α) (self : BinaryOp α) (X Y : Mat α)
    (opt : NcnnOption) :
    self.forward powf X Y opt =
      if ((dominant X Y).create_like opt.blob_allocator : Top α).empty = true then
        some (-100, (dominant X Y).create_like opt.blob_allocator)
      else match pattern_of (dominant X Y) (subordinate X Y) with
        | Pattern.Scalar => ((subordinate X Y).data[0]?).bind fun b0 =>
            binary_op_scalar powf (dominant X Y) b0
              ((dominant X Y).create_like opt.blob_allocator) (op_type_r self.op_type X Y)
        | Pattern.NoBroadcast =>
            binary_op_no_broadcast powf (dominant X Y) (subordinate X Y)
              ((dominant X Y).create_like opt.blob_allocator) (op_type_r self.op_type X Y)
        | Pattern.BroadcastInner =>
            binary_op_broadcast_inner powf (dominant X Y) (subordinate X Y)
              ((dominant X Y).create_like opt.blob_allocator) (op_type_r self.op_type X Y)
        | Pattern.BroadcastOuter =>
            binary_op_broadcast_outer powf (dominant X Y) (subordinate X Y)
              ((dominant X Y).create_like opt.blob_allocator) (op_type_r self.op_type X Y)
        | Pattern.BroadcastSpecial20 =>
            binary_op_broadcast_20 powf (dominant X Y) (subordinate X Y)
              ((dominant X Y).create_like opt.blob_allocator) (op_type_r self.op_type X Y)
        | Pattern.Unsupported => some (0, (dominant X Y).create_like opt.blob_allocator) := by
  unfold BinaryOp.forward pattern_of
  dsimp only
  by_cases he : ((dominant X Y).create_like opt.blob_allocator : Top α).empty = true
  · rw [if_pos he, if_pos he]
  rw [if_neg he, if_neg he]
  by_cases hs : is_scalar (subordinate X Y)
  · rw [if_pos hs, if_pos hs]; rfl
  rw [if_neg hs, if_neg hs]
  by_cases hnb : is_no_broadcast (dominant X Y) (subordinate X Y)
  · rw [if_pos hnb, if_pos hnb]
  rw [if_neg hnb, if_neg hnb]
  by_cases hin : is_broadcast_inner (dominant X Y) (subordinate X Y)
  · rw [if_pos hin, if_pos hin]
  rw [if_neg hin, if_neg hin]
  by_cases hout : is_broadcast_outer (dominant X Y) (subordinate X Y)
  · rw [if_pos hout, if_pos hout]
  rw [if_neg hout, if_neg hout]
  by_cases h20 : is_broadcast_20 (dominant X Y) (subordinate X Y)
  · rw [if_pos h20, if_pos h20]
  rw [if_neg h20, if_neg h20]

end

section
variable {α : Type}

theorem pattern_of_scalar_iff (A B : Mat α) :
    pattern_of A B = Pattern.Scalar ↔ is_scalar B := by
  unfold pattern_of
  split_ifs <;> simp_all

theorem pattern_of_20_iff (A B : Mat α) :
    pattern_of A B = Pattern.BroadcastSpecial20 ↔
      ¬ is_scalar B ∧ ¬ is_no_broadcast A B ∧ ¬ is_broadcast_inner A B
        ∧ ¬ is_broadcast_outer A B ∧ is_broadcast_20 A B := by
  unfold pattern_of
  split_ifs <;> simp_all

theorem pattern_of_inner_iff (A B : Mat α) :
    pattern_of A B = Pattern.BroadcastInner ↔
      ¬ is_scalar B ∧ ¬ is_no_broadcast A B ∧ is_broadcast_inner A B := by
  unfold pattern_of
  split_ifs <;> simp_all

end

section
variable {α : Type} [Add α] [Sub α] [Mul α] [Div α] [Max α] [Min α]

/-- C21 (as amended): `BinaryOp::forward` selects the Scalar pattern for the
subordinate operand `B` if and only if `B.w*B.h*B.d*B.c = 1`; elempack is not
part of that test, so it agrees with the `b_is_scalar` test of the swap decision
on every `B` of elempack 1, and a `B` the pattern test accepts is a scalar for
`b_is_scalar` only when its elempack is 1.  With a non-empty output the selected
pattern runs `binary_op_scalar` on `B[0]`. -/
theorem scalar_pattern_iff (powf : α → α → α) (self : BinaryOp α) (X Y : Mat α)
    (opt : NcnnOption) :
    (pattern_of (dominant X Y) (subordinate X Y) = Pattern.Scalar ↔
        (subordinate X Y).w * (subordinate X Y).h * (subordinate X Y).d * (subordinate X Y).c = 1)
      ∧ ((subordinate X Y).elempack = 1 →
          (pattern_of (dominant X Y) (subordinate X Y) = Pattern.Scalar ↔
            b_is_scalar (subordinate X Y) = true))
      ∧ (pattern_of (dominant X Y) (subordinate X Y) = Pattern.Scalar →
          (b_is_scalar (subordinate X Y) = true ↔ (subordinate X Y).elempack = 1))
      ∧ (pattern_of (dominant X Y) (subordinate X Y) = Pattern.Scalar →
          ((dominant X Y).create_like opt.blob_allocator : Top α).empty = false →
          self.forward powf X Y opt = ((subordinate X Y).data[0]?).bind fun b0 =>
            binary_op_scalar powf (dominant X Y) b0
              ((dominant X Y).create_like opt.blob_allocator) (op_type_r self.op_type X Y)) := by
  refine ⟨pattern_of_scalar_iff _ _, ?_, ?_, ?_⟩
  · intro h1
    rw [pattern_of_scalar_iff]
    simp [is_scalar, b_is_scalar, h1]
  · intro hp
    have hs : (subordinate X Y).w * (subordinate X Y).h * (subordinate X Y).d
        * (subordinate X Y).c = 1 := (pattern_of_scalar_iff _ _).mp hp
    simp [b_is_scalar, hs]
  · intro hp he
    rw [forward_dispatch, if_neg (by simp [he]), hp]

end

section
variable {α : Type}

/-- C22 (as amended): when the rank rule of the swap decision does not fire
(`a_rank_is_lower` is false), the dominant operand has at least as many elements
`w*h*d*c` as the subordinate one; when it fires, `bottom_blobs[1]` is the
dominant operand whatever the two sizes are. -/
theorem dominant_size (X Y : Mat α) :
    (a_rank_is_lower X Y = false →
        (subordinate X Y).w * (subordinate X Y).h * (subordinate X Y).d * (subordinate X Y).c
          ≤ (dominant X Y).w * (dominant X Y).h * (dominant X Y).d * (dominant X Y).c)
      ∧ (a_rank_is_lower X Y = true → dominant X Y = Y ∧ subordinate X Y = X) := by
  constructor
  · intro hr
    by_cases hsz : X.w * X.h * X.d * X.c < Y.w * Y.h * Y.d * Y.c
    · have hl : a_is_lower X Y = true := by simp [a_is_lower, a_size_is_lower, hr, hsz]
      rw [(dominant_of_lower X Y hl).1, (dominant_of_lower X Y hl).2.1]
      omega
    · have hl : a_is_lower X Y = false := by simp [a_is_lower, a_size_is_lower, hr, hsz]
      rw [(dominant_of_not_lower X Y hl).1, (dominant_of_not_lower X Y hl).2.1]
      omega
  · intro hr
    have hl : a_is_lower X Y = true := by simp [a_is_lower, hr]
    exact ⟨(dominant_of_lower X Y hl).1, (dominant_of_lower X Y hl).2.1⟩

/-- C26 (as amended): the squeeze step of `binary_op_broadcast_inner` looks at
`B` alone; it returns `B` unchanged if and only if `B` meets none of its six
rewrite conditions (dims 2 with w = 1; dims 3 with h = 1 or w = 1; dims 4 with
d = 1, h = 1 or w = 1), whatever the rank of `A`. -/
theorem squeeze_unchanged_iff (b : Mat α) :
    squeeze_inner_axes b = b ↔
      ¬ ((b.dims = 2 ∧ b.w = 1) ∨ (b.dims = 3 ∧ (b.h = 1 ∨ b.w = 1))
          ∨ (b.dims = 4 ∧ (b.d = 1 ∨ b.h = 1 ∨ b.w = 1))) := by
  have hne : ∀ m : Mat α, m.dims ≠ b.dims → m ≠ b := fun m h e => h (by rw [e])
  have r1 : ∀ w, b.dims ≠ 1 → b.dims ≠ 0 → b.reshape1 w ≠ b := by
    intro w h1 h0
    apply hne
    unfold Mat.reshape1
    split
    · exact fun e => h0 (by simpa [Mat.nil] using e.symm)
    · exact fun e => h1 (by simpa using e.symm)
  have r2 : ∀ w h, b.dims ≠ 2 → b.dims ≠ 0 → b.reshape2 w h ≠ b := by
    intro w h h1 h0
    apply hne
    unfold Mat.reshape2
    split
    · exact fun e => h0 (by simpa [Mat.nil] using e.symm)
    · exact fun e => h1 (by simpa using e.symm)
  have r3 : ∀ w h c, b.dims ≠ 3 → b.dims ≠ 0 → b.reshape3 w h c ≠ b := by
    intro w h c h1 h0
    apply hne
    unfold Mat.reshape3
    split
    · exact fun e => h0 (by simpa [Mat.nil] using e.symm)
    · exact fun e => h1 (by simpa using e.symm)
  unfold squeeze_inner_axes
  by_cases h1 : b.dims = 2 ∧ b.w = 1
  · rw [if_pos h1]
    exact ⟨fun e => absurd e (r1 _ (by omega) (by omega)), fun h => absurd (Or.inl h1) h⟩
  rw [if_neg h1]
  by_cases h2 : b.dims = 3 ∧ b.h = 1
  · rw [if_pos h2]
    exact ⟨fun e => absurd e (r1 _ (by omega) (by omega)),
      fun h => absurd (Or.inr (Or.inl ⟨h2.1, Or.inl h2.2⟩)) h⟩
  rw [if_neg h2]
  by_cases h3 : b.dims = 3 ∧ b.w = 1
  · rw [if_pos h3]
    exact ⟨fun e => absurd e (r2 _ _ (by omega) (by omega)),
      fun h => absurd (Or.inr (Or.inl ⟨h3.1, Or.inr h3.2⟩)) h⟩
  rw [if_neg h3]
  by_cases h4 : b.dims = 4 ∧ b.d = 1
  · rw [if_pos h4]
    exact ⟨fun e => absurd e (r1 _ (by omega) (by omega)),
      fun h => absurd (Or.inr (Or.inr ⟨h4.1, Or.inl h4.2⟩)) h⟩
  rw [if_neg h4]
  by_cases h5 : b.dims = 4 ∧ b.h = 1
  · rw [if_pos h5]
    exact ⟨fun e => absurd e (r2 _ _ (by omega) (by omega)),
      fun h => absurd (Or.inr (Or.inr ⟨h5.1, Or.inr (Or.inl h5.2)⟩)) h⟩
  rw [if_neg h5]
  by_cases h6 : b.dims = 4 ∧ b.w = 1
  · rw [if_pos h6]
    exact ⟨fun e => absurd e (r3 _ _ _ (by omega) (by omega)),
      fun h => absurd (Or.inr (Or.inr ⟨h6.1, Or.inr (Or.inr h6.2)⟩)) h⟩
  rw [if_neg h6]
  refine ⟨fun _ => ?_, fun _ => rfl⟩
  rintro (h | ⟨hd, h | h⟩ | ⟨hd, h | h | h⟩)
  · exact h1 h
  · exact h2 ⟨hd, h⟩
  · exact h3 ⟨hd, h⟩
  · exact h4 ⟨hd, h⟩
  · exact h5 ⟨hd, h⟩
  · exact h6 ⟨hd, h⟩

/-- C28 (as amended): with a configured `op_type` other than RSUB, RDIV and
RPOW, the effective op that `BinaryOp::forward` hands to the kernel dispatchers
is RSUB, RDIV or RPOW only when the operands were swapped; with a configured
RSUB, RDIV or RPOW the effective op is that same reverse op when the operands
are not swapped, and SUB, DIV or POW when they are. -/
theorem reverse_op_dispatch (op_type : Int) (X Y : Mat α) :
    (op_type ≠ Operation_RSUB → op_type ≠ Operation_RDIV → op_type ≠ Operation_RPOW →
        (op_type_r op_type X Y = Operation_RSUB ∨ op_type_r op_type X Y = Operation_RDIV
          ∨ op_type_r op_type X Y = Operation_RPOW) →
        a_is_lower X Y = true
          ∧ (op_type = Operation_SUB ∨ op_type = Operation_DIV ∨ op_type = Operation_POW))
      ∧ ((op_type = Operation_RSUB ∨ op_type = Operation_RDIV ∨ op_type = Operation_RPOW) →
          a_is_lower X Y = false → op_type_r op_type X Y = op_type)
      ∧ ((op_type = Operation_RSUB ∨ op_type = Operation_RDIV ∨ op_type = Operation_RPOW) →
          a_is_lower X Y = true →
          op_type_r op_type X Y = Operation_SUB ∨ op_type_r op_type X Y = Operation_DIV
            ∨ op_type_r op_type X Y = Operation_POW) := by
  refine ⟨?_, ?_, ?_⟩
  · intro h7 h8 h9 hr
    cases hl : a_is_lower X Y with
    | false =>
      rw [(dominant_of_not_lower X Y hl).2.2] at hr
      rcases hr with h | h | h <;> contradiction
    | true =>
      refine ⟨rfl, ?_⟩
      rw [(dominant_of_lower X Y hl).2.2] at hr
      unfold get_reverse_op_type at hr
      simp only [Operation_SUB, Operation_DIV, Operation_POW, Operation_RSUB, Operation_RDIV,
        Operation_RPOW] at hr h7 h8 h9 ⊢
      split_ifs at hr <;> omega
  · intro _ hl
    exact (dominant_of_not_lower X Y hl).2.2 op_type
  · intro h hl
    rw [(dominant_of_lower X Y hl).2.2]
    rcases h with h | h | h <;> subst h
    · exact Or.inl rfl
    · exact Or.inr (Or.inl rfl)
    · exact Or.inr (Or.inr rfl)

end

section
variable {α : Type} [Add α] [Sub α] [Mul α] [Div α] [Max α] [Min α]

/-- C27: whenever `BinaryOp::forward` selects the Special20 pattern, the
subordinate `B` has `B.w ≠ 1` and `B.c ≠ 1` and the shapes of `A` and `B`
differ; conversely every pair with `A.dims = B.dims = 3`, `A.w = B.w > 1`,
`B.h = 1 < A.h` and `A.c = B.c > 1` passes none of the four earlier tests, is
given the Special20 pattern, and with a non-empty output `forward` runs
`binary_op_broadcast_20` on it. -/
theorem special20_dispatch (powf : α → α → α) (self : BinaryOp α) (X Y : Mat α)
    (opt : NcnnOption) :
    (pattern_of (dominant X Y) (subordinate X Y) = Pattern.BroadcastSpecial20 →
        (subordinate X Y).w ≠ 1 ∧ (subordinate X Y).c ≠ 1
          ∧ ¬ ((dominant X Y).dims = (subordinate X Y).dims
                ∧ (dominant X Y).w = (subordinate X Y).w ∧ (dominant X Y).h = (subordinate X Y).h
                ∧ (dominant X Y).d = (subordinate X Y).d
                ∧ (dominant X Y).c = (subordinate X Y).c))
      ∧ ((dominant X Y).dims = 3 → (subordinate X Y).dims = 3 →
          (dominant X Y).w = (subordinate X Y).w → 1 < (subordinate X Y).w →
          (subordinate X Y).h = 1 → 1 < (dominant X Y).h →
          (dominant X Y).c = (subordinate X Y).c → 1 < (subordinate X Y).c →
          ¬ is_scalar (subordinate X Y) ∧ ¬ is_no_broadcast (dominant X Y) (subordinate X Y)
            ∧ ¬ is_broadcast_inner (dominant X Y) (subordinate X Y)
            ∧ ¬ is_broadcast_outer (dominant X Y) (subordinate X Y)
            ∧ pattern_of (dominant X Y) (subordinate X Y) = Pattern.BroadcastSpecial20
            ∧ (((dominant X Y).create_like opt.blob_allocator : Top α).empty = false →
                self.forward powf X Y opt
                  = binary_op_broadcast_20 powf (dominant X Y) (subordinate X Y)
                      ((dominant X Y).create_like opt.blob_allocator)
                      (op_type_r self.op_type X Y))) := by
  constructor
  · intro hp
    obtain ⟨-, hnb, hin, hout, h20⟩ := (pattern_of_20_iff _ _).mp hp
    obtain ⟨hA, -, hw, hh, hc⟩ := h20
    refine ⟨fun h => hin ?_, fun h => hout ?_, hnb⟩
    · exact Or.inr (Or.inr (Or.inl ⟨hA, h, hh, hc.symm⟩))
    · exact Or.inr (Or.inl ⟨hA, hw.symm, hh, h⟩)
  · intro hA hB hw hw1 hh hh1 hc hc1
    have hs : ¬ is_scalar (subordinate X Y) := by
      unfold is_scalar
      intro h
      have h1 := Nat.eq_one_of_mul_eq_one_right h
      have h2 := Nat.eq_one_of_mul_eq_one_right h1
      have h3 := Nat.eq_one_of_mul_eq_one_right h2
      omega
    have hnb : ¬ is_no_broadcast (dominant X Y) (subordinate X Y) := by
      rintro ⟨-, -, h, -⟩; omega
    have hin : ¬ is_broadcast_inner (dominant X Y) (subordinate X Y) := by
      rintro (h | h | h | h | h | h | h) <;> omega
    have hout : ¬ is_broadcast_outer (dominant X Y) (subordinate X Y) := by
      rintro (h | h | h | h | h | h) <;> omega
    have hp : pattern_of (dominant X Y) (subordinate X Y) = Pattern.BroadcastSpecial20 :=
      (pattern_of_20_iff _ _).mpr ⟨hs, hnb, hin, hout, hA, hB, hw, hh, hc⟩
    refine ⟨hs, hnb, hin, hout, hp, fun he => ?_⟩
    rw [forward_dispatch, if_neg (by simp [he]), hp]

end

/-- C21 (as stated) fails: a `B` with `w = h = d = c = 1` and elempack 4 is
given the Scalar pattern (every output cell is `A[i] + B[0]`), although
`B.w*B.h*B.d*B.c*B.elempack` is 4 and `b_is_scalar` is false. -/
theorem scalar_pattern_packed_refuted :
    pattern_of (dominant sA2x2 sPacked) (subordinate sA2x2 sPacked) = Pattern.Scalar
      ∧ (subordinate sA2x2 sPacked).w * (subordinate sA2x2 sPacked).h
          * (subordinate sA2x2 sPacked).d * (subordinate sA2x2 sPacked).c
          * (subordinate sA2x2 sPacked).elempack = 4
      ∧ b_is_scalar (subordinate sA2x2 sPacked) = false
      ∧ (layer Operation_ADD).forward ipow sA2x2 sPacked opt1
          = some (0, ⟨2, 2, 2, 1, 1, 1, [[11], [12], [13], [14]]⟩) := by
  decide

/-- C22 (as stated) fails: with `bottom_blobs[0] = [1..8]` (1-D) and
`bottom_blobs[1]` of shape (h=2, w=2) the rank rule swaps, and the dominant
operand has 4 elements against 8 of the subordinate one. -/
theorem dominant_size_refuted :
    dominant sV8 sM2x2 = sM2x2 ∧ subordinate sV8 sM2x2 = sV8
      ∧ (dominant sV8 sM2x2).w * (dominant sV8 sM2x2).h * (dominant sV8 sM2x2).d
          * (dominant sV8 sM2x2).c = 4
      ∧ (subordinate sV8 sM2x2).w * (subordinate sV8 sM2x2).h * (subordinate sV8 sM2x2).d
          * (subordinate sV8 sM2x2).c = 8 := by
  decide

/-- C26 (as stated) fails: `B` of shape (h=3, w=1) under the 3-D `A` of shape
(c=3, h=2, w=2) reaches the squeeze step with `B.dims < A.dims` and is reshaped
to the 1-D tensor `[10, 20, 30]`. -/
theorem squeeze_lower_rank_refuted :
    sCol3.dims < sT12.dims ∧ a_is_lower sT12 sCol3 = false
      ∧ pattern_of (dominant sT12 sCol3) (subordinate sT12 sCol3) = Pattern.BroadcastInner
      ∧ squeeze_inner_axes sCol3 = vec [10, 20, 30]
      ∧ (squeeze_inner_axes sCol3).dims ≠ sCol3.dims
      ∧ squeeze_inner_axes sCol3 ≠ sCol3 := by
  decide

/-- C28 (as stated) fails: the layer configured with RSUB runs the RSUB kernel
on two tensors of the same shape without swapping them. -/
theorem reverse_op_without_swap_refuted :
    a_is_lower sM2x2 sA2x2 = false
      ∧ op_type_r Operation_RSUB sM2x2 sA2x2 = Operation_RSUB
      ∧ (layer Operation_RSUB).forward ipow sM2x2 sA2x2 opt1
          = some (0, ⟨2, 2, 2, 1, 1, 1, [[-9], [-18], [-27], [-36]]⟩) := by
  decide

theorem special20_dispatch_witness :
    pattern_of (dominant sA20 sB20) (subordinate sA20 sB20) = Pattern.BroadcastSpecial20
      ∧ (subordinate sA20 sB20).w ≠ 1 ∧ (subordinate sA20 sB20).c ≠ 1
      ∧ ¬ ((dominant sA20 sB20).dims = (subordinate sA20 sB20).dims
            ∧ (dominant sA20 sB20).w = (subordinate sA20 sB20).w
            ∧ (dominant sA20 sB20).h = (subordinate sA20 sB20).h
            ∧ (dominant sA20 sB20).d = (subordinate sA20 sB20).d
            ∧ (dominant sA20 sB20).c = (subordinate sA20 sB20).c) :=
  ⟨by decide,
    (special20_dispatch ipow (layer Operation_ADD) sA20 sB20 opt1).1 (by decide)⟩

section
variable {α : Type}

theorem inner_4_3_fill (op : α → α → α) (a b : Mat α) (c : Top α) (buf : Buf α) (len : Nat)
    (hs : SameShape c a) (ha1 : a.elempack = 1) (hb1 : b.elempack = 1)
    (halen : a.data.length = len) (hlen : len = a.w * a.h * a.d * a.c)
    (hb : ∀ q, q < a.c → b.w * b.h * b.d * q + a.h * a.d ≤ b.data.length)
    (hF : Filled (bcast op a b (fun j => b.w * b.h * b.d * (j / (a.w * a.h * a.d))
      + a.h * (j / (a.w * a.h) % a.d) + j / a.w % a.h)) len 0 buf) :
    ∃ buf', tmpl.inner_4_3 op a b c buf = some buf'
      ∧ Filled (bcast op a b (fun j => b.w * b.h * b.d * (j / (a.w * a.h * a.d))
          + a.h * (j / (a.w * a.h) % a.d) + j / a.w % a.h)) len len buf' := by
  obtain ⟨-, hcw, hch, hcd, -, hce⟩ := hs
  unfold tmpl.inner_4_3
  dsimp only
  refine forLoop_inv_to
    (fun q bf => Filled (bcast op a b (fun j => b.w * b.h * b.d * (j / (a.w * a.h * a.d))
      + a.h * (j / (a.w * a.h) % a.d) + j / a.w % a.h)) len (a.w * a.h * a.d * q) bf)
    _ _ a.c buf (by simpa using hF) ?_
    (fun t hP => by dsimp only at hP; rw [← hlen] at hP; exact hP)
  intro q t hq ht
  have hrun := run_le (a.w * a.h * a.d) q a.c hq
  have hco : c.channel q = a.w * a.h * a.d * q := by simp [Mat.channel, hcw, hch, hcd, hce, ha1]
  have hao : a.channel q = a.w * a.h * a.d * q := by simp [Mat.channel, ha1]
  have hbo : b.channel q = b.w * b.h * b.d * q := by simp [Mat.channel, hb1]
  have hbq := hb q hq
  dsimp only
  rw [hao, hco, hbo]
  have key := forLoop_inv
    (fun z (st : Nat × Nat × Nat × Buf α) =>
      st.1 = a.w * a.h * a.d * q + z * (a.h * a.w)
        ∧ st.2.1 = b.w * b.h * b.d * q + z * a.h
        ∧ st.2.2.1 = a.w * a.h * a.d * q + z * (a.h * a.w)
        ∧ Filled (bcast op a b (fun j => b.w * b.h * b.d * (j / (a.w * a.h * a.d))
            + a.h * (j / (a.w * a.h) % a.d) + j / a.w % a.h)) len
            (a.w * a.h * a.d * q + z * (a.h * a.w)) st.2.2.2)
    (fun _ (st : Nat × Nat × Nat × Buf α) => do
      let st2 ← forLoop a.h (fun y (s2 : Nat × Nat × Buf α) => do
        let b0 ← b.data[st.2.1 + y]?
        let buf ← forLoop a.w (fun x buf => do
          let v ← a.data[s2.1 + x]?
          store buf (s2.2.1 + x) (op v b0)) s2.2.2
        pure (s2.1 + a.w, s2.2.1 + a.w, buf)) (st.1, st.2.2.1, st.2.2.2)
      pure (st2.1, st.2.1 + a.h, st2.2.1, st2.2.2))
    a.d (a.w * a.h * a.d * q, b.w * b.h * b.d * q, a.w * a.h * a.d * q, t)
    (by simpa using ht) ?_
  · obtain ⟨⟨p', p1', o', bf⟩, hrunz, -, -, -, hfill⟩ := key
    simp only at hfill
    refine ⟨bf, by rw [hrunz]; rfl, ?_⟩
    have e : a.w * a.h * a.d * q + a.d * (a.h * a.w) = a.w * a.h * a.d * (q + 1) := by ring
    rw [e] at hfill
    exact hfill
  · rintro z ⟨p, p1, o, bf⟩ hz ⟨hp, hp1, ho, hfill⟩
    simp only at hp hp1 ho hfill
    subst hp hp1 ho
    obtain ⟨bf', hrows, hf'⟩ := bump_rows
      (bcast op a b (fun j => b.w * b.h * b.d * (j / (a.w * a.h * a.d))
        + a.h * (j / (a.w * a.h) % a.d) + j / a.w % a.h)) len a.w a.h
      (a.w * a.h * a.d * q + z * (a.h * a.w))
      (a.w * a.h * a.d * q + (z + 1) * (a.h * a.w))
      (fun y (s2 : Nat × Nat × Buf α) => do
        let b0 ← b.data[b.w * b.h * b.d * q + z * a.h + y]?
        let buf ← forLoop a.w (fun x buf => do
          let v ← a.data[s2.1 + x]?
          store buf (s2.2.1 + x) (op v b0)) s2.2.2
        pure (s2.1 + a.w, s2.2.1 + a.w, buf))
      _ _ bf rfl rfl (by ring) hfill (by
      intro y bf2 hy hfill2
      have hsl := slab_le a.w a.h a.d z y hz hy
      have hzy : z * a.h + y < a.h * a.d := by
        have : (z + 1) * a.h ≤ a.d * a.h := Nat.mul_le_mul_right a.h hz
        nlinarith
      have hbi : b.w * b.h * b.d * q + z * a.h + y < b.data.length := by omega
      obtain ⟨bf3, hb3, hf3⟩ := row_const op a b
        (fun j => b.w * b.h * b.d * (j / (a.w * a.h * a.d))
          + a.h * (j / (a.w * a.h) % a.d) + j / a.w % a.h) len
        (a.w * a.h * a.d * q + z * (a.h * a.w) + y * a.w)
        (a.w * a.h * a.d * q + z * (a.h * a.w) + y * a.w) a.w
        (b.w * b.h * b.d * q + z * a.h + y)
        (b.data[b.w * b.h * b.d * q + z * a.h + y]) bf2 rfl (List.getElem?_eq_getElem hbi)
        (fun x hx => by
          have e : a.w * a.h * a.d * q + z * (a.h * a.w) + y * a.w + x
              = a.w * a.h * a.d * q + ((z * a.h + y) * a.w + x) := by ring
          simp only [e, dec_q _ _ _ _ _ _ _ hx hy hz, dec_z _ _ _ _ _ _ _ hx hy hz,
            dec_y _ _ _ _ _ _ _ hx hy]
          ring)
        (by omega) (by omega) hfill2
      have e : a.w * a.h * a.d * q + z * (a.h * a.w) + (y + 1) * a.w
          = a.w * a.h * a.d * q + z * (a.h * a.w) + y * a.w + a.w := by ring
      simp only [Option.bind_eq_bind] at hb3
      refine ⟨bf3, ?_, by rw [e]; exact hf3⟩
      simp only [List.getElem?_eq_getElem hbi, Option.bind_eq_bind, Option.some_bind, hb3,
        Option.pure_def, e])
    · refine ⟨(a.w * a.h * a.d * q + (z + 1) * (a.h * a.w),
        b.w * b.h * b.d * q + z * a.h + a.h,
        a.w * a.h * a.d * q + (z + 1) * (a.h * a.w), bf'), ?_, rfl, ?_, rfl, hf'⟩
      · simp only [Option.bind_eq_bind, Option.pure_def] at hrows
        simp only [Option.bind_eq_bind, hrows, Option.some_bind, Option.pure_def]
      · show b.w * b.h * b.d * q + z * a.h + a.h = b.w * b.h * b.d * q + (z + 1) * a.h
        ring

theorem tmpl_inner_4_3 (op : α → α → α) (a b : Mat α) (ha : a.wf) (hbe : b.elempack = 1)
    (hda : a.dims = 4) (hdb : b.dims = 3)
    (hbl : ∀ q, q < a.c → b.w * b.h * b.d * q + a.h * a.d ≤ b.data.length) :
    ∃ buf', tmpl.binary_op_broadcast_inner op a b (a.create_like true)
        = some (0, { (a.create_like true : Top α) with data := buf' })
      ∧ Filled (bcast op a b (fun j => b.w * b.h * b.d * (j / (a.w * a.h * a.d))
          + a.h * (j / (a.w * a.h) % a.d) + j / a.w % a.h))
          (a.w * a.h * a.d * a.c) (a.w * a.h * a.d * a.c) buf' := by
  obtain ⟨hae, halen, hext⟩ := ha
  obtain ⟨buf', hk, hfill⟩ := inner_4_3_fill op a b (a.create_like true)
    (a.create_like true : Top α).data (a.w * a.h * a.d * a.c) (create_like_shape a true) hae hbe
    halen rfl hbl (create_like_filled _ a hae)
  refine ⟨buf', ?_, hfill⟩
  simp [tmpl.binary_op_broadcast_inner, hda, hdb, hk]

end

section
variable {α : Type} [Add α] [Sub α] [Mul α] [Div α] [Max α] [Min α]

/-- C24: for every functor `op`, every well-formed `A` with dims = 4 and every
well-formed 3-D `B` with `w = A.h`, `h = A.d`, `c = A.c`, the (4,3) block of
`binary_op_broadcast_inner<Op>` returns 0 and writes every cell `(q,z,y,x)` once
with `op(A[q,z,y,x], B[q,z,y])`; the element of `B` it reads is at `B`'s channel
offset of `q` plus `A.h * z + y` (the cursor starts at channel `q` and advances
by `A.h` per depth slab).  When `A.h ≠ 1`, `A.d ≠ 1` and `A` is not empty,
`BinaryOp::forward` on `[A, B]` runs exactly this block. -/
theorem inner_4_3_spec (op : α → α → α) (a b : Mat α) (ha : a.wf) (hb : b.wf)
    (hda : a.dims = 4) (hdb : b.dims = 3)
    (hw : b.w = a.h) (hh : b.h = a.d) (hc : b.c = a.c) :
    (∃ top, tmpl.binary_op_broadcast_inner op a b (a.create_like true) = some (0, top)
        ∧ SameShape top a
        ∧ ∀ q z y x, q < a.c → z < a.d → y < a.h → x < a.w →
            ∃ va vb, a.at q z y x = some va ∧ b.at q 0 z y = some vb
              ∧ b.data[b.channel q + a.h * z + y]? = some vb
              ∧ top.at q z y x = some [op va vb])
      ∧ (∀ (powf : α → α → α) (self : BinaryOp α) (opt : NcnnOption),
          functor_of powf self.op_type = some op → opt.blob_allocator = true →
          a.h ≠ 1 → a.d ≠ 1 → 0 < a.w * a.h * a.d * a.c →
          self.forward powf a b opt
            = tmpl.binary_op_broadcast_inner op a b (a.create_like true)) := by
  obtain ⟨hbe, hblen, hbext⟩ := hb
  have hbd : b.d = 1 := by
    rcases hbext with h | h | h | h <;> omega
  constructor
  · obtain ⟨buf', hk, hfill⟩ := tmpl_inner_4_3 op a b ha hbe hda hdb (by
      intro q hq
      rw [hblen, hw, hh, hbd, hc]
      have := run_le (a.h * a.d) q a.c hq
      simp only [Nat.mul_one]
      exact this)
    refine ⟨_, hk, create_like_shape a true, ?_⟩
    intro q z y x hq hz hy hx
    obtain ⟨va, vb, hva, hvb, htop⟩ := Filled_at op a b _
      ({ (a.create_like true : Top α) with data := buf' }) (create_like_shape a true) hfill
      q z y x hq hz hy hx
    simp only [dec_q _ _ _ _ _ _ _ hx hy hz, dec_z _ _ _ _ _ _ _ hx hy hz,
      dec_y _ _ _ _ _ _ _ hx hy] at hvb
    refine ⟨va, vb, hva, ?_, ?_, htop⟩
    · have e : b.w * b.h * b.d * q + ((0 * b.h + z) * b.w + y)
          = b.w * b.h * b.d * q + a.h * z + y := by rw [hw]; ring
      simp only [Mat.at, e, hvb]
    · have e : b.channel q + a.h * z + y = b.w * b.h * b.d * q + a.h * z + y := by
        simp [Mat.channel, hbe]
      rw [e, hvb]
  · intro powf self opt hop hal hh1 hd1 hne
    have hwpos : 0 < a.w := by
      rcases Nat.eq_zero_or_pos a.w with h | h
      · rw [h] at hne; simp at hne
      · exact h
    have hlow : a_is_lower a b = false := by
      have h1 : ¬ (a.dims < b.dims) := by omega
      have h2 : ¬ (a.w * a.h * a.d * a.c < b.w * b.h * b.d * b.c) := by
        rw [hw, hh, hbd, hc]
        have : a.h * a.d * 1 * a.c ≤ a.w * (a.h * a.d * 1 * a.c) :=
          Nat.le_mul_of_pos_left _ hwpos
        have e : a.w * a.h * a.d * a.c = a.w * (a.h * a.d * 1 * a.c) := by ring
        omega
      simp [a_is_lower, a_rank_is_lower, a_size_is_lower, h1, h2]
    obtain ⟨hdom, hsub, hopr⟩ := dominant_of_not_lower a b hlow
    have hns : ¬ is_scalar b := by
      unfold is_scalar
      intro h
      have h1 := Nat.eq_one_of_mul_eq_one_right h
      have h2 := Nat.eq_one_of_mul_eq_one_right h1
      have h3 := Nat.eq_one_of_mul_eq_one_right h2
      omega
    have hsq : squeeze_inner_axes b = b := by
      have n1 : ¬ (b.dims = 2 ∧ b.w = 1) := by omega
      have n2 : ¬ (b.dims = 3 ∧ b.h = 1) := by omega
      have n3 : ¬ (b.dims = 3 ∧ b.w = 1) := by omega
      have n4 : ¬ (b.dims = 4 ∧ b.d = 1) := by omega
      have n5 : ¬ (b.dims = 4 ∧ b.h = 1) := by omega
      have n6 : ¬ (b.dims = 4 ∧ b.w = 1) := by omega
      simp only [squeeze_inner_axes, if_neg n1, if_neg n2, if_neg n3, if_neg n4, if_neg n5,
        if_neg n6]
    rw [forward_inner_eq powf self a b opt op hal (by rw [hdom]; exact ha.1)
      (by rw [hdom]; exact hne) (by rw [hopr]; exact hop) (by rw [hsub]; exact hns)
      (by rw [hdom, hsub]; rintro ⟨h, -⟩; omega)
      (by rw [hdom, hsub]; exact Or.inl (by omega)), hdom, hsub, hsq]

end

theorem inner_4_3_spec_witness :
    tmpl.binary_op_broadcast_inner binary_op_add sA4d sB3d (sA4d.create_like true)
        = some (0, ⟨4, 2, 2, 2, 1, 1, [[11], [12], [23], [24], [35], [36], [47], [48]]⟩)
      ∧ (layer Operation_ADD).forward ipow sA4d sB3d opt1
        = some (0, ⟨4, 2, 2, 2, 1, 1, [[11], [12], [23], [24], [35], [36], [47], [48]]⟩)
      ∧ ∃ top, tmpl.binary_op_broadcast_inner binary_op_add sA4d sB3d (sA4d.create_like true)
          = some (0, top) ∧ SameShape top sA4d
        ∧ ∀ q z y x, q < sA4d.c → z < sA4d.d → y < sA4d.h → x < sA4d.w →
            ∃ va vb, sA4d.at q z y x = some va ∧ sB3d.at q 0 z y = some vb
              ∧ sB3d.data[sB3d.channel q + sA4d.h * z + y]? = some vb
              ∧ top.at q z y x = some [binary_op_add va vb] :=
  ⟨by decide, by decide,
    (inner_4_3_spec binary_op_add sA4d sB3d (by decide) (by decide) rfl rfl rfl rfl rfl).1⟩

section
variable {α : Type}

/-- The five blocks of `binary_op_broadcast_inner<Op>` run to the end whenever
the block that the two ranks select, if any, finds `b` long enough. -/
theorem tmpl_inner_total (op : α → α → α) (a b : Mat α) (ha : a.wf)
    (h21 : a.dims = 2 → b.dims = 1 → a.h ≤ b.data.length)
    (h341 : a.dims = 3 ∨ a.dims = 4 → b.dims = 1 → a.c ≤ b.data.length)
    (h32 : a.dims = 3 → b.dims = 2 →
      b.elempack = 1 ∧ b.w * a.c ≤ b.data.length ∧ a.h ≤ b.w)
    (h42 : a.dims = 4 → b.dims = 2 →
      b.elempack = 1 ∧ b.w * a.c ≤ b.data.length ∧ a.d ≤ b.w)
    (h43 : a.dims = 4 → b.dims = 3 →
      b.elempack = 1 ∧ ∀ q, q < a.c → b.w * b.h * b.d * q + a.h * a.d ≤ b.data.length) :
    ∃ top, tmpl.binary_op_broadcast_inner op a b (a.create_like true) = some (0, top) := by
  by_cases c1 : a.dims = 2 ∧ b.dims = 1
  · obtain ⟨buf', hk, -⟩ := tmpl_inner_2_1 op a b ha c1.1 c1.2 (h21 c1.1 c1.2)
    exact ⟨_, hk⟩
  by_cases c2 : (a.dims = 3 ∨ a.dims = 4) ∧ b.dims = 1
  · obtain ⟨buf', hk, -⟩ := tmpl_inner_34_1 op a b ha c2.1 c2.2 (h341 c2.1 c2.2)
    exact ⟨_, hk⟩
  by_cases c3 : a.dims = 3 ∧ b.dims = 2
  · obtain ⟨hbe, hbl, hbw⟩ := h32 c3.1 c3.2
    obtain ⟨buf', hk, -⟩ := tmpl_inner_3_2 op a b ha hbe c3.1 c3.2 hbl hbw
    exact ⟨_, hk⟩
  by_cases c4 : a.dims = 4 ∧ b.dims = 2
  · obtain ⟨hbe, hbl, hbw⟩ := h42 c4.1 c4.2
    obtain ⟨buf', hk, -⟩ := tmpl_inner_4_2 op a b ha hbe c4.1 c4.2 hbl hbw
    exact ⟨_, hk⟩
  by_cases c5 : a.dims = 4 ∧ b.dims = 3
  · obtain ⟨hbe, hbl⟩ := h43 c5.1 c5.2
    obtain ⟨buf', hk, -⟩ := tmpl_inner_4_3 op a b ha hbe c5.1 c5.2 hbl
    exact ⟨_, hk⟩
  refine ⟨a.create_like true, ?_⟩
  simp only [tmpl.binary_op_broadcast_inner, if_neg c1, if_neg c2, if_neg c3, if_neg c4,
    if_neg c5, Option.some_bind]

theorem inner_total_1d (op : α → α → α) (a m : Mat α) (ha : a.wf) (hm : m.dims = 1)
    (h2 : a.dims = 2 → a.h ≤ m.data.length)
    (h34 : a.dims = 3 ∨ a.dims = 4 → a.c ≤ m.data.length) :
    ∃ top, tmpl.binary_op_broadcast_inner op a m (a.create_like true) = some (0, top) := by
  apply tmpl_inner_total op a m ha
  · exact fun h _ => h2 h
  · exact fun h _ => h34 h
  · intro _ h; omega
  · intro _ h; omega
  · intro _ h; omega

theorem inner_total_2d (op : α → α → α) (a m : Mat α) (ha : a.wf) (hm : m.dims = 2)
    (he : m.elempack = 1)
    (h3 : a.dims = 3 → m.w * a.c ≤ m.data.length ∧ a.h ≤ m.w)
    (h4 : a.dims = 4 → m.w * a.c ≤ m.data.length ∧ a.d ≤ m.w) :
    ∃ top, tmpl.binary_op_broadcast_inner op a m (a.create_like true) = some (0, top) := by
  apply tmpl_inner_total op a m ha
  · intro _ h; omega
  · intro _ h; omega
  · exact fun h _ => ⟨he, h3 h⟩
  · exact fun h _ => ⟨he, h4 h⟩
  · intro _ h; omega

theorem inner_total_3d (op : α → α → α) (a m : Mat α) (ha : a.wf) (hm : m.dims = 3)
    (he : m.elempack = 1)
    (h4 : a.dims = 4 → ∀ q, q < a.c → m.w * m.h * m.d * q + a.h * a.d ≤ m.data.length) :
    ∃ top, tmpl.binary_op_broadcast_inner op a m (a.create_like true) = some (0, top) := by
  apply tmpl_inner_total op a m ha
  · intro _ h; omega
  · intro _ h; omega
  · intro _ h; omega
  · intro _ h; omega
  · exact fun h _ => ⟨he, h4 h⟩

theorem inner_total_nil (op : α → α → α) (a : Mat α) (ha : a.wf) :
    ∃ top, tmpl.binary_op_broadcast_inner op a Mat.nil (a.create_like true) = some (0, top) := by
  apply tmpl_inner_total op a Mat.nil ha <;> intro _ h <;> simp [Mat.nil] at h

theorem inner_total_same_rank (op : α → α → α) (a m : Mat α) (ha : a.wf) (hm : m.dims = a.dims) :
    ∃ top, tmpl.binary_op_broadcast_inner op a m (a.create_like true) = some (0, top) := by
  apply tmpl_inner_total op a m ha <;> intros <;> omega

/-- After the squeeze step the inner kernel runs to the end on every
well-formed pair whose `B` has the rank of `A` and meets a BroadcastInner
template, or has a lower rank and the extents of `A`'s outer axes. -/
theorem squeeze_inner_total (op : α → α → α) (a b : Mat α) (ha : a.wf) (hb : b.wf)
    (hin : is_broadcast_inner a b)
    (hE : b.dims = a.dims
      ∨ (a.dims = 2 ∧ b.dims = 1 ∧ b.w = a.h)
      ∨ ((a.dims = 3 ∨ a.dims = 4) ∧ b.dims = 1 ∧ b.w = a.c)
      ∨ (a.dims = 3 ∧ b.dims = 2 ∧ b.w = a.h ∧ b.h = a.c)
      ∨ (a.dims = 4 ∧ b.dims = 2 ∧ b.w = a.d ∧ b.h = a.c)
      ∨ (a.dims = 4 ∧ b.dims = 3 ∧ b.w = a.h ∧ b.h = a.d ∧ b.c = a.c)) :
    ∃ top, tmpl.binary_op_broadcast_inner op a (squeeze_inner_axes b) (a.create_like true)
      = some (0, top) := by
  obtain ⟨hbe, hblen, hbext⟩ := hb
  have haext := ha.2.2
  -- the shape of `b` relative to `a`, one case per line of the table
  have hshape :
      (b.dims = 1 ∧ b.h = 1 ∧ b.d = 1 ∧ b.c = 1
          ∧ ((a.dims = 2 ∧ b.w = a.h) ∨ ((a.dims = 3 ∨ a.dims = 4) ∧ b.w = a.c)))
        ∨ (b.dims = 2 ∧ b.d = 1 ∧ b.c = 1
          ∧ ((a.dims = 2 ∧ b.w = 1 ∧ b.h = a.h) ∨ (a.dims = 3 ∧ b.w = a.h ∧ b.h = a.c)
            ∨ (a.dims = 4 ∧ b.w = a.d ∧ b.h = a.c)))
        ∨ (b.dims = 3 ∧ b.d = 1
          ∧ ((a.dims = 3 ∧ b.w = 1 ∧ (b.h = 1 ∨ b.h = a.h) ∧ b.c = a.c)
            ∨ (a.dims = 4 ∧ b.w = a.h ∧ b.h = a.d ∧ b.c = a.c)))
        ∨ (b.dims = 4 ∧ a.dims = 4 ∧ b.w = 1 ∧ b.c = a.c
          ∧ ((b.h = 1 ∧ (b.d = 1 ∨ b.d = a.d)) ∨ (b.h = a.h ∧ b.d = a.d))) := by
    rcases hE with hE | hE | hE | hE | hE | hE
    · rcases hin with h | h | h | h | h | h | h
      · omega
      · right; left
        refine ⟨by omega, ?_, ?_, Or.inl ⟨h.1, h.2.1, h.2.2⟩⟩ <;>
          rcases hbext with e | e | e | e <;> omega
      · right; right; left
        refine ⟨by omega, ?_, Or.inl ⟨h.1, h.2.1, Or.inl h.2.2.1, h.2.2.2⟩⟩
        rcases hbext with e | e | e | e <;> omega
      · right; right; left
        refine ⟨by omega, ?_, Or.inl ⟨h.1, h.2.1, Or.inr h.2.2.1, h.2.2.2⟩⟩
        rcases hbext with e | e | e | e <;> omega
      · right; right; right
        exact ⟨by omega, h.1, h.2.1, h.2.2.2.2, Or.inl ⟨h.2.2.1, Or.inl h.2.2.2.1⟩⟩
      · right; right; right
        exact ⟨by omega, h.1, h.2.1, h.2.2.2.2, Or.inl ⟨h.2.2.1, Or.inr h.2.2.2.1⟩⟩
      · right; right; right
        exact ⟨by omega, h.1, h.2.1, h.2.2.2.2, Or.inr ⟨h.2.2.1, h.2.2.2.1⟩⟩
    · left
      refine ⟨hE.2.1, ?_, ?_, ?_, Or.inl ⟨hE.1, hE.2.2⟩⟩ <;>
        rcases hbext with e | e | e | e <;> omega
    · left
      refine ⟨hE.2.1, ?_, ?_, ?_, Or.inr ⟨hE.1, hE.2.2⟩⟩ <;>
        rcases hbext with e | e | e | e <;> omega
    · right; left
      refine ⟨hE.2.1, ?_, ?_, Or.inr (Or.inl ⟨hE.1, hE.2.2.1, hE.2.2.2⟩)⟩ <;>
        rcases hbext with e | e | e | e <;> omega
    · right; left
      refine ⟨hE.2.1, ?_, ?_, Or.inr (Or.inr ⟨hE.1, hE.2.2.1, hE.2.2.2⟩)⟩ <;>
        rcases hbext with e | e | e | e <;> omega
    · right; right; left
      refine ⟨hE.2.1, ?_, Or.inr ⟨hE.1, hE.2.2⟩⟩
      rcases hbext with e | e | e | e <;> omega
  rcases hshape with ⟨hd, h1, h2, h3, hs⟩ | ⟨hd, h2, h3, hs⟩ | ⟨hd, h2, hs⟩ | ⟨hd, hda, hw, hc, hs⟩
  · -- b is 1-D: no rewrite
    have hsq : squeeze_inner_axes b = b := by
      simp [squeeze_inner_axes, hd]
    have hl : b.data.length = b.w := by rw [hblen, h1, h2, h3]; simp
    rw [hsq]
    refine inner_total_1d op a b ha hd (fun h => ?_) (fun h => ?_) <;> rw [hl] <;>
      rcases hs with hs | hs <;> omega
  · -- b is 2-D
    have hl : b.data.length = b.w * b.h := by rw [hblen, h2, h3]; simp
    by_cases hw1 : b.w = 1
    · have hsq : squeeze_inner_axes b
          = { b with dims := 1, w := b.h, h := 1, d := 1, c := 1 } := by
        simp [squeeze_inner_axes, Mat.reshape1, hd, hw1, h2, h3]
      rw [hsq]
      refine inner_total_1d op a _ ha rfl (fun h => ?_) (fun h => ?_) <;>
        (show _ ≤ b.data.length) <;> rw [hl, hw1, Nat.one_mul] <;>
        rcases hs with hs | hs | hs <;> omega
    · have hsq : squeeze_inner_axes b = b := by
        simp [squeeze_inner_axes, hd, hw1]
      rw [hsq]
      refine inner_total_2d op a b ha hd hbe (fun h => ?_) (fun h => ?_) <;> rw [hl] <;>
        rcases hs with hs | hs | hs <;> first
          | omega
          | exact ⟨by rw [hs.2.2], by omega⟩
  · -- b is 3-D
    have hl : b.data.length = b.w * b.h * b.c := by rw [hblen, h2]; simp
    by_cases hh1 : b.h = 1
    · by_cases hw1 : b.w = 1
      · have hsq : squeeze_inner_axes b
            = { b with dims := 1, w := b.c, h := 1, d := 1, c := 1 } := by
          simp [squeeze_inner_axes, Mat.reshape1, hd, hw1, hh1, h2]
        rw [hsq]
        refine inner_total_1d op a _ ha rfl (fun h => ?_) (fun h => ?_) <;>
          (show _ ≤ b.data.length) <;> simp only [hl, hw1, hh1, Nat.one_mul] <;>
          rcases hs with hs | hs <;> omega
      · rcases hs with hs | hs
        · exact absurd hs.2.1 hw1
        · by_cases hc0 : b.c = 0
          · have hsq : squeeze_inner_axes b
                = { b with dims := 1, w := b.c, h := 1, d := 1, c := 1 } := by
              simp [squeeze_inner_axes, Mat.reshape1, hd, hh1, h2, hc0]
            rw [hsq]
            refine inner_total_1d op a _ ha rfl (fun h => ?_) (fun h => ?_) <;>
              (show _ ≤ b.data.length) <;> omega
          · have hne : b.w * b.c ≠ b.c := by
              intro h
              have h' : b.w * b.c = 1 * b.c := by omega
              exact hw1 (Nat.eq_of_mul_eq_mul_right (by omega) h')
            have hsq : squeeze_inner_axes b = Mat.nil := by
              simp [squeeze_inner_axes, Mat.reshape1, hd, hh1, h2, hne]
            rw [hsq]
            exact inner_total_nil op a ha
    · by_cases hw1 : b.w = 1
      · have hsq : squeeze_inner_axes b
            = { b with dims := 2, w := b.h, h := b.c, d := 1, c := 1 } := by
          simp [squeeze_inner_axes, Mat.reshape2, hd, hw1, hh1, h2]
        rw [hsq]
        refine inner_total_2d op a _ ha rfl hbe (fun h => ?_) (fun h => ?_) <;>
          (show b.h * a.c ≤ b.data.length ∧ _ ≤ b.h) <;> rw [hl, hw1, Nat.one_mul] <;>
          rcases hs with hs | hs <;> first
            | omega
            | exact ⟨by rw [hs.2.2.2], by rcases hs.2.2.1 with e | e <;> omega⟩
            | exact ⟨by rw [hs.2.2.2], by omega⟩
      · have hsq : squeeze_inner_axes b = b := by
          simp [squeeze_inner_axes, hd, hw1, hh1]
        rw [hsq]
        refine inner_total_3d op a b ha hd hbe (fun h q hq => ?_)
        rcases hs with hs | hs
        · omega
        · rw [hl, h2, hs.2.1, hs.2.2.1, hs.2.2.2]
          have := run_le (a.h * a.d) q a.c hq
          simpa using this
  · -- b is 4-D, and so is a
    have hl : b.data.length = b.h * b.d * b.c := by rw [hblen, hw]; simp
    by_cases hd1 : b.d = 1
    · by_cases hok : b.h * b.c = b.c
      · have hsq : squeeze_inner_axes b
            = { b with dims := 1, w := b.c, h := 1, d := 1, c := 1 } := by
          simp [squeeze_inner_axes, Mat.reshape1, hd, hw, hd1, hok]
        rw [hsq]
        refine inner_total_1d op a _ ha rfl (fun h => ?_) (fun h => ?_) <;>
          (show _ ≤ b.data.length) <;> simp only [hl, hd1, Nat.mul_one, hok] <;> omega
      · have hsq : squeeze_inner_axes b = Mat.nil := by
          simp [squeeze_inner_axes, Mat.reshape1, hd, hw, hd1, hok]
        rw [hsq]
        exact inner_total_nil op a ha
    · by_cases hh1 : b.h = 1
      · have hsq : squeeze_inner_axes b
            = { b with dims := 2, w := b.d, h := b.c, d := 1, c := 1 } := by
          simp [squeeze_inner_axes, Mat.reshape2, hd, hw, hd1, hh1]
        rw [hsq]
        refine inner_total_2d op a _ ha rfl hbe (fun h => ?_) (fun h => ?_) <;>
          (show b.d * a.c ≤ b.data.length ∧ _ ≤ b.d) <;>
          simp only [hl, hh1, Nat.one_mul, hc]
        · omega
        · refine ⟨Nat.le_refl _, ?_⟩
          rcases hs with hs | hs
          · rcases hs.2 with e | e <;> omega
          · omega
      · have hsq : squeeze_inner_axes b
            = { b with dims := 3, w := b.h, h := b.d, d := 1, c := b.c } := by
          simp [squeeze_inner_axes, Mat.reshape3, hd, hw, hd1, hh1]
        rw [hsq]
        refine inner_total_3d op a _ ha rfl hbe (fun h q hq => ?_)
        show b.h * b.d * 1 * q + a.h * a.d ≤ b.data.length
        rcases hs with hs | hs
        · omega
        · rw [hl, hs.1, hs.2, hc]
          have := run_le (a.h * a.d) q a.c hq
          simpa using this

end

section
variable {α : Type} [Add α] [Sub α] [Mul α] [Div α] [Max α] [Min α]

/-- C29 (as amended): for every pair of well-formed unpacked operands with a
non-empty dominant `A` that `BinaryOp::forward` dispatches to
`binary_op_broadcast_inner`, where the subordinate `B` either has the rank of
`A` (it meets one of the six same-rank templates) or has a lower rank and the
extents of `A`'s outer axes (1-D: `w = A.h` under a 2-D `A`, `w = A.c` under a
3-D or 4-D `A`; 2-D: `w = A.h, h = A.c` under a 3-D `A`, `w = A.d, h = A.c`
under a 4-D `A`; 3-D: `w = A.h, h = A.d, c = A.c`), no access of the kernel
fails: `forward` returns 0 with an output of the shape of `A`, for every
`op_type`. -/
theorem inner_reads_in_bounds (powf : α → α → α) (self : BinaryOp α) (X Y : Mat α)
    (opt : NcnnOption) (hal : opt.blob_allocator = true)
    (hA : (dominant X Y).wf) (hB : (subordinate X Y).wf)
    (hne : 0 < (dominant X Y).w * (dominant X Y).h * (dominant X Y).d * (dominant X Y).c)
    (hp : pattern_of (dominant X Y) (subordinate X Y) = Pattern.BroadcastInner)
    (hE : (subordinate X Y).dims = (dominant X Y).dims
      ∨ ((dominant X Y).dims = 2 ∧ (subordinate X Y).dims = 1
          ∧ (subordinate X Y).w = (dominant X Y).h)
      ∨ (((dominant X Y).dims = 3 ∨ (dominant X Y).dims = 4) ∧ (subordinate X Y).dims = 1
          ∧ (subordinate X Y).w = (dominant X Y).c)
      ∨ ((dominant X Y).dims = 3 ∧ (subordinate X Y).dims = 2
          ∧ (subordinate X Y).w = (dominant X Y).h ∧ (subordinate X Y).h = (dominant X Y).c)
      ∨ ((dominant X Y).dims = 4 ∧ (subordinate X Y).dims = 2
          ∧ (subordinate X Y).w = (dominant X Y).d ∧ (subordinate X Y).h = (dominant X Y).c)
      ∨ ((dominant X Y).dims = 4 ∧ (subordinate X Y).dims = 3
          ∧ (subordinate X Y).w = (dominant X Y).h ∧ (subordinate X Y).h = (dominant X Y).d
          ∧ (subordinate X Y).c = (dominant X Y).c)) :
    ∃ top, self.forward powf X Y opt = some (0, top) ∧ SameShape top (dominant X Y)
      ∧ self.forward powf X Y opt
          = binary_op_broadcast_inner powf (dominant X Y) (subordinate X Y)
              ((dominant X Y).create_like true) (op_type_r self.op_type X Y) := by
  have hin := ((pattern_of_inner_iff _ _).mp hp).2.2
  have he := create_like_not_empty (dominant X Y) hA.1 hne
  have hfw : self.forward powf X Y opt
      = binary_op_broadcast_inner powf (dominant X Y) (subordinate X Y)
          ((dominant X Y).create_like true) (op_type_r self.op_type X Y) := by
    rw [forward_dispatch, hal, if_neg (by simp [he]), hp]
  rw [hfw, binary_op_broadcast_inner_eq]
  cases hf : functor_of powf (op_type_r self.op_type X Y) with
  | none => exact ⟨_, rfl, create_like_shape _ true, rfl⟩
  | some op =>
    obtain ⟨top, htop⟩ := squeeze_inner_total op (dominant X Y) (subordinate X Y) hA hB hin hE
    exact ⟨top, htop, by
      have := (broadcast_inner_ret op _ _ _ 0 top htop).2
      exact ⟨this.1, this.2.1, this.2.2.1, this.2.2.2.1, this.2.2.2.2.1, this.2.2.2.2.2⟩, rfl⟩

end

/-- C29 (as stated) fails: with `A` of shape (h=3, w=2) and the 1-D `B = [2, 4]`
the pair is dispatched to `binary_op_broadcast_inner` through `B.dims < A.dims`,
the (2,1) block reads `B[y]` for `y < 3`, and the read of `B[2]` is past the
end of `B`: the run has no result. -/
theorem inner_reads_refuted :
    pattern_of (dominant sM3x2 sV24) (subordinate sM3x2 sV24) = Pattern.BroadcastInner
      ∧ (subordinate sM3x2 sV24).dims < (dominant sM3x2 sV24).dims
      ∧ squeeze_inner_axes sV24 = sV24
      ∧ 2 < sM3x2.h ∧ sV24.data[2]? = none
      ∧ tmpl.inner_2_1 binary_op_add sM3x2 sV24 (sM3x2.create_like true)
          (sM3x2.create_like true : Top Int).data = none
      ∧ (layer Operation_ADD).forward ipow sM3x2 sV24 opt1 = none := by
  decide

theorem inner_reads_in_bounds_witness :
    (layer Operation_ADD).forward ipow sT8 sV24 opt1
        = some (0, ⟨3, 2, 2, 1, 2, 1, [[10], [10], [10], [10], [12], [12], [12], [12]]⟩)
      ∧ ∃ top, (layer Operation_ADD).forward ipow sT8 sV24 opt1 = some (0, top)
        ∧ SameShape top (dominant sT8 sV24)
        ∧ (layer Operation_ADD).forward ipow sT8 sV24 opt1
            = binary_op_broadcast_inner ipow (dominant sT8 sV24) (subordinate sT8 sV24)
                ((dominant sT8 sV24).create_like true)
                (op_type_r (layer Operation_ADD : BinaryOp Int).op_type sT8 sV24) :=
  ⟨by decide,
    inner_reads_in_bounds ipow (layer Operation_ADD) sT8 sV24 opt1 rfl (by decide) (by decide)
      (by decide) (by decide) (by decide)⟩

/-- C25 (the code at the failing input): for `A` of shape (c=2, d=1, h=2, w=2)
and `B` of shape (c=2, d=1, h=2, w=1), which meets the BroadcastInner template
`{w:1, h:A.h, d:A.d, c:A.c}`, `BinaryOp::forward` does not swap, dispatches
`binary_op_broadcast_inner`, and the kernel returns 0 having written none of
the 8 element positions (every cell has an empty history), where the claim
requires each to be written exactly once. -/
theorem broadcast_inner_writes_nothing :
    sA4.wf ∧ sB4.wf ∧ a_is_lower sA4 sB4 = false
      ∧ pattern_of (dominant sA4 sB4) (subordinate sA4 sB4) = Pattern.BroadcastInner
      ∧ (layer Operation_MUL).forward ipow sA4 sB4 opt1
          = binary_op_broadcast_inner ipow sA4 sB4 (sA4.create_like true) Operation_MUL
      ∧ (∃ top, binary_op_broadcast_inner ipow sA4 sB4 (sA4.create_like true) Operation_MUL
            = some (0, top)
          ∧ top.data.length = sA4.w * sA4.h * sA4.d * sA4.c
          ∧ ∀ cell ∈ top.data, cell.length = 0) := by
  refine ⟨by decide, by decide, by decide, by decide, by decide,
    ⟨4, 2, 2, 1, 2, 1, List.replicate 8 []⟩, by decide, by decide, by decide⟩

/-! ## The MIPS scalar path against the reference kernels -/

section
variable {α : Type}

/-- A loop that advances `ptr` and `outptr` by one per element is the indexed
loop over the same run. -/
theorem bump_const (op : α → α → α) (data : List α) (b0 : α) (n p o : Nat) (buf : Buf α) :
    forLoop n (fun _ (st : Nat × Nat × Buf α) => do
        let v ← data[st.1]?
        let buf ← store st.2.2 st.2.1 (op v b0)
        pure (st.1 + 1, st.2.1 + 1, buf)) (p, o, buf)
      = (forLoop n (fun i buf => do
          let v ← data[p + i]?
          store buf (o + i) (op v b0)) buf).map fun bf => (p + n, o + n, bf) := by
  induction n with
  | zero => rfl
  | succ k ih =>
    simp only [forLoop]
    rw [ih]
    cases forLoop k (fun i buf => do
        let v ← data[p + i]?
        store buf (o + i) (op v b0)) buf with
    | none => rfl
    | some bf =>
      simp only [Option.map_some', Option.some_bind, Option.bind_eq_bind]
      cases data[p + k]? with
      | none => rfl
      | some v =>
        simp only [Option.some_bind]
        cases store bf (o + k) (op v b0) with
        | none => rfl
        | some bf' => rfl

/-- The same for a loop that also advances a pointer `ptr1` into `b`. -/
theorem bump_pair (op : α → α → α) (data data1 : List α) (n p p1 o : Nat) (buf : Buf α) :
    forLoop n (fun _ (st : Nat × Nat × Nat × Buf α) => do
        let v ← data[st.1]?
        let v1 ← data1[st.2.1]?
        let buf ← store st.2.2.2 st.2.2.1 (op v v1)
        pure (st.1 + 1, st.2.1 + 1, st.2.2.1 + 1, buf)) (p, p1, o, buf)
      = (forLoop n (fun i buf => do
          let v ← data[p + i]?
          let v1 ← data1[p1 + i]?
          store buf (o + i) (op v v1)) buf).map fun bf => (p + n, p1 + n, o + n, bf) := by
  induction n with
  | zero => rfl
  | succ k ih =>
    simp only [forLoop]
    rw [ih]
    cases forLoop k (fun i buf => do
        let v ← data[p + i]?
        let v1 ← data1[p1 + i]?
        store buf (o + i) (op v v1)) buf with
    | none => rfl
    | some bf =>
      simp only [Option.map_some', Option.some_bind, Option.bind_eq_bind]
      cases data[p + k]? with
      | none => rfl
      | some v =>
        simp only [Option.some_bind]
        cases data1[p1 + k]? with
        | none => rfl
        | some v1 =>
          simp only [Option.some_bind]
          cases store bf (o + k) (op v v1) with
          | none => rfl
          | some bf' => rfl

/-- The same with a signed pointer into `b`. -/
theorem bump_pair_int (op : α → α → α) (data data1 : List α) (n p o : Nat) (p1 : Int)
    (buf : Buf α) :
    forLoop n (fun _ (s : Nat × Int × Nat × Buf α) => do
        let v ← data[s.1]?
        let v1 ← load data1 s.2.1
        let buf ← store s.2.2.2 s.2.2.1 (op v v1)
        pure (s.1 + 1, s.2.1 + 1, s.2.2.1 + 1, buf)) (p, p1, o, buf)
      = (forLoop n (fun i buf => do
          let v ← data[p + i]?
          let v1 ← load data1 (p1 + (i : Int))
          store buf (o + i) (op v v1)) buf).map fun bf => (p + n, p1 + (n : Int), o + n, bf) := by
  induction n with
  | zero => simp [forLoop]
  | succ k ih =>
    simp only [forLoop]
    rw [ih]
    cases forLoop k (fun i buf => do
        let v ← data[p + i]?
        let v1 ← load data1 (p1 + (i : Int))
        store buf (o + i) (op v v1)) buf with
    | none => rfl
    | some bf =>
      simp only [Option.map_some', Option.some_bind, Option.bind_eq_bind]
      cases data[p + k]? with
      | none => rfl
      | some v =>
        simp only [Option.some_bind]
        cases load data1 (p1 + (k : Int)) with
        | none => rfl
        | some v1 =>
          simp only [Option.some_bind]
          cases store bf (o + k) (op v v1) with
          | none => rfl
          | some bf' =>
            simp only [Option.some_bind, Option.pure_def, Option.map_some', Option.some.injEq,
              Prod.mk.injEq, true_and, and_true]
            refine ⟨rfl, ?_, rfl⟩
            push_cast
            ring

/-- A loop whose body ignores the index, run `m + n` times, is the run of `m`
followed by the run of `n`. -/
theorem forLoop_add {σ : Type} (f : σ → Option σ) (m n : Nat) (s : σ) :
    forLoop (m + n) (fun _ => f) s = (forLoop m (fun _ => f) s).bind (forLoop n (fun _ => f)) := by
  induction n with
  | zero => cases h : forLoop m (fun _ => f) s <;> simp [forLoop, h]
  | succ k ih =>
    rw [← Nat.add_assoc]
    simp only [forLoop]
    rw [ih]
    cases forLoop m (fun _ => f) s with
    | none => rfl
    | some t => rfl

/-- A loop of `h` runs of `w` steps each is one loop of `w * h` steps. -/
theorem forLoop_nest {σ : Type} (f : σ → Option σ) (w h : Nat) (s : σ) :
    forLoop h (fun _ t => forLoop w (fun _ => f) t) s = forLoop (w * h) (fun _ => f) s := by
  induction h with
  | zero => rfl
  | succ k ih =>
    rw [Nat.mul_succ, forLoop_add f (w * k) w, ← ih]
    rfl

end

section
variable {α : Type}

theorem mips_scalar_eq (op : α → α → α) (a : Mat α) (b : α) (c : Top α) (h1 : a.elempack = 1) :
    mips.tmpl.binary_op_scalar op a b c = tmpl.binary_op_scalar op a b c := by
  unfold mips.tmpl.binary_op_scalar tmpl.binary_op_scalar
  simp only [h1, Nat.mul_one, bump_const, Option.map_map, Function.comp_def, Option.map_id']

theorem mips_no_broadcast_eq (op : α → α → α) (a b : Mat α) (c : Top α) (h1 : a.elempack = 1) :
    mips.tmpl.binary_op_no_broadcast op a b c = tmpl.binary_op_no_broadcast op a b c := by
  unfold mips.tmpl.binary_op_no_broadcast tmpl.binary_op_no_broadcast
  simp only [h1, Nat.mul_one, bump_pair, Option.map_map, Function.comp_def, Option.map_id']

theorem mips_inner_2_1_eq (op : α → α → α) (a b : Mat α) (c : Top α) (buf : Buf α)
    (h1 : a.elempack = 1) :
    mips.tmpl.inner_2_1 op a b c buf = tmpl.inner_2_1 op a b c buf := by
  unfold mips.tmpl.inner_2_1 tmpl.inner_2_1
  simp only [h1, Nat.mul_one, bump_const, Option.map_map, Function.comp_def, Option.map_id']

theorem mips_inner_34_1_eq (op : α → α → α) (a b : Mat α) (c : Top α) (buf : Buf α)
    (h1 : a.elempack = 1) :
    mips.tmpl.inner_34_1 op a b c buf = tmpl.inner_34_1 op a b c buf := by
  unfold mips.tmpl.inner_34_1 tmpl.inner_34_1
  simp only [h1, Nat.mul_one, bump_const, Option.map_map, Function.comp_def, Option.map_id']

end

section
variable {α : Type}

theorem bump_const_st (op : α → α → α) (data : List α) (b0 : α) (n : Nat)
    (st : Nat × Nat × Buf α) :
    forLoop n (fun _ (st : Nat × Nat × Buf α) => do
        let v ← data[st.1]?
        let buf ← store st.2.2 st.2.1 (op v b0)
        pure (st.1 + 1, st.2.1 + 1, buf)) st
      = (forLoop n (fun i buf => do
          let v ← data[st.1 + i]?
          store buf (st.2.1 + i) (op v b0)) st.2.2).bind
          fun bf => pure (st.1 + n, st.2.1 + n, bf) := by
  obtain ⟨p, o, buf⟩ := st
  rw [bump_const]
  cases forLoop n (fun i buf => do
      let v ← data[p + i]?
      store buf (o + i) (op v b0)) buf <;> rfl

theorem mips_inner_3_2_eq (op : α → α → α) (a b : Mat α) (c : Top α) (buf : Buf α)
    (h1 : a.elempack = 1) :
    mips.tmpl.inner_3_2 op a b c buf = tmpl.inner_3_2 op a b c buf := by
  unfold mips.tmpl.inner_3_2 tmpl.inner_3_2
  simp only [h1, Nat.mul_one, bump_const_st]
  rfl

theorem bump_pair_st (op : α → α → α) (data data1 : List α) (n p1 : Nat)
    (st : Nat × Nat × Buf α) :
    (forLoop n (fun _ (s : Nat × Nat × Nat × Buf α) => do
        let v ← data[s.1]?
        let v1 ← data1[s.2.1]?
        let buf ← store s.2.2.2 s.2.2.1 (op v v1)
        pure (s.1 + 1, s.2.1 + 1, s.2.2.1 + 1, buf)) (st.1, p1, st.2.1, st.2.2)).map
        (fun s => (s.1, s.2.2.1, s.2.2.2))
      = (forLoop n (fun i buf => do
          let v ← data[st.1 + i]?
          let v1 ← data1[p1 + i]?
          store buf (st.2.1 + i) (op v v1)) st.2.2).bind
          fun bf => pure (st.1 + n, st.2.1 + n, bf) := by
  rw [bump_pair]
  cases forLoop n (fun i buf => do
      let v ← data[st.1 + i]?
      let v1 ← data1[p1 + i]?
      store buf (st.2.1 + i) (op v v1)) st.2.2 <;> rfl

theorem bump_pair_int_st (op : α → α → α) (data data1 : List α) (n : Nat) (p1 : Int)
    (st : Nat × Nat × Buf α) :
    (forLoop n (fun _ (s : Nat × Int × Nat × Buf α) => do
        let v ← data[s.1]?
        let v1 ← load data1 s.2.1
        let buf ← store s.2.2.2 s.2.2.1 (op v v1)
        pure (s.1 + 1, s.2.1 + 1, s.2.2.1 + 1, buf)) (st.1, p1, st.2.1, st.2.2)).map
        (fun s => (s.1, s.2.2.1, s.2.2.2))
      = (forLoop n (fun i buf => do
          let v ← data[st.1 + i]?
          let v1 ← load data1 (p1 + (i : Int))
          store buf (st.2.1 + i) (op v v1)) st.2.2).bind
          fun bf => pure (st.1 + n, st.2.1 + n, bf) := by
  rw [bump_pair_int]
  cases forLoop n (fun i buf => do
      let v ← data[st.1 + i]?
      let v1 ← load data1 (p1 + (i : Int))
      store buf (st.2.1 + i) (op v v1)) st.2.2 <;> rfl

theorem mips_broadcast_20_eq (op : α → α → α) (a b : Mat α) (c : Top α) (h1 : a.elempack = 1) :
    mips.tmpl.binary_op_broadcast_20 op a b c = tmpl.binary_op_broadcast_20 op a b c := by
  unfold mips.tmpl.binary_op_broadcast_20 tmpl.binary_op_broadcast_20
  simp only [h1, Nat.mul_one, bump_pair_st]
  rfl

theorem mips_outer_2_eq (op : α → α → α) (a b : Mat α) (c : Top α) (buf : Buf α)
    (h1 : a.elempack = 1) :
    mips.tmpl.outer_2 op a b c buf = tmpl.outer_2 op a b c buf := by
  unfold mips.tmpl.outer_2 tmpl.outer_2
  simp only [h1, if_true, bump_pair, Option.map_map, Function.comp_def, Option.map_id']

theorem mips_outer_34_eq (op : α → α → α) (a b : Mat α) (c : Top α) (buf : Buf α)
    (h1 : a.elempack = 1) :
    mips.tmpl.outer_34 op a b c buf = tmpl.outer_34 op a b c buf := by
  unfold mips.tmpl.outer_34 tmpl.outer_34
  simp only [h1, if_true, bump_pair_int_st]
  rfl

theorem mips_broadcast_outer_eq (op : α → α → α) (a b : Mat α) (c : Top α)
    (h1 : a.elempack = 1) :
    mips.tmpl.binary_op_broadcast_outer op a b c = tmpl.binary_op_broadcast_outer op a b c := by
  unfold mips.tmpl.binary_op_broadcast_outer tmpl.binary_op_broadcast_outer
  simp only [mips_outer_2_eq op a b c _ h1, mips_outer_34_eq op a b c _ h1]

end

section
variable {α : Type}

theorem mips_inner_4_2_eq (op : α → α → α) (a b : Mat α) (c : Top α) (buf : Buf α)
    (h1 : a.elempack = 1) :
    mips.tmpl.inner_4_2 op a b c buf = tmpl.inner_4_2 op a b c buf := by
  have key : ∀ (b0 : α) (st : Nat × Nat × Buf α),
      forLoop a.h (fun _ (st : Nat × Nat × Buf α) => do
        let buf ← forLoop a.w (fun x buf => do
          let v ← a.data[st.1 + x]?
          store buf (st.2.1 + x) (op v b0)) st.2.2
        pure (st.1 + a.w, st.2.1 + a.w, buf)) st
      = forLoop (a.w * a.h) (fun _ (st : Nat × Nat × Buf α) => do
        let v ← a.data[st.1]?
        let buf ← store st.2.2 st.2.1 (op v b0)
        pure (st.1 + 1, st.2.1 + 1, buf)) st := by
    intro b0 st
    rw [← forLoop_nest]
    apply forLoop_congr
    intro i t _
    rw [bump_const_st]
    rfl
  unfold mips.tmpl.inner_4_2 tmpl.inner_4_2
  simp only [h1, Nat.mul_one, key]

/-- The depth loop of the reference (4,3) block, whose cursor into `b` steps
by `h` per slab, against the same loop with the pointer computed from `z`. -/
theorem inner_4_3_sim (op : α → α → α) (a b : Mat α) (w h p1 : Nat) (n : Nat) (p o : Nat)
    (buf : Buf α) :
    forLoop n (fun _ (st : Nat × Nat × Nat × Buf α) => do
        let st2 ← forLoop h (fun y (s2 : Nat × Nat × Buf α) => do
          let b0 ← b.data[st.2.1 + y]?
          let buf ← forLoop w (fun x buf => do
            let v ← a.data[s2.1 + x]?
            store buf (s2.2.1 + x) (op v b0)) s2.2.2
          pure (s2.1 + w, s2.2.1 + w, buf)) (st.1, st.2.2.1, st.2.2.2)
        pure (st2.1, st.2.1 + h, st2.2.1, st2.2.2)) (p, p1, o, buf)
      = (forLoop n (fun z (st : Nat × Nat × Buf α) =>
          forLoop h (fun y (st : Nat × Nat × Buf α) => do
            let _b ← b.data[p1 + z * h + y]?
            forLoop w (fun _ (st : Nat × Nat × Buf α) => do
              let v ← a.data[st.1]?
              let buf ← store st.2.2 st.2.1 (op v _b)
              pure (st.1 + 1, st.2.1 + 1, buf)) st) st) (p, o, buf)).map
          fun s => (s.1, p1 + n * h, s.2.1, s.2.2) := by
  have hrow : ∀ (r : Nat) (t : Nat × Nat × Buf α),
      forLoop h (fun y (st : Nat × Nat × Buf α) => do
        let _b ← b.data[r + y]?
        forLoop w (fun _ (st : Nat × Nat × Buf α) => do
          let v ← a.data[st.1]?
          let buf ← store st.2.2 st.2.1 (op v _b)
          pure (st.1 + 1, st.2.1 + 1, buf)) st) t
      = forLoop h (fun y (s2 : Nat × Nat × Buf α) => do
        let b0 ← b.data[r + y]?
        let buf ← forLoop w (fun x buf => do
          let v ← a.data[s2.1 + x]?
          store buf (s2.2.1 + x) (op v b0)) s2.2.2
        pure (s2.1 + w, s2.2.1 + w, buf)) t := by
    intro r t
    apply forLoop_congr
    intro y st _
    simp only [bump_const_st]
    rfl
  induction n with
  | zero => simp [forLoop]
  | succ k ih =>
    simp only [forLoop]
    rw [ih]
    cases forLoop k (fun z (st : Nat × Nat × Buf α) =>
        forLoop h (fun y (st : Nat × Nat × Buf α) => do
          let _b ← b.data[p1 + z * h + y]?
          forLoop w (fun _ (st : Nat × Nat × Buf α) => do
            let v ← a.data[st.1]?
            let buf ← store st.2.2 st.2.1 (op v _b)
            pure (st.1 + 1, st.2.1 + 1, buf)) st) st) (p, o, buf) with
    | none => rfl
    | some t =>
      simp only [Option.map_some', Option.some_bind]
      rw [hrow]
      have e : p1 + (k + 1) * h = p1 + k * h + h := by rw [Nat.succ_mul, Nat.add_assoc]
      rw [e]
      cases forLoop h (fun y (s2 : Nat × Nat × Buf α) => do
          let b0 ← b.data[p1 + k * h + y]?
          let buf ← forLoop w (fun x buf => do
            let v ← a.data[s2.1 + x]?
            store buf (s2.2.1 + x) (op v b0)) s2.2.2
          pure (s2.1 + w, s2.2.1 + w, buf)) t with
      | none => rfl
      | some u => rfl

theorem mips_inner_4_3_eq (op : α → α → α) (a b : Mat α) (c : Top α) (buf : Buf α)
    (h1 : a.elempack = 1) (hb1 : b.elempack = 1) (hw : b.w = a.h) :
    mips.tmpl.inner_4_3 op a b c buf = tmpl.inner_4_3 op a b c buf := by
  unfold mips.tmpl.inner_4_3 tmpl.inner_4_3
  simp only [h1, Nat.mul_one, inner_4_3_sim, Option.map_map, Function.comp_def]
  apply forLoop_congr
  intro q t _
  congr 1
  apply forLoop_congr
  intro z st _
  have e : b.channel q + b.row z = b.channel q + z * a.h := by
    simp only [Mat.row, hb1, hw, Nat.mul_one, Nat.mul_comm]
  rw [e]

theorem mips_broadcast_inner_eq (op : α → α → α) (a b : Mat α) (c : Top α)
    (h1 : a.elempack = 1)
    (h43 : a.dims = 4 → b.dims = 3 → b.elempack = 1 ∧ b.w = a.h) :
    mips.tmpl.binary_op_broadcast_inner op a b c = tmpl.binary_op_broadcast_inner op a b c := by
  unfold mips.tmpl.binary_op_broadcast_inner tmpl.binary_op_broadcast_inner
  simp only [mips_inner_2_1_eq op a b c _ h1, mips_inner_34_1_eq op a b c _ h1,
    mips_inner_3_2_eq op a b c _ h1, mips_inner_4_2_eq op a b c _ h1]
  by_cases hc : a.dims = 4 ∧ b.dims = 3
  · obtain ⟨hb1, hw⟩ := h43 hc.1 hc.2
    simp only [mips_inner_4_3_eq op a b c _ h1 hb1 hw]
  · simp only [if_neg hc]

end

section
variable {α : Type} [Add α] [Sub α] [Mul α] [Div α] [Max α] [Min α]

theorem mips_dispatch_scalar_eq (powf : α → α → α) (a : Mat α) (b : α) (c : Top α) (t : Int)
    (h1 : a.elempack = 1) :
    mips.binary_op_scalar powf a b c t = binary_op_scalar powf a b c t := by
  rcases op_type_cases t with h | h | h | h | h | h | h | h | h | h | h
  iterate 10 (subst h; exact mips_scalar_eq _ a b c h1)
  obtain ⟨h0, h1, h2, h3, h4, h5, h6, h7, h8, h9⟩ := h
  simp only [mips.binary_op_scalar, binary_op_scalar, if_neg h0, if_neg h1, if_neg h2, if_neg h3,
    if_neg h4, if_neg h5, if_neg h6, if_neg h7, if_neg h8, if_neg h9]

theorem mips_dispatch_no_broadcast_eq (powf : α → α → α) (a b : Mat α) (c : Top α) (t : Int)
    (h1 : a.elempack = 1) :
    mips.binary_op_no_broadcast powf a b c t = binary_op_no_broadcast powf a b c t := by
  rcases op_type_cases t with h | h | h | h | h | h | h | h | h | h | h
  iterate 10 (subst h; exact mips_no_broadcast_eq _ a b c h1)
  obtain ⟨h0, h1, h2, h3, h4, h5, h6, h7, h8, h9⟩ := h
  simp only [mips.binary_op_no_broadcast, binary_op_no_broadcast, if_neg h0, if_neg h1, if_neg h2,
    if_neg h3, if_neg h4, if_neg h5, if_neg h6, if_neg h7, if_neg h8, if_neg h9]

theorem mips_dispatch_inner_eq (powf : α → α → α) (a b : Mat α) (c : Top α) (t : Int)
    (h1 : a.elempack = 1)
    (h43 : a.dims = 4 → (squeeze_inner_axes b).dims = 3 →
      (squeeze_inner_axes b).elempack = 1 ∧ (squeeze_inner_axes b).w = a.h) :
    mips.binary_op_broadcast_inner powf a b c t = binary_op_broadcast_inner powf a b c t := by
  rcases op_type_cases t with h | h | h | h | h | h | h | h | h | h | h
  iterate 10 (subst h; exact mips_broadcast_inner_eq _ a _ c h1 h43)
  obtain ⟨h0, h1, h2, h3, h4, h5, h6, h7, h8, h9⟩ := h
  simp only [mips.binary_op_broadcast_inner, binary_op_broadcast_inner, if_neg h0, if_neg h1,
    if_neg h2, if_neg h3, if_neg h4, if_neg h5, if_neg h6, if_neg h7, if_neg h8, if_neg h9]

theorem mips_dispatch_outer_eq (powf : α → α → α) (a b : Mat α) (c : Top α) (t : Int)
    (h1 : a.elempack = 1) :
    mips.binary_op_broadcast_outer powf a b c t = binary_op_broadcast_outer powf a b c t := by
  rcases op_type_cases t with h | h | h | h | h | h | h | h | h | h | h
  iterate 10 (subst h; exact mips_broadcast_outer_eq _ a b c h1)
  obtain ⟨h0, h1, h2, h3, h4, h5, h6, h7, h8, h9⟩ := h
  simp only [mips.binary_op_broadcast_outer, binary_op_broadcast_outer, if_neg h0, if_neg h1,
    if_neg h2, if_neg h3, if_neg h4, if_neg h5, if_neg h6, if_neg h7, if_neg h8, if_neg h9]

theorem mips_dispatch_20_eq (powf : α → α → α) (a b : Mat α) (c : Top α) (t : Int)
    (h1 : a.elempack = 1) :
    mips.binary_op_broadcast_20 powf a b c t = binary_op_broadcast_20 powf a b c t := by
  rcases op_type_cases t with h | h | h | h | h | h | h | h | h | h | h
  iterate 10 (subst h; exact mips_broadcast_20_eq _ a b c h1)
  obtain ⟨h0, h1, h2, h3, h4, h5, h6, h7, h8, h9⟩ := h
  simp only [mips.binary_op_broadcast_20, binary_op_broadcast_20, if_neg h0, if_neg h1,
    if_neg h2, if_neg h3, if_neg h4, if_neg h5, if_neg h6, if_neg h7, if_neg h8, if_neg h9]

end

section
variable {α : Type}

theorem mips_a_is_lower_eq (X Y : Mat α) (hX : X.elempack = 1) (hY : Y.elempack = 1) :
    mips.a_is_lower X Y = a_is_lower X Y := by
  simp only [mips.a_is_lower, mips.a_rank_is_lower, mips.a_size_is_lower, mips.b_is_scalar,
    a_is_lower, a_rank_is_lower, a_size_is_lower, b_is_scalar, hX, hY, Nat.mul_one]

theorem mips_operands_eq (X Y : Mat α) (hX : X.elempack = 1) (hY : Y.elempack = 1) :
    mips.dominant X Y = dominant X Y ∧ mips.subordinate X Y = subordinate X Y
      ∧ (∀ t, mips.op_type_r t X Y = op_type_r t X Y)
      ∧ (dominant X Y).elempack = 1 ∧ (subordinate X Y).elempack = 1 := by
  have h := mips_a_is_lower_eq X Y hX hY
  refine ⟨by simp only [mips.dominant, dominant, h],
    by simp only [mips.subordinate, subordinate, h],
    fun t => by simp only [mips.op_type_r, op_type_r, h]; rfl, ?_, ?_⟩
  · unfold dominant; split <;> assumption
  · unfold subordinate; split <;> assumption

theorem mips_tests_eq (A B : Mat α) (hA : A.elempack = 1) (hB : B.elempack = 1) :
    (mips.is_scalar B ↔ is_scalar B) ∧ (mips.is_no_broadcast A B ↔ is_no_broadcast A B)
      ∧ (mips.is_broadcast_outer A B ↔ is_broadcast_outer A B) := by
  refine ⟨?_, ?_, ?_⟩
  · simp only [mips.is_scalar, is_scalar, hB, Nat.mul_one]
  · simp only [mips.is_no_broadcast, is_no_broadcast, hA, hB, and_true]
  · simp only [mips.is_broadcast_outer, is_broadcast_outer, hB, true_and]

theorem mips_pattern_eq (A B : Mat α) (hA : A.elempack = 1) (hB : B.elempack = 1) :
    mips.pattern_of A B = pattern_of A B := by
  obtain ⟨h1, h2, h3⟩ := mips_tests_eq A B hA hB
  unfold mips.pattern_of pattern_of
  simp only [h1, h2, h3]

theorem squeeze_elempack (b : Mat α) (h : (squeeze_inner_axes b).dims ≠ 0) :
    (squeeze_inner_axes b).elempack = b.elempack := by
  rcases squeeze_cases b with e | e | e
  · rw [e]
  · rw [e] at h; exact absurd rfl h
  · exact e.2.2.1

end

section
variable {α : Type} [Add α] [Sub α] [Mul α] [Div α] [Max α] [Min α]

/-- C30 (as amended): for every `op_type` and every pair of inputs of elempack
1, `BinaryOp_mips::forward` compiled without MSA makes the swap decision of
`BinaryOp::forward` and selects the same pattern, and it gives the same result
(return code and every output cell) unless the (4,3) block of
`binary_op_broadcast_inner` runs (inner pattern, `A.dims = 4`, `B` of dims 3
after the squeeze step) with `B.w ≠ A.h`. -/
theorem mips_forward_refines (powf : α → α → α) (self : BinaryOp α) (X Y : Mat α)
    (opt : NcnnOption) (hX : X.elempack = 1) (hY : Y.elempack = 1) :
    mips.a_is_lower X Y = a_is_lower X Y
      ∧ mips.dominant X Y = dominant X Y ∧ mips.subordinate X Y = subordinate X Y
      ∧ mips.op_type_r self.op_type X Y = op_type_r self.op_type X Y
      ∧ mips.pattern_of (mips.dominant X Y) (mips.subordinate X Y)
          = pattern_of (dominant X Y) (subordinate X Y)
      ∧ (¬ (pattern_of (dominant X Y) (subordinate X Y) = Pattern.BroadcastInner
            ∧ (dominant X Y).dims = 4 ∧ (squeeze_inner_axes (subordinate X Y)).dims = 3
            ∧ (squeeze_inner_axes (subordinate X Y)).w ≠ (dominant X Y).h) →
          BinaryOp_mips.forward powf self X Y opt = self.forward powf X Y opt) := by
  obtain ⟨hd, hs, hr, hA, hB⟩ := mips_operands_eq X Y hX hY
  obtain ⟨t1, t2, t3⟩ := mips_tests_eq (dominant X Y) (subordinate X Y) hA hB
  refine ⟨mips_a_is_lower_eq X Y hX hY, hd, hs, hr _, ?_, ?_⟩
  · rw [hd, hs]; exact mips_pattern_eq _ _ hA hB
  · intro h43
    unfold BinaryOp_mips.forward BinaryOp.forward
    simp only [hd, hs, hr, t1, t2, t3]
    by_cases he : ((dominant X Y).create_like opt.blob_allocator : Top α).empty = true
    · rw [if_pos he, if_pos he]
    rw [if_neg he, if_neg he]
    by_cases c1 : is_scalar (subordinate X Y)
    · rw [if_pos c1, if_pos c1]
      simp only [mips_dispatch_scalar_eq powf _ _ _ _ hA]
    rw [if_neg c1, if_neg c1]
    by_cases c2 : is_no_broadcast (dominant X Y) (subordinate X Y)
    · rw [if_pos c2, if_pos c2, mips_dispatch_no_broadcast_eq powf _ _ _ _ hA]
    rw [if_neg c2, if_neg c2]
    by_cases c3 : is_broadcast_inner (dominant X Y) (subordinate X Y)
    · rw [if_pos c3, if_pos c3]
      refine mips_dispatch_inner_eq powf _ _ _ _ hA (fun h4 h3 => ?_)
      refine ⟨by rw [squeeze_elempack _ (by omega), hB], ?_⟩
      by_contra hne
      exact h43 ⟨(pattern_of_inner_iff _ _).mpr ⟨c1, c2, c3⟩, h4, h3, hne⟩
    rw [if_neg c3, if_neg c3]
    by_cases c4 : is_broadcast_outer (dominant X Y) (subordinate X Y)
    · rw [if_pos c4, if_pos c4, mips_dispatch_outer_eq powf _ _ _ _ hA]
    rw [if_neg c4, if_neg c4]
    by_cases c5 : is_broadcast_20 (dominant X Y) (subordinate X Y)
    · rw [if_pos c5, if_pos c5, mips_dispatch_20_eq powf _ _ _ _ hA]
    rw [if_neg c5, if_neg c5]

end

/-- C30 (as stated) fails: with `A` of shape (c=1, d=2, h=1, w=2) holding 1..4
and the 3-D `B` of shape (c=1, h=2, w=2) holding 10, 20, 30, 40, both builds
run the (4,3) block; for the slab `z = 1` the reference kernel reads `B[1] = 20`
(its cursor advanced by `A.h = 1`) and the MIPS kernel reads `B[2] = 30` (row 1
of `B`). -/
theorem mips_forward_refuted :
    sA4flat.elempack = 1 ∧ sB3d.elempack = 1
      ∧ (layer Operation_ADD).forward ipow sA4flat sB3d opt1
          = some (0, ⟨4, 2, 1, 2, 1, 1, [[11], [12], [23], [24]]⟩)
      ∧ BinaryOp_mips.forward ipow (layer Operation_ADD) sA4flat sB3d opt1
          = some (0, ⟨4, 2, 1, 2, 1, 1, [[11], [12], [33], [34]]⟩) := by
  decide

theorem mips_forward_refines_witness :
    BinaryOp_mips.forward ipow (layer Operation_ADD) sA4d sB3d opt1
        = some (0, ⟨4, 2, 2, 2, 1, 1, [[11], [12], [23], [24], [35], [36], [47], [48]]⟩)
      ∧ BinaryOp_mips.forward ipow (layer Operation_ADD) sA4d sB3d opt1
        = (layer Operation_ADD).forward ipow sA4d sB3d opt1 :=
  ⟨by decide,
    (mips_forward_refines ipow (layer Operation_ADD) sA4d sB3d opt1 rfl rfl).2.2.2.2.2
      (by decide)⟩

section
variable {α : Type}

theorem pattern_of_no_broadcast_iff (A B : Mat α) :
    pattern_of A B = Pattern.NoBroadcast ↔ ¬ is_scalar B ∧ is_no_broadcast A B := by
  unfold pattern_of
  split_ifs <;> simp_all

theorem pattern_of_outer_iff (A B : Mat α) :
    pattern_of A B = Pattern.BroadcastOuter ↔
      ¬ is_scalar B ∧ ¬ is_no_broadcast A B ∧ ¬ is_broadcast_inner A B
        ∧ is_broadcast_outer A B := by
  unfold pattern_of
  split_ifs <;> simp_all

/-- The Scalar kernel runs to the end on a well-formed `a`. -/
theorem scalar_total (op : α → α → α) (a : Mat α) (b0 : α) (ha : a.wf) :
    ∃ top, tmpl.binary_op_scalar op a b0 (a.create_like true) = some (0, top) := by
  obtain ⟨hae, halen, -⟩ := ha
  obtain ⟨buf', hk, -⟩ := scalar_fill op a b0 (a.create_like true) (a.w * a.h * a.d * a.c)
    (create_like_shape a true) hae halen rfl (create_like_filled _ a hae)
  exact ⟨_, hk⟩

/-- The outer kernel runs to the end on a well-formed `a` and a well-formed
non-empty `b` of the width of `a`: the clamped indices keep every read of `b`
inside its first channel. -/
theorem outer_total (op : α → α → α) (a b : Mat α) (ha : a.wf) (hb : b.wf)
    (hne : 0 < b.w * b.h * b.d * b.c) (hout : is_broadcast_outer a b) :
    ∃ top, tmpl.binary_op_broadcast_outer op a b (a.create_like true) = some (0, top) := by
  obtain ⟨hbw, hbh, hbd, hbc⟩ := pos_of_size_pos _ _ _ _ hne
  obtain ⟨hbe, hblen, -⟩ := hb
  have hw : b.w = a.w := by
    rcases hout with h | h | h | h | h | h <;> exact h.2.1
  have hslab : b.w * b.h * b.d ≤ b.data.length := by
    rw [hblen]
    exact Nat.le_mul_of_pos_right _ hbc
  have hdims : a.dims = 2 ∨ a.dims = 3 ∨ a.dims = 4 := by
    rcases hout with h | h | h | h | h | h <;> omega
  rcases hdims with hd | hd
  · obtain ⟨buf', hk, -⟩ := tmpl_outer_2 op a b ha hd (by
      have h1 : b.w ≤ b.w * b.h := Nat.le_mul_of_pos_right _ hbh
      have h2 : b.w * b.h ≤ b.w * b.h * b.d := Nat.le_mul_of_pos_right _ hbd
      omega)
    exact ⟨_, hk⟩
  · obtain ⟨buf', hk, -⟩ := tmpl_outer_34 op a b ha hbe hd hbd hbh (by
      intro z y _ _
      have hz : min z (b.d - 1) + 1 ≤ b.d := by omega
      have hy : min y (b.h - 1) + 1 ≤ b.h := by omega
      have h1 : b.w * (min y (b.h - 1) + 1) ≤ b.w * b.h := Nat.mul_le_mul_left _ hy
      have h2 : b.w * b.h * (min z (b.d - 1) + 1) ≤ b.w * b.h * b.d := Nat.mul_le_mul_left _ hz
      rw [Nat.mul_add_one] at h1 h2
      omega)
    exact ⟨_, hk⟩

theorem functor_of_none [Add α] [Sub α] [Mul α] [Div α] [Max α] [Min α] (powf : α → α → α)
    (t : Int) (ht : ¬ in_table t) : functor_of powf t = none := by
  rcases op_type_cases t with h | h | h | h | h | h | h | h | h | h | h
  iterate 10 (subst h; exact absurd (by decide) ht)
  obtain ⟨h0, h1, h2, h3, h4, h5, h6, h7, h8, h9⟩ := h
  simp only [functor_of, if_neg h0, if_neg h1, if_neg h2, if_neg h3, if_neg h4, if_neg h5,
    if_neg h6, if_neg h7, if_neg h8, if_neg h9]

theorem op_type_r_not_in_table (t : Int) (X Y : Mat α) (ht : ¬ in_table t) :
    op_type_r t X Y = t := by
  have hr : get_reverse_op_type t = t := by
    unfold in_table at ht
    unfold get_reverse_op_type
    simp only [Operation_SUB, Operation_DIV, Operation_POW, Operation_RSUB, Operation_RDIV,
      Operation_RPOW]
    split_ifs <;> omega
  unfold op_type_r
  split
  · exact hr
  · rfl

end

section
variable {α : Type} [Add α] [Sub α] [Mul α] [Div α] [Max α] [Min α]

/-- C31: for every pair of well-formed, non-empty operands of elempack 1 that
`BinaryOp::forward` dispatches to the Scalar, NoBroadcast, BroadcastOuter or
BroadcastSpecial20 kernel, no read of `A` or `B` and no write of the output
falls outside its tensor: the run has a result, `forward` returns 0 and the
output has the shape of `A`, for every `op_type`. -/
theorem forward_accesses_in_bounds (powf : α → α → α) (self : BinaryOp α) (X Y : Mat α)
    (opt : NcnnOption) (hal : opt.blob_allocator = true)
    (hA : (dominant X Y).wf) (hB : (subordinate X Y).wf)
    (hneA : 0 < (dominant X Y).w * (dominant X Y).h * (dominant X Y).d * (dominant X Y).c)
    (hneB : 0 < (subordinate X Y).w * (subordinate X Y).h * (subordinate X Y).d
      * (subordinate X Y).c)
    (hp : pattern_of (dominant X Y) (subordinate X Y) = Pattern.Scalar
      ∨ pattern_of (dominant X Y) (subordinate X Y) = Pattern.NoBroadcast
      ∨ pattern_of (dominant X Y) (subordinate X Y) = Pattern.BroadcastOuter
      ∨ pattern_of (dominant X Y) (subordinate X Y) = Pattern.BroadcastSpecial20) :
    ∃ top, self.forward powf X Y opt = some (0, top) ∧ SameShape top (dominant X Y) := by
  have he := create_like_not_empty (dominant X Y) hA.1 hneA
  have hsh := create_like_shape (α := α) (dominant X Y) true
  have shape : ∀ top : Top α, SameShape top ((dominant X Y).create_like true : Top α) →
      SameShape top (dominant X Y) := fun top h =>
    ⟨h.1.trans hsh.1, h.2.1.trans hsh.2.1, h.2.2.1.trans hsh.2.2.1,
      h.2.2.2.1.trans hsh.2.2.2.1, h.2.2.2.2.1.trans hsh.2.2.2.2.1,
      h.2.2.2.2.2.trans hsh.2.2.2.2.2⟩
  rw [forward_dispatch, hal, if_neg (by simp [he])]
  rcases hp with hp | hp | hp | hp <;> rw [hp] <;> dsimp only
  · have hs := (pattern_of_scalar_iff _ _).mp hp
    have hlen : 0 < (subordinate X Y).data.length := by rw [hB.2.1]; exact hneB
    rw [List.getElem?_eq_getElem hlen, Option.some_bind, binary_op_scalar_eq]
    cases hf : functor_of powf (op_type_r self.op_type X Y) with
    | none => exact ⟨_, rfl, hsh⟩
    | some op =>
      obtain ⟨top, htop⟩ := scalar_total op (dominant X Y) ((subordinate X Y).data[0]) hA
      exact ⟨top, htop, shape top (scalar_ret op _ _ _ 0 top htop).2⟩
  · have hnb := ((pattern_of_no_broadcast_iff _ _).mp hp).2
    rw [binary_op_no_broadcast_eq]
    cases hf : functor_of powf (op_type_r self.op_type X Y) with
    | none => exact ⟨_, rfl, hsh⟩
    | some op =>
      obtain ⟨top, htop, hs, -⟩ := no_broadcast_kernel_spec op _ _ hA hB hnb
      exact ⟨top, htop, hs⟩
  · have hout := ((pattern_of_outer_iff _ _).mp hp).2.2.2
    rw [binary_op_broadcast_outer_eq]
    cases hf : functor_of powf (op_type_r self.op_type X Y) with
    | none => exact ⟨_, rfl, hsh⟩
    | some op =>
      obtain ⟨top, htop⟩ := outer_total op _ _ hA hB hneB hout
      exact ⟨top, htop, shape top (broadcast_outer_ret op _ _ _ 0 top htop).2⟩
  · have h20 := ((pattern_of_20_iff _ _).mp hp).2.2.2.2
    rw [binary_op_broadcast_20_eq]
    cases hf : functor_of powf (op_type_r self.op_type X Y) with
    | none => exact ⟨_, rfl, hsh⟩
    | some op =>
      obtain ⟨top, htop, hs, -⟩ := broadcast_20_kernel_spec op _ _ hA hB h20
      exact ⟨top, htop, hs⟩

/-- C32: for every `op_type` outside the ten table tags, `BinaryOp::forward`
with a non-empty output (and, for the Scalar pattern, a `B` that stores its
element) returns 0 with the freshly allocated output, none of whose cells is
written, whatever the pattern; and `BinaryOp::forward_inplace` returns 0 with
its tensor unchanged. -/
theorem forward_outside_table (powf : α → α → α) (self : BinaryOp α) (X Y : Mat α)
    (opt : NcnnOption) (hnt : ¬ in_table self.op_type)
    (hne : ((dominant X Y).create_like opt.blob_allocator : Top α).empty = false)
    (hB : is_scalar (subordinate X Y) → (subordinate X Y).data ≠ []) :
    self.forward powf X Y opt = some (0, (dominant X Y).create_like opt.blob_allocator)
      ∧ (∀ cell ∈ ((dominant X Y).create_like opt.blob_allocator : Top α).data, cell = [])
      ∧ ∀ T : Mat α, self.forward_inplace powf T = some (0, T) := by
  have hr := op_type_r_not_in_table self.op_type X Y hnt
  have hf := functor_of_none powf self.op_type hnt
  refine ⟨?_, ?_, ?_⟩
  · rw [forward_dispatch, if_neg (by simp [hne]), hr]
    cases hp : pattern_of (dominant X Y) (subordinate X Y) <;> dsimp only
    · have hs := (pattern_of_scalar_iff _ _).mp hp
      have hlen : 0 < (subordinate X Y).data.length := List.length_pos.mpr (hB hs)
      rw [List.getElem?_eq_getElem hlen, Option.some_bind, binary_op_scalar_eq, hf]
    · rw [binary_op_no_broadcast_eq, hf]
    · rw [binary_op_broadcast_inner_eq, hf]
    · rw [binary_op_broadcast_outer_eq, hf]
    · rw [binary_op_broadcast_20_eq, hf]
  · intro cell hc
    unfold Mat.create_like at hc
    dsimp only at hc
    split at hc
    · exact List.eq_of_mem_replicate hc
    · simp at hc
  · intro T
    rw [forward_inplace_eq, hf]

end

theorem forward_accesses_in_bounds_witness :
    (layer Operation_SUB).forward ipow sA2x2 sRow2 opt1
        = some (0, ⟨2, 2, 2, 1, 1, 1, [[-9], [-18], [-7], [-16]]⟩)
      ∧ pattern_of (dominant sA2x2 sRow2) (subordinate sA2x2 sRow2) = Pattern.BroadcastOuter
      ∧ ∃ top, (layer Operation_SUB).forward ipow sA2x2 sRow2 opt1 = some (0, top)
        ∧ SameShape top (dominant sA2x2 sRow2) :=
  ⟨by decide, by decide,
    forward_accesses_in_bounds ipow (layer Operation_SUB) sA2x2 sRow2 opt1 rfl (by decide)
      (by decide) (by decide) (by decide) (Or.inr (Or.inr (Or.inl (by decide))))⟩

theorem forward_outside_table_witness :
    ¬ in_table (layer 42 : BinaryOp Int).op_type
      ∧ (layer 42).forward ipow sM2x2 sA2x2 opt1
          = some (0, ⟨2, 2, 2, 1, 1, 1, [[], [], [], []]⟩)
      ∧ (layer 42).forward ipow sM2x2 sV1 opt1
          = some (0, ⟨2, 2, 2, 1, 1, 1, [[], [], [], []]⟩)
      ∧ (layer 42).forward_inplace ipow sM2x2 = some (0, sM2x2)
      ∧ (layer 42).forward ipow sM2x2 sA2x2 opt1
          = some (0, (dominant sM2x2 sA2x2).create_like opt1.blob_allocator) :=
  ⟨by decide, by decide, by decide, by decide,
    (forward_outside_table ipow (layer 42) sM2x2 sA2x2 opt1 (by decide) (by decide)
      (by decide)).1⟩

/-! ## The 4-lane loops of the MIPS kernels -/

section LaneLoops

variable {α : Type}

theorem forLoop_front {σ : Type} (f : Nat → σ → Option σ) (n : Nat) (s : σ) :
    forLoop (n + 1) f s = (f 0 s).bind (forLoop n (fun i => f (i + 1))) := by
  induction n with
  | zero =>
    show f 0 s = (f 0 s).bind fun t => some t
    cases f 0 s <;> rfl
  | succ k ih =>
    show (forLoop (k + 1) f s).bind (f (k + 1)) = _
    rw [ih]
    cases f 0 s with
    | none => rfl
    | some t => rfl

theorem forLoop_add_idx {σ : Type} (f : Nat → σ → Option σ) (m n : Nat) (s : σ) :
    forLoop (m + n) f s = (forLoop m f s).bind (forLoop n (fun i => f (m + i))) := by
  induction n with
  | zero =>
    show forLoop m f s = (forLoop m f s).bind fun t => some t
    cases forLoop m f s <;> rfl
  | succ k ih =>
    show (forLoop (m + k) f s).bind (f (m + k)) = _
    rw [ih]
    cases forLoop m f s with
    | none => rfl
    | some t => rfl

theorem forLoop_blocks4 {σ : Type} (f : Nat → σ → Option σ) (n : Nat) (s : σ) :
    forLoop (4 * n) f s
      = forLoop n (fun j t =>
          (((f (4 * j) t).bind (f (4 * j + 1))).bind (f (4 * j + 2))).bind (f (4 * j + 3))) s := by
  induction n with
  | zero => rfl
  | succ k ih =>
    show ((((forLoop (4 * k) f s).bind (f (4 * k))).bind (f (4 * k + 1))).bind
        (f (4 * k + 2))).bind (f (4 * k + 3)) = (forLoop k _ s).bind _
    rw [ih]
    cases forLoop k (fun j t =>
          (((f (4 * j) t).bind (f (4 * j + 1))).bind (f (4 * j + 2))).bind (f (4 * j + 3))) s with
    | none => rfl
    | some t => rfl

/-- A counted `for (; cond; ) body` loop: when the states met are `emb j t`,
`j` the number of rounds done, and the condition holds exactly for `j < n`,
`n` rounds of fuel are enough and the loop is the indexed loop of `n` rounds. -/
theorem loopWhile_for {σ τ : Type} (emb : Nat → τ → σ) (g : Nat → τ → Option τ)
    (cond : σ → Bool) (body : σ → Option σ) (n : Nat)
    (hc : ∀ j t, cond (emb j t) = decide (j < n))
    (hb : ∀ j t, j < n → body (emb j t) = (g j t).bind fun t' => some (emb (j + 1) t')) :
    ∀ (fuel j : Nat) (s : τ), j ≤ n → n - j ≤ fuel →
      loopWhile fuel cond body (emb j s)
        = (forLoop (n - j) (fun i => g (j + i)) s).bind fun t => some (emb n t) := by
  intro fuel
  induction fuel with
  | zero =>
    intro j s hj hf
    have hjn : j = n := by omega
    subst hjn
    rw [Nat.sub_self]
    rfl
  | succ k ih =>
    intro j s hj hf
    by_cases hlt : j < n
    · have hcj : cond (emb j s) = true := by rw [hc]; exact decide_eq_true hlt
      have hnj : n - j = (n - (j + 1)) + 1 := by omega
      rw [hnj, forLoop_front]
      show (if cond (emb j s) then (body (emb j s)).bind (loopWhile k cond body)
        else some (emb j s)) = _
      rw [if_pos hcj, hb j s hlt]
      show _ = ((g j s).bind _).bind _
      cases hg : g j s with
      | none => rfl
      | some t =>
        show loopWhile k cond body (emb (j + 1) t) = _
        rw [ih (j + 1) t (by omega) (by omega)]
        have hcong : forLoop (n - (j + 1)) (fun i => g (j + 1 + i)) t
            = forLoop (n - (j + 1)) (fun i => g (j + (i + 1))) t := by
          apply forLoop_congr
          intro i u _
          rw [Nat.add_right_comm, Nat.add_assoc]
        rw [hcong]
        rfl
    · have hjn : j = n := by omega
      subst hjn
      have hcj : cond (emb j s) = false := by rw [hc]; exact decide_eq_false hlt
      rw [Nat.sub_self]
      show (if cond (emb j s) then (body (emb j s)).bind (loopWhile k cond body)
        else some (emb j s)) = _
      rw [hcj]
      rfl


/-! ### `binary_op_scalar` -/

theorem scalar_lanes_eq (op4 : V4 α → V4 α → V4 α) (data : List α) (b : α) (N p o : Nat)
    (buf : Buf α) :
    mips.msa.scalar_lanes op4 data b N (0, p, o, buf)
      = (run_scalar_lanes op4 data b p o (N / 4) buf).map
          fun bf => (4 * (N / 4), p + 4 * (N / 4), o + 4 * (N / 4), bf) := by
  have h := loopWhile_for (fun j (bf : Buf α) => (4 * j, p + 4 * j, o + 4 * j, bf))
    (fun j bf => do
      let v ← msa_ld_w data (p + 4 * j)
      msa_st_w bf (o + 4 * j) (op4 v (msa_fill_w b)))
    (fun st => decide (st.1 + 3 < N))
    (fun st => do
      let _p ← msa_ld_w data st.2.1
      let _p := op4 _p (msa_fill_w b)
      let buf ← msa_st_w st.2.2.2 st.2.2.1 _p
      pure (st.1 + 4, st.2.1 + 4, st.2.2.1 + 4, buf))
    (N / 4)
    (by
      intro j t
      show decide (4 * j + 3 < N) = decide (j < N / 4)
      exact decide_eq_decide.mpr (by omega))
    (by
      intro j t _
      show (msa_ld_w data (p + 4 * j)).bind _ = ((msa_ld_w data (p + 4 * j)).bind _).bind _
      cases msa_ld_w data (p + 4 * j) with
      | none => rfl
      | some v => rfl)
    N 0 buf (Nat.zero_le _) (by omega)
  simp only [Nat.sub_zero, Nat.zero_add] at h
  show loopWhile N _ _ _ = _
  unfold run_scalar_lanes
  rw [show ((0 : Nat), p, o, buf) = (4 * 0, p + 4 * 0, o + 4 * 0, buf) from rfl, h]
  cases forLoop (N / 4) (fun j bf => do
      let v ← msa_ld_w data (p + 4 * j)
      msa_st_w bf (o + 4 * j) (op4 v (msa_fill_w b))) buf <;> rfl

theorem scalar_tail_eq (op : α → α → α) (data : List α) (b : α) (N i p o : Nat)
    (buf : Buf α) (hi : i ≤ N) :
    mips.msa.scalar_tail op data b N (i, p, o, buf)
      = (run_scalar op data b p o (N - i) buf).map
          fun bf => (N, p + (N - i), o + (N - i), bf) := by
  have h := loopWhile_for (fun j (bf : Buf α) => (i + j, p + j, o + j, bf))
    (fun j bf => do
      let v ← data[p + j]?
      store bf (o + j) (op v b))
    (fun st => decide (st.1 < N))
    (fun st => do
      let v ← data[st.2.1]?
      let buf ← store st.2.2.2 st.2.2.1 (op v b)
      pure (st.1 + 1, st.2.1 + 1, st.2.2.1 + 1, buf))
    (N - i)
    (by
      intro j t
      show decide (i + j < N) = decide (j < N - i)
      exact decide_eq_decide.mpr (by omega))
    (by
      intro j t _
      show (data[p + j]?).bind _ = ((data[p + j]?).bind _).bind _
      cases data[p + j]? with
      | none => rfl
      | some v => rfl)
    N 0 buf (Nat.zero_le _) (by omega)
  simp only [Nat.sub_zero, Nat.zero_add, Nat.add_sub_of_le hi] at h
  show loopWhile N _ _ _ = _
  unfold run_scalar
  rw [show (i, p, o, buf) = (i + 0, p + 0, o + 0, buf) from rfl, h]
  cases forLoop (N - i) (fun j bf => do
      let v ← data[p + j]?
      store bf (o + j) (op v b)) buf <;> rfl

theorem lane_block_scalar (op : α → α → α) (op4 : V4 α → V4 α → V4 α) (hop4 : LaneWise op op4)
    (data : List α) (b : α) (q r : Nat) (buf : Buf α) :
    (do
      let v ← msa_ld_w data q
      msa_st_w buf r (op4 v (msa_fill_w b)))
      = ((((do let v ← data[q]?; store buf r (op v b)) : Option (Buf α)).bind
          (fun bf => do let v ← data[q + 1]?; store bf (r + 1) (op v b))).bind
          (fun bf => do let v ← data[q + 2]?; store bf (r + 2) (op v b))).bind
          (fun bf => do let v ← data[q + 3]?; store bf (r + 3) (op v b)) := by
  simp only [msa_ld_w, msa_st_w, msa_fill_w, hop4 _ _, Option.bind_eq_bind, Option.pure_def]
  cases h0 : data[q]? with
  | none => rfl
  | some x0 =>
    simp only [Option.some_bind]
    cases s0 : store buf r (op x0 b) with
    | none => cases data[q + 1]? <;> cases data[q + 2]? <;> cases data[q + 3]? <;> simp [s0]
    | some b0 =>
      simp only [Option.some_bind]
      cases h1 : data[q + 1]? with
      | none => rfl
      | some x1 =>
        simp only [Option.some_bind]
        cases s1 : store b0 (r + 1) (op x1 b) with
        | none => cases data[q + 2]? <;> cases data[q + 3]? <;> simp [s0, s1]
        | some b1 =>
          simp only [Option.some_bind]
          cases h2 : data[q + 2]? with
          | none => rfl
          | some x2 =>
            simp only [Option.some_bind]
            cases s2 : store b1 (r + 2) (op x2 b) with
            | none => cases data[q + 3]? <;> simp [s0, s1, s2]
            | some b2 =>
              simp only [Option.some_bind]
              cases h3 : data[q + 3]? with
              | none => rfl
              | some x3 => simp [s0, s1, s2]

theorem run_scalar_lanes_eq (op : α → α → α) (op4 : V4 α → V4 α → V4 α) (hop4 : LaneWise op op4)
    (data : List α) (b : α) (p o n : Nat) (buf : Buf α) :
    run_scalar_lanes op4 data b p o n buf = run_scalar op data b p o (4 * n) buf := by
  unfold run_scalar_lanes run_scalar
  rw [forLoop_blocks4]
  apply forLoop_congr
  intro j t _
  rw [lane_block_scalar op op4 hop4]
  simp only [Nat.add_assoc]


theorem run_scalar_split (op : α → α → α) (data : List α) (b : α) (p o m N : Nat)
    (buf : Buf α) (hm : m ≤ N) :
    run_scalar op data b p o N buf
      = (run_scalar op data b p o m buf).bind (run_scalar op data b (p + m) (o + m) (N - m)) := by
  unfold run_scalar
  have hN : N = m + (N - m) := by omega
  rw [hN, forLoop_add_idx, ← hN]
  simp only [Nat.add_assoc]

theorem scalar_run_eq (op : α → α → α) (op4 : V4 α → V4 α → V4 α) (hop4 : LaneWise op op4)
    (data : List α) (b : α) (N p o : Nat) (buf : Buf α) :
    ((mips.msa.scalar_lanes op4 data b N (0, p, o, buf)).bind fun st =>
      (mips.msa.scalar_tail op data b N st).bind fun st => some st.2.2.2)
      = run_scalar op data b p o N buf := by
  rw [scalar_lanes_eq, run_scalar_lanes_eq op op4 hop4,
    run_scalar_split op data b p o (4 * (N / 4)) N buf (by omega)]
  cases run_scalar op data b p o (4 * (N / 4)) buf with
  | none => rfl
  | some bf =>
    show (mips.msa.scalar_tail op data b N _).bind _ = _
    rw [scalar_tail_eq op data b N _ _ _ bf (by omega)]
    show _ = run_scalar op data b (p + 4 * (N / 4)) (o + 4 * (N / 4)) (N - 4 * (N / 4)) bf
    cases run_scalar op data b (p + 4 * (N / 4)) (o + 4 * (N / 4)) (N - 4 * (N / 4)) bf <;> rfl

theorem msa_scalar_eq (op : α → α → α) (op4 : V4 α → V4 α → V4 α) (hop4 : LaneWise op op4)
    (a : Mat α) (b : α) (c : Top α) :
    mips.msa.tmpl.binary_op_scalar op op4 a b c = mips.tmpl.binary_op_scalar op a b c := by
  unfold mips.msa.tmpl.binary_op_scalar mips.tmpl.binary_op_scalar
  simp only []
  congr 1
  apply forLoop_congr
  intro q buf _
  have h := scalar_run_eq op op4 hop4 a.data b (a.w * a.h * a.d * a.elempack) (a.channel q)
    (c.channel q) buf
  rw [bump_const]
  unfold run_scalar at h
  cases hr : forLoop (a.w * a.h * a.d * a.elempack) (fun i buf => do
      let v ← a.data[a.channel q + i]?
      store buf (c.channel q + i) (op v b)) buf with
  | none => rw [hr] at h; exact h
  | some bf => rw [hr] at h; exact h


/-! ### `binary_op_no_broadcast` -/

theorem pair_lanes_eq (op4 : V4 α → V4 α → V4 α) (data data1 : List α) (N p p1 o : Nat)
    (buf : Buf α) :
    mips.msa.pair_lanes op4 data data1 N (0, p, p1, o, buf)
      = (run_pair_lanes op4 data data1 p p1 o (N / 4) buf).map
          fun bf => (4 * (N / 4), p + 4 * (N / 4), p1 + 4 * (N / 4), o + 4 * (N / 4), bf) := by
  have h := loopWhile_for
    (fun j (bf : Buf α) => (4 * j, p + 4 * j, p1 + 4 * j, o + 4 * j, bf))
    (fun j bf => do
      let v ← msa_ld_w data (p + 4 * j)
      let v1 ← msa_ld_w data1 (p1 + 4 * j)
      msa_st_w bf (o + 4 * j) (op4 v v1))
    (fun st => decide (st.1 + 3 < N))
    (fun st => do
      let _p ← msa_ld_w data st.2.1
      let _p1 ← msa_ld_w data1 st.2.2.1
      let _outp := op4 _p _p1
      let buf ← msa_st_w st.2.2.2.2 st.2.2.2.1 _outp
      pure (st.1 + 4, st.2.1 + 4, st.2.2.1 + 4, st.2.2.2.1 + 4, buf))
    (N / 4)
    (by
      intro j t
      show decide (4 * j + 3 < N) = decide (j < N / 4)
      exact decide_eq_decide.mpr (by omega))
    (by
      intro j t _
      show (msa_ld_w data (p + 4 * j)).bind _ = ((msa_ld_w data (p + 4 * j)).bind _).bind _
      cases msa_ld_w data (p + 4 * j) with
      | none => rfl
      | some v =>
        show (msa_ld_w data1 (p1 + 4 * j)).bind _ = ((msa_ld_w data1 (p1 + 4 * j)).bind _).bind _
        cases msa_ld_w data1 (p1 + 4 * j) with
        | none => rfl
        | some v1 => rfl)
    N 0 buf (Nat.zero_le _) (by omega)
  simp only [Nat.sub_zero, Nat.zero_add] at h
  show loopWhile N _ _ _ = _
  unfold run_pair_lanes
  rw [show ((0 : Nat), p, p1, o, buf) = (4 * 0, p + 4 * 0, p1 + 4 * 0, o + 4 * 0, buf) from rfl, h]
  cases forLoop (N / 4) (fun j bf => do
      let v ← msa_ld_w data (p + 4 * j)
      let v1 ← msa_ld_w data1 (p1 + 4 * j)
      msa_st_w bf (o + 4 * j) (op4 v v1)) buf <;> rfl

theorem pair_tail_eq (op : α → α → α) (data data1 : List α) (N i p p1 o : Nat)
    (buf : Buf α) (hi : i ≤ N) :
    mips.msa.pair_tail op data data1 N (i, p, p1, o, buf)
      = (run_pair op data data1 p p1 o (N - i) buf).map
          fun bf => (N, p + (N - i), p1 + (N - i), o + (N - i), bf) := by
  have h := loopWhile_for (fun j (bf : Buf α) => (i + j, p + j, p1 + j, o + j, bf))
    (fun j bf => do
      let v ← data[p + j]?
      let v1 ← data1[p1 + j]?
      store bf (o + j) (op v v1))
    (fun st => decide (st.1 < N))
    (fun st => do
      let v ← data[st.2.1]?
      let v1 ← data1[st.2.2.1]?
      let buf ← store st.2.2.2.2 st.2.2.2.1 (op v v1)
      pure (st.1 + 1, st.2.1 + 1, st.2.2.1 + 1, st.2.2.2.1 + 1, buf))
    (N - i)
    (by
      intro j t
      show decide (i + j < N) = decide (j < N - i)
      exact decide_eq_decide.mpr (by omega))
    (by
      intro j t _
      show (data[p + j]?).bind _ = ((data[p + j]?).bind _).bind _
      cases data[p + j]? with
      | none => rfl
      | some v =>
        show (data1[p1 + j]?).bind _ = ((data1[p1 + j]?).bind _).bind _
        cases data1[p1 + j]? with
        | none => rfl
        | some v1 => rfl)
    N 0 buf (Nat.zero_le _) (by omega)
  simp only [Nat.sub_zero, Nat.zero_add, Nat.add_sub_of_le hi] at h
  show loopWhile N _ _ _ = _
  unfold run_pair
  rw [show (i, p, p1, o, buf) = (i + 0, p + 0, p1 + 0, o + 0, buf) from rfl, h]
  cases forLoop (N - i) (fun j bf => do
      let v ← data[p + j]?
      let v1 ← data1[p1 + j]?
      store bf (o + j) (op v v1)) buf <;> rfl

theorem lane_block_pair (op : α → α → α) (op4 : V4 α → V4 α → V4 α) (hop4 : LaneWise op op4)
    (data data1 : List α) (q q1 r : Nat) (buf : Buf α) :
    (do
      let v ← msa_ld_w data q
      let v1 ← msa_ld_w data1 q1
      msa_st_w buf r (op4 v v1))
      = ((((do let v ← data[q]?; let v1 ← data1[q1]?; store buf r (op v v1)) :
            Option (Buf α)).bind
          (fun bf => do
            let v ← data[q + 1]?; let v1 ← data1[q1 + 1]?; store bf (r + 1) (op v v1))).bind
          (fun bf => do
            let v ← data[q + 2]?; let v1 ← data1[q1 + 2]?; store bf (r + 2) (op v v1))).bind
          (fun bf => do
            let v ← data[q + 3]?; let v1 ← data1[q1 + 3]?; store bf (r + 3) (op v v1)) := by
  simp only [msa_ld_w, msa_st_w, hop4 _ _, Option.bind_eq_bind, Option.pure_def]
  cases h0 : data[q]? with
  | none => rfl
  | some x0 =>
    cases g0 : data1[q1]? with
    | none => simp
    | some y0 =>
      cases s0 : store buf r (op x0 y0) with
      | none =>
        cases data[q + 1]? <;> cases data[q + 2]? <;> cases data[q + 3]? <;>
          cases data1[q1 + 1]? <;> cases data1[q1 + 2]? <;> cases data1[q1 + 3]? <;> simp [s0]
      | some b0 =>
        cases h1 : data[q + 1]? with
        | none => simp [s0]
        | some x1 =>
          cases g1 : data1[q1 + 1]? with
          | none => simp [s0]
          | some y1 =>
            cases s1 : store b0 (r + 1) (op x1 y1) with
            | none =>
              cases data[q + 2]? <;> cases data[q + 3]? <;>
                cases data1[q1 + 2]? <;> cases data1[q1 + 3]? <;> simp [s0, s1]
            | some b1 =>
              cases h2 : data[q + 2]? with
              | none => simp [s0, s1]
              | some x2 =>
                cases g2 : data1[q1 + 2]? with
                | none => simp [s0, s1]
                | some y2 =>
                  cases s2 : store b1 (r + 2) (op x2 y2) with
                  | none => cases data[q + 3]? <;> cases data1[q1 + 3]? <;> simp [s0, s1, s2]
                  | some b2 =>
                    cases h3 : data[q + 3]? with
                    | none => simp [s0, s1, s2]
                    | some x3 =>
                      cases g3 : data1[q1 + 3]? with
                      | none => simp [s0, s1, s2]
                      | some y3 => simp [s0, s1, s2]

theorem run_pair_lanes_eq (op : α → α → α) (op4 : V4 α → V4 α → V4 α) (hop4 : LaneWise op op4)
    (data data1 : List α) (p p1 o n : Nat) (buf : Buf α) :
    run_pair_lanes op4 data data1 p p1 o n buf = run_pair op data data1 p p1 o (4 * n) buf := by
  unfold run_pair_lanes run_pair
  rw [forLoop_blocks4]
  apply forLoop_congr
  intro j t _
  rw [lane_block_pair op op4 hop4]
  simp only [Nat.add_assoc]

theorem run_pair_split (op : α → α → α) (data data1 : List α) (p p1 o m N : Nat)
    (buf : Buf α) (hm : m ≤ N) :
    run_pair op data data1 p p1 o N buf
      = (run_pair op data data1 p p1 o m buf).bind
          (run_pair op data data1 (p + m) (p1 + m) (o + m) (N - m)) := by
  unfold run_pair
  have hN : N = m + (N - m) := by omega
  rw [hN, forLoop_add_idx, ← hN]
  simp only [Nat.add_assoc]

theorem pair_run_eq (op : α → α → α) (op4 : V4 α → V4 α → V4 α) (hop4 : LaneWise op op4)
    (data data1 : List α) (N p p1 o : Nat) (buf : Buf α) :
    ((mips.msa.pair_lanes op4 data data1 N (0, p, p1, o, buf)).bind fun st =>
      (mips.msa.pair_tail op data data1 N st).bind fun st => some st.2.2.2.2)
      = run_pair op data data1 p p1 o N buf := by
  rw [pair_lanes_eq, run_pair_lanes_eq op op4 hop4,
    run_pair_split op data data1 p p1 o (4 * (N / 4)) N buf (by omega)]
  cases run_pair op data data1 p p1 o (4 * (N / 4)) buf with
  | none => rfl
  | some bf =>
    show (mips.msa.pair_tail op data data1 N _).bind _ = _
    rw [pair_tail_eq op data data1 N _ _ _ _ bf (by omega)]
    show _ = run_pair op data data1 (p + 4 * (N / 4)) (p1 + 4 * (N / 4)) (o + 4 * (N / 4))
      (N - 4 * (N / 4)) bf
    cases run_pair op data data1 (p + 4 * (N / 4)) (p1 + 4 * (N / 4)) (o + 4 * (N / 4))
      (N - 4 * (N / 4)) bf <;> rfl

theorem msa_no_broadcast_eq (op : α → α → α) (op4 : V4 α → V4 α → V4 α)
    (hop4 : LaneWise op op4) (a b : Mat α) (c : Top α) :
    mips.msa.tmpl.binary_op_no_broadcast op op4 a b c
      = mips.tmpl.binary_op_no_broadcast op a b c := by
  unfold mips.msa.tmpl.binary_op_no_broadcast mips.tmpl.binary_op_no_broadcast
  simp only []
  congr 1
  apply forLoop_congr
  intro q buf _
  have h := pair_run_eq op op4 hop4 a.data b.data (a.w * a.h * a.d * a.elempack) (a.channel q)
    (b.channel q) (c.channel q) buf
  rw [bump_pair]
  unfold run_pair at h
  cases hr : forLoop (a.w * a.h * a.d * a.elempack) (fun i buf => do
      let v ← a.data[a.channel q + i]?
      let v1 ← b.data[b.channel q + i]?
      store buf (c.channel q + i) (op v v1)) buf with
  | none => rw [hr] at h; exact h
  | some bf => rw [hr] at h; exact h


/-! ### `binary_op_scalar_inplace` -/

theorem inplace_lanes_eq (op4 : V4 α → V4 α → V4 α) (b : α) (N p : Nat) (data : List α) :
    mips.msa.inplace_lanes op4 b N (0, p, data)
      = (run_inplace_lanes op4 b p (N / 4) data).map
          fun d => (4 * (N / 4), p + 4 * (N / 4), d) := by
  have h := loopWhile_for (fun j (d : List α) => (4 * j, p + 4 * j, d))
    (fun j d => do
      let v ← msa_ld_w d (p + 4 * j)
      pure (msa_st_w_mem d (p + 4 * j) (op4 v (msa_fill_w b))))
    (fun st => decide (st.1 + 3 < N))
    (fun st => do
      let _p ← msa_ld_w st.2.2 st.2.1
      let _p := op4 _p (msa_fill_w b)
      pure (st.1 + 4, st.2.1 + 4, msa_st_w_mem st.2.2 st.2.1 _p))
    (N / 4)
    (by
      intro j t
      show decide (4 * j + 3 < N) = decide (j < N / 4)
      exact decide_eq_decide.mpr (by omega))
    (by
      intro j t _
      show (msa_ld_w t (p + 4 * j)).bind _ = ((msa_ld_w t (p + 4 * j)).bind _).bind _
      cases msa_ld_w t (p + 4 * j) with
      | none => rfl
      | some v => rfl)
    N 0 data (Nat.zero_le _) (by omega)
  simp only [Nat.sub_zero, Nat.zero_add] at h
  show loopWhile N _ _ _ = _
  unfold run_inplace_lanes
  rw [show ((0 : Nat), p, data) = (4 * 0, p + 4 * 0, data) from rfl, h]
  cases forLoop (N / 4) (fun j (d : List α) => do
      let v ← msa_ld_w d (p + 4 * j)
      pure (msa_st_w_mem d (p + 4 * j) (op4 v (msa_fill_w b)))) data <;> rfl

theorem inplace_tail_eq (op : α → α → α) (b : α) (N i p : Nat) (data : List α) (hi : i ≤ N) :
    mips.msa.inplace_tail op b N (i, p, data)
      = (run_inplace op b p (N - i) data).map fun d => (N, p + (N - i), d) := by
  have h := loopWhile_for (fun j (d : List α) => (i + j, p + j, d))
    (fun j (d : List α) => do
      let v ← d[p + j]?
      pure (d.set (p + j) (op v b)))
    (fun st => decide (st.1 < N))
    (fun st => do
      let v ← st.2.2[st.2.1]?
      pure (st.1 + 1, st.2.1 + 1, st.2.2.set st.2.1 (op v b)))
    (N - i)
    (by
      intro j t
      show decide (i + j < N) = decide (j < N - i)
      exact decide_eq_decide.mpr (by omega))
    (by
      intro j t _
      show (t[p + j]?).bind _ = ((t[p + j]?).bind _).bind _
      cases t[p + j]? with
      | none => rfl
      | some v => rfl)
    N 0 data (Nat.zero_le _) (by omega)
  simp only [Nat.sub_zero, Nat.zero_add, Nat.add_sub_of_le hi] at h
  show loopWhile N _ _ _ = _
  unfold run_inplace
  rw [show (i, p, data) = (i + 0, p + 0, data) from rfl, h]
  cases forLoop (N - i) (fun j (d : List α) => do
      let v ← d[p + j]?
      pure (d.set (p + j) (op v b))) data <;> rfl

theorem lane_block_inplace (op : α → α → α) (op4 : V4 α → V4 α → V4 α) (hop4 : LaneWise op op4)
    (b : α) (q : Nat) (data : List α) :
    (do
      let v ← msa_ld_w data q
      pure (msa_st_w_mem data q (op4 v (msa_fill_w b))))
      = ((((do let v ← data[q]?; pure (data.set q (op v b))) : Option (List α)).bind
          (fun d => do let v ← d[q + 1]?; pure (d.set (q + 1) (op v b)))).bind
          (fun d => do let v ← d[q + 2]?; pure (d.set (q + 2) (op v b)))).bind
          (fun d => do let v ← d[q + 3]?; pure (d.set (q + 3) (op v b))) := by
  simp only [msa_ld_w, msa_st_w_mem, msa_fill_w, hop4 _ _, Option.bind_eq_bind, Option.pure_def]
  have e1 : ∀ (d : List α) (x : α), (d.set q x)[q + 1]? = d[q + 1]? :=
    fun d x => List.getElem?_set_ne (by omega)
  have e2 : ∀ (d : List α) (x : α), (d.set q x)[q + 2]? = d[q + 2]? :=
    fun d x => List.getElem?_set_ne (by omega)
  have e3 : ∀ (d : List α) (x : α), (d.set q x)[q + 3]? = d[q + 3]? :=
    fun d x => List.getElem?_set_ne (by omega)
  have e12 : ∀ (d : List α) (x : α), (d.set (q + 1) x)[q + 2]? = d[q + 2]? :=
    fun d x => List.getElem?_set_ne (by omega)
  have e13 : ∀ (d : List α) (x : α), (d.set (q + 1) x)[q + 3]? = d[q + 3]? :=
    fun d x => List.getElem?_set_ne (by omega)
  have e23 : ∀ (d : List α) (x : α), (d.set (q + 2) x)[q + 3]? = d[q + 3]? :=
    fun d x => List.getElem?_set_ne (by omega)
  cases h0 : data[q]? with
  | none => rfl
  | some x0 =>
    cases h1 : data[q + 1]? with
    | none => simp [e1, h1]
    | some x1 =>
      cases h2 : data[q + 2]? with
      | none => simp [e1, e2, e12, h1, h2]
      | some x2 =>
        cases h3 : data[q + 3]? with
        | none => simp [e1, e2, e3, e12, e13, e23, h1, h2, h3]
        | some x3 => simp [e1, e2, e3, e12, e13, e23, h1, h2, h3]

theorem run_inplace_lanes_eq (op : α → α → α) (op4 : V4 α → V4 α → V4 α)
    (hop4 : LaneWise op op4) (b : α) (p n : Nat) (data : List α) :
    run_inplace_lanes op4 b p n data = run_inplace op b p (4 * n) data := by
  unfold run_inplace_lanes run_inplace
  rw [forLoop_blocks4]
  apply forLoop_congr
  intro j t _
  rw [lane_block_inplace op op4 hop4]
  simp only [Nat.add_assoc]

theorem run_inplace_split (op : α → α → α) (b : α) (p m N : Nat) (data : List α) (hm : m ≤ N) :
    run_inplace op b p N data
      = (run_inplace op b p m data).bind (run_inplace op b (p + m) (N - m)) := by
  unfold run_inplace
  have hN : N = m + (N - m) := by omega
  rw [hN, forLoop_add_idx, ← hN]
  simp only [Nat.add_assoc]

theorem inplace_run_eq (op : α → α → α) (op4 : V4 α → V4 α → V4 α) (hop4 : LaneWise op op4)
    (b : α) (N p : Nat) (data : List α) :
    ((mips.msa.inplace_lanes op4 b N (0, p, data)).bind fun st =>
      (mips.msa.inplace_tail op b N st).bind fun st => some st.2.2)
      = run_inplace op b p N data := by
  rw [inplace_lanes_eq, run_inplace_lanes_eq op op4 hop4,
    run_inplace_split op b p (4 * (N / 4)) N data (by omega)]
  cases run_inplace op b p (4 * (N / 4)) data with
  | none => rfl
  | some d =>
    show (mips.msa.inplace_tail op b N _).bind _ = _
    rw [inplace_tail_eq op b N _ _ d (by omega)]
    show _ = run_inplace op b (p + 4 * (N / 4)) (N - 4 * (N / 4)) d
    cases run_inplace op b (p + 4 * (N / 4)) (N - 4 * (N / 4)) d <;> rfl

theorem bump_inplace (op : α → α → α) (b : α) (n p : Nat) (data : List α) :
    forLoop n (fun _ (st : Nat × List α) => do
        let v ← st.2[st.1]?
        pure (st.1 + 1, st.2.set st.1 (op v b))) (p, data)
      = (run_inplace op b p n data).map fun d => (p + n, d) := by
  unfold run_inplace
  induction n with
  | zero => rfl
  | succ k ih =>
    simp only [forLoop]
    rw [ih]
    cases forLoop k (fun i (data : List α) => do
        let v ← data[p + i]?
        pure (data.set (p + i) (op v b))) data with
    | none => rfl
    | some d =>
      simp only [Option.map_some', Option.some_bind, Option.bind_eq_bind]
      cases d[p + k]? with
      | none => rfl
      | some v => rfl

theorem msa_scalar_inplace_eq (op : α → α → α) (op4 : V4 α → V4 α → V4 α)
    (hop4 : LaneWise op op4) (a : Mat α) (b : α) :
    mips.msa.tmpl.binary_op_scalar_inplace op op4 a b
      = mips.tmpl.binary_op_scalar_inplace op a b := by
  unfold mips.msa.tmpl.binary_op_scalar_inplace mips.tmpl.binary_op_scalar_inplace
  simp only []
  congr 1
  apply forLoop_congr
  intro q data _
  have h := inplace_run_eq op op4 hop4 b (a.w * a.h * a.d * a.elempack) (a.channel q) data
  rw [bump_inplace]
  cases hr : run_inplace op b (a.channel q) (a.w * a.h * a.d * a.elempack) data with
  | none => rw [hr] at h; exact h
  | some d => rw [hr] at h; exact h


/-! ### Every output cell of a run is stored once -/

theorem forLoop_inv_some {σ : Type} (P : Nat → σ → Prop) (body : Nat → σ → Option σ) (n : Nat)
    (s : σ) (h0 : P 0 s)
    (hstep : ∀ i t t', i < n → P i t → body i t = some t' → P (i + 1) t') :
    ∀ t, forLoop n body s = some t → P n t := by
  induction n with
  | zero =>
    intro t ht
    have : s = t := Option.some.inj ht
    subst this
    exact h0
  | succ k ih =>
    intro t ht
    have ht' : (forLoop k body s).bind (body k) = some t := ht
    cases hk : forLoop k body s with
    | none => rw [hk] at ht'; cases ht'
    | some u =>
      rw [hk] at ht'
      exact hstep k u t (Nat.lt_succ_self k)
        (ih (fun i t t' hi => hstep i t t' (Nat.lt_succ_of_lt hi)) u hk) ht'

theorem storedOnce_refl (o : Nat) (buf : Buf α) : StoredOnce o 0 buf buf := by
  intro k
  cases buf[k]? with
  | none => rfl
  | some hist =>
    have : ¬ (o ≤ k ∧ k < o + 0) := by omega
    simp [this]

theorem store_once (o n i : Nat) (buf bf bf' : Buf α) (v : α) (hi : i = o + n)
    (h : StoredOnce o n buf bf) (hs : store bf i v = some bf') :
    StoredOnce o (n + 1) buf bf' := by
  subst hi
  intro k
  unfold store at hs
  cases hb : bf[o + n]? with
  | none => rw [hb] at hs; cases hs
  | some hist =>
    rw [hb] at hs
    have hbf : bf' = bf.set (o + n) (v :: hist) := (Option.some.inj hs).symm
    subst hbf
    have hk := h k
    by_cases hkn : k = o + n
    · subst hkn
      have hlt : o + n < bf.length := by
        rcases List.getElem?_eq_some_iff.mp hb with ⟨hl, _⟩
        exact hl
      rw [List.getElem?_set_self hlt]
      rw [hb] at hk
      cases hbuf : buf[o + n]? with
      | none => rw [hbuf] at hk; cases hk
      | some h0 =>
        rw [hbuf] at hk
        have c1 : ¬ (o ≤ o + n ∧ o + n < o + n) := by omega
        have c2 : o ≤ o + n ∧ o + n < o + (n + 1) := by omega
        simp only [Option.map_some', if_neg c1, Nat.add_zero, Option.some.injEq] at hk
        simp only [Option.map_some', if_pos c2, List.length_cons, hk]
    · rw [List.getElem?_set_ne (fun e => hkn e.symm), hk]
      have c : (o ≤ k ∧ k < o + n) ↔ (o ≤ k ∧ k < o + (n + 1)) := by omega
      simp only [c]

theorem msa_st_w_once (o n i : Nat) (buf bf bf' : Buf α) (v : V4 α) (hi : i = o + n)
    (h : StoredOnce o n buf bf) (hs : msa_st_w bf i v = some bf') :
    StoredOnce o (n + 4) buf bf' := by
  unfold msa_st_w at hs
  simp only [Option.bind_eq_bind] at hs
  cases s0 : store bf i v.1 with
  | none => rw [s0] at hs; cases hs
  | some b0 =>
    rw [s0] at hs
    simp only [Option.some_bind] at hs
    cases s1 : store b0 (i + 1) v.2.1 with
    | none => rw [s1] at hs; cases hs
    | some b1 =>
      rw [s1] at hs
      simp only [Option.some_bind] at hs
      cases s2 : store b1 (i + 2) v.2.2.1 with
      | none => rw [s2] at hs; cases hs
      | some b2 =>
        rw [s2] at hs
        simp only [Option.some_bind] at hs
        have h1 := store_once o n i buf bf b0 _ hi h s0
        have h2 := store_once o (n + 1) (i + 1) buf b0 b1 _ (by omega) h1 s1
        have h3 := store_once o (n + 2) (i + 2) buf b1 b2 _ (by omega) h2 s2
        exact store_once o (n + 3) (i + 3) buf b2 bf' _ (by omega) h3 hs

theorem storedOnce_loop (o m n : Nat) (body : Nat → Buf α → Option (Buf α)) (buf bf : Buf α)
    (hbody : ∀ i t t', body i t = some t' → ∃ v, store t (o + (m + i)) v = some t')
    (h : StoredOnce o m buf bf) :
    ∀ bf', forLoop n body bf = some bf' → StoredOnce o (m + n) buf bf' := by
  apply forLoop_inv_some (fun i t => StoredOnce o (m + i) buf t) body n bf h
  intro i t t' _ hP hb
  obtain ⟨v, hv⟩ := hbody i t t' hb
  exact store_once o (m + i) _ buf t t' v rfl hP hv

theorem storedOnce_blocks (o n : Nat) (body : Nat → Buf α → Option (Buf α)) (buf : Buf α)
    (hbody : ∀ j t t', body j t = some t' → ∃ v, msa_st_w t (o + 4 * j) v = some t') :
    ∀ bf, forLoop n body buf = some bf → StoredOnce o (4 * n) buf bf := by
  apply forLoop_inv_some (fun j t => StoredOnce o (4 * j) buf t) body n buf (storedOnce_refl o buf)
  intro j t t' _ hP hb
  obtain ⟨v, hv⟩ := hbody j t t' hb
  exact msa_st_w_once o (4 * j) _ buf t t' v rfl hP hv

theorem run_scalar_lanes_once (op4 : V4 α → V4 α → V4 α) (data : List α) (b : α)
    (p o n : Nat) (buf bf : Buf α) (h : run_scalar_lanes op4 data b p o n buf = some bf) :
    StoredOnce o (4 * n) buf bf := by
  refine storedOnce_blocks o n _ buf ?_ bf h
  intro j t t' hb
  simp only [Option.bind_eq_bind] at hb
  cases hl : msa_ld_w data (p + 4 * j) with
  | none => rw [hl] at hb; cases hb
  | some v => rw [hl] at hb; exact ⟨_, hb⟩

theorem run_scalar_once (op : α → α → α) (data : List α) (b : α)
    (p o m n : Nat) (buf bf bf' : Buf α) (h0 : StoredOnce o m buf bf)
    (h : run_scalar op data b p (o + m) n bf = some bf') :
    StoredOnce o (m + n) buf bf' := by
  refine storedOnce_loop o m n _ buf bf ?_ h0 bf' h
  intro i t t' hb
  simp only [Option.bind_eq_bind] at hb
  cases hl : data[p + i]? with
  | none => rw [hl] at hb; cases hb
  | some v => rw [hl, Option.some_bind, Nat.add_assoc] at hb; exact ⟨_, hb⟩

theorem run_pair_lanes_once (op4 : V4 α → V4 α → V4 α) (data data1 : List α)
    (p p1 o n : Nat) (buf bf : Buf α) (h : run_pair_lanes op4 data data1 p p1 o n buf = some bf) :
    StoredOnce o (4 * n) buf bf := by
  refine storedOnce_blocks o n _ buf ?_ bf h
  intro j t t' hb
  simp only [Option.bind_eq_bind] at hb
  cases hl : msa_ld_w data (p + 4 * j) with
  | none => rw [hl] at hb; cases hb
  | some v =>
    rw [hl, Option.some_bind] at hb
    cases hl1 : msa_ld_w data1 (p1 + 4 * j) with
    | none => rw [hl1] at hb; cases hb
    | some v1 => rw [hl1] at hb; exact ⟨_, hb⟩

theorem run_pair_once (op : α → α → α) (data data1 : List α)
    (p p1 o m n : Nat) (buf bf bf' : Buf α) (h0 : StoredOnce o m buf bf)
    (h : run_pair op data data1 p p1 (o + m) n bf = some bf') :
    StoredOnce o (m + n) buf bf' := by
  refine storedOnce_loop o m n _ buf bf ?_ h0 bf' h
  intro i t t' hb
  simp only [Option.bind_eq_bind] at hb
  cases hl : data[p + i]? with
  | none => rw [hl] at hb; cases hb
  | some v =>
    rw [hl, Option.some_bind] at hb
    cases hl1 : data1[p1 + i]? with
    | none => rw [hl1] at hb; cases hb
    | some v1 => rw [hl1, Option.some_bind, Nat.add_assoc] at hb; exact ⟨_, hb⟩


theorem lanes_of_laneWise (op : α → α → α) : LaneWise op (lanes_of op) :=
  fun _ _ => rfl

theorem scalar_run_once (op : α → α → α) (op4 : V4 α → V4 α → V4 α) (data : List α) (b : α)
    (N p o : Nat) (buf : Buf α) (st : Nat × Nat × Nat × Buf α)
    (h : (mips.msa.scalar_lanes op4 data b N (0, p, o, buf)).bind
      (mips.msa.scalar_tail op data b N) = some st) :
    st.1 = N ∧ StoredOnce o N buf st.2.2.2 := by
  rw [scalar_lanes_eq] at h
  cases hr : run_scalar_lanes op4 data b p o (N / 4) buf with
  | none => rw [hr] at h; cases h
  | some bf =>
    rw [hr] at h
    have h2 : mips.msa.scalar_tail op data b N
        (4 * (N / 4), p + 4 * (N / 4), o + 4 * (N / 4), bf) = some st := h
    rw [scalar_tail_eq op data b N _ _ _ bf (by omega)] at h2
    cases hr2 : run_scalar op data b (p + 4 * (N / 4)) (o + 4 * (N / 4)) (N - 4 * (N / 4)) bf with
    | none => rw [hr2] at h2; cases h2
    | some bf' =>
      rw [hr2] at h2
      have hst := Option.some.inj h2
      subst hst
      have hN : 4 * (N / 4) + (N - 4 * (N / 4)) = N := by omega
      have := run_scalar_once op data b _ o _ _ buf bf bf'
        (run_scalar_lanes_once op4 data b p o (N / 4) buf bf hr) hr2
      rw [hN] at this
      exact ⟨rfl, this⟩

theorem pair_run_once (op : α → α → α) (op4 : V4 α → V4 α → V4 α) (data data1 : List α)
    (N p p1 o : Nat) (buf : Buf α) (st : Nat × Nat × Nat × Nat × Buf α)
    (h : (mips.msa.pair_lanes op4 data data1 N (0, p, p1, o, buf)).bind
      (mips.msa.pair_tail op data data1 N) = some st) :
    st.1 = N ∧ StoredOnce o N buf st.2.2.2.2 := by
  rw [pair_lanes_eq] at h
  cases hr : run_pair_lanes op4 data data1 p p1 o (N / 4) buf with
  | none => rw [hr] at h; cases h
  | some bf =>
    rw [hr] at h
    have h2 : mips.msa.pair_tail op data data1 N
        (4 * (N / 4), p + 4 * (N / 4), p1 + 4 * (N / 4), o + 4 * (N / 4), bf) = some st := h
    rw [pair_tail_eq op data data1 N _ _ _ _ bf (by omega)] at h2
    cases hr2 : run_pair op data data1 (p + 4 * (N / 4)) (p1 + 4 * (N / 4)) (o + 4 * (N / 4))
        (N - 4 * (N / 4)) bf with
    | none => rw [hr2] at h2; cases h2
    | some bf' =>
      rw [hr2] at h2
      have hst := Option.some.inj h2
      subst hst
      have hN : 4 * (N / 4) + (N - 4 * (N / 4)) = N := by omega
      have := run_pair_once op data data1 _ _ o _ _ buf bf bf'
        (run_pair_lanes_once op4 data data1 p p1 o (N / 4) buf bf hr) hr2
      rw [hN] at this
      exact ⟨rfl, this⟩

/-- C33: in `binary_op_scalar`, `binary_op_no_broadcast` and
`binary_op_scalar_inplace` of the MIPS build with MSA, for every run length `N`
the 4-lane loop does exactly `N / 4` rounds, round `j` on the indices
`4 * j .. 4 * j + 3`, and stops with the counter at `4 * (N / 4)`; the scalar
tail goes on from there over the remaining `N % 4` indices, one by one, and
stops with the counter at `N`; in the two kernels with an output every cell of
the run is stored exactly once; and when the lane function `op4` is `op` on each
lane, each run equals the plain scalar loop over its `N` indices and each kernel
equals its build without MSA. -/
theorem msa_lanes_then_tail (op : α → α → α) (op4 : V4 α → V4 α → V4 α)
    (data data1 : List α) (b : α) (N p p1 o : Nat) (buf : Buf α) :
    (mips.msa.scalar_lanes op4 data b N (0, p, o, buf)
        = (run_scalar_lanes op4 data b p o (N / 4) buf).map
            fun bf => (4 * (N / 4), p + 4 * (N / 4), o + 4 * (N / 4), bf))
      ∧ (∀ bf, mips.msa.scalar_tail op data b N
            (4 * (N / 4), p + 4 * (N / 4), o + 4 * (N / 4), bf)
          = (run_scalar op data b (p + 4 * (N / 4)) (o + 4 * (N / 4)) (N % 4) bf).map
              fun bf' => (N, p + N, o + N, bf'))
      ∧ (∀ st, (mips.msa.scalar_lanes op4 data b N (0, p, o, buf)).bind
            (mips.msa.scalar_tail op data b N) = some st →
          st.1 = N ∧ StoredOnce o N buf st.2.2.2)
      ∧ (mips.msa.pair_lanes op4 data data1 N (0, p, p1, o, buf)
          = (run_pair_lanes op4 data data1 p p1 o (N / 4) buf).map
              fun bf => (4 * (N / 4), p + 4 * (N / 4), p1 + 4 * (N / 4), o + 4 * (N / 4), bf))
      ∧ (∀ bf, mips.msa.pair_tail op data data1 N
            (4 * (N / 4), p + 4 * (N / 4), p1 + 4 * (N / 4), o + 4 * (N / 4), bf)
          = (run_pair op data data1 (p + 4 * (N / 4)) (p1 + 4 * (N / 4)) (o + 4 * (N / 4))
              (N % 4) bf).map fun bf' => (N, p + N, p1 + N, o + N, bf'))
      ∧ (∀ st, (mips.msa.pair_lanes op4 data data1 N (0, p, p1, o, buf)).bind
            (mips.msa.pair_tail op data data1 N) = some st →
          st.1 = N ∧ StoredOnce o N buf st.2.2.2.2)
      ∧ (mips.msa.inplace_lanes op4 b N (0, p, data)
          = (run_inplace_lanes op4 b p (N / 4) data).map
              fun d => (4 * (N / 4), p + 4 * (N / 4), d))
      ∧ (∀ d, mips.msa.inplace_tail op b N (4 * (N / 4), p + 4 * (N / 4), d)
          = (run_inplace op b (p + 4 * (N / 4)) (N % 4) d).map fun d' => (N, p + N, d'))
      ∧ (LaneWise op op4 →
          ((mips.msa.scalar_lanes op4 data b N (0, p, o, buf)).bind fun st =>
              (mips.msa.scalar_tail op data b N st).bind fun st => some st.2.2.2)
            = run_scalar op data b p o N buf
          ∧ ((mips.msa.pair_lanes op4 data data1 N (0, p, p1, o, buf)).bind fun st =>
              (mips.msa.pair_tail op data data1 N st).bind fun st => some st.2.2.2.2)
            = run_pair op data data1 p p1 o N buf
          ∧ ((mips.msa.inplace_lanes op4 b N (0, p, data)).bind fun st =>
              (mips.msa.inplace_tail op b N st).bind fun st => some st.2.2)
            = run_inplace op b p N data
          ∧ (∀ (a : Mat α) (c : Top α),
              mips.msa.tmpl.binary_op_scalar op op4 a b c = mips.tmpl.binary_op_scalar op a b c)
          ∧ (∀ (a a1 : Mat α) (c : Top α),
              mips.msa.tmpl.binary_op_no_broadcast op op4 a a1 c
                = mips.tmpl.binary_op_no_broadcast op a a1 c)
          ∧ (∀ a : Mat α,
              mips.msa.tmpl.binary_op_scalar_inplace op op4 a b
                = mips.tmpl.binary_op_scalar_inplace op a b)) := by
  have e1 : N - 4 * (N / 4) = N % 4 := by omega
  have e2 : ∀ x, x + 4 * (N / 4) + N % 4 = x + N := by intro x; omega
  refine ⟨scalar_lanes_eq op4 data b N p o buf, ?_, scalar_run_once op op4 data b N p o buf,
    pair_lanes_eq op4 data data1 N p p1 o buf, ?_, pair_run_once op op4 data data1 N p p1 o buf,
    inplace_lanes_eq op4 b N p data, ?_, ?_⟩
  · intro bf
    rw [scalar_tail_eq op data b N _ _ _ bf (by omega), e1, e2, e2]
  · intro bf
    rw [pair_tail_eq op data data1 N _ _ _ _ bf (by omega), e1, e2, e2, e2]
  · intro d
    rw [inplace_tail_eq op b N _ _ d (by omega), e1, e2]
  · intro hop4
    exact ⟨scalar_run_eq op op4 hop4 data b N p o buf,
      pair_run_eq op op4 hop4 data data1 N p p1 o buf,
      inplace_run_eq op op4 hop4 b N p data,
      fun a c => msa_scalar_eq op op4 hop4 a b c,
      fun a a1 c => msa_no_broadcast_eq op op4 hop4 a a1 c,
      fun a => msa_scalar_inplace_eq op op4 hop4 a b⟩

/-- Witness for C33 on runs of length 6 (one vector round, two tail rounds):
`[1..6] - 1`, `[1..6] - [10..60]` and `[1..6] - 1` in place. -/
theorem msa_lanes_then_tail_witness :
    LaneWise (mips.BinaryOp_mips_functor.binary_op_sub : Int → Int → Int) (lanes_of mips.BinaryOp_mips_functor.binary_op_sub)
      ∧ mips.msa.scalar_lanes (lanes_of mips.BinaryOp_mips_functor.binary_op_sub) sV6.data (1 : Int) 6
          (0, 0, 0, List.replicate 6 [])
        = some (4, 4, 4, [[0], [1], [2], [3], [], []])
      ∧ mips.msa.scalar_tail mips.BinaryOp_mips_functor.binary_op_sub sV6.data (1 : Int) 6
          (4, 4, 4, [[0], [1], [2], [3], [], []])
        = some (6, 6, 6, [[0], [1], [2], [3], [4], [5]])
      ∧ run_scalar mips.BinaryOp_mips_functor.binary_op_sub sV6.data (1 : Int) 0 0 6 (List.replicate 6 [])
        = some [[0], [1], [2], [3], [4], [5]]
      ∧ ((mips.msa.scalar_lanes (lanes_of mips.BinaryOp_mips_functor.binary_op_sub) sV6.data (1 : Int) 6
            (0, 0, 0, List.replicate 6 [])).bind fun st =>
          (mips.msa.scalar_tail mips.BinaryOp_mips_functor.binary_op_sub sV6.data 1 6 st).bind fun st => some st.2.2.2)
        = run_scalar mips.BinaryOp_mips_functor.binary_op_sub sV6.data 1 0 0 6 (List.replicate 6 [])
      ∧ mips.msa.tmpl.binary_op_no_broadcast mips.BinaryOp_mips_functor.binary_op_sub (lanes_of mips.BinaryOp_mips_functor.binary_op_sub) sV6 sW6
          (sV6.create_like true)
        = mips.tmpl.binary_op_no_broadcast mips.BinaryOp_mips_functor.binary_op_sub sV6 sW6 (sV6.create_like true)
      ∧ mips.msa.tmpl.binary_op_scalar_inplace mips.BinaryOp_mips_functor.binary_op_sub (lanes_of mips.BinaryOp_mips_functor.binary_op_sub) sV6 1
        = mips.tmpl.binary_op_scalar_inplace mips.BinaryOp_mips_functor.binary_op_sub sV6 1
      ∧ mips.msa.tmpl.binary_op_scalar_inplace mips.BinaryOp_mips_functor.binary_op_sub (lanes_of mips.BinaryOp_mips_functor.binary_op_sub) sV6 1
        = some (0, vec [0, 1, 2, 3, 4, 5]) :=
  have hw := (msa_lanes_then_tail (mips.BinaryOp_mips_functor.binary_op_sub : Int → Int → Int) (lanes_of mips.BinaryOp_mips_functor.binary_op_sub)
    sV6.data sW6.data 1 6 0 0 0 (List.replicate 6 [])).2.2.2.2.2.2.2.2
    (lanes_of_laneWise mips.BinaryOp_mips_functor.binary_op_sub)
  ⟨lanes_of_laneWise mips.BinaryOp_mips_functor.binary_op_sub, by decide, by decide, by decide, hw.1,
    hw.2.2.2.2.1 sV6 sW6 (sV6.create_like true), hw.2.2.2.2.2 sV6, by decide⟩

end LaneLoops

/-! ## `forward` runs to the end -/

section ForwardTotal
variable {α : Type}

end ForwardTotal

section ForwardTotal2
variable {α : Type} [Add α] [Sub α] [Mul α] [Div α] [Max α] [Min α]

end ForwardTotal2


section
variable {α : Type} [Add α] [Sub α] [Mul α] [Div α] [Max α] [Min α]

end

end ncnn
